import Mathlib

/-!
# aprsc: history database, per-client heard lists and APRS parser

A shallow embedding of `src/historydb.c`, `client_heard.c` and `parse_aprs.c`
of aprsc.

* Bytes are natural numbers, C buffers are lists of bytes; a byte read past the
  modelled end of a buffer is 0.
* A hash chain (`struct history_cell_t *next`, NULL terminated) is the list of
  its cells in chain order; `historydb_hash[8192]` is a function from bucket
  index to chain.
* `time_t` and `long` values are integers; `uint32_t` hashes are naturals
  reduced modulo `2^32`.
* `keyhash` lives in keyhash.c, which is not among the sources at hand: it is a
  parameter of every definition that calls it.
* `tick` and `lastposition_storetime` are globals owned by other modules; they
  are passed as arguments.
-/

namespace Aprsc

/-! ## C strings and buffers -/

/-- Byte at offset `i` of a buffer (`s[i]`). -/
def byteAt (s : List Nat) (i : Nat) : Nat := s.getD i 0

/-- The `n` bytes starting at a pointer: what `memcpy`, `memcmp` and `keyhash`
read through `(p, n)`. -/
def bytes (s : List Nat) (n : Nat) : List Nat := (List.range n).map (byteAt s)

/-- C `strlen`: number of bytes before the first NUL. -/
def strlen : List Nat → Nat
  | [] => 0
  | c :: r => if c = 0 then 0 else strlen r + 1

/-- C `strchr`: offset of the first occurrence of `c` at or before the
terminating NUL, `none` for a NULL result. -/
def strchr : List Nat → Nat → Option Nat
  | [], _ => none
  | x :: r, c => if x = c then some 0 else if x = 0 then none else (strchr r c).map (· + 1)

/-- C `memcpy(dst, src + off, n)`: the destination buffer afterwards. -/
def memcpy (dst src : List Nat) (off n : Nat) : List Nat :=
  bytes (src.drop off) n ++ dst.drop n

/-- C `memcmp(a, b, n) == 0`. -/
def memcmp_eq (a b : List Nat) (n : Nat) : Bool := bytes a n == bytes b n

/-! ## Constants of headers that are not among the sources -/

/-- Modelled from the spec: worker.h is missing; the maximum callsign length is
9 bytes. -/
def CALLSIGNLEN_MAX : Nat := 9

/-- Modelled from the spec: worker.h is missing; presence flag `HAS_POS` of the
packet flag set, a single bit. -/
def F_HASPOS : Nat := 2

/-- Modelled from the spec: worker.h is missing; type flag `POSITION`, a single
bit. -/
def T_POSITION : Nat := 1

/-- Modelled from the spec: worker.h is missing; type flag `OBJECT`, a single
bit. -/
def T_OBJECT : Nat := 2

/-- Modelled from the spec: worker.h is missing; type flag `ITEM`, a single
bit. -/
def T_ITEM : Nat := 4

/-- `#define HISTORYDB_HASH_MODULO 8192` -/
def HISTORYDB_HASH_MODULO : Nat := 8192

/-! ## Data model -/

/-- The fields of `struct pbuf_t` read by the code below. Pointers into the
packet (`info_start`, `srccall_end`, `srcname`, ...) are byte offsets into
`data`. `F` is the type of `float` values, which are only copied. -/
structure pbuf_t (F : Type) where
  t : Int
  packettype : Nat
  flags : Nat
  srcname_len : Nat
  dstname_len : Nat
  packet_len : Nat
  srccall_end : Nat
  dstcall_end_or_ssid : Nat
  info_start : Nat
  srcname : Nat
  dstname : Nat
  srcname_hash : Nat
  lat : F
  lng : F
  cos_lat : F
  symbol : List Nat
  data : List Nat
deriving DecidableEq, Repr

/-- One cell of the history database (`struct history_cell_t` without its
`next` pointer, which is the list structure of the chain). `key` holds the
bytes copied into the key buffer; the size of that array is declared in
historydb.h, which is not among the sources, and the model puts no bound on
it. -/
structure history_cell_t (F : Type) where
  arrivaltime : Int
  keylen : Nat
  key : List Nat
  hash1 : Nat
  lat : F
  coslat : F
  lon : F
  packettype : Int
  flags : Int
deriving DecidableEq, Repr

/-- The globals of historydb.c: the hash table and the monitor counters. -/
structure historydb_t (F : Type) where
  historydb_hash : Fin HISTORYDB_HASH_MODULO → List (history_cell_t F)
  historydb_inserts : Int
  historydb_lookups : Int
  historydb_hashmatches : Int
  historydb_keymatches : Int
  historydb_cellgauge : Int
  historydb_noposcount : Int
  historydb_cleanup_cleaned : Int

/-- The table at program start: every bucket NULL, every counter 0. -/
def historydb_empty (F : Type) : historydb_t F :=
  ⟨fun _ => [], 0, 0, 0, 0, 0, 0, 0⟩

/-- The statements `h2 = h1 ^ (h1 >> 13) ^ (h1 >> 26); i = h2 % HISTORYDB_HASH_MODULO`. -/
def historydb_bucket (h1 : Nat) : Fin HISTORYDB_HASH_MODULO :=
  ⟨(h1 ^^^ (h1 >>> 13) ^^^ (h1 >>> 26)) % HISTORYDB_HASH_MODULO, Nat.mod_lt _ (by decide)⟩

/-- The call `keyhash(p, len, 0)` with its `uint32_t` result. -/
def keyhash0 (keyhash : List Nat → Nat → Nat) (p : List Nat) (len : Nat) : Nat :=
  keyhash (bytes p len) 0 % 2 ^ 32

/-! ## historydb.c -/

section historydb

variable {F : Type}

/-- `historydb_alloc`: the gauge is incremented before `cellmalloc` is called,
whatever it returns. -/
def historydb_alloc (db : historydb_t F) : historydb_t F :=
  { db with historydb_cellgauge := db.historydb_cellgauge + 1 }

/-- The loop `for ( ; s > keybuf; --s ) { if (*s == ' ') *s = ' '; else break; }`
of the object branch, `s` being an offset into `keybuf`. -/
def historydb_insert_tail_loop (keybuf : List Nat) : Nat → List Nat
  | 0 => keybuf
  | s + 1 =>
    if byteAt keybuf (s + 1) = 32 then historydb_insert_tail_loop (keybuf.set (s + 1) 32) s
    else keybuf

/-- The key extraction of `historydb_insert` (source lines 310-352): `none` is
the `return -1` of the last branch, otherwise the final `keybuf` and `isdead`.
The uninitialised `keybuf` is all zero: no byte of it is read before it is
written or cut off by an earlier NUL. -/
def historydb_insert_key (pb : pbuf_t F) : Option (List Nat × Bool) :=
  let keybuf := (List.replicate (CALLSIGNLEN_MAX + 2) 0).set CALLSIGNLEN_MAX 0
  if pb.packettype &&& T_OBJECT ≠ 0 then
    let keybuf := memcpy keybuf pb.data (pb.info_start + 1) (CALLSIGNLEN_MAX + 1)
    let keybuf := keybuf.set (CALLSIGNLEN_MAX + 1) 0
    let r : List Nat × Bool :=
      match strchr keybuf 42 with
      | some s => (keybuf.set s 0, false)
      | none =>
        match strchr keybuf 95 with
        | some s => (keybuf.set s 0, true)
        | none => (keybuf, false)
    some (historydb_insert_tail_loop r.1 (strlen r.1), r.2)
  else if pb.packettype &&& T_ITEM ≠ 0 then
    let keybuf := memcpy keybuf pb.data (pb.info_start + 1) (CALLSIGNLEN_MAX + 1)
    let keybuf := keybuf.set (CALLSIGNLEN_MAX + 1) 0
    match strchr keybuf 33 with
    | some s => some (keybuf.set s 0, false)
    | none =>
      match strchr keybuf 95 with
      | some s => some (keybuf.set s 0, true)
      | none => some (keybuf, false)
  else if pb.packettype &&& T_POSITION ≠ 0 then
    let keybuf := memcpy keybuf pb.data 0 CALLSIGNLEN_MAX
    match strchr keybuf 62 with
    | some s => some (keybuf.set s 0, false)
    | none => some (keybuf, false)
  else none

/-- What the chain scan of `historydb_insert` leaves behind: the chain, whether
`cp1` is non-NULL, and how often `historydb_free`, `++historydb_hashmatches`
and `++historydb_keymatches` ran. -/
structure insert_scan_t (F : Type) where
  chain : List (history_cell_t F)
  cp1 : Bool
  freed : Nat
  hashmatches : Nat
  keymatches : Nat

/-- The cell after the "Update the data content" assignments. -/
def historydb_update_cell (pb : pbuf_t F) (cp : history_cell_t F) : history_cell_t F :=
  { cp with lat := pb.lat, coslat := pb.cos_lat, lon := pb.lng, arrivaltime := pb.t,
            packettype := pb.packettype, flags := pb.flags }

/-- The loop `while (( cp = *hp ))` of `historydb_insert` (source lines 367-404). -/
def historydb_insert_scan (expirytime : Int) (h1 keylen : Nat) (keybuf : List Nat)
    (isdead : Bool) (pb : pbuf_t F) : List (history_cell_t F) → insert_scan_t F
  | [] => ⟨[], false, 0, 0, 0⟩
  | cp :: rest =>
    let r := historydb_insert_scan expirytime h1 keylen keybuf isdead pb rest
    if cp.arrivaltime < expirytime then
      { r with freed := r.freed + 1 }
    else if cp.hash1 = h1 then
      if cp.keylen = keylen ∧ memcmp_eq cp.key keybuf keylen = true then
        if isdead then
          { r with freed := r.freed + 1, hashmatches := r.hashmatches + 1,
                   keymatches := r.keymatches + 1 }
        else
          { r with chain := historydb_update_cell pb cp :: r.chain, cp1 := true,
                   hashmatches := r.hashmatches + 1, keymatches := r.keymatches + 1 }
      else { r with chain := cp :: r.chain, hashmatches := r.hashmatches + 1 }
    else { r with chain := cp :: r.chain }

/-- The cell filled in at "Not found on this chain, append it!". -/
def historydb_new_cell (pb : pbuf_t F) (h1 keylen : Nat) (keybuf : List Nat) :
    history_cell_t F :=
  { arrivaltime := pb.t, keylen := keylen, key := bytes keybuf keylen, hash1 := h1,
    lat := pb.lat, coslat := pb.cos_lat, lon := pb.lng,
    packettype := pb.packettype, flags := pb.flags }

/-- `historydb_insert`: return value and new state. `cellmalloc_ok` tells
whether `cellmalloc` returns a cell, should it be called. -/
def historydb_insert (keyhash : List Nat → Nat → Nat) (tick lastposition_storetime : Int)
    (cellmalloc_ok : Bool) (pb : pbuf_t F) (db : historydb_t F) : Int × historydb_t F :=
  let expirytime := tick - lastposition_storetime
  if pb.flags &&& F_HASPOS = 0 then
    (-1, { db with historydb_noposcount := db.historydb_noposcount + 1 })
  else
    match historydb_insert_key pb with
    | none => (-1, db)
    | some (keybuf, isdead) =>
      let keylen := strlen keybuf
      let h1 := keyhash0 keyhash keybuf keylen
      let i := historydb_bucket h1
      let r := historydb_insert_scan expirytime h1 keylen keybuf isdead pb (db.historydb_hash i)
      let db1 : historydb_t F :=
        { db with
          historydb_inserts := db.historydb_inserts + 1
          historydb_hashmatches := db.historydb_hashmatches + r.hashmatches
          historydb_keymatches := db.historydb_keymatches + r.keymatches
          historydb_cellgauge := db.historydb_cellgauge - r.freed
          historydb_hash := Function.update db.historydb_hash i r.chain }
      if !r.cp1 && !isdead then
        let db2 := historydb_alloc db1
        if cellmalloc_ok then
          (1, { db2 with
                historydb_hash := Function.update db2.historydb_hash i
                  (r.chain ++ [historydb_new_cell pb h1 keylen keybuf]) })
        else (1, db2)
      else (1, db1)

/-- The loop `while ( cp )` of `historydb_lookup`: the cell it breaks at. -/
def historydb_lookup_scan (validitytime : Int) (h1 keylen : Nat) (keybuf : List Nat) :
    List (history_cell_t F) → Option (history_cell_t F)
  | [] => none
  | cp :: rest =>
    if cp.hash1 = h1 ∧ cp.keylen = keylen ∧ memcmp_eq cp.key keybuf keylen = true
        ∧ cp.arrivaltime > validitytime then some cp
    else historydb_lookup_scan validitytime h1 keylen keybuf rest

/-- `historydb_lookup`: return value, `*result` (`none` for NULL) and the new
state. -/
def historydb_lookup (keyhash : List Nat → Nat → Nat) (tick lastposition_storetime : Int)
    (keybuf : List Nat) (keylen : Nat) (db : historydb_t F) :
    Int × Option (history_cell_t F) × historydb_t F :=
  let validitytime := tick - lastposition_storetime + 5 * 60
  let db1 := { db with historydb_lookups := db.historydb_lookups + 1 }
  let h1 := keyhash0 keyhash keybuf keylen
  let i := historydb_bucket h1
  match historydb_lookup_scan validitytime h1 keylen keybuf (db.historydb_hash i) with
  | none => (0, none, db1)
  | some cp => (1, some cp, db1)

/-- The loop `while (( cp = *hp ))` of `historydb_cleanup` on one bucket: the
chain left and the number of cells freed. -/
def historydb_cleanup_chain (expirytime : Int) :
    List (history_cell_t F) → List (history_cell_t F) × Nat
  | [] => ([], 0)
  | cp :: rest =>
    let r := historydb_cleanup_chain expirytime rest
    if cp.arrivaltime < expirytime then (r.1, r.2 + 1) else (cp :: r.1, r.2)

/-- One round of the loop `for (i = 0; i < HISTORYDB_HASH_MODULO; ++i)` of
`historydb_cleanup`; the second component is the local `cleaned`. -/
def historydb_cleanup_step (expirytime : Int) (acc : historydb_t F × Int)
    (i : Fin HISTORYDB_HASH_MODULO) : historydb_t F × Int :=
  let c := historydb_cleanup_chain expirytime (acc.1.historydb_hash i)
  ({ acc.1 with
     historydb_hash := Function.update acc.1.historydb_hash i c.1
     historydb_cellgauge := acc.1.historydb_cellgauge - c.2 },
   acc.2 + c.2)

/-- The loop `for (i = 0; i < HISTORYDB_HASH_MODULO; ++i)` of
`historydb_cleanup` over the bucket indices `l`, followed by the assignment
`historydb_cleanup_cleaned = cleaned`. -/
def historydb_cleanup_loop (expirytime : Int) (l : List (Fin HISTORYDB_HASH_MODULO))
    (db : historydb_t F) : historydb_t F :=
  let r := l.foldl (historydb_cleanup_step expirytime) (db, 0)
  { r.1 with historydb_cleanup_cleaned := r.2 }

/-- `historydb_cleanup`. -/
def historydb_cleanup (tick lastposition_storetime : Int) (db : historydb_t F) :
    historydb_t F :=
  historydb_cleanup_loop (tick - lastposition_storetime)
    (List.finRange HISTORYDB_HASH_MODULO) db

/-- The `type` tags of cJSON.h. -/
inductive cJSON_type where
  | cJSON_False | cJSON_True | cJSON_NULL | cJSON_Number | cJSON_String
  | cJSON_Array | cJSON_Object
deriving DecidableEq, Repr

/-- The members of a `cJSON` item that `historydb_load_entry` reads.
`valuestring` is the C string it points to; `valuedouble` is the value as it
arrives in a `float` field. -/
structure cJSON (F : Type) where
  type : cJSON_type
  valuestring : List Nat
  valueint : Int
  valuedouble : F
deriving DecidableEq, Repr

/-- What `cJSON_Parse(s)` followed by the six `cJSON_GetObjectItem` calls
gives for one line: each member is `none` when the item is absent (NULL).
cJSON itself is not among the sources; its results are inputs. -/
structure history_json (F : Type) where
  arrivaltime : Option (cJSON F)
  key : Option (cJSON F)
  packettype : Option (cJSON F)
  flags : Option (cJSON F)
  lat : Option (cJSON F)
  lon : Option (cJSON F)
deriving DecidableEq, Repr

/-- `historydb_load_entry`: return value and new state. `j` is `none` when
`cJSON_Parse` fails; `cosf` is the C library function. -/
def historydb_load_entry (keyhash : List Nat → Nat → Nat) (cosf : F → F)
    (tick lastposition_storetime : Int) (cellmalloc_ok : Bool)
    (j : Option (history_json F)) (db : historydb_t F) : Int × historydb_t F :=
  let expirytime := tick - lastposition_storetime
  match j with
  | none => (-1, db)
  | some j =>
    match j.arrivaltime, j.key, j.packettype, j.flags, j.lat, j.lon with
    | some arrivaltime, some key, some packettype, some flags, some lat, some lon =>
      if arrivaltime.type ≠ .cJSON_Number ∨ key.type ≠ .cJSON_String
          ∨ packettype.type ≠ .cJSON_Number ∨ flags.type ≠ .cJSON_Number
          ∨ lat.type ≠ .cJSON_Number ∨ lon.type ≠ .cJSON_Number then (0, db)
      else if arrivaltime.valueint < expirytime then (0, db)
      else
        let keylen := strlen key.valuestring
        let db1 := historydb_alloc db
        if cellmalloc_ok then
          let h1 := keyhash0 keyhash key.valuestring keylen
          let i := historydb_bucket h1
          let cp : history_cell_t F :=
            { key := bytes key.valuestring keylen, keylen := keylen, hash1 := h1,
              lat := lat.valuedouble, coslat := cosf lat.valuedouble,
              lon := lon.valuedouble, arrivaltime := arrivaltime.valueint,
              packettype := packettype.valueint, flags := flags.valueint }
          (1, { db1 with
                historydb_hash := Function.update db1.historydb_hash i
                  (cp :: db1.historydb_hash i) })
        else (0, db1)
    | _, _, _, _, _, _ => (0, db)

/-- `historydb_load`: one `historydb_load_entry` per line read by `fgets`, each
line given by its parse result and by what `cellmalloc` would do. -/
def historydb_load (keyhash : List Nat → Nat → Nat) (cosf : F → F)
    (tick lastposition_storetime : Int) (lines : List (Option (history_json F) × Bool))
    (db : historydb_t F) : Int × historydb_t F :=
  (0, lines.foldl (fun d l =>
        (historydb_load_entry keyhash cosf tick lastposition_storetime l.2 l.1 d).2) db)

/-- The JSON object built by `historydb_dump_entry`: the values handed to
`cJSON_AddNumberToObject` and `cJSON_AddStringToObject`. -/
structure history_dump_t (F : Type) where
  arrivaltime : Int
  key : List Nat
  packettype : Int
  flags : Int
  lat : F
  lon : F
deriving DecidableEq, Repr

/-- The object `historydb_dump_entry` prints for a cell: the key goes through
`strncpy` into a buffer of `CALLSIGNLEN_MAX+1` bytes and is handed over as a C
string. -/
def historydb_dump_entry (hp : history_cell_t F) : history_dump_t F :=
  let klen := if hp.keylen < CALLSIGNLEN_MAX then hp.keylen else CALLSIGNLEN_MAX
  let key := bytes hp.key klen
  { arrivaltime := hp.arrivaltime, key := key.take (strlen key),
    packettype := hp.packettype, flags := hp.flags, lat := hp.lat, lon := hp.lon }

/-- The two nested loops of `historydb_dump` over the cells in table order.
`fprintf` gives the return value of the `fprintf` call for an object; a
negative one ends the dump with `ret = -1`. -/
def historydb_dump_cells (fprintf : history_dump_t F → Int) (expirytime : Int) :
    List (history_cell_t F) → Int × List (history_dump_t F)
  | [] => (0, [])
  | hp :: rest =>
    if hp.arrivaltime > expirytime then
      if fprintf (historydb_dump_entry hp) < 0 then (-1, [])
      else
        let r := historydb_dump_cells fprintf expirytime rest
        (r.1, historydb_dump_entry hp :: r.2)
    else historydb_dump_cells fprintf expirytime rest

/-- `historydb_dump`: return value and the objects written, in order. -/
def historydb_dump (fprintf : history_dump_t F → Int) (tick lastposition_storetime : Int)
    (db : historydb_t F) : Int × List (history_dump_t F) :=
  historydb_dump_cells fprintf (tick - lastposition_storetime)
    ((List.finRange HISTORYDB_HASH_MODULO).flatMap db.historydb_hash)

end historydb

/-! ## client_heard.c -/

/-- The comment in `heard_list_update` says `"CLIENT_HEARD_BUCKETS" is 16`;
client_heard.h itself is not among the sources. -/
def CLIENT_HEARD_BUCKETS : Nat := 16

/-- One entry of a heard list (`struct client_heard_t`). The links `next` and
`prevp` are the list structure of the bucket: a bucket is the list of its
entries from `list[i]` along `next`, and unlinking through `prevp` removes the
entry from that list. `callsign` is the content of the `callsign` array, taken
to be `CALLSIGNLEN_MAX+1` bytes long (client_heard.h is not among the
sources). -/
structure client_heard_t where
  hash : Nat
  last_heard : Int
  call_len : Nat
  callsign : List Nat
deriving DecidableEq, Repr

/-- The heard and courtesy tables of `struct client_t` with their entry
counts. -/
structure client_t where
  client_heard : Fin CLIENT_HEARD_BUCKETS → List client_heard_t
  client_heard_count : Int
  client_courtesy : Fin CLIENT_HEARD_BUCKETS → List client_heard_t
  client_courtesy_count : Int

/-- C `tolower` in the C locale. -/
def tolower (c : Nat) : Nat := if 65 ≤ c ∧ c ≤ 90 then c + 32 else c

/-- C `strncasecmp(a, b, n) == 0`: at most `n` bytes are compared, letter case
ignored, and the comparison ends at a NUL common to both. -/
def strncasecmp_eq : List Nat → List Nat → Nat → Bool
  | _, _, 0 => true
  | a, b, n + 1 =>
    if tolower (byteAt a 0) ≠ tolower (byteAt b 0) then false
    else if byteAt a 0 = 0 then true
    else strncasecmp_eq a.tail b.tail n

/-- C `strncpy(dst, src, n)`: the destination buffer afterwards; the bytes
after a NUL of `src` are written as NUL. -/
def strncpy (dst src : List Nat) (n : Nat) : List Nat :=
  let s := bytes src n
  (s.take (strlen s) ++ List.replicate (n - strlen s) 0) ++ dst.drop n

/-- The statements `idx = hash; idx ^= (idx >> 16); i = idx % CLIENT_HEARD_BUCKETS`. -/
def heard_bucket (hash : Nat) : Fin CLIENT_HEARD_BUCKETS :=
  ⟨(hash ^^^ (hash >>> 16)) % CLIENT_HEARD_BUCKETS, Nat.mod_lt _ (by decide)⟩

/-- The call `keyhashuc(p, len, 0)` with its `uint32_t` result. -/
def keyhashuc0 (keyhashuc : List Nat → Nat → Nat) (p : List Nat) (len : Nat) : Nat :=
  keyhashuc (bytes p len) 0 % 2 ^ 32

/-- The test of the `if` in the loops of `heard_list_update` and `heard_find`. -/
def heard_match (call : List Nat) (call_len hash : Nat) (h : client_heard_t) : Bool :=
  h.hash == hash && call_len == h.call_len && strncasecmp_eq call h.callsign h.call_len

/-- The loop `for (h = list[i]; (h); h = h->next)` of `heard_list_update`.
`before` holds the entries already passed, `list[i] != h` is `before ≠ []`.
The result is the bucket after the update, `none` when the loop ends without a
match. -/
def heard_list_update_loop (call : List Nat) (call_len hash : Nat) (t : Int) :
    List client_heard_t → List client_heard_t → Option (List client_heard_t)
  | _, [] => none
  | before, h :: rest =>
    if heard_match call call_len hash h then
      let h1 := { h with last_heard := t }
      if before ≠ [] then some (h1 :: (before ++ rest)) else some (h1 :: rest)
    else heard_list_update_loop call call_len hash t (before ++ [h]) rest

/-- `heard_list_update` on a table `list` with its `entrycount`. `cellmalloc`
is what the allocator returns, should it be called: `none` for NULL, otherwise
the cell with whatever it held before. -/
def heard_list_update (keyhashuc : List Nat → Nat → Nat)
    (cellmalloc : Option client_heard_t) (call : List Nat) (call_len : Nat) (t : Int)
    (list : Fin CLIENT_HEARD_BUCKETS → List client_heard_t) (entrycount : Int) :
    (Fin CLIENT_HEARD_BUCKETS → List client_heard_t) × Int :=
  let hash := keyhashuc0 keyhashuc call call_len
  let i := heard_bucket hash
  match heard_list_update_loop call call_len hash t [] (list i) with
  | some chain => (Function.update list i chain, entrycount)
  | none =>
    match cellmalloc with
    | none => (list, entrycount)
    | some h =>
      let h1 : client_heard_t :=
        { hash := hash
          callsign := (strncpy h.callsign call call_len).set CALLSIGNLEN_MAX 0
          call_len := call_len
          last_heard := t }
      (Function.update list i (h1 :: list i), entrycount + 1)

/-- `client_heard_update`. -/
def client_heard_update {F : Type} (keyhashuc : List Nat → Nat → Nat)
    (cellmalloc : Option client_heard_t) (pb : pbuf_t F) (c : client_t) : client_t :=
  let r := heard_list_update keyhashuc cellmalloc pb.data pb.srccall_end pb.t
    c.client_heard c.client_heard_count
  { c with client_heard := r.1, client_heard_count := r.2 }

/-- `client_courtesy_update`. -/
def client_courtesy_update {F : Type} (keyhashuc : List Nat → Nat → Nat)
    (cellmalloc : Option client_heard_t) (pb : pbuf_t F) (c : client_t) : client_t :=
  let r := heard_list_update keyhashuc cellmalloc pb.data pb.srccall_end pb.t
    c.client_courtesy c.client_courtesy_count
  { c with client_courtesy := r.1, client_courtesy_count := r.2 }

/-- The loop of `heard_find` on one bucket: `none` when nothing matches,
otherwise the bucket afterwards (the matching entry unlinked when
`drop_if_found`). -/
def heard_find_loop (callsign : List Nat) (call_len hash : Nat) (drop_if_found : Bool) :
    List client_heard_t → List client_heard_t → Option (List client_heard_t)
  | _, [] => none
  | before, h :: rest =>
    if heard_match callsign call_len hash h then
      if drop_if_found then some (before ++ rest) else some (before ++ h :: rest)
    else heard_find_loop callsign call_len hash drop_if_found (before ++ [h]) rest

/-- `heard_find`: return value, table and entry count afterwards. -/
def heard_find (list : Fin CLIENT_HEARD_BUCKETS → List client_heard_t) (entrycount : Int)
    (callsign : List Nat) (call_len hash : Nat) (drop_if_found : Bool) :
    Int × (Fin CLIENT_HEARD_BUCKETS → List client_heard_t) × Int :=
  let idx := heard_bucket hash
  match heard_find_loop callsign call_len hash drop_if_found [] (list idx) with
  | none => (0, list, entrycount)
  | some chain =>
    if drop_if_found then (1, Function.update list idx chain, entrycount - 1)
    else (1, list, entrycount)

/-- `client_heard_check`: return value and the client afterwards. -/
def client_heard_check (c : client_t) (callsign : List Nat) (call_len hash : Nat) :
    Int × client_t :=
  let r := heard_find c.client_heard c.client_heard_count callsign call_len hash false
  (r.1, { c with client_heard := r.2.1, client_heard_count := r.2.2 })

/-- `client_courtesy_needed`: return value and the client afterwards. -/
def client_courtesy_needed {F : Type} (c : client_t) (pb : pbuf_t F) : Int × client_t :=
  let r := heard_find c.client_courtesy c.client_courtesy_count
    (pb.data.drop pb.srcname) pb.srcname_len pb.srcname_hash true
  (r.1, { c with client_courtesy := r.2.1, client_courtesy_count := r.2.2 })

/-! ## Auxiliary definitions for the statements -/

section aux

variable {F : Type}

/-- The key test shared by the loops of `historydb_insert` and
`historydb_lookup`: same hash, same length, same `keylen` bytes. -/
def key_match (h1 keylen : Nat) (keybuf : List Nat) (cp : history_cell_t F) : Prop :=
  cp.hash1 = h1 ∧ cp.keylen = keylen ∧ memcmp_eq cp.key keybuf keylen = true

/-- A concrete 32-bit hash (FNV-1) to put in place of the `keyhash` parameter
in closed examples. -/
def keyhash_fnv (p : List Nat) (hash : Nat) : Nat :=
  p.foldl (fun acc c => ((acc * 16777619) % 2 ^ 32) ^^^ c) (if hash = 0 then 2166136261 else hash)

/-- The packet `OH7LZB>APRS,TCPIP*:!6028.51N/02505.68E-Test` (scenario S1) as
the parser hands it on: a position packet with arrival time `t`. The position
values are placeholders. -/
def packet_S1 (t : Int) : pbuf_t Int :=
  { t := t, packettype := T_POSITION, flags := F_HASPOS, srcname_len := 6, dstname_len := 0,
    packet_len := 45, srccall_end := 6, dstcall_end_or_ssid := 11, info_start := 19,
    srcname := 0, dstname := 0, srcname_hash := 0, lat := 1055, lng := 437, cos_lat := 492,
    symbol := [47, 45, 0],
    data := "OH7LZB>APRS,TCPIP*:!6028.51N/02505.68E-Test".toList.map Char.toNat ++ [13, 10] }

/-- The packet `OH2MQK-1>APRS:;LEADER   *111111z4903.50N/07201.75W>` (scenario
S2) as the parser hands it on: a live object, `srcname` pointing at the name
with `srcname_len = 6`. The position values are placeholders. -/
def packet_S2 (t : Int) : pbuf_t Int :=
  { t := t, packettype := T_OBJECT, flags := F_HASPOS, srcname_len := 6, dstname_len := 0,
    packet_len := 53, srccall_end := 8, dstcall_end_or_ssid := 13, info_start := 14,
    srcname := 15, dstname := 0, srcname_hash := 0, lat := 856, lng := -1257, cos_lat := 655,
    symbol := [47, 62, 0],
    data := "OH2MQK-1>APRS:;LEADER   *111111z4903.50N/07201.75W>".toList.map Char.toNat ++ [13, 10] }

/-- A kill packet for the object named `A*CDEFGHI`: byte 9 of the body is `_`. -/
def packet_kill_star (t : Int) : pbuf_t Int :=
  { t := t, packettype := T_OBJECT, flags := F_HASPOS, srcname_len := 9, dstname_len := 0,
    packet_len := 53, srccall_end := 8, dstcall_end_or_ssid := 13, info_start := 14,
    srcname := 15, dstname := 0, srcname_hash := 0, lat := 856, lng := -1257, cos_lat := 655,
    symbol := [47, 62, 0],
    data := "OH2MQK-1>APRS:;A*CDEFGHI_111111z4903.50N/07201.75W>".toList.map Char.toNat ++ [13, 10] }

/-- A live object named `AB_CDEFGH`: byte 9 of the body is `*`. -/
def packet_live_us (t : Int) : pbuf_t Int :=
  { t := t, packettype := T_OBJECT, flags := F_HASPOS, srcname_len := 9, dstname_len := 0,
    packet_len := 53, srccall_end := 8, dstcall_end_or_ssid := 13, info_start := 14,
    srcname := 15, dstname := 0, srcname_hash := 0, lat := 856, lng := -1257, cos_lat := 655,
    symbol := [47, 62, 0],
    data := "OH2MQK-1>APRS:;AB_CDEFGH*111111z4903.50N/07201.75W>".toList.map Char.toNat ++ [13, 10] }

/-- The kill packet for the object named `AB_CDEFGH`: byte 9 of the body is `_`. -/
def packet_kill_us (t : Int) : pbuf_t Int :=
  { t := t, packettype := T_OBJECT, flags := F_HASPOS, srcname_len := 9, dstname_len := 0,
    packet_len := 53, srccall_end := 8, dstcall_end_or_ssid := 13, info_start := 14,
    srcname := 15, dstname := 0, srcname_hash := 0, lat := 856, lng := -1257, cos_lat := 655,
    symbol := [47, 62, 0],
    data := "OH2MQK-1>APRS:;AB_CDEFGH_111111z4903.50N/07201.75W>".toList.map Char.toNat ++ [13, 10] }

/-- The tables the program can reach: it starts from the empty table and runs
`historydb_insert`, `historydb_load_entry` (the body of `historydb_load`),
`historydb_cleanup` and `historydb_lookup`, at any tick, with any store time,
any packet or line, and with or without allocation failures. -/
inductive historydb_reachable (keyhash : List Nat → Nat → Nat) (cosf : F → F) :
    historydb_t F → Prop
  | init : historydb_reachable keyhash cosf (historydb_empty F)
  | insert (tick st : Int) (ok : Bool) (pb : pbuf_t F) {db : historydb_t F} :
      historydb_reachable keyhash cosf db →
      historydb_reachable keyhash cosf (historydb_insert keyhash tick st ok pb db).2
  | load_entry (tick st : Int) (ok : Bool) (j : Option (history_json F)) {db : historydb_t F} :
      historydb_reachable keyhash cosf db →
      historydb_reachable keyhash cosf (historydb_load_entry keyhash cosf tick st ok j db).2
  | cleanup (tick st : Int) {db : historydb_t F} :
      historydb_reachable keyhash cosf db →
      historydb_reachable keyhash cosf (historydb_cleanup tick st db)
  | lookup (tick st : Int) (keybuf : List Nat) (keylen : Nat) {db : historydb_t F} :
      historydb_reachable keyhash cosf db →
      historydb_reachable keyhash cosf (historydb_lookup keyhash tick st keybuf keylen db).2.2

/-- The cell sits in the bucket of its stored hash, the stored hash is the
hash of its key and `keylen` is the length of the key. -/
def cell_ok (keyhash : List Nat → Nat → Nat) (i : Fin HISTORYDB_HASH_MODULO)
    (e : history_cell_t F) : Prop :=
  e.hash1 = keyhash0 keyhash e.key e.keylen ∧ historydb_bucket e.hash1 = i
    ∧ e.key.length = e.keylen

/-- Every cell of the table is `cell_ok` for its bucket. -/
def historydb_ok (keyhash : List Nat → Nat → Nat) (db : historydb_t F) : Prop :=
  ∀ i, ∀ e ∈ db.historydb_hash i, cell_ok keyhash i e

/-- A JSON number item as `cJSON_Parse` returns it. -/
def json_number {F : Type} (valueint : Int) (valuedouble : F) : cJSON F :=
  { type := .cJSON_Number, valuestring := [], valueint := valueint, valuedouble := valuedouble }

/-- The parsed dump line of the entry of scenario S1 with arrival time `t`:
the six members, the key being the string `OH7LZB`. -/
def json_S1 (t : Int) : history_json Int :=
  { arrivaltime := some (json_number t t),
    key := some { type := .cJSON_String, valuestring := [79, 72, 55, 76, 90, 66, 0],
                  valueint := 0, valuedouble := 0 },
    packettype := some (json_number 1 1),
    flags := some (json_number 2 2),
    lat := some (json_number 1055 1055),
    lon := some (json_number 437 437) }

/-- The records that `historydb_load_entry` does not reject: the line parses,
the six members `arrivaltime`, `key`, `packettype`, `flags`, `lat`, `lon` are
present, `key` is a JSON string and the others JSON numbers, and `arrivaltime`
is not below `expirytime`. -/
def history_json_complete (expirytime : Int) : Option (history_json F) → Bool
  | some ⟨some a, some k, some p, some f, some la, some lo⟩ =>
    a.type == .cJSON_Number && k.type == .cJSON_String && p.type == .cJSON_Number
      && f.type == .cJSON_Number && la.type == .cJSON_Number && lo.type == .cJSON_Number
      && decide (expirytime ≤ a.valueint)
  | _ => false

/-- The cell `historydb_load_entry` builds from the six members. -/
def history_json_cell (keyhash : List Nat → Nat → Nat) (cosf : F → F)
    (a k p f la lo : cJSON F) : history_cell_t F :=
  { arrivaltime := a.valueint, keylen := strlen k.valuestring,
    key := bytes k.valuestring (strlen k.valuestring),
    hash1 := keyhash0 keyhash k.valuestring (strlen k.valuestring),
    lat := la.valuedouble, coslat := cosf la.valuedouble, lon := lo.valuedouble,
    packettype := p.valueint, flags := f.valueint }

/-- C `toupper` in the C locale. -/
def toupper (c : Nat) : Nat := if 97 ≤ c ∧ c ≤ 122 then c - 32 else c

/-- A concrete case-folding 32-bit hash to put in place of the `keyhashuc`
parameter in closed examples. -/
def keyhashuc_fnv (p : List Nat) (hash : Nat) : Nat := keyhash_fnv (p.map toupper) hash

/-- A client with empty heard and courtesy tables. -/
def client_empty : client_t := ⟨fun _ => [], 0, fun _ => [], 0⟩

/-- A cell as the allocator may hand it out: it still holds the entry of its
previous use. -/
def stale_cell : client_heard_t :=
  { hash := 12345, last_heard := 17, call_len := 9,
    callsign := [79, 72, 50, 77, 81, 75, 45, 49, 53, 0] }

/-- A heard entry for `OH7LZB`, last heard at time 10. -/
def heard_OH7LZB : client_heard_t :=
  { hash := keyhashuc0 keyhashuc_fnv [79, 72, 55, 76, 90, 66] 6, last_heard := 10, call_len := 6,
    callsign := [79, 72, 55, 76, 90, 66, 0, 0, 0, 0] }

/-- A heard entry of another station. -/
def heard_other : client_heard_t :=
  { hash := 99, last_heard := 20, call_len := 5, callsign := [78, 48, 67, 65, 76, 0, 0, 0, 0, 0] }

/-- A client whose heard buckets all hold the entry of another station followed
by the entry of `OH7LZB`. -/
def client_two : client_t := ⟨fun _ => [heard_other, heard_OH7LZB], 2, fun _ => [], 0⟩

/-- The inner loop `while (h)` of `heard_expire_single` on one bucket: the
bucket afterwards and the number of entries unlinked and freed. -/
def heard_expire_chain (tick expire_below : Int) :
    List client_heard_t → List client_heard_t × Int
  | [] => ([], 0)
  | h :: rest =>
    let r := heard_expire_chain tick expire_below rest
    if h.last_heard < expire_below ∨ h.last_heard > tick then (r.1, r.2 + 1) else (h :: r.1, r.2)

/-- One round of the loop `for (i = 0; i < CLIENT_HEARD_BUCKETS; i++)` of
`heard_expire_single`, on the table and `*entrycount`. -/
def heard_expire_step (tick expire_below : Int)
    (acc : (Fin CLIENT_HEARD_BUCKETS → List client_heard_t) × Int)
    (i : Fin CLIENT_HEARD_BUCKETS) : (Fin CLIENT_HEARD_BUCKETS → List client_heard_t) × Int :=
  let c := heard_expire_chain tick expire_below (acc.1 i)
  (Function.update acc.1 i c.1, acc.2 - c.2)

/-- `heard_expire_single` at the global `tick`: table and entry count
afterwards. -/
def heard_expire_single (tick : Int) (list : Fin CLIENT_HEARD_BUCKETS → List client_heard_t)
    (entrycount : Int) (storetime : Int) :
    (Fin CLIENT_HEARD_BUCKETS → List client_heard_t) × Int :=
  (List.finRange CLIENT_HEARD_BUCKETS).foldl (heard_expire_step tick (tick - storetime))
    (list, entrycount)

/-- `client_heard_expire`; the globals `tick`, `heard_list_storetime` and
`courtesy_list_storetime` are arguments. -/
def client_heard_expire (tick heard_list_storetime courtesy_list_storetime : Int)
    (c : client_t) : client_t :=
  let r1 := heard_expire_single tick c.client_heard c.client_heard_count heard_list_storetime
  let r2 := heard_expire_single tick c.client_courtesy c.client_courtesy_count
    courtesy_list_storetime
  { client_heard := r1.1, client_heard_count := r1.2,
    client_courtesy := r2.1, client_courtesy_count := r2.2 }

/-- `heard_free_single`: every bucket is emptied. -/
def heard_free_single (_list : Fin CLIENT_HEARD_BUCKETS → List client_heard_t) :
    Fin CLIENT_HEARD_BUCKETS → List client_heard_t :=
  fun _ => []

/-- `client_heard_free`. -/
def client_heard_free (c : client_t) : client_t :=
  { client_heard := heard_free_single c.client_heard, client_heard_count := 0,
    client_courtesy := heard_free_single c.client_courtesy, client_courtesy_count := 0 }

/-- The courtesy tables a client can have: empty at first, and changed only by
`client_courtesy_update` (source callsigns of at most `CALLSIGNLEN_MAX` bytes,
what the `callsign` array holds), `client_courtesy_needed`,
`client_heard_expire` and `client_heard_free`, which run `heard_list_update`,
`heard_find` with `drop_if_found = 1`, `heard_expire_single` and
`heard_free_single` on it. -/
inductive courtesy_reachable (keyhashuc : List Nat → Nat → Nat) :
    (Fin CLIENT_HEARD_BUCKETS → List client_heard_t) → Prop
  | init : courtesy_reachable keyhashuc (fun _ => [])
  | update (cellmalloc : Option client_heard_t) (call : List Nat) (call_len : Nat) (t : Int)
      (entrycount : Int) {list : Fin CLIENT_HEARD_BUCKETS → List client_heard_t} :
      courtesy_reachable keyhashuc list → call_len ≤ CALLSIGNLEN_MAX →
      courtesy_reachable keyhashuc
        (heard_list_update keyhashuc cellmalloc call call_len t list entrycount).1
  | needed (entrycount : Int) (callsign : List Nat) (call_len hash : Nat)
      {list : Fin CLIENT_HEARD_BUCKETS → List client_heard_t} :
      courtesy_reachable keyhashuc list →
      courtesy_reachable keyhashuc (heard_find list entrycount callsign call_len hash true).2.1
  | expire (tick storetime entrycount : Int)
      {list : Fin CLIENT_HEARD_BUCKETS → List client_heard_t} :
      courtesy_reachable keyhashuc list →
      courtesy_reachable keyhashuc (heard_expire_single tick list entrycount storetime).1
  | free {list : Fin CLIENT_HEARD_BUCKETS → List client_heard_t} :
      courtesy_reachable keyhashuc list →
      courtesy_reachable keyhashuc (heard_free_single list)

/-- Two entries that every lookup treats alike: same hash, same length and
callsigns equal under `strncasecmp` over that length. -/
def heard_equiv (a b : client_heard_t) : Prop :=
  a.hash = b.hash ∧ a.call_len = b.call_len
    ∧ strncasecmp_eq a.callsign b.callsign a.call_len = true

/-- No two entries of the bucket are `heard_equiv`. -/
def heard_distinct (l : List client_heard_t) : Prop :=
  l.Pairwise (fun a b => ¬ heard_equiv a b)

/-- A client whose courtesy table holds one entry, made by
`client_courtesy_update` for the source callsign `OH7LZB` of scenario S1. -/
def client_courtesy_S1 : client_t :=
  client_courtesy_update keyhashuc_fnv (some stale_cell) (packet_S1 1000) client_empty

/-- A later position packet of scenario S1 with the hash of its `srcname`. -/
def packet_S1_hashed : pbuf_t Int :=
  { packet_S1 1001 with srcname_hash := keyhashuc0 keyhashuc_fnv [79, 72, 55, 76, 90, 66] 6 }

/-- The packet of scenario S1 with its source callsign in lower case,
`oh7lzb>APRS,TCPIP*:!6028.51N/02505.68E-Test`, at arrival time `t`. -/
def packet_S1_lower (t : Int) : pbuf_t Int :=
  { packet_S1 t with
    data := "oh7lzb>APRS,TCPIP*:!6028.51N/02505.68E-Test".toList.map Char.toNat ++ [13, 10] }

/-! ## parse_aprs.c

* Pointers into the packet (`body`, `body_end`, `d_start`, ...) are byte
  offsets into `pb.data`; `info_start = 0` stands for the NULL pointer, the
  information field never starting at the first byte of a packet.
* A `char` is the byte it holds, a natural number below 256.
* A finite `float` or `double` value is the rational number it stands for,
  and every operation rounds its exact result to the type it is evaluated in;
  the value `%f` of `sscanf` stores can also be an infinity or a NaN.
* Each function returns its `int` result together with the packet buffer as it
  leaves it.
-/

/-- Modelled from the spec: worker.h is missing; type flag `MESSAGE`, a single
bit. -/
def T_MESSAGE : Nat := 8

/-- Modelled from the spec: worker.h is missing; type flag `NWS`, a single
bit. -/
def T_NWS : Nat := 16

/-- Modelled from the spec: worker.h is missing; type flag `WX`, a single
bit. -/
def T_WX : Nat := 32

/-- Modelled from the spec: worker.h is missing; type flag `TELEMETRY`, a
single bit. -/
def T_TELEMETRY : Nat := 64

/-- Modelled from the spec: worker.h is missing; type flag `QUERY`, a single
bit. -/
def T_QUERY : Nat := 128

/-- Modelled from the spec: worker.h is missing; type flag `STATUS`, a single
bit. -/
def T_STATUS : Nat := 256

/-- Modelled from the spec: worker.h is missing; type flag `USERDEF`, a single
bit. -/
def T_USERDEF : Nat := 512

/-- Modelled from the spec: worker.h is missing; type flag `CWOP`, a single
bit. -/
def T_CWOP : Nat := 1024

/-- Modelled from the spec: worker.h is missing; type flag `STATCAPA`, a
single bit. -/
def T_STATCAPA : Nat := 2048

/-- Modelled from the spec: worker.h is missing; type flag `THIRDPARTY`, a
single bit. -/
def T_3RDPARTY : Nat := 4096

/-- Modelled from the spec: worker.h is missing; the value `parse_aprs` gives
`packettype` before classifying, a bit of its own. -/
def T_ALL : Nat := 32768

/-- Modelled from the spec: incoming.h is missing; the error `DIS_DX`. The
error codes are negative numbers, one per error. -/
def INERR_DIS_DX : Int := -1

/-- Modelled from the spec: incoming.h is missing; the error `DIS_MSG_DST`. -/
def INERR_DIS_MSG_DST : Int := -2

/-- Modelled from the spec: incoming.h is missing; the error `INV_3RD_PARTY`. -/
def INERR_INV_3RD_PARTY : Int := -3

/-- Modelled from the spec: incoming.h is missing; the error `INV_SRCCALL`. -/
def INERR_INV_SRCCALL : Int := -4

/-- Modelled from the spec: incoming.h is missing; the error `INV_DSTCALL`. -/
def INERR_INV_DSTCALL : Int := -5

/-! ## C floating point

`float` is IEEE 754 binary32 and `double` is binary64; an expression is
evaluated in the type of its operands, as with SSE arithmetic on x86-64, with
rounding to nearest, ties to even. A finite value is the rational it stands
for; the sign of a zero is not kept, no test in the sources reads it. -/

/-- The power `2^e` for an integer `e`. -/
def pow2 (e : Int) : Rat :=
  if 0 ≤ e then ((2 ^ e.toNat : Nat) : Rat) else 1 / ((2 ^ (-e).toNat : Nat) : Rat)

/-- The integer nearest to `q`, the even one of two that are equally near. -/
def round_even (q : Rat) : Int :=
  let f := Rat.floor q
  if q - f < 1 / 2 then f
  else if q - f > 1 / 2 then f + 1
  else if f % 2 = 0 then f else f + 1

/-- The position of the highest set bit of `n`, found in at most `fuel`
halvings; 0 for `n < 2`. -/
def nat_log2_loop : Nat → Nat → Nat
  | 0, _ => 0
  | fuel + 1, n => if n < 2 then 0 else nat_log2_loop fuel (n / 2) + 1

/-- The position of the highest set bit of `n`. -/
def nat_log2 (n : Nat) : Nat := nat_log2_loop n n

/-- The exponent of a rational `q ≠ 0`: the integer `e` with
`2^e <= |q| < 2^(e+1)`. -/
def ilog2 (q : Rat) : Int :=
  let e : Int := (nat_log2 q.num.natAbs : Int) - (nat_log2 q.den : Int)
  if pow2 e ≤ |q| then e else e - 1

/-- The value of a binary floating-point format with `p` bits of precision and
least exponent `emin` that is nearest to `q`, ties to even; below `2^emin` the
spacing is that of the subnormal numbers. The exponent range has no upper end
here: a format's overflow is looked at where a value can reach it. -/
def fp_round (p : Nat) (emin : Int) (q : Rat) : Rat :=
  if q = 0 then 0
  else
    let e := max (ilog2 q) emin
    let u := pow2 (e - (p - 1))
    (round_even (q / u) : Rat) * u

/-- Rounding to `float` (binary32), for a magnitude below `2^128`. -/
def to_float (q : Rat) : Rat := fp_round 24 (-126) q

/-- Rounding to `double` (binary64), for a magnitude below `2^1024`. -/
def to_double (q : Rat) : Rat := fp_round 53 (-1022) q

/-- A value of type `float`: a finite number, an infinity or a NaN. -/
inductive cfloat where
  | fin (q : Rat)
  | inf (neg : Bool)
  | nan
deriving DecidableEq, Repr

/-- The C comparison `x < c` of a `float` with a finite constant: false for a
NaN. -/
def cfloat.lt (x : cfloat) (c : Rat) : Bool :=
  match x with
  | .fin a => decide (a < c)
  | .inf neg => neg
  | .nan => false

/-- The C comparison `x > c`. -/
def cfloat.gt (x : cfloat) (c : Rat) : Bool :=
  match x with
  | .fin a => decide (a > c)
  | .inf neg => !neg
  | .nan => false

/-- The C comparison `x <= c`. -/
def cfloat.le (x : cfloat) (c : Rat) : Bool :=
  match x with
  | .fin a => decide (a ≤ c)
  | .inf neg => neg
  | .nan => false

/-- The C comparison `c <= x`. -/
def cfloat.ge (x : cfloat) (c : Rat) : Bool :=
  match x with
  | .fin a => decide (c ≤ a)
  | .inf neg => !neg
  | .nan => false

/-- The C negation `-x`. -/
def cfloat.neg (x : cfloat) : cfloat :=
  match x with
  | .fin a => .fin (-a)
  | .inf neg => .inf (!neg)
  | .nan => .nan

/-- The `float` nearest to a number, as a conversion from `double` or the
conversion `%f` of a decimal gives it: an infinity when the rounded magnitude
is beyond the largest `float`. -/
def cfloat.of_rat (q : Rat) : cfloat :=
  if pow2 128 ≤ |to_float q| then .inf (decide (q < 0)) else .fin (to_float q)

/-- The value of `(float)deg + (float)min / 60.0 + (float)frag / 6000.0`
stored in a `float`: the three conversions to `float`, the two quotients and
the two sums in `double`, and the rounding of the assignment. -/
def float_dmf (deg min frag : Nat) : Rat :=
  to_float (to_double (to_double (to_float deg + to_double (to_float min / 60))
    + to_double (to_float frag / 6000)))

/-- The value of `(float)d + x / 60.0` stored in a `float`, for a `float` `x`:
the quotient and the sum in `double`, and the conversion of the assignment. An
infinity and a NaN stay what they are. -/
def nmea_degrees (d : Int) (x : cfloat) : cfloat :=
  match x with
  | .fin q => cfloat.of_rat (to_double (to_float d + to_double (q / 60)))
  | .inf neg => .inf neg
  | .nan => .nan

/-- What parse_aprs.c takes from outside `src/`: the macros `filter_lat2rad`
and `filter_lon2rad` of filter.h on a finite value and, in
`filter_lat2rad_nan` and `filter_lon2rad_nan`, on a NaN; `cosf` of libm; the
conversion `%f` of `sscanf` (the `float` stored and the rest of the input,
`none` when nothing can be read: a number, an infinity or a NaN); and
`check_call_match`, `check_invalid_src_dst` and `check_path_calls` of
incoming.c. A call `f(p, ...)` on a pointer `p` gets the memory from `p` on;
`check_path_calls(a, b)` gets the buffer and the two offsets. -/
structure parse_env (F : Type) where
  filter_lat2rad : Rat → F
  filter_lon2rad : Rat → F
  filter_lat2rad_nan : F
  filter_lon2rad_nan : F
  cosf : F → F
  scan_float : List Nat → Option (cfloat × List Nat)
  check_call_match : List (List Nat) → List Nat → Nat → Int
  check_invalid_src_dst : List Nat → Nat → Int
  check_path_calls : List Nat → Nat → Nat → Int

/-- C `isdigit`. -/
def isdigit (c : Nat) : Bool := decide (48 ≤ c ∧ c ≤ 57)

/-- C `isalnum` in the C locale. -/
def isalnum (c : Nat) : Bool :=
  decide ((48 ≤ c ∧ c ≤ 57) ∨ (65 ≤ c ∧ c ≤ 90) ∨ (97 ≤ c ∧ c ≤ 122))

/-- C `isspace` in the C locale. -/
def isspace (c : Nat) : Bool := decide (c = 32 ∨ (9 ≤ c ∧ c ≤ 13))

/-- `valid_sym_table_compressed`: `[\/\\A-Za-j]`. -/
def valid_sym_table_compressed (c : Nat) : Bool :=
  decide (c = 47 ∨ c = 92 ∨ (0x41 ≤ c ∧ c ≤ 0x5A) ∨ (0x61 ≤ c ∧ c ≤ 0x6A))

/-- `valid_sym_table_uncompressed`: `[\/\\A-Z0-9]`. -/
def valid_sym_table_uncompressed (c : Nat) : Bool :=
  decide (c = 47 ∨ c = 92 ∨ (0x41 ≤ c ∧ c ≤ 0x5A) ∨ (0x30 ≤ c ∧ c ≤ 0x39))

/-- The value of `bad` in `pbuf_fill_pos` when the range test is reached. -/
def pbuf_fill_pos_bad (lat lng : Rat) : Bool :=
  decide (lat < -89.9 ∧ -0.0001 ≤ lng ∧ lng ≤ 0.0001)
  || decide (lat > 89.9 ∧ -0.0001 ≤ lng ∧ lng ≤ 0.0001)
  || (decide (-0.0001 ≤ lat ∧ lat ≤ 0.0001)
      && (decide (-0.0001 ≤ lng ∧ lng ≤ 0.0001)
          || decide (-90.01 ≤ lng ∧ lng ≤ -89.99)
          || decide (89.99 ≤ lng ∧ lng ≤ 90.01)))

/-- `pbuf_fill_pos` on finite arguments: return value and the packet
afterwards. `lat` and `lng` are in degrees. -/
def pbuf_fill_pos (E : parse_env F) (pb : pbuf_t F) (lat lng : Rat)
    (sym_table sym_code : Nat) : Int × pbuf_t F :=
  let pb := { pb with symbol := [sym_table, sym_code, 0] }
  let pb := if sym_code = 95 ∧ valid_sym_table_uncompressed sym_table = true
    then { pb with packettype := pb.packettype ||| T_WX } else pb
  let pb := if sym_code = 64 ∧ valid_sym_table_uncompressed sym_table = true
    then { pb with packettype := pb.packettype ||| T_WX } else pb
  if pbuf_fill_pos_bad lat lng = true ∨ lat < -90 ∨ lat > 90 ∨ lng < -180 ∨ lng > 180 then
    (0, pb)
  else
    (1, { pb with
          lat := E.filter_lat2rad lat
          cos_lat := E.cosf (E.filter_lat2rad lat)
          lng := E.filter_lon2rad lng
          flags := pb.flags ||| F_HASPOS })

/-- The macro `filter_lat2rad` on a `float` that `pbuf_fill_pos` converts: a
finite value or a NaN, the range test having returned on an infinity. -/
def lat2rad (E : parse_env F) (x : cfloat) : F :=
  match x with
  | .fin a => E.filter_lat2rad a
  | _ => E.filter_lat2rad_nan

/-- The macro `filter_lon2rad` on a `float` that `pbuf_fill_pos` converts. -/
def lon2rad (E : parse_env F) (x : cfloat) : F :=
  match x with
  | .fin a => E.filter_lon2rad a
  | _ => E.filter_lon2rad_nan

/-- The value of `bad` in `pbuf_fill_pos` when the range test is reached, on
any two `float` arguments, with the comparisons of C: a comparison with a NaN
is false. The constants are the decimal numbers of the source: none of them is
a `float`, and the `double` nearest to one of them is not a `float` either, so
a `float` is below the decimal number exactly when it is below the `double`
constant. -/
def pbuf_fill_pos_float_bad (lat lng : cfloat) : Bool :=
  (lat.lt (-89.9) && lng.ge (-0.0001) && lng.le 0.0001)
  || (lat.gt 89.9 && lng.ge (-0.0001) && lng.le 0.0001)
  || (lat.ge (-0.0001) && lat.le 0.0001
      && ((lng.ge (-0.0001) && lng.le 0.0001)
          || (lng.ge (-90.01) && lng.le (-89.99))
          || (lng.ge 89.99 && lng.le 90.01)))

/-- `pbuf_fill_pos` on any two `float` arguments: return value and the packet
afterwards. On two finite arguments it is `pbuf_fill_pos`. -/
def pbuf_fill_pos_float (E : parse_env F) (pb : pbuf_t F) (lat lng : cfloat)
    (sym_table sym_code : Nat) : Int × pbuf_t F :=
  let pb := { pb with symbol := [sym_table, sym_code, 0] }
  let pb := if sym_code = 95 ∧ valid_sym_table_uncompressed sym_table = true
    then { pb with packettype := pb.packettype ||| T_WX } else pb
  let pb := if sym_code = 64 ∧ valid_sym_table_uncompressed sym_table = true
    then { pb with packettype := pb.packettype ||| T_WX } else pb
  if pbuf_fill_pos_float_bad lat lng = true ∨ lat.lt (-90) = true ∨ lat.gt 90 = true
      ∨ lng.lt (-180) = true ∨ lng.gt 180 = true then
    (0, pb)
  else
    (1, { pb with
          lat := lat2rad E lat
          cos_lat := E.cosf (lat2rad E lat)
          lng := lon2rad E lng
          flags := pb.flags ||| F_HASPOS })

/-- `get_symbol_from_dstcall_twochar`: `none` for the return value 0 (nothing
is stored), otherwise `*sym_table` and `*sym_code`. -/
def get_symbol_from_dstcall_twochar (c1 c2 : Nat) : Option (Nat × Nat) :=
  if c1 = 66 then
    if 66 ≤ c2 ∧ c2 ≤ 80 then some (47, c2 - 66 + 33) else none
  else if c1 = 80 then
    if 48 ≤ c2 ∧ c2 ≤ 57 then some (47, c2)
    else if 65 ≤ c2 ∧ c2 ≤ 90 then some (47, c2)
    else none
  else if c1 = 77 then
    if 82 ≤ c2 ∧ c2 ≤ 88 then some (47, c2 - 82 + 58) else none
  else if c1 = 72 then
    if 83 ≤ c2 ∧ c2 ≤ 88 then some (47, c2 - 83 + 91) else none
  else if c1 = 76 then
    if 65 ≤ c2 ∧ c2 ≤ 90 then some (47, c2 - 65 + 97) else none
  else if c1 = 74 then
    if 49 ≤ c2 ∧ c2 ≤ 52 then some (47, c2 - 49 + 123) else none
  else if c1 = 79 then
    if 66 ≤ c2 ∧ c2 ≤ 80 then some (92, c2 - 66 + 33) else none
  else if c1 = 65 then
    if 48 ≤ c2 ∧ c2 ≤ 57 then some (92, c2)
    else if 65 ≤ c2 ∧ c2 ≤ 90 then some (92, c2)
    else none
  else if c1 = 78 then
    if 82 ≤ c2 ∧ c2 ≤ 88 then some (92, c2 - 82 + 58) else none
  else if c1 = 68 then
    if 83 ≤ c2 ∧ c2 ≤ 88 then some (92, c2 - 83 + 91) else none
  else if c1 = 83 then
    if 65 ≤ c2 ∧ c2 ≤ 90 then some (92, c2 - 65 + 97) else none
  else if c1 = 81 then
    if 49 ≤ c2 ∧ c2 ≤ 52 then some (92, c2 - 49 + 123) else none
  else none

/-- `get_symbol_from_dstcall`: `none` for the return value 0, otherwise
`*sym_table` and `*sym_code`, the latter as the byte the `char` holds. -/
def get_symbol_from_dstcall (pb : pbuf_t F) : Option (Nat × Nat) :=
  let d_start := pb.srccall_end + 1
  let d := fun k => byteAt pb.data (d_start + k)
  if (pb.dstcall_end_or_ssid : Int) - d_start < 5 then none
  else
    let sublength : Int :=
      if (pb.dstcall_end_or_ssid : Int) - d_start - 3 > 3 then 3
      else (pb.dstcall_end_or_ssid : Int) - d_start - 3
    if bytes (pb.data.drop d_start) 3 ≠ [71, 80, 83]
        ∧ bytes (pb.data.drop d_start) 3 ≠ [83, 80, 67]
        ∧ bytes (pb.data.drop d_start) 3 ≠ [83, 89, 77] then none
    else if isalnum (d 3) = false ∨ isalnum (d 4) = false then none
    else if sublength = 3 ∧ isalnum (d 5) = false then none
    else if sublength = 3 then
      if d 3 = 67 ∨ d 3 = 69 then
        if isdigit (d 4) = false then none
        else if isdigit (d 5) = false then none
        else
          let numberid := (d 4 - 48) * 10 + (d 5 - 48)
          some (if d 3 = 67 then 47 else 92, (numberid + 32) % 256)
      else if (d 3 = 79 ∨ d 3 = 65 ∨ d 3 = 78 ∨ d 3 = 68 ∨ d 3 = 83 ∨ d 3 = 81)
          ∧ isalnum (d 5) = true then
        get_symbol_from_dstcall_twochar (d 3) (d 4)
      else none
    else get_symbol_from_dstcall_twochar (d 3) (d 4)

/-- The C string at a pointer: the bytes before the first NUL. -/
def cstring (s : List Nat) : List Nat := s.take (strlen s)

/-- White space skipped by `sscanf` in front of a numeric conversion. -/
def scan_skip_space : List Nat → List Nat
  | [] => []
  | c :: r => if isspace c = true then scan_skip_space r else c :: r

/-- At most `w` decimal digits at the head of the input: value (continuing
`acc`), number of digits read and the rest of the input. -/
def scan_digits : Nat → List Nat → Nat → Nat × Nat × List Nat
  | 0, s, acc => (acc, 0, s)
  | _ + 1, [], acc => (acc, 0, [])
  | w + 1, c :: r, acc =>
    if isdigit c = true then
      let q := scan_digits w r (acc * 10 + (c - 48))
      (q.1, q.2.1 + 1, q.2.2)
    else (acc, 0, c :: r)

/-- The conversions `%d` and `%u` of `sscanf` with field width `w`: white
space is skipped, then at most `w` bytes are read, an optional sign and
decimal digits, at least one digit. The result is the number read and the rest
of the input, `none` when the conversion fails. -/
def scan_int (w : Nat) (s : List Nat) : Option (Int × List Nat) :=
  match scan_skip_space s with
  | [] => none
  | c :: r =>
    if c = 43 ∨ c = 45 then
      let q := scan_digits (w - 1) r 0
      if q.2.1 = 0 then none
      else some (if c = 45 then -(q.1 : Int) else (q.1 : Int), q.2.2)
    else
      let q := scan_digits w (c :: r) 0
      if q.2.1 = 0 then none else some ((q.1 : Int), q.2.2)

/-- The conversion `%u` with field width `w`, the value as the `unsigned int`
it is stored in. -/
def scan_uint (w : Nat) (s : List Nat) : Option (Nat × List Nat) :=
  (scan_int w s).map (fun q => ((q.1 % 2 ^ 32).toNat, q.2))

/-- The conversion `%c` of `sscanf`: the next byte, whatever it is. -/
def scan_char : List Nat → Option (Nat × List Nat)
  | [] => none
  | c :: r => some (c, r)

/-- An ordinary character of a `sscanf` format: the next byte must be it. -/
def scan_lit (c : Nat) : List Nat → Option (List Nat)
  | [] => none
  | x :: r => if x = c then some r else none

/-- The values stored by `sscanf(posbuf, "%2u%2u.%2u%c%c%3u%2u.%2u%c%c", ...)`. -/
structure uncompressed_fields where
  lat_deg : Nat
  lat_min : Nat
  lat_min_frag : Nat
  lat_hemi : Nat
  sym_table : Nat
  lng_deg : Nat
  lng_min : Nat
  lng_min_frag : Nat
  lng_hemi : Nat
  sym_code : Nat
deriving DecidableEq, Repr

/-- The call `sscanf(posbuf, "%2u%2u.%2u%c%c%3u%2u.%2u%c%c", ...)` of
`parse_aprs_uncompressed`: the ten values when it returns 10, otherwise
`none`. -/
def sscanf_uncompressed (posbuf : List Nat) : Option uncompressed_fields := do
  let a ← scan_uint 2 (cstring posbuf)
  let b ← scan_uint 2 a.2
  let s ← scan_lit 46 b.2
  let c ← scan_uint 2 s
  let d ← scan_char c.2
  let e ← scan_char d.2
  let f ← scan_uint 3 e.2
  let g ← scan_uint 2 f.2
  let s ← scan_lit 46 g.2
  let h ← scan_uint 2 s
  let i ← scan_char h.2
  let j ← scan_char i.2
  pure ⟨a.1, b.1, c.1, d.1, e.1, f.1, g.1, h.1, i.1, j.1⟩

/-- The call `sscanf(dstcall, "%2u%2u%2u", ...)` of `parse_aprs_mice`: the
three values when it returns 3, otherwise `none`. -/
def sscanf_mice (dstcall : List Nat) : Option (Nat × Nat × Nat) := do
  let a ← scan_uint 2 (cstring dstcall)
  let b ← scan_uint 2 a.2
  let c ← scan_uint 2 b.2
  pure (a.1, b.1, c.1)

/-- One statement `if (posbuf[i] == ' ') posbuf[i] = v;`. -/
def fill_space (posbuf : List Nat) (i v : Nat) : List Nat :=
  if byteAt posbuf i = 32 then posbuf.set i v else posbuf

/-- The buffer `posbuf` of `parse_aprs_uncompressed` when `sscanf` reads it:
the 19 bytes at `body`, a NUL, and the eight replacements of a space. -/
def uncompressed_posbuf (data : List Nat) (body : Nat) : List Nat :=
  let posbuf := (memcpy (List.replicate 20 0) data body 19).set 19 0
  let posbuf := fill_space posbuf 2 51
  let posbuf := fill_space posbuf 3 53
  let posbuf := fill_space posbuf 5 53
  let posbuf := fill_space posbuf 6 53
  let posbuf := fill_space posbuf 12 51
  let posbuf := fill_space posbuf 13 53
  let posbuf := fill_space posbuf 15 53
  fill_space posbuf 16 53

/-- The part of `parse_aprs_uncompressed` after the `sscanf` call, on the ten
values it stored. `lat` and `lng` are `float` variables; `0.0 - lat` is
exact. -/
def uncompressed_decode (E : parse_env F) (pb : pbuf_t F) (v : uncompressed_fields) :
    Int × pbuf_t F :=
  let sym_table := if valid_sym_table_uncompressed v.sym_table = false then 0 else v.sym_table
  let issouth : Bool := decide (v.lat_hemi = 83 ∨ v.lat_hemi = 115)
  let iswest : Bool := decide (v.lng_hemi = 87 ∨ v.lng_hemi = 119)
  if issouth = false ∧ v.lat_hemi ≠ 78 ∧ v.lat_hemi ≠ 110 then (0, pb)
  else if iswest = false ∧ v.lng_hemi ≠ 69 ∧ v.lng_hemi ≠ 101 then (0, pb)
  else if v.lat_deg > 89 ∨ v.lng_deg > 179 then (0, pb)
  else
    let lat : Rat := float_dmf v.lat_deg v.lat_min v.lat_min_frag
    let lng : Rat := float_dmf v.lng_deg v.lng_min v.lng_min_frag
    let lat := if issouth = true then 0 - lat else lat
    let lng := if iswest = true then 0 - lng else lng
    pbuf_fill_pos E pb lat lng sym_table v.sym_code

/-- `parse_aprs_uncompressed`. -/
def parse_aprs_uncompressed (E : parse_env F) (pb : pbuf_t F) (body body_end : Nat) :
    Int × pbuf_t F :=
  if (body_end : Int) - body < 19 then (0, pb)
  else
    match sscanf_uncompressed (uncompressed_posbuf pb.data body) with
    | none => (0, pb)
    | some v => uncompressed_decode E pb v

/-- `parse_aprs_compressed`. The bytes are `char`s: one outside
`0x21..0x7b` fails the test `body[i] < 0x21 || body[i] > 0x7b` whether `char`
is signed or not. `lat1` and `lng1` are `int`s below `91^4`, within the range
of `int`; `(float)(lat1) / 380926.0F` and the difference from `90.0F` are
`float` operations, and so for the longitude; the two results go through the
`double` variables `lat` and `lng` unchanged. -/
def parse_aprs_compressed (E : parse_env F) (pb : pbuf_t F) (body body_end : Nat) :
    Int × pbuf_t F :=
  if (body_end : Int) - body < 13 then (0, pb)
  else
    let b := fun k => byteAt pb.data (body + k)
    let sym_table := b 0
    let sym_code := b 9
    if (List.range' 1 8).any (fun i => decide (b i < 0x21 ∨ b i > 0x7b)) = true then (0, pb)
    else
      let lat1 : Int := ((((b 1 : Int) - 33) * 91 + ((b 2 : Int) - 33)) * 91
        + ((b 3 : Int) - 33)) * 91 + ((b 4 : Int) - 33)
      let lng1 : Int := ((((b 5 : Int) - 33) * 91 + ((b 6 : Int) - 33)) * 91
        + ((b 7 : Int) - 33)) * 91 + ((b 8 : Int) - 33)
      let lat : Rat := to_float (90 - to_float (to_float (lat1 : Rat) / 380926))
      let lng : Rat := to_float (-180 + to_float (to_float (lng1 : Rat) / 190463))
      pbuf_fill_pos E pb lat lng sym_table sym_code

/-- The translation of one destination callsign character in
`parse_aprs_mice`: `A-J` and `P-Y` to digits, `K`, `L` and `Z` to `_`. -/
def mice_translate (c : Nat) : Nat :=
  if 65 ≤ c ∧ c ≤ 74 then c - 17
  else if 80 ≤ c ∧ c ≤ 89 then c - 32
  else if c = 75 ∨ c = 76 ∨ c = 90 then 95
  else c

/-- The four statements of `parse_aprs_mice` that replace a `_` of the
translated `dstcall` at the positions 5, 4, 3 and 2: the buffer and
`posambiguity` afterwards. -/
def mice_ambiguity (dstcall : List Nat) : List Nat × Int :=
  let r : List Nat × Int := (dstcall, 0)
  let r := if byteAt r.1 5 = 95 then (r.1.set 5 53, 1) else r
  let r := if byteAt r.1 4 = 95 then (r.1.set 4 53, 2) else r
  let r := if byteAt r.1 3 = 95 then (r.1.set 3 53, 3) else r
  let r := if byteAt r.1 2 = 95 then (r.1.set 2 51, 4) else r
  r

/-- The longitude degrees of `parse_aprs_mice`: `lng_deg` after the three
adjustments. -/
def mice_lng_deg (body0 d4 : Nat) : Nat :=
  let lng_deg := body0 - 28
  let lng_deg := if d4 ≥ 0x50 then lng_deg + 100 else lng_deg
  if lng_deg ≥ 180 ∧ lng_deg ≤ 189 then lng_deg - 80
  else if lng_deg ≥ 190 ∧ lng_deg ≤ 199 then lng_deg - 190
  else lng_deg

/-- The longitude of `parse_aprs_mice` before its sign: the `switch
(posambiguity)`; `none` is the `default` branch. `lng` is a `float` variable,
and the constants `60.0`, `6000.0` and `0.5` make the quotients and sums
`double` operations. -/
def mice_lng (posambiguity : Int) (lng_deg lng_min lng_min_frag : Nat) : Option Rat :=
  if posambiguity = 0 then
    some (float_dmf lng_deg lng_min lng_min_frag)
  else if posambiguity = 1 then
    some (float_dmf lng_deg lng_min (lng_min_frag - lng_min_frag % 10 + 5))
  else if posambiguity = 2 then
    some (to_float (to_double (to_float lng_deg
      + to_double (to_double (to_float lng_min + 0.5) / 60))))
  else if posambiguity = 3 then
    some (to_float (to_double (to_float lng_deg
      + to_double (to_float ((lng_min - lng_min % 10 + 5 : Nat) : Rat) / 60))))
  else if posambiguity = 4 then
    some (to_float (to_double (to_float lng_deg + 0.5)))
  else none

/-- The byte-class test of `parse_aprs_mice` on `body[0..7]`: true when none
of the eight `return 0` statements is taken. -/
def mice_body_mask (b : Nat → Nat) : Bool :=
  !(decide (b 0 < 0x26 ∨ b 0 > 0x7f)) && !(decide (b 1 < 0x26 ∨ b 1 > 0x61))
  && !(decide (b 2 < 0x1c ∨ b 2 > 0x7f)) && !(decide (b 3 < 0x1c ∨ b 3 > 0x7f))
  && !(decide (b 4 < 0x1c ∨ b 4 > 0x7d)) && !(decide (b 5 < 0x1c ∨ b 5 > 0x7f))
  && !(decide ((b 6 < 0x21 ∨ b 6 > 0x7b) ∧ b 6 ≠ 0x7d))
  && valid_sym_table_uncompressed (b 7)

/-- The two validation loops of `parse_aprs_mice` over the destination
callsign: true when neither returns. -/
def mice_dstcall_valid (d : Nat → Nat) : Bool :=
  (List.range 3).all (fun i =>
    decide ((48 ≤ d i ∧ d i ≤ 57) ∨ (65 ≤ d i ∧ d i ≤ 76) ∨ (80 ≤ d i ∧ d i ≤ 90)))
  && (List.range' 3 3).all (fun i =>
    decide ((48 ≤ d i ∧ d i ≤ 57) ∨ d i = 76 ∨ (80 ≤ d i ∧ d i ≤ 90)))

/-- The part of `parse_aprs_mice` from the test of `dstcall[1]` and
`dstcall[0]` on; `a` holds `dstcall` and `posambiguity`, `d` reads the
destination callsign (`d_start[i]`) and `b` the body (`body[i]`). After the
byte-class test `body[0..2]` are at least 28, so the `unsigned` subtractions
do not wrap. `lat` is a `float` variable; `0 - lat` and `0 - lng` are exact. -/
def mice_position (E : parse_env F) (pb : pbuf_t F) (d b : Nat → Nat) (a : List Nat × Int) :
    Int × pbuf_t F :=
  if byteAt a.1 1 = 95 ∨ byteAt a.1 0 = 95 then (0, pb)
  else
    match sscanf_mice a.1 with
    | none => (0, pb)
    | some (lat_deg, lat_min, lat_min_frag) =>
      let lat : Rat := float_dmf lat_deg lat_min lat_min_frag
      let lat := if d 3 ≤ 0x4c then 0 - lat else lat
      let lng_deg := mice_lng_deg (b 0) (d 4)
      let lng_min := if b 1 - 28 ≥ 60 then b 1 - 28 - 60 else b 1 - 28
      let lng_min_frag := b 2 - 28
      match mice_lng a.2 lng_deg lng_min lng_min_frag with
      | none => (0, pb)
      | some lng =>
        let lng := if d 5 ≥ 0x50 then 0 - lng else lng
        pbuf_fill_pos E pb lat lng (b 7) (b 6)

/-- The part of `parse_aprs_mice` after the two length tests. After the
validation the six destination bytes are not NUL, so `strncpy` copies them all
and the translation loop visits them all. -/
def mice_decode (E : parse_env F) (pb : pbuf_t F) (d b : Nat → Nat) : Int × pbuf_t F :=
  if mice_dstcall_valid d = false then (0, pb)
  else if mice_body_mask b = false then (0, pb)
  else
    mice_position E pb d b
      (mice_ambiguity (((List.range 6).map (fun k => mice_translate (d k))) ++ [0]))

/-- `parse_aprs_mice`. -/
def parse_aprs_mice (E : parse_env F) (pb : pbuf_t F) (body body_end : Nat) :
    Int × pbuf_t F :=
  if (body_end : Int) - body < 8 then (0, pb)
  else
    let d_start := pb.srccall_end + 1
    if (pb.dstcall_end_or_ssid : Int) - d_start ≠ 6 then (0, pb)
    else
      mice_decode E pb (fun k => byteAt pb.data (d_start + k))
        (fun k => byteAt pb.data (body + k))

/-- The loop `while (p < body_end && *p != ',') p++;` of `parse_aprs_nmea`:
the pointer afterwards. The first argument bounds the number of rounds,
`body_end - p` of them being enough. -/
def nmea_skip_field (data : List Nat) (body_end : Nat) : Nat → Nat → Nat
  | 0, p => p
  | n + 1, p =>
    if p < body_end ∧ byteAt data p ≠ 44 then nmea_skip_field data body_end n (p + 1) else p

/-- The loop `while (*latp != ',' && latp <= body_end) ++latp;` of the `$PNTS`
branch: the pointer afterwards. The first argument bounds the number of
rounds, `body_end + 1 - latp` of them being enough. -/
def nmea_skip_field_pnts (data : List Nat) (body_end : Nat) : Nat → Nat → Nat
  | 0, p => p
  | n + 1, p =>
    if byteAt data p ≠ 44 ∧ p ≤ body_end then nmea_skip_field_pnts data body_end n (p + 1) else p

/-- The statement `if (*p == ',') p++;`. -/
def nmea_skip_comma (data : List Nat) (p : Nat) : Nat :=
  if byteAt data p = 44 then p + 1 else p

/-- The statement `if (*p != ',') p++;`. -/
def nmea_skip_noncomma (data : List Nat) (p : Nat) : Nat :=
  if byteAt data p ≠ 44 then p + 1 else p

/-- The statements of `parse_aprs_nmea` that move `lngp` from the start of the
latitude to the start of the longitude. -/
def nmea_lngp (data : List Nat) (body_end latp : Nat) : Nat :=
  let lngp := nmea_skip_field data body_end (body_end - latp) latp
  let lngp := nmea_skip_comma data lngp
  let lngp := nmea_skip_noncomma data lngp
  nmea_skip_comma data lngp

/-- What the chain of `if (memcmp(body, ...) == 0)` of `parse_aprs_nmea`
leaves: an early `return`, or the pointers `latp` and `lngp` (`none` for
NULL). -/
inductive nmea_sentence where
  | ret (r : Int)
  | ptrs (latp lngp : Option Nat)
deriving DecidableEq, Repr

/-- The chain of `if (memcmp(body, ...) == 0)` of `parse_aprs_nmea`. -/
def nmea_find (data : List Nat) (body body_end : Nat) : nmea_sentence :=
  let kw := fun n => bytes (data.drop body) n
  if kw 6 = [71, 80, 71, 71, 65, 44] then
    let latp := body + 6
    let latp := nmea_skip_field data body_end (body_end - latp) latp
    let latp := nmea_skip_comma data latp
    .ptrs (some latp) (some (nmea_lngp data body_end latp))
  else if kw 6 = [71, 80, 71, 76, 76, 44] then
    let latp := body + 6
    .ptrs (some latp) (some (nmea_lngp data body_end latp))
  else if kw 6 = [71, 80, 82, 77, 67, 44] then
    let latp := body + 6
    let latp := nmea_skip_field data body_end (body_end - latp) latp
    let latp := nmea_skip_comma data latp
    if byteAt data latp ≠ 65 ∧ byteAt data latp ≠ 86 then .ret 0
    else
      let latp := nmea_skip_noncomma data latp
      let latp := nmea_skip_comma data latp
      .ptrs (some latp) (some (nmea_lngp data body_end latp))
  else if kw 6 = [71, 80, 87, 80, 76, 44] then
    .ptrs (some (body + 6)) none
  else if kw 7 = [80, 78, 84, 83, 44, 49, 44] then
    if body + 55 > body_end then .ret 0
    else if byteAt data (body + 7) = 44 then .ret 0
    else if byteAt data (body + 8) ≠ 44 then .ret 0
    else
      let latp := body + 9
      let latp := nmea_skip_field_pnts data body_end (body_end + 1 - latp) latp
      let latp := nmea_skip_comma data latp
      let latp := nmea_skip_field_pnts data body_end (body_end + 1 - latp) latp
      let latp := nmea_skip_comma data latp
      let latp := nmea_skip_field_pnts data body_end (body_end + 1 - latp) latp
      let latp := nmea_skip_comma data latp
      let latp := nmea_skip_field_pnts data body_end (body_end + 1 - latp) latp
      let latp := nmea_skip_comma data latp
      .ptrs (some latp) (some (nmea_lngp data body_end latp))
  else if kw 6 = [71, 80, 71, 83, 65, 44] ∨ kw 6 = [71, 80, 86, 84, 71, 44]
      ∨ kw 6 = [71, 80, 71, 83, 86, 44] then .ret 1
  else .ptrs none none

/-- The calls `sscanf(latp, "%2d%f,%c,", ...)` and `sscanf(lngp, "%3d%f,%c,",
...)` of `parse_aprs_nmea`, `w` being the width of the first conversion: the
three values when the call returns 3, otherwise `none`. -/
def sscanf_nmea (E : parse_env F) (w : Nat) (s : List Nat) : Option (Int × cfloat × Nat) := do
  let a ← scan_int w (cstring s)
  let f ← E.scan_float a.2
  let r ← scan_lit 44 f.2
  let c ← scan_char r
  pure (a.1, f.1, c.1)

/-- `parse_aprs_nmea`. `lat` and `lng` are `float` variables, holding first
what `%f` stored and then the degrees. -/
def parse_aprs_nmea (E : parse_env F) (pb : pbuf_t F) (body body_end : Nat) :
    Int × pbuf_t F :=
  let sym := (get_symbol_from_dstcall pb).getD (32, 32)
  if bytes (pb.data.drop body) 3 = [85, 76, 84] then
    (1, { pb with packettype := pb.packettype ||| T_WX })
  else
    match nmea_find pb.data body body_end with
    | .ret r => (r, pb)
    | .ptrs (some latp) (some lngp) =>
      match sscanf_nmea E 2 (pb.data.drop latp) with
      | none => (0, pb)
      | some (la, lat, lac) =>
        match sscanf_nmea E 3 (pb.data.drop lngp) with
        | none => (0, pb)
        | some (lo, lng, loc) =>
          if lac ≠ 78 ∧ lac ≠ 83 ∧ lac ≠ 110 ∧ lac ≠ 115 then (0, pb)
          else if loc ≠ 69 ∧ loc ≠ 87 ∧ loc ≠ 101 ∧ loc ≠ 119 then (0, pb)
          else
            let lat := nmea_degrees la lat
            let lng := nmea_degrees lo lng
            let lat := if lac = 83 ∨ lac = 115 then lat.neg else lat
            let lng := if loc = 87 ∨ loc = 119 then lng.neg else lng
            pbuf_fill_pos_float E { pb with packettype := pb.packettype ||| T_POSITION }
              lat lng sym.1 sym.2
    | .ptrs _ _ => (0, pb)

/-- `parse_aprs_telem`. -/
def parse_aprs_telem (pb : pbuf_t F) (_body _body_end : Nat) : Int × pbuf_t F :=
  (0, pb)

/-- The loop `for (i = 0; i < 9; i++)` of `parse_aprs_object` from round `i`
on, `namelen` holding its value so far: `none` when a byte is not printable,
otherwise `namelen` after the loop. -/
def object_name_loop (b : Nat → Nat) : Nat → Nat → Int → Option Int
  | 0, _, namelen => some namelen
  | n + 1, i, namelen =>
    if b i < 0x20 ∨ b i > 0x7e then none
    else object_name_loop b n (i + 1) (if b i ≠ 32 then (i : Int) else namelen)

/-- `parse_aprs_object`. -/
def parse_aprs_object (E : parse_env F) (pb : pbuf_t F) (body body_end : Nat) :
    Int × pbuf_t F :=
  let pb := { pb with packettype := pb.packettype ||| T_OBJECT }
  let b := fun k => byteAt pb.data (body + k)
  if b 9 ≠ 42 ∧ b 9 ≠ 95 then (0, pb)
  else if b 16 ≠ 122 ∧ b 16 ≠ 104 ∧ b 16 ≠ 47 then (0, pb)
  else
    match object_name_loop b 9 0 (-1) with
    | none => (0, pb)
    | some namelen =>
      if namelen < 0 then (0, pb)
      else
        let pb := { pb with srcname := body, srcname_len := (namelen + 1).toNat }
        if valid_sym_table_compressed (b 17) = true then
          parse_aprs_compressed E pb (body + 17) body_end
        else if 48 ≤ b 17 ∧ b 17 ≤ 57 then
          parse_aprs_uncompressed E pb (body + 17) body_end
        else (0, pb)

/-- The loop `for (i = 0; i < 9 && body[i] != '!' && body[i] != '_'; i++)` of
`parse_aprs_item` from `i` on: `none` when a byte is not printable, otherwise
`i` after the loop. -/
def item_name_loop (b : Nat → Nat) : Nat → Nat → Option Nat
  | 0, i => some i
  | n + 1, i =>
    if i < 9 ∧ b i ≠ 33 ∧ b i ≠ 95 then
      if b i < 0x20 ∨ b i > 0x7e then none else item_name_loop b n (i + 1)
    else some i

/-- `parse_aprs_item`. -/
def parse_aprs_item (E : parse_env F) (pb : pbuf_t F) (body body_end : Nat) :
    Int × pbuf_t F :=
  let pb := { pb with packettype := pb.packettype ||| T_ITEM }
  let b := fun k => byteAt pb.data (body + k)
  match item_name_loop b 10 0 with
  | none => (0, pb)
  | some i =>
    if b i ≠ 33 ∧ b i ≠ 95 then (0, pb)
    else if i < 3 ∨ i > 9 then (0, pb)
    else
      let pb := { pb with srcname := body, srcname_len := i }
      let i := i + 1
      if valid_sym_table_compressed (b i) = true then
        parse_aprs_compressed E pb (body + i) body_end
      else if 48 ≤ b i ∧ b i ≤ 57 then
        parse_aprs_uncompressed E pb (body + i) body_end
      else (0, pb)

/-- The search of `memchr` over at most `n` bytes from offset `p`. -/
def memchr_loop (data : List Nat) (c : Nat) : Nat → Nat → Option Nat
  | 0, _ => none
  | n + 1, p => if byteAt data p = c then some p else memchr_loop data c n (p + 1)

/-- C `memchr(data + s, c, n)` with `n` computed as an `int`: offset of the
first `c`, `none` for NULL. A negative `n` becomes a huge `size_t` and the
search runs to the end of the modelled memory. -/
def memchr (data : List Nat) (s c : Nat) (n : Int) : Option Nat :=
  memchr_loop data c (if n < 0 then data.length - s else n.toNat) s

/-- The loop `while (dstcall_end < body && *dstcall_end != ',' && *dstcall_end
!= ':') dstcall_end++;` of `parse_aprs_3rdparty`; the first argument bounds
the number of rounds. -/
def thirdparty_dstcall_end (data : List Nat) (body : Nat) : Nat → Nat → Nat
  | 0, p => p
  | n + 1, p =>
    if p < body ∧ byteAt data p ≠ 44 ∧ byteAt data p ≠ 58 then
      thirdparty_dstcall_end data body n (p + 1)
    else p

/-- `parse_aprs_3rdparty`; `parse_aprs_body` is the function it calls on the
inner packet. -/
def parse_aprs_3rdparty (E : parse_env F) (parse_aprs_body : pbuf_t F → Nat → Int × pbuf_t F)
    (pb : pbuf_t F) (info_start : Nat) : Int × pbuf_t F :=
  let s := info_start + 1
  match memchr pb.data s 58 ((pb.packet_len : Int) - 2 - s) with
  | none => (0, pb)
  | some body =>
    let pathlen : Int := (body : Int) - s
    match memchr pb.data s 62
        (if pathlen < CALLSIGNLEN_MAX + 1 then pathlen else CALLSIGNLEN_MAX + 1) with
    | none => (0, pb)
    | some src_end =>
      let path_start := src_end + 1
      if path_start ≥ body then (INERR_INV_3RD_PARTY, pb)
      else if E.check_invalid_src_dst (pb.data.drop s) (src_end - s) ≠ 0 then
        (INERR_INV_SRCCALL, pb)
      else
        let dstcall_end := thirdparty_dstcall_end pb.data body (body - path_start) path_start
        if E.check_invalid_src_dst (pb.data.drop path_start) (dstcall_end - path_start) ≠ 0 then
          (INERR_INV_DSTCALL, pb)
        else if E.check_path_calls pb.data dstcall_end body < 2 then (INERR_INV_3RD_PARTY, pb)
        else
          parse_aprs_body { pb with srcname := s, srcname_len := src_end - s } (body + 1)

/-- The table `disallow_msg_recipients`: `javaMSG`, `JAVATITLE`, `JAVATITL2`,
`USERLIST`, `KIPSS`. -/
def disallow_msg_recipients : List (List Nat) :=
  [[106, 97, 118, 97, 77, 83, 71], [74, 65, 86, 65, 84, 73, 84, 76, 69],
   [74, 65, 86, 65, 84, 73, 84, 76, 50], [85, 83, 69, 82, 76, 73, 83, 84],
   [75, 73, 80, 83, 83]]

/-- The loop `for (i = 0; i < CALLSIGNLEN_MAX; ++i)` of `preparse_aprs_message`
from `i` on: the value of `i` after it. -/
def message_recipient_len (b : Nat → Nat) : Nat → Nat → Nat
  | 0, i => i
  | n + 1, i =>
    if i < CALLSIGNLEN_MAX then
      if b i = 32 ∨ b i = 58 ∨ b i = 0 then i else message_recipient_len b n (i + 1)
    else i

/-- `preparse_aprs_message`. -/
def preparse_aprs_message (E : parse_env F) (pb : pbuf_t F) (body : Nat) (body_len : Int) :
    Int × pbuf_t F :=
  let b := fun k => byteAt pb.data (body + k)
  let kw := fun (off n : Nat) => bytes (pb.data.drop (body + off)) n
  let pb := if kw 0 4 = [78, 87, 83, 45]
    then { pb with packettype := pb.packettype ||| T_NWS } else pb
  let pb := if kw 0 4 = [78, 87, 83, 95]
    then { pb with packettype := pb.packettype ||| T_NWS } else pb
  let pb := if kw 0 3 = [83, 75, 89]
    then { pb with packettype := pb.packettype ||| T_NWS } else pb
  let pb := if b 9 = 58 ∧ body_len ≥ 10 + 6
      ∧ (kw 10 5 = [80, 65, 82, 77, 46] ∨ kw 10 5 = [85, 78, 73, 84, 46]
          ∨ kw 10 5 = [69, 81, 78, 83, 46] ∨ kw 10 5 = [66, 73, 84, 83, 46])
    then { pb with
           packettype := (pb.packettype ^^^ (pb.packettype &&& T_MESSAGE)) ||| T_TELEMETRY }
    else pb
  let i := message_recipient_len b (CALLSIGNLEN_MAX + 1) 0
  let pb := { pb with dstname := body, dstname_len := i }
  if E.check_call_match disallow_msg_recipients (pb.data.drop body) i ≠ 0 then
    (INERR_DIS_MSG_DST, pb)
  else (0, pb)

/-- The code of `parse_aprs_body` after its `switch`: the search for a `!`
within the body. -/
def parse_aprs_body_last_resort (E : parse_env F) (pb : pbuf_t F) (body body_end : Nat) :
    Int × pbuf_t F :=
  match memchr pb.data body 33 ((body_end : Int) - body) with
  | none => (0, pb)
  | some pos_start =>
    if (pos_start : Int) - body ≤ 39 then
      let poschar := byteAt pb.data pos_start
      if valid_sym_table_compressed poschar = true then
        if (body_end : Int) - pos_start ≥ 13 then parse_aprs_compressed E pb pos_start body_end
        else (0, pb)
      else if 0x30 ≤ poschar ∧ poschar ≤ 0x39 then
        if (body_end : Int) - pos_start ≥ 19 then parse_aprs_uncompressed E pb pos_start body_end
        else (0, pb)
      else (0, pb)
    else (0, pb)

/-- The position branch of `parse_aprs_body` (`case '!'`, `'='`, `'/'`,
`'@'`) from the test `body_end - body < 10` on. -/
def parse_aprs_body_position (E : parse_env F) (pb : pbuf_t F) (packettype body body_end : Nat) :
    Int × pbuf_t F :=
  if (body_end : Int) - body < 10 then (0, pb)
  else
    let pb := { pb with packettype := pb.packettype ||| T_POSITION }
    let body := if packettype = 47 ∨ packettype = 64 then body + 7 else body
    let poschar := byteAt pb.data body
    if valid_sym_table_compressed poschar = true then
      if (body_end : Int) - body ≥ 13 then parse_aprs_compressed E pb body body_end
      else (0, pb)
    else if 0x30 ≤ poschar ∧ poschar ≤ 0x39 then
      if (body_end : Int) - body ≥ 19 then parse_aprs_uncompressed E pb body body_end
      else (0, pb)
    else (0, pb)

/-- `parse_aprs_body`. The first argument bounds the depth of the recursion
through `parse_aprs_3rdparty`; at depth 0 the model returns 0. The pattern of
`strncmp(body, "X de ", 5)` holds no NUL, so the call returns 0 exactly when
the five bytes at `body` are the pattern. -/
def parse_aprs_body (E : parse_env F) : Nat → pbuf_t F → Nat → Int × pbuf_t F
  | 0, pb, _ => (0, pb)
  | depth + 1, pb, info_start =>
    let paclen : Int := (pb.packet_len : Int) - pb.info_start - 2
    if paclen < 1 then (0, pb)
    else
      let packettype := byteAt pb.data info_start
      let body := info_start + 1
      let body_end := pb.packet_len - 2
      if packettype = 0x27 ∨ packettype = 0x60 then
        if paclen ≥ 9 then
          parse_aprs_mice E { pb with packettype := pb.packettype ||| T_POSITION } body body_end
        else (0, pb)
      else if packettype = 33 ∧ byteAt pb.data (info_start + 1) = 33 then
        (0, { pb with packettype := pb.packettype ||| T_WX })
      else if packettype = 33 ∨ packettype = 61 ∨ packettype = 47 ∨ packettype = 64 then
        parse_aprs_body_position E pb packettype body body_end
      else if packettype = 36 then
        if (body_end : Int) - body > 10 then parse_aprs_nmea E pb body body_end else (0, pb)
      else if packettype = 58 then
        if paclen ≥ 11 then
          preparse_aprs_message E { pb with packettype := pb.packettype ||| T_MESSAGE } body
            (paclen - 1)
        else (0, pb)
      else if packettype = 59 then
        if (body_end : Int) - body > 29 then parse_aprs_object E pb body body_end else (0, pb)
      else if packettype = 62 then (0, { pb with packettype := pb.packettype ||| T_STATUS })
      else if packettype = 60 then (0, { pb with packettype := pb.packettype ||| T_STATCAPA })
      else if packettype = 63 then (0, { pb with packettype := pb.packettype ||| T_QUERY })
      else if packettype = 41 then
        if (body_end : Int) - body > 18 then parse_aprs_item E pb body body_end else (0, pb)
      else if packettype = 68 then
        if bytes (pb.data.drop body) 5 = [88, 32, 100, 101, 32] then (INERR_DIS_DX, pb)
        else parse_aprs_body_last_resort E pb body body_end
      else if packettype = 84 then
        if (body_end : Int) - body > 18 then
          parse_aprs_telem { pb with packettype := pb.packettype ||| T_TELEMETRY } body body_end
        else (0, pb)
      else if packettype = 35 ∨ packettype = 42 ∨ packettype = 95 then
        (0, { pb with packettype := pb.packettype ||| T_WX })
      else if packettype = 123 then (0, { pb with packettype := pb.packettype ||| T_USERDEF })
      else if packettype = 125 then
        parse_aprs_3rdparty E (parse_aprs_body E depth)
          { pb with packettype := pb.packettype ||| T_3RDPARTY } info_start
      else parse_aprs_body_last_resort E pb body body_end

/-- The loop `for (i = 2; i < pb->packet_len; i++)` of `parse_aprs` from `i`
on: the value of `i` after it. -/
def cwop_digits (d : List Nat) (packet_len : Nat) : Nat → Nat → Nat
  | 0, i => i
  | n + 1, i =>
    if i < packet_len then
      if byteAt d i < 48 ∨ byteAt d i > 57 then i else cwop_digits d packet_len n (i + 1)
    else i

/-- `parse_aprs`. Every level of third-party nesting starts at least two bytes
further into the buffer and at a byte that is `}`, so the depth given to
`parse_aprs_body` is not reached. -/
def parse_aprs (E : parse_env F) (pb : pbuf_t F) : Int × pbuf_t F :=
  if pb.info_start = 0 then (0, pb)
  else
    let pb := { pb with packettype := T_ALL }
    let d := pb.data
    let pb :=
      if byteAt d 1 = 87 ∧ (byteAt d 0 ≥ 67 ∧ byteAt d 0 ≤ 69) then
        let i := cwop_digits d pb.packet_len (pb.packet_len - 2) 2
        if byteAt d i = 62 then { pb with packettype := pb.packettype ||| T_CWOP } else pb
      else pb
    parse_aprs_body E (pb.data.length + 1) pb pb.info_start

/-- A decimal number as `%f` reads it, for closed examples: white space, an
optional sign, decimal digits and an optional fraction, no exponent. -/
def scan_decimal (s : List Nat) : Option (Rat × List Nat) :=
  match scan_skip_space s with
  | [] => none
  | c :: r =>
    let neg := decide (c = 45)
    let t := if c = 43 ∨ c = 45 then r else c :: r
    let a := scan_digits t.length t 0
    let f := match a.2.2 with
      | 46 :: u => scan_digits u.length u 0
      | u => (0, 0, u)
    if a.2.1 = 0 ∧ f.2.1 = 0 then none
    else
      let v : Rat := (a.1 : Rat) + (f.1 : Rat) / (10 ^ f.2.1 : Nat)
      some (if neg = true then -v else v, f.2.2)

/-- An instance of `check_call_match` for closed examples: nonzero exactly
when the `len` bytes at `call` are one of the strings of the set. -/
def check_call_match_example (set : List (List Nat)) (call : List Nat) (len : Nat) : Int :=
  if set.any (fun s => s == bytes call len) = true then -1 else 0

/-- A reading of `%f` for closed examples: after white space and an optional
sign the word `nan`, `infinity` or `inf` in any case, as `strtod` takes them,
or else a decimal number, rounded to the nearest `float`. -/
def scan_float_example (s : List Nat) : Option (cfloat × List Nat) :=
  match scan_skip_space s with
  | [] => none
  | c :: r =>
    let neg := decide (c = 45)
    let t := if c = 43 ∨ c = 45 then r else c :: r
    if (bytes t 3).map tolower = [110, 97, 110] then some (.nan, t.drop 3)
    else if (bytes t 8).map tolower = [105, 110, 102, 105, 110, 105, 116, 121] then
      some (.inf neg, t.drop 8)
    else if (bytes t 3).map tolower = [105, 110, 102] then some (.inf neg, t.drop 3)
    else
      match scan_decimal s with
      | none => none
      | some (v, u) => some (cfloat.of_rat v, u)

/-- An environment for closed examples: degrees are turned into radians with
`355/113` for pi, `cosf` is replaced by the polynomial `1 - x^2/2`, a NaN is
converted to a NaN and has a NaN for cosine, and the two callsign checks of
incoming.c accept everything, `check_path_calls` counting two path elements. -/
def env_example : parse_env cfloat :=
  { filter_lat2rad := fun d => .fin (d * (355 / 113 / 180))
    filter_lon2rad := fun d => .fin (d * (355 / 113 / 180))
    filter_lat2rad_nan := .nan
    filter_lon2rad_nan := .nan
    cosf := fun x =>
      match x with
      | .fin a => .fin (1 - a * a / 2)
      | _ => .nan
    scan_float := scan_float_example
    check_call_match := check_call_match_example
    check_invalid_src_dst := fun _ _ => 0
    check_path_calls := fun _ _ _ => 2 }

/-- A packet buffer as `parse_aprs` receives it: the frame followed by CR LF,
the header offsets set, nothing parsed yet. -/
def frame (text : String) (srccall_end dstcall_end_or_ssid info_start : Nat) : pbuf_t cfloat :=
  { t := 1000, packettype := 0, flags := 0, srcname_len := srccall_end, dstname_len := 0,
    packet_len := text.length + 2, srccall_end := srccall_end,
    dstcall_end_or_ssid := dstcall_end_or_ssid, info_start := info_start,
    srcname := 0, dstname := 0, srcname_hash := 0, lat := .fin 0, lng := .fin 0,
    cos_lat := .fin 0,
    symbol := [0, 0, 0],
    data := text.toList.map Char.toNat ++ [13, 10] }

/-- Scenario S1: `OH7LZB>APRS,TCPIP*:!6028.51N/02505.68E-Test`. -/
def frame_S1 : pbuf_t cfloat := frame "OH7LZB>APRS,TCPIP*:!6028.51N/02505.68E-Test" 6 11 19

/-- Scenario S2: `OH2MQK-1>APRS:;LEADER   *111111z4903.50N/07201.75W>`. -/
def frame_S2 : pbuf_t cfloat := frame "OH2MQK-1>APRS:;LEADER   *111111z4903.50N/07201.75W>" 8 13 14

/-- Scenario S3, a Mic-E packet with destination `APT310` and the body
`0<0l #>/` after the type byte. -/
def frame_S3 : pbuf_t cfloat := frame "N0CALL>APT310,WIDE2-2:`0<0l #>/" 6 13 22

/-- Scenario S4: `W5XX>JAVA,qAU,WB5AOH::javaMSG  :hello`. -/
def frame_S4 : pbuf_t cfloat := frame "W5XX>JAVA,qAU,WB5AOH::javaMSG  :hello" 4 9 21

/-- Scenario S5: `A>B:DX de xyz`. -/
def frame_S5 : pbuf_t cfloat := frame "A>B:DX de xyz" 1 3 4

/-- The rejection rule as the specification words it: `|lat| > 90`, or
`|lng| > 180`, or both coordinates within `0.0001` degrees of `(0, 0)`, of
`(0, 90)` or of `(0, -90)`, the pairs read as `(lat, lng)`. -/
def spec_position_rejected (lat lng : Rat) : Bool :=
  decide (|lat| > 90) || decide (|lng| > 180)
  || decide (|lat| ≤ 0.0001 ∧ |lng| ≤ 0.0001)
  || decide (|lat| ≤ 0.0001 ∧ |lng - 90| ≤ 0.0001)
  || decide (|lat| ≤ 0.0001 ∧ |lng + 90| ≤ 0.0001)

/-- The same rule with the degenerate points read as `(lng, lat)`, that is the
poles `(90, 0)` and `(-90, 0)`. -/
def spec_position_rejected_poles (lat lng : Rat) : Bool :=
  decide (|lat| > 90) || decide (|lng| > 180)
  || decide (|lat| ≤ 0.0001 ∧ |lng| ≤ 0.0001)
  || decide (|lat - 90| ≤ 0.0001 ∧ |lng| ≤ 0.0001)
  || decide (|lat + 90| ≤ 0.0001 ∧ |lng| ≤ 0.0001)

/-- The positions `pbuf_fill_pos` rejects: out of range, within `0.0001`
degrees of longitude 0 beyond latitude `89.9` north or south, or within
`0.0001` degrees of latitude 0 at a longitude within `0.0001` of 0 or within
`0.01` of `90` or `-90`. -/
def pos_rejected (lat lng : Rat) : Prop :=
  (lat < -89.9 ∧ -0.0001 ≤ lng ∧ lng ≤ 0.0001)
  ∨ (lat > 89.9 ∧ -0.0001 ≤ lng ∧ lng ≤ 0.0001)
  ∨ (-0.0001 ≤ lat ∧ lat ≤ 0.0001
      ∧ ((-0.0001 ≤ lng ∧ lng ≤ 0.0001) ∨ (-90.01 ≤ lng ∧ lng ≤ -89.99)
          ∨ (89.99 ≤ lng ∧ lng ≤ 90.01)))
  ∨ lat < -90 ∨ lat > 90 ∨ lng < -180 ∨ lng > 180

/-- The packet as `pbuf_fill_pos` leaves it before the range test: the symbol
stored and `T_WX` set for the weather symbols. -/
def pbuf_fill_sym (pb : pbuf_t F) (sym_table sym_code : Nat) : pbuf_t F :=
  { pb with
    symbol := [sym_table, sym_code, 0]
    packettype :=
      if (sym_code = 95 ∨ sym_code = 64) ∧ valid_sym_table_uncompressed sym_table = true
      then pb.packettype ||| T_WX else pb.packettype }

/-- A compressed position packet, the example of the APRS protocol reference:
`N0CALL>APRS:!/5L!!<*e7>7P[`, about latitude `49.5`, longitude `-72.75`. -/
def frame_compressed : pbuf_t cfloat := frame "N0CALL>APRS:!/5L!!<*e7>7P[" 6 11 12

instance pos_rejected_decidable (lat lng : Rat) : Decidable (pos_rejected lat lng) := by
  unfold pos_rejected
  infer_instance

/-- The number two decimal digits stand for. -/
def dec2 (a b : Nat) : Nat := (a - 48) * 10 + (b - 48)

/-- The number three decimal digits stand for. -/
def dec3 (a b c : Nat) : Nat := ((a - 48) * 10 + (b - 48)) * 10 + (c - 48)

/-- The digit a destination character of a Mic-E packet stands for: `0-9`
for themselves, `A-J` and `P-Y` by their rank. -/
def mice_digit (c : Nat) : Nat :=
  if c ≤ 57 then c - 48 else if c ≤ 74 then c - 65 else c - 80

/-- The byte classes of the Mic-E body:
`[0x26-0x7f][0x26-0x61][0x1c-0x7f]{2}[0x1c-0x7d][0x1c-0x7f][0x21-0x7b,0x7d]`
and a symbol table byte out of `/`, `\`, `A-Z`, `0-9`. -/
def mice_mask_ok (b : Nat → Nat) : Prop :=
  (0x26 ≤ b 0 ∧ b 0 ≤ 0x7f) ∧ (0x26 ≤ b 1 ∧ b 1 ≤ 0x61) ∧ (0x1c ≤ b 2 ∧ b 2 ≤ 0x7f)
  ∧ (0x1c ≤ b 3 ∧ b 3 ≤ 0x7f) ∧ (0x1c ≤ b 4 ∧ b 4 ≤ 0x7d) ∧ (0x1c ≤ b 5 ∧ b 5 ≤ 0x7f)
  ∧ ((0x21 ≤ b 6 ∧ b 6 ≤ 0x7b) ∨ b 6 = 0x7d)
  ∧ (b 7 = 47 ∨ b 7 = 92 ∨ (65 ≤ b 7 ∧ b 7 ≤ 90) ∨ (48 ≤ b 7 ∧ b 7 ≤ 57))

/-- The valid Mic-E destination characters: `0-9`, `A-L`, `P-Z` in the first
three places, `0-9`, `L`, `P-Z` in the last three. -/
def mice_dst_ok (d : Nat → Nat) : Prop :=
  (∀ i, i < 3 → (48 ≤ d i ∧ d i ≤ 57) ∨ (65 ≤ d i ∧ d i ≤ 76) ∨ (80 ≤ d i ∧ d i ≤ 90))
  ∧ (∀ i, 3 ≤ i → i < 6 → (48 ≤ d i ∧ d i ≤ 57) ∨ d i = 76 ∨ (80 ≤ d i ∧ d i ≤ 90))

/-- None of the six destination characters is one of the ambiguity characters
`K`, `L`, `Z`. -/
def mice_dst_plain (d : Nat → Nat) : Prop :=
  ∀ i, i < 6 → d i ≠ 75 ∧ d i ≠ 76 ∧ d i ≠ 90

/-- The longitude degrees of a Mic-E packet in the words of the claim: byte 0
of the body minus 28, plus 100 when the 5th destination character is `P-Z`,
`180..189` mapped to `100..109` and `190..199` to `0..9`. -/
def spec_mice_lng_deg (b0 d4 : Nat) : Nat :=
  let x := b0 - 28 + (if 80 ≤ d4 ∧ d4 ≤ 90 then 100 else 0)
  if 180 ≤ x ∧ x ≤ 189 then x - 80 else if 190 ≤ x ∧ x ≤ 199 then x - 190 else x

/-- The longitude minutes of a Mic-E packet in the words of the claim: byte 1
of the body minus 28, minus 60 when that is 60 or more. -/
def spec_mice_lng_min (b1 : Nat) : Nat :=
  if b1 - 28 ≥ 60 then b1 - 28 - 60 else b1 - 28

/-- The latitude of a Mic-E packet in the words of the claim, from the six
destination characters: `d0d1 + d2d3/60 + d4d5/6000`, south when the 4th
character is a digit or `L`. -/
def spec_mice_lat (d : Nat → Nat) : Rat :=
  (if d 3 ≤ 57 ∨ d 3 = 76 then -1 else 1)
    * (((mice_digit (d 0) * 10 + mice_digit (d 1) : Nat) : Rat)
      + ((mice_digit (d 2) * 10 + mice_digit (d 3) : Nat) : Rat) / 60
      + ((mice_digit (d 4) * 10 + mice_digit (d 5) : Nat) : Rat) / 6000)

/-- The longitude of a Mic-E packet in the words of the claim:
`deg + min/60 + frac/6000`, west when the 6th destination character is
`P-Z`. -/
def spec_mice_lng (d b : Nat → Nat) : Rat :=
  (if 80 ≤ d 5 ∧ d 5 ≤ 90 then -1 else 1)
    * ((spec_mice_lng_deg (b 0) (d 4) : Rat) + (spec_mice_lng_min (b 1) : Rat) / 60
      + ((b 2 - 28 : Nat) : Rat) / 6000)

/-- The two ways a position decoder ends: it returns 0 and leaves the packet
as it is, or it ends in a call of `pbuf_fill_pos` on that packet. -/
def decoder_outcome (E : parse_env F) (pb : pbuf_t F) (r : Int × pbuf_t F) : Prop :=
  r = (0, pb) ∨ ∃ lat lng sym_table sym_code, r = pbuf_fill_pos E pb lat lng sym_table sym_code

/-- Two packet buffers with the same flags and the same stored position. -/
def pos_fields_eq (a b : pbuf_t F) : Prop :=
  a.flags = b.flags ∧ a.lat = b.lat ∧ a.lng = b.lng ∧ a.cos_lat = b.cos_lat

/-- An environment whose `%f` stores no NaN, whatever it reads. -/
def scan_no_nan (E : parse_env F) : Prop :=
  ∀ s v r, E.scan_float s = some (v, r) → v ≠ cfloat.nan

/-- What a parsing function does to the position of a packet: it leaves flags
and position as they are, or it ends in a call of `pbuf_fill_pos` on a packet
whose flags and position are still those it received, with a latitude and a
longitude that are not NaN unless `%f` stored one. -/
def pos_outcome (E : parse_env F) (pb : pbuf_t F) (r : Int × pbuf_t F) : Prop :=
  pos_fields_eq pb r.2
  ∨ ∃ pb1 lat lng sym_table sym_code,
      pos_fields_eq pb pb1 ∧ (scan_no_nan E → lat ≠ cfloat.nan ∧ lng ≠ cfloat.nan)
      ∧ r = pbuf_fill_pos_float E pb1 lat lng sym_table sym_code

/-- The invariant of the stored position: when `F_HASPOS` is set, the stored
latitude and longitude are the conversions of a latitude within `-90..90` and
a longitude within `-180..180` degrees, and `cos_lat` is `cosf` of the stored
latitude. -/
def pos_inv (E : parse_env F) (pb : pbuf_t F) : Prop :=
  pb.flags &&& F_HASPOS ≠ 0 →
    ∃ lat lng : Rat, -90 ≤ lat ∧ lat ≤ 90 ∧ -180 ≤ lng ∧ lng ≤ 180
      ∧ pb.lat = E.filter_lat2rad lat ∧ pb.lng = E.filter_lon2rad lng
      ∧ pb.cos_lat = E.cosf pb.lat

/-- A packet whose information field has an unrecognised first byte and a `!`
followed by an uncompressed position: `N0CALL>APRS:Xtext!6028.51N/02505.68E-`. -/
def frame_last_resort : pbuf_t cfloat := frame "N0CALL>APRS:Xtext!6028.51N/02505.68E-" 6 11 12

/-- The value of a byte read as a `char` where `char` is a signed type, as it
is on x86: bytes from 128 on are the negative numbers `-128..-1`. -/
def char_signed (b : Nat) : Int := if b < 128 then (b : Int) else (b : Int) - 256

/-- A packet with the destination callsign `GPSC99`. -/
def frame_GPSC99 : pbuf_t cfloat := frame "N0CALL>GPSC99:>status" 6 13 14

/-- A packet with the body `$GPWPL,4610.586,N,00607.754,E,4*70`. -/
def frame_gpwpl : pbuf_t cfloat := frame "N0CALL>APRS:$GPWPL,4610.586,N,00607.754,E,4*70" 6 11 12

/-- A packet with a `$GPGGA` sentence. -/
def frame_gpgga : pbuf_t cfloat :=
  frame "N0CALL>APRS:$GPGGA,175059,3347.4969,N,11805.7319,W,2,12,1.0,6.8,M,-32.1,M,,*7D" 6 11 12

/-- A packet with a `$GPRMC` sentence whose validity field is `V`. -/
def frame_gprmc_void : pbuf_t cfloat :=
  frame "N0CALL>APRS:$GPRMC,000043,V,4411.7761,N,07927.0448,W,0.000,0.0,290697,10.7,W*57" 6 11 12

/-- A packet with a `$GPRMC` sentence whose validity field is `X`. -/
def frame_gprmc_other : pbuf_t cfloat :=
  frame "N0CALL>APRS:$GPRMC,000043,X,4411.7761,N,07927.0448,W,0.000,0.0,290697,10.7,W*57" 6 11 12

/-- The pointer `latp` of the `$GPRMC` branch of `parse_aprs_nmea` when it
reaches the test of the validity field. -/
def gprmc_validity (data : List Nat) (body body_end : Nat) : Nat :=
  nmea_skip_comma data (nmea_skip_field data body_end (body_end - (body + 6)) (body + 6))

/-- The pointer `latp` of the `$GPRMC` branch of `parse_aprs_nmea` after the
validity field. -/
def gprmc_latp (data : List Nat) (body body_end : Nat) : Nat :=
  nmea_skip_comma data (nmea_skip_noncomma data (gprmc_validity data body body_end))

/-- The fields of `struct aprs_message_t` that `parse_aprs_message` writes
(parse_aprs.h is not among the sources). `body` and `msgid` are offsets into
the buffer of the packet, 0 standing for NULL after the `memset`; the lengths
and `is_ack` are `int`s. -/
structure aprs_message_t where
  body : Nat
  body_len : Int
  msgid : Nat
  msgid_len : Int
  is_ack : Int
deriving DecidableEq, Repr

/-- The loop `while (p > am->body && *p != '{') p--;` of `parse_aprs_message`:
the pointer afterwards. The first argument bounds the number of rounds,
`p - body` of them being enough. -/
def message_scan_back (data : List Nat) (body : Nat) : Nat → Nat → Nat
  | 0, p => p
  | n + 1, p =>
    if p > body ∧ byteAt data p ≠ 123 then message_scan_back data body n (p - 1) else p

/-- `parse_aprs_message`: return value and `*am` afterwards. The pointer
`am->body + am->body_len - 1` is `pb->data + pb->packet_len + 8`, whatever
`info_start` is. -/
def parse_aprs_message (pb : pbuf_t F) : Int × aprs_message_t :=
  let am : aprs_message_t := ⟨0, 0, 0, 0, 0⟩
  if pb.packettype &&& T_MESSAGE = 0 then (-1, am)
  else if byteAt pb.data (pb.info_start + 10) ≠ 58 then (-2, am)
  else
    let body := pb.info_start + 11
    let body_len : Int := (pb.packet_len : Int) - 2 - pb.info_start
    let am := { am with body := body, body_len := body_len }
    let p := ((body : Int) + body_len - 1).toNat
    let p := message_scan_back pb.data body (p - body) p
    let am :=
      if byteAt pb.data p = 123 then
        { am with
          msgid := p + 1
          msgid_len := (pb.packet_len : Int) - 2 - ((p + 1 : Nat) : Int)
          body_len := (p : Int) - body }
      else am
    if am.msgid_len = 0 ∧ am.body_len > 3 ∧ byteAt pb.data body = 97
        ∧ byteAt pb.data (body + 1) = 99 ∧ byteAt pb.data (body + 2) = 107 then
      (0, { am with is_ack := 1, msgid := body + 3, msgid_len := am.body_len - 3, body_len := 0 })
    else (0, am)

/-- The message `A>B::SERVER   :hello` as `parse_aprs` leaves it. -/
def message_hello : pbuf_t cfloat := (parse_aprs env_example (frame "A>B::SERVER   :hello" 1 3 4)).2

/-- The message `A>B::SERVER   :ack42` as `parse_aprs` leaves it. -/
def message_ack : pbuf_t cfloat := (parse_aprs env_example (frame "A>B::SERVER   :ack42" 1 3 4)).2

/-- The message `A>B::SERVER   :hello{7` as `parse_aprs` leaves it. -/
def message_id : pbuf_t cfloat := (parse_aprs env_example (frame "A>B::SERVER   :hello\x7b7" 1 3 4)).2

/-- The message `A>B::SERVER   :hello` in a buffer that holds `old{99` after
the CR LF of the packet. -/
def message_hello_stale : pbuf_t cfloat :=
  { message_hello with data := message_hello.data ++ [111, 108, 100, 123, 57, 57] }

/-- `client_heard_json`: the strings of the array it builds, in order.
`cJSON_CreateString` copies the C string at `h->callsign`. -/
def client_heard_json (list : Fin CLIENT_HEARD_BUCKETS → List client_heard_t) :
    List (List Nat) :=
  ((List.finRange CLIENT_HEARD_BUCKETS).map
    (fun i => (list i).map (fun h => cstring h.callsign))).flatten

/-- The loop of `client_heard_json_load` from round `i` on. An item of the
array is given by its `valuestring`, `none` for an item without one;
`cellmalloc i` is what the allocator returns in round `i`, should it be
called. -/
def client_heard_json_load_loop (keyhashuc : List Nat → Nat → Nat) (tick : Int)
    (cellmalloc : Nat → Option client_heard_t) :
    Nat → List (Option (List Nat)) → client_t → client_t
  | _, [], c => c
  | i, none :: rest, c => client_heard_json_load_loop keyhashuc tick cellmalloc (i + 1) rest c
  | i, some s :: rest, c =>
    let r := heard_list_update keyhashuc (cellmalloc i) s (strlen s) tick
      c.client_heard c.client_heard_count
    client_heard_json_load_loop keyhashuc tick cellmalloc (i + 1) rest
      { c with client_heard := r.1, client_heard_count := r.2 }

/-- `client_heard_json_load`: return value and the client afterwards; the
global `tick` is an argument. -/
def client_heard_json_load (keyhashuc : List Nat → Nat → Nat) (tick : Int)
    (cellmalloc : Nat → Option client_heard_t) (c : client_t)
    (dump : List (Option (List Nat))) : Int × client_t :=
  (dump.length, client_heard_json_load_loop keyhashuc tick cellmalloc 0 dump c)

/-- A cell that has not been used before: all bytes zero. -/
def fresh_cell : client_heard_t :=
  { hash := 0, last_heard := 0, call_len := 0, callsign := List.replicate 10 0 }

/-- The packet `OH2MQK-15>APRS:>status` at arrival time `t`. -/
def packet_OH2MQK15 (t : Int) : pbuf_t Int :=
  { packet_S1 t with
    srccall_end := 9, dstcall_end_or_ssid := 14, info_start := 15, packet_len := 24
    data := "OH2MQK-15>APRS:>status".toList.map Char.toNat ++ [13, 10] }

/-- A client that has heard `OH7LZB` once, the entry being in a cell that held
the entry of `OH2MQK-15` before. -/
def client_heard_reused : client_t :=
  client_heard_update keyhashuc_fnv (some stale_cell) (packet_S1 1000) client_empty

/-- The value of `pb->packettype` after the tests of `preparse_aprs_message`
for NWS messages and telemetry, `pt` being its value before. -/
def preparse_type (data : List Nat) (pt body : Nat) (body_len : Int) : Nat :=
  let kw := fun (off n : Nat) => bytes (data.drop (body + off)) n
  let pt := if kw 0 4 = [78, 87, 83, 45] then pt ||| T_NWS else pt
  let pt := if kw 0 4 = [78, 87, 83, 95] then pt ||| T_NWS else pt
  let pt := if kw 0 3 = [83, 75, 89] then pt ||| T_NWS else pt
  if byteAt data (body + 9) = 58 ∧ body_len ≥ 10 + 6
      ∧ (kw 10 5 = [80, 65, 82, 77, 46] ∨ kw 10 5 = [85, 78, 73, 84, 46]
          ∨ kw 10 5 = [69, 81, 78, 83, 46] ∨ kw 10 5 = [66, 73, 84, 83, 46])
  then (pt ^^^ (pt &&& T_MESSAGE)) ||| T_TELEMETRY
  else pt

/-- The test of `preparse_aprs_message` for telemetry, in terms of the
information field: a `:` at offset 10, one of `PARM.`, `UNIT.`, `EQNS.`,
`BITS.` at offset 11, and at least 17 bytes of information field. -/
def telemetry_message (pb : pbuf_t F) : Prop :=
  byteAt pb.data (pb.info_start + 10) = 58 ∧ pb.info_start + 17 + 2 ≤ pb.packet_len
    ∧ (bytes (pb.data.drop (pb.info_start + 11)) 5 = [80, 65, 82, 77, 46]
      ∨ bytes (pb.data.drop (pb.info_start + 11)) 5 = [85, 78, 73, 84, 46]
      ∨ bytes (pb.data.drop (pb.info_start + 11)) 5 = [69, 81, 78, 83, 46]
      ∨ bytes (pb.data.drop (pb.info_start + 11)) 5 = [66, 73, 84, 83, 46])

/-- The recipient of a message as the specification cuts it: the bytes of the
9-byte field before its first space or `:`; the length from offset `i` on. -/
def spec_recipient_len (b : Nat → Nat) : Nat → Nat → Nat
  | 0, i => i
  | n + 1, i =>
    if i < 9 then
      if b i = 32 ∨ b i = 58 then i else spec_recipient_len b n (i + 1)
    else i

/-- A message whose recipient field holds a NUL: `KIPSS`, NUL, `abc`. -/
def frame_recipient_nul : pbuf_t cfloat := frame "A>B::KIPSS\x00abc:hello" 1 3 4

/-- An information field of 16 bytes that begins with `:` and has no `:` at
offset 10. -/
def frame_no_second_colon : pbuf_t cfloat := frame "A>B::ABCDEFGHIJKLMNO" 1 3 4

/-- A message with the recipient `N0CALL` and the text `PARM.`, nothing after
it. -/
def frame_parm_bare : pbuf_t cfloat := frame "A>B::N0CALL   :PARM." 1 3 4

/-- A message with the recipient `N0CALL` and the text `PARM.Vbat`. -/
def frame_parm : pbuf_t cfloat := frame "A>B::N0CALL   :PARM.Vbat" 1 3 4

/-- The object format as the specification words it, for an object whose name
starts at `body`: byte 9 is `*` or `_`, byte 16 is one of `z`, `h`, `/`, and
the 9 bytes of the name are printable (`0x20..0x7e`) and not all spaces. -/
def object_wellformed (data : List Nat) (body : Nat) : Prop :=
  (byteAt data (body + 9) = 42 ∨ byteAt data (body + 9) = 95)
  ∧ (byteAt data (body + 16) = 122 ∨ byteAt data (body + 16) = 104
      ∨ byteAt data (body + 16) = 47)
  ∧ (∀ k, k < 9 → 0x20 ≤ byteAt data (body + k) ∧ byteAt data (body + k) ≤ 0x7e)
  ∧ (∃ k, k < 9 ∧ byteAt data (body + k) ≠ 32)

/-- The code of `parse_aprs_object` that forwards to the position decoders,
for a position that starts at `p`. -/
def object_position (E : parse_env F) (pb : pbuf_t F) (p body_end : Nat) : Int × pbuf_t F :=
  if valid_sym_table_compressed (byteAt pb.data p) = true then
    parse_aprs_compressed E pb p body_end
  else if 48 ≤ byteAt pb.data p ∧ byteAt pb.data p ≤ 57 then
    parse_aprs_uncompressed E pb p body_end
  else (0, pb)

/-- The byte at offset `p` is the first `c` among the `n` bytes from offset
`s`. -/
def first_at (data : List Nat) (s n c p : Nat) : Prop :=
  s ≤ p ∧ p < s + n ∧ byteAt data p = c ∧ ∀ k, k < p → s ≤ k → byteAt data k ≠ c

/-- A third-party packet with the inner header `OH7LZB>APRS,TCPIP,N0CALL*` and
the inner payload of scenario S1. -/
def frame_3rdparty : pbuf_t cfloat :=
  frame "N0CALL>APRS:\x7dOH7LZB>APRS,TCPIP,N0CALL*:!6028.51N/02505.68E-" 6 11 12

/-- The witness of the claim about nested payloads: `A>B:}C>D,E,F::ab`. The
inner header ends at the `:` at offset 12, the inner payload `:ab` has three
bytes. -/
def frame_nested_message : pbuf_t cfloat := frame "A>B:\x7dC>D,E,F::ab" 1 3 4

/-- A packet from the source callsign `CW`, no digit after it. -/
def frame_cw_bare : pbuf_t cfloat := frame "CW>APRS:>status" 2 7 8

/-- A packet from the source callsign `CW0123`. -/
def frame_cw_digits : pbuf_t cfloat := frame "CW0123>APRS:>status" 6 11 12

/-- One alarm of status.c (`struct status_error_t` without its `next`
pointer, which is the list structure of `status_errs`). `err` is the C string
`e->err` points to. -/
structure status_error_t where
  err : List Nat
  set : Int
  started : Int
  ends : Int
deriving DecidableEq, Repr

/-- C `strcmp(a, b) == 0`. -/
def strcmp_eq (a b : List Nat) : Bool := cstring a == cstring b

/-- The statements of `status_error` on the entry `e` that `status_error_find`
returned; `time` is what `time(NULL)` returns. -/
def status_error_set (ttl : Int) (time : Int) (e : status_error_t) : status_error_t :=
  if ttl > 0 then
    let e := if e.set ≠ 1 then { e with started := time, set := 1 } else e
    { e with ends := e.started + ttl }
  else
    if e.set ≠ 0 then { e with ends := time, set := 0 } else e

/-- The loop of `status_error_find` followed by the update of the entry found:
`none` when the loop ends without a match. -/
def status_error_loop (ttl : Int) (time : Int) (err : List Nat) :
    List status_error_t → Option (List status_error_t)
  | [] => none
  | e :: rest =>
    if strcmp_eq e.err err = true then some (status_error_set ttl time e :: rest)
    else (status_error_loop ttl time err rest).map (fun l => e :: l)

/-- `status_error` on the list `status_errs`, the mutex being taken without
error. `hmalloc` is the memory `hmalloc` returns, should `status_error_find`
allocate: its `started` and `ends` are what the new entry starts with. -/
def status_error (hmalloc : status_error_t) (ttl : Int) (err : List Nat) (time : Int)
    (status_errs : List status_error_t) : List status_error_t :=
  match status_error_loop ttl time err status_errs with
  | some l => l
  | none =>
    status_error_set ttl time { hmalloc with err := cstring err, set := -1 } :: status_errs

/-- `status_error_json` at the wall-clock time `now`: the entries it puts into
the array, each with its `err`, `set`, `start` and `end`. -/
def status_error_json (now : Int) (status_errs : List status_error_t) : List status_error_t :=
  status_errs.filter (fun e => !decide (e.ends < now))

/-- The string `lut` of `hex_encode`. -/
def hex_lut : List Nat := "0123456789abcdef".toList.map Char.toNat

/-- The read `lut[k]`: a byte of the string for `0 <= k < 16`, its NUL for
`k = 16`, and for any other index whatever the memory around the string holds,
given by `outside`. -/
def hex_lut_read (outside : Int → Nat) (k : Int) : Nat :=
  if 0 ≤ k ∧ k < 16 then byteAt hex_lut k.toNat
  else if k = 16 then 0
  else outside k

/-- `hex_encode` where `char` is a signed type: the string written to `s`. For
a negative `c` the shift `c >> 4` is the arithmetic one, `c / 16` rounded
down, and `c & 15` is the remainder `c % 16` in `0..15`. -/
def hex_encode (outside : Int → Nat) (buf : List Nat) (len : Nat) : List Nat :=
  ((List.range len).map (fun i =>
      [hex_lut_read outside (char_signed (byteAt buf i) / 16),
       hex_lut_read outside (char_signed (byteAt buf i) % 16)])).flatten ++ [0]

/-- The value of one hexadecimal digit in `hex_decode`, `none` for the
`return -1`. -/
def hex_decode_digit (c : Nat) : Option Nat :=
  let h := toupper c
  if 0x30 ≤ h ∧ h ≤ 0x39 then some (h - 0x30)
  else if 0x41 ≤ h ∧ h ≤ 0x46 then some (h - 0x41 + 10)
  else none

/-- The loop of `hex_decode`, `n` rounds of it from `i` on: `none` for the
`return -1`, otherwise the bytes stored into `obuf`. -/
def hex_decode_loop (hex : List Nat) : Nat → Nat → Option (List Nat)
  | 0, _ => some []
  | n + 1, i =>
    match hex_decode_digit (byteAt hex i), hex_decode_digit (byteAt hex (i + 1)) with
    | some h, some l => (hex_decode_loop hex n (i + 2)).map (fun r => (h * 16 + l) % 256 :: r)
    | _, _ => none

/-- `hex_decode`: return value and the bytes stored at the start of `obuf`
when it does not return -1. -/
def hex_decode (olen : Int) (hex : List Nat) : Int × List Nat :=
  let len := strlen hex
  if len % 2 = 1 then (-1, [])
  else if olen < (len / 2 : Nat) then (-1, [])
  else
    match hex_decode_loop hex (len / 2) 0 with
    | none => (-1, [])
    | some r => (r.length, r)

/-- The pairs `get_symbol_from_dstcall_twochar` accepts, with the table and
the code each gives, as the ranges of the mapping: `B` and `O` with `B-P` for
the codes `!`..`/`, `P` and `A` with a digit or a capital letter for that
character, `M` and `N` with `R-X` for `:`..`@`, `H` and `D` with `S-X` for
`[`..backtick, `L` and `S` with `A-Z` for `a`..`z`, `J` and `Q` with `1-4`
for the four codes from 123 to 126; the first letter of each pair stands for
the table `/`, the second for the table `\`. -/
def twochar_rel (c1 c2 t code : Nat) : Prop :=
  (c1 = 66 ∧ 66 ≤ c2 ∧ c2 ≤ 80 ∧ t = 47 ∧ code = c2 - 33)
  ∨ (c1 = 80 ∧ ((48 ≤ c2 ∧ c2 ≤ 57) ∨ (65 ≤ c2 ∧ c2 ≤ 90)) ∧ t = 47 ∧ code = c2)
  ∨ (c1 = 77 ∧ 82 ≤ c2 ∧ c2 ≤ 88 ∧ t = 47 ∧ code = c2 - 24)
  ∨ (c1 = 72 ∧ 83 ≤ c2 ∧ c2 ≤ 88 ∧ t = 47 ∧ code = c2 + 8)
  ∨ (c1 = 76 ∧ 65 ≤ c2 ∧ c2 ≤ 90 ∧ t = 47 ∧ code = c2 + 32)
  ∨ (c1 = 74 ∧ 49 ≤ c2 ∧ c2 ≤ 52 ∧ t = 47 ∧ code = c2 + 74)
  ∨ (c1 = 79 ∧ 66 ≤ c2 ∧ c2 ≤ 80 ∧ t = 92 ∧ code = c2 - 33)
  ∨ (c1 = 65 ∧ ((48 ≤ c2 ∧ c2 ≤ 57) ∨ (65 ≤ c2 ∧ c2 ≤ 90)) ∧ t = 92 ∧ code = c2)
  ∨ (c1 = 78 ∧ 82 ≤ c2 ∧ c2 ≤ 88 ∧ t = 92 ∧ code = c2 - 24)
  ∨ (c1 = 68 ∧ 83 ≤ c2 ∧ c2 ≤ 88 ∧ t = 92 ∧ code = c2 + 8)
  ∨ (c1 = 83 ∧ 65 ≤ c2 ∧ c2 ≤ 90 ∧ t = 92 ∧ code = c2 + 32)
  ∨ (c1 = 81 ∧ 49 ≤ c2 ∧ c2 ≤ 52 ∧ t = 92 ∧ code = c2 + 74)

/-- The pair that stands for the symbol code `code` of the table `/`
(`t = 47`) or `\`. -/
def twochar_inverse (t code : Nat) : Nat × Nat :=
  if code ≤ 47 then (if t = 47 then 66 else 79, code + 33)
  else if code ≤ 57 then (if t = 47 then 80 else 65, code)
  else if code ≤ 64 then (if t = 47 then 77 else 78, code + 24)
  else if code ≤ 90 then (if t = 47 then 80 else 65, code)
  else if code ≤ 96 then (if t = 47 then 72 else 68, code - 8)
  else if code ≤ 122 then (if t = 47 then 76 else 83, code - 32)
  else (if t = 47 then 74 else 81, code - 74)

/-- The 19 bytes of an uncompressed position with the position ambiguity
filled in as the specification says: a space becomes `3` at the offsets 2 and
12, `5` at the offsets 3, 13, 5, 6, 15 and 16, and stays a space anywhere
else. -/
def spec_ambiguity_fill (field : List Nat) : List Nat :=
  (List.range 19).map (fun i =>
    if byteAt field i = 32 then
      if i = 2 ∨ i = 12 then 51
      else if i = 3 ∨ i = 13 ∨ i = 5 ∨ i = 6 ∨ i = 15 ∨ i = 16 then 53
      else 32
    else byteAt field i)

/-- A packet with an uncompressed position whose minute units and minute
fractions are spaces: `!602 .  N/0250 .  E-`. -/
def frame_ambiguity : pbuf_t cfloat := frame "OH7LZB>APRS:!602 .  N/0250 .  E-" 6 11 12

/-- The same position with `5` in place of the spaces: `!6025.55N/02505.55E-`. -/
def frame_ambiguity_filled : pbuf_t cfloat := frame "OH7LZB>APRS:!6025.55N/02505.55E-" 6 11 12

/-- The number of entries in the 16 buckets of a heard or courtesy table. -/
def heard_total (list : Fin CLIENT_HEARD_BUCKETS → List client_heard_t) : Int :=
  ∑ i, ((list i).length : Int)

/-- The clients reached from a client with empty tables by any sequence of
`client_heard_update`, `client_courtesy_update`, `client_heard_check`,
`client_courtesy_needed`, `client_heard_expire` and `client_heard_free`, with
any packet, any allocator result, any tick and any store times. -/
inductive client_reachable (F : Type) (keyhashuc : List Nat → Nat → Nat) : client_t → Prop
  | init : client_reachable F keyhashuc client_empty
  | heard_update (cellmalloc : Option client_heard_t) (pb : pbuf_t F) {c : client_t} :
      client_reachable F keyhashuc c →
      client_reachable F keyhashuc (client_heard_update keyhashuc cellmalloc pb c)
  | courtesy_update (cellmalloc : Option client_heard_t) (pb : pbuf_t F) {c : client_t} :
      client_reachable F keyhashuc c →
      client_reachable F keyhashuc (client_courtesy_update keyhashuc cellmalloc pb c)
  | heard_check (callsign : List Nat) (call_len hash : Nat) {c : client_t} :
      client_reachable F keyhashuc c →
      client_reachable F keyhashuc (client_heard_check c callsign call_len hash).2
  | courtesy_needed (pb : pbuf_t F) {c : client_t} :
      client_reachable F keyhashuc c →
      client_reachable F keyhashuc (client_courtesy_needed c pb).2
  | expire (tick heard_list_storetime courtesy_list_storetime : Int) {c : client_t} :
      client_reachable F keyhashuc c →
      client_reachable F keyhashuc
        (client_heard_expire tick heard_list_storetime courtesy_list_storetime c)
  | free {c : client_t} :
      client_reachable F keyhashuc c →
      client_reachable F keyhashuc (client_heard_free c)

/-- Two cells hold the same key: the same `keylen` and the same `keylen` key
bytes, the comparison `historydb_insert` and `historydb_lookup` make. -/
def same_key (a b : history_cell_t F) : Prop :=
  a.keylen = b.keylen ∧ memcmp_eq a.key b.key a.keylen = true

/-- No two entries of the table have the same key: none within a chain, none
in two different buckets. -/
def historydb_unique (db : historydb_t F) : Prop :=
  (∀ i, (db.historydb_hash i).Pairwise (fun a b => ¬ same_key a b))
  ∧ (∀ i j, i ≠ j → ∀ a ∈ db.historydb_hash i, ∀ b ∈ db.historydb_hash j, ¬ same_key a b)

/-- The number of entries of the table whose key is the `keylen` bytes at
`keybuf`. -/
def historydb_key_count (db : historydb_t F) (keylen : Nat) (keybuf : List Nat) : Nat :=
  ∑ i, (db.historydb_hash i).countP
    (fun e => decide (e.keylen = keylen) && memcmp_eq e.key keybuf keylen)

/-- The table after scenario S1 was inserted at time 500. -/
def historydb_S1 : historydb_t Int :=
  (historydb_insert keyhash_fnv 500 3600 true (packet_S1 500) (historydb_empty Int)).2

/-- The key buffer `historydb_insert` builds for scenario S1: `OH7LZB`, a NUL
in place of `>`, and what follows of the nine bytes copied. -/
def keybuf_S1 : List Nat := [79, 72, 55, 76, 90, 66, 0, 65, 80, 0, 0]

/-- `parse_aprs_3rdparty` up to its last statement: `Sum.inl r` when it
returns `r` without calling `parse_aprs_body`, `Sum.inr (pb, body + 1)` for the
call `parse_aprs_body(pb, body+1)` it ends in. -/
def thirdparty_call (E : parse_env F) (pb : pbuf_t F) (info_start : Nat) :
    (Int × pbuf_t F) ⊕ (pbuf_t F × Nat) :=
  let s := info_start + 1
  match memchr pb.data s 58 ((pb.packet_len : Int) - 2 - s) with
  | none => Sum.inl (0, pb)
  | some body =>
    let pathlen : Int := (body : Int) - s
    match memchr pb.data s 62
        (if pathlen < CALLSIGNLEN_MAX + 1 then pathlen else CALLSIGNLEN_MAX + 1) with
    | none => Sum.inl (0, pb)
    | some src_end =>
      let path_start := src_end + 1
      if path_start ≥ body then Sum.inl (INERR_INV_3RD_PARTY, pb)
      else if E.check_invalid_src_dst (pb.data.drop s) (src_end - s) ≠ 0 then
        Sum.inl (INERR_INV_SRCCALL, pb)
      else
        let dstcall_end := thirdparty_dstcall_end pb.data body (body - path_start) path_start
        if E.check_invalid_src_dst (pb.data.drop path_start) (dstcall_end - path_start) ≠ 0 then
          Sum.inl (INERR_INV_DSTCALL, pb)
        else if E.check_path_calls pb.data dstcall_end body < 2 then
          Sum.inl (INERR_INV_3RD_PARTY, pb)
        else
          Sum.inr ({ pb with srcname := s, srcname_len := src_end - s }, body + 1)

/-- The recursive call a run of `parse_aprs_body(pb, info_start)` makes: the
packet and the offset it hands to `parse_aprs_body` through
`parse_aprs_3rdparty`, `none` when it returns without one (an empty frame, a
type byte other than the closing brace, or a return inside
`parse_aprs_3rdparty`). -/
def thirdparty_reentry (E : parse_env F) (pb : pbuf_t F) (info_start : Nat) :
    Option (pbuf_t F × Nat) :=
  if (pb.packet_len : Int) - pb.info_start - 2 < 1 then none
  else if byteAt pb.data info_start ≠ 125 then none
  else
    match thirdparty_call E { pb with packettype := pb.packettype ||| T_3RDPARTY } info_start with
    | Sum.inl _ => none
    | Sum.inr c => some c

/-- The number of recursive calls below a run of `parse_aprs_body(pb,
info_start)`, counted up to `n`. -/
def reentry_depth (E : parse_env F) : Nat → pbuf_t F → Nat → Nat
  | 0, _, _ => 0
  | n + 1, pb, info_start =>
    match thirdparty_reentry E pb info_start with
    | none => 0
    | some c => 1 + reentry_depth E n c.1 c.2

/-- The payload of `frame_nested`: `n` third-party headers `}C>D,E,F:`, the
status payload `>` and CR LF. -/
def nested_layers : Nat → List Nat
  | 0 => [62, 13, 10]
  | n + 1 => [125, 67, 62, 68, 44, 69, 44, 70, 58] ++ nested_layers n

/-- The packet `A>B:` followed by `n` third-party headers `}C>D,E,F:` and the
status payload `>`. -/
def frame_nested (n : Nat) : pbuf_t cfloat :=
  { t := 1000, packettype := 0, flags := 0, srcname_len := 1, dstname_len := 0,
    packet_len := 4 + (9 * n + 3), srccall_end := 1, dstcall_end_or_ssid := 3, info_start := 4,
    srcname := 0, dstname := 0, srcname_hash := 0, lat := .fin 0, lng := .fin 0,
    cos_lat := .fin 0,
    symbol := [0, 0, 0],
    data := [65, 62, 66, 58] ++ nested_layers n }

/-- The latitude of a compressed field as the specification states it, in
exact arithmetic: `90 - N/380926` with `N` the base-91 number of the bytes
1..4 of the field at `body`. -/
def spec_compressed_lat (data : List Nat) (body : Nat) : Rat :=
  90 - ((∑ i in Finset.range 4,
    ((byteAt data (body + (i + 1)) : Int) - 33) * 91 ^ (3 - i) : Int) : Rat) / 380926

/-- The longitude of a compressed field as the specification states it, in
exact arithmetic: `-180 + M/190463` with `M` the base-91 number of the bytes
5..8. -/
def spec_compressed_lng (data : List Nat) (body : Nat) : Rat :=
  -180 + ((∑ i in Finset.range 4,
    ((byteAt data (body + (i + 5)) : Int) - 33) * 91 ^ (3 - i) : Int) : Rat) / 190463

/-- A compressed position packet whose latitude bytes `\x7b\x7b!"` stand for
`N = 68566681` and whose longitude bytes `!!!!` stand for `M = 0`. -/
def frame_compressed_pole : pbuf_t cfloat := frame "N0CALL>APRS:!/\x7b\x7b!\x22!!!!>7P[" 6 11 12

/-- The latitude of an uncompressed field as the specification states it, in
exact arithmetic: `±(DD + MM/60 + mm/6000)` from the digits of the field at
`body`, negative for the hemisphere letter `S` or `s`. -/
def spec_uncompressed_lat (data : List Nat) (body : Nat) : Rat :=
  let b := fun k => byteAt data (body + k)
  (if b 7 = 83 ∨ b 7 = 115 then -1 else 1)
    * ((dec2 (b 0) (b 1) : Rat) + (dec2 (b 2) (b 3) : Rat) / 60
      + (dec2 (b 5) (b 6) : Rat) / 6000)

/-- The longitude of an uncompressed field as the specification states it, in
exact arithmetic: `±(DDD + MM/60 + mm/6000)`, negative for `W` or `w`. -/
def spec_uncompressed_lng (data : List Nat) (body : Nat) : Rat :=
  let b := fun k => byteAt data (body + k)
  (if b 17 = 87 ∨ b 17 = 119 then -1 else 1)
    * ((dec3 (b 9) (b 10) (b 11) : Rat) + (dec2 (b 12) (b 13) : Rat) / 60
      + (dec2 (b 15) (b 16) : Rat) / 6000)

/-- An uncompressed position packet at latitude `89` degrees `54.00` minutes
north, longitude 0: `N0CALL>APRS:!8954.00N/00000.00E-`. -/
def frame_uncompressed_pole : pbuf_t cfloat := frame "N0CALL>APRS:!8954.00N/00000.00E-" 6 11 12

/-- The latitude of a Mic-E packet with the arithmetic of the code: the
degrees, minutes and hundredths of `spec_mice_lat`, combined by `float_dmf`. -/
def float_mice_lat (d : Nat → Nat) : Rat :=
  (if d 3 ≤ 57 ∨ d 3 = 76 then -1 else 1)
    * float_dmf (mice_digit (d 0) * 10 + mice_digit (d 1))
        (mice_digit (d 2) * 10 + mice_digit (d 3)) (mice_digit (d 4) * 10 + mice_digit (d 5))

/-- The longitude of a Mic-E packet with the arithmetic of the code: the
degrees, minutes and hundredths of `spec_mice_lng`, combined by `float_dmf`. -/
def float_mice_lng (d b : Nat → Nat) : Rat :=
  (if 80 ≤ d 5 ∧ d 5 ≤ 90 then -1 else 1)
    * float_dmf (spec_mice_lng_deg (b 0) (d 4)) (spec_mice_lng_min (b 1)) (b 2 - 28)

/-- A Mic-E packet at latitude `89` degrees `54.00` minutes north, longitude
0: destination `895TP0`, body bytes `v`, `X` and `0x1c`. -/
def frame_mice_pole : pbuf_t cfloat := frame "N0CALL>895TP0:\x60vX\x1cl #>/" 6 13 14

/-- A packet with a `$GPGLL` sentence whose latitude field is `12nan`: two
digits of degrees and the word `nan` where the minutes are. -/
def frame_nmea_nan : pbuf_t cfloat :=
  frame "N0CALL>APRS:$GPGLL,12nan,N,02505.68,E,120000,A" 6 11 12

/-- The environment `env_example` with a `%f` that reads decimal numbers
only. -/
def env_decimal : parse_env cfloat :=
  { env_example with
    scan_float := fun s =>
      match scan_decimal s with
      | none => none
      | some (v, u) => some (cfloat.of_rat v, u) }

end aux

/-! # Theorems -/

section theorems

variable {F : Type}

/-! ## C floating point: lemmas -/

theorem pow2_eq_zpow (e : Int) : pow2 e = (2 : Rat) ^ e := by
  unfold pow2
  by_cases h : 0 ≤ e
  · rw [if_pos h]
    obtain ⟨n, rfl⟩ := Int.eq_ofNat_of_zero_le h
    simp
  · rw [if_neg h]
    obtain ⟨n, hn⟩ := Int.exists_eq_neg_ofNat (le_of_lt (not_le.mp h))
    subst hn
    simp

theorem pow2_pos (e : Int) : 0 < pow2 e := by
  rw [pow2_eq_zpow]
  positivity

theorem pow2_le_pow2 {a b : Int} (h : a ≤ b) : pow2 a ≤ pow2 b := by
  rw [pow2_eq_zpow, pow2_eq_zpow]
  exact zpow_le_zpow_right₀ (by norm_num) h

theorem pow2_lt_pow2_iff {a b : Int} : pow2 a < pow2 b ↔ a < b := by
  rw [pow2_eq_zpow, pow2_eq_zpow]
  exact zpow_lt_zpow_iff_right₀ (by norm_num)

theorem pow2_sub_one (e : Int) : pow2 (e - 1) = pow2 e / 2 := by
  rw [pow2_eq_zpow, pow2_eq_zpow, zpow_sub_one₀ (by norm_num)]
  rfl

theorem nat_log2_loop_spec :
    ∀ (fuel n : Nat), n ≤ fuel → n ≠ 0 →
      2 ^ nat_log2_loop fuel n ≤ n ∧ n < 2 ^ (nat_log2_loop fuel n + 1) := by
  intro fuel
  induction fuel with
  | zero =>
    intro n h1 h2
    omega
  | succ fuel ih =>
    intro n h1 h2
    rw [nat_log2_loop]
    by_cases h : n < 2
    · rw [if_pos h]
      constructor
      · simp only [pow_zero]
        omega
      · simp only [zero_add, pow_one]
        exact h
    · rw [if_neg h]
      obtain ⟨a, b⟩ := ih (n / 2) (by omega) (by omega)
      rw [pow_succ, pow_succ]
      rw [pow_succ] at b
      constructor
      · omega
      · omega

theorem nat_log2_spec (n : Nat) (h : n ≠ 0) :
    2 ^ nat_log2 n ≤ n ∧ n < 2 ^ (nat_log2 n + 1) :=
  nat_log2_loop_spec n n (le_refl n) h

theorem pow2_ilog2_le (q : Rat) (h : q ≠ 0) : pow2 (ilog2 q) ≤ |q| := by
  unfold ilog2
  dsimp only
  split_ifs with c
  · exact c
  · have hn : q.num.natAbs ≠ 0 := by
      intro h0
      exact h (Rat.zero_of_num_zero (Int.natAbs_eq_zero.mp h0))
    have hd : q.den ≠ 0 := q.den_nz
    obtain ⟨a, _⟩ := nat_log2_spec _ hn
    obtain ⟨_, b⟩ := nat_log2_spec _ hd
    have habs : |q| = (q.num.natAbs : Rat) / (q.den : Rat) := by
      have hq : q = (q.num : Rat) / (q.den : Rat) := (Rat.num_div_den q).symm
      have hdpos : (0 : Rat) < (q.den : Rat) := by exact_mod_cast q.den_pos
      conv_lhs => rw [hq]
      rw [abs_div, abs_of_pos hdpos]
      rw [Nat.cast_natAbs, Int.cast_abs]
    rw [habs, pow2_sub_one, pow2_eq_zpow, zpow_sub₀ (by norm_num), zpow_natCast, zpow_natCast]
    have hdpos : (0 : Rat) < (q.den : Rat) := by exact_mod_cast q.den_pos
    have a' : ((2 : Rat) ^ nat_log2 q.num.natAbs) ≤ (q.num.natAbs : Rat) := by exact_mod_cast a
    have b' : (q.den : Rat) < (2 : Rat) ^ (nat_log2 q.den + 1) := by exact_mod_cast b
    have hp : (0 : Rat) < (2 : Rat) ^ nat_log2 q.den := by positivity
    rw [div_div, div_le_div_iff₀ (by positivity) hdpos]
    rw [pow_succ] at b'
    have hp2 : (0 : Rat) ≤ (2 : Rat) ^ nat_log2 q.num.natAbs := by positivity
    nlinarith

theorem abs_lt_pow2_ilog2 (q : Rat) (h : q ≠ 0) : |q| < pow2 (ilog2 q + 1) := by
  have hn : q.num.natAbs ≠ 0 := by
    intro h0
    exact h (Rat.zero_of_num_zero (Int.natAbs_eq_zero.mp h0))
  have hd : q.den ≠ 0 := q.den_nz
  obtain ⟨_, a⟩ := nat_log2_spec _ hn
  obtain ⟨b, _⟩ := nat_log2_spec _ hd
  have hdpos : (0 : Rat) < (q.den : Rat) := by exact_mod_cast q.den_pos
  have habs : |q| = (q.num.natAbs : Rat) / (q.den : Rat) := by
    have hq : q = (q.num : Rat) / (q.den : Rat) := (Rat.num_div_den q).symm
    conv_lhs => rw [hq]
    rw [abs_div, abs_of_pos hdpos]
    rw [Nat.cast_natAbs, Int.cast_abs]
  unfold ilog2
  dsimp only
  split_ifs with c
  · rw [habs, pow2_eq_zpow, show (nat_log2 q.num.natAbs : Int) - (nat_log2 q.den : Int) + 1
        = ((nat_log2 q.num.natAbs + 1 : Nat) : Int) - ((nat_log2 q.den : Nat) : Int) by
        push_cast; ring,
      zpow_sub₀ (by norm_num), zpow_natCast, zpow_natCast]
    have a' : (q.num.natAbs : Rat) < (2 : Rat) ^ (nat_log2 q.num.natAbs + 1) := by
      exact_mod_cast a
    have b' : (2 : Rat) ^ nat_log2 q.den ≤ (q.den : Rat) := by exact_mod_cast b
    have hp : (0 : Rat) < (2 : Rat) ^ nat_log2 q.den := by positivity
    have hp2 : (0 : Rat) < (2 : Rat) ^ (nat_log2 q.num.natAbs + 1) := by positivity
    rw [div_lt_div_iff₀ hdpos hp]
    nlinarith
  · rw [show (nat_log2 q.num.natAbs : Int) - (nat_log2 q.den : Int) - 1 + 1
        = (nat_log2 q.num.natAbs : Int) - (nat_log2 q.den : Int) by ring]
    exact not_le.mp c

/-- The rounding on four numbers whose `float` and `double` are known: `1/3`
and `16777217 = 2^24 + 1` as `float`, `1/10` as `double`, and the least
subnormal `float` for `2^(-150) + 2^(-151)`. -/
theorem fp_round_examples :
    to_float (1 / 3) = 11184811 / 33554432
    ∧ to_float 16777217 = 16777216
    ∧ to_float 16777219 = 16777220
    ∧ to_double (1 / 10) = 3602879701896397 / 36028797018963968
    ∧ to_float (3 * pow2 (-151)) = pow2 (-149)
    ∧ to_float (pow2 (-150)) = 0 := by
  decide!

theorem ilog2_lt {q : Rat} (h : q ≠ 0) {k : Int} (hk : |q| < pow2 k) : ilog2 q < k := by
  have := lt_of_le_of_lt (pow2_ilog2_le q h) hk
  exact pow2_lt_pow2_iff.mp this

theorem round_even_err (m : Rat) : |(round_even m : Rat) - m| ≤ 1 / 2 := by
  have h1 : ((Rat.floor m : Int) : Rat) ≤ m := Int.floor_le m
  have h2 : m < ((Rat.floor m : Int) : Rat) + 1 := Int.lt_floor_add_one m
  unfold round_even
  dsimp only
  rw [abs_le]
  split_ifs with a b c
  · constructor <;> linarith
  · push_cast
    constructor <;> linarith
  · have : m - (Rat.floor m : Int) = 1 / 2 := le_antisymm (not_lt.mp b) (not_lt.mp a)
    constructor <;> linarith
  · have : m - (Rat.floor m : Int) = 1 / 2 := le_antisymm (not_lt.mp b) (not_lt.mp a)
    push_cast
    constructor <;> linarith

theorem round_even_nonneg {m : Rat} (h : 0 ≤ m) : 0 ≤ round_even m := by
  have h1 : 0 ≤ Rat.floor m := Int.floor_nonneg.mpr h
  unfold round_even
  dsimp only
  split_ifs <;> omega

theorem fp_round_nonneg (p : Nat) (emin : Int) {q : Rat} (h : 0 ≤ q) :
    0 ≤ fp_round p emin q := by
  unfold fp_round
  split_ifs
  · exact le_refl _
  · dsimp only
    have hu := pow2_pos (max (ilog2 q) emin - ((p : Int) - 1))
    have hr := round_even_nonneg (div_nonneg h (le_of_lt hu))
    have : (0 : Rat) ≤ (round_even (q / pow2 (max (ilog2 q) emin - ((p : Int) - 1))) : Rat) := by
      exact_mod_cast hr
    exact mul_nonneg this (le_of_lt hu)

theorem fp_round_err (p : Nat) (emin k : Int) (q : Rat) (hq : |q| < pow2 k)
    (hk : emin < k) : |fp_round p emin q - q| ≤ pow2 (k - 1 - p) := by
  unfold fp_round
  split_ifs with h0
  · rw [h0]
    simp only [sub_self, abs_zero]
    exact le_of_lt (pow2_pos _)
  · dsimp only
    have he : max (ilog2 q) emin ≤ k - 1 := by
      have := ilog2_lt h0 hq
      exact max_le (by omega) (by omega)
    have hu := pow2_pos (max (ilog2 q) emin - ((p : Int) - 1))
    have hle : pow2 (max (ilog2 q) emin - ((p : Int) - 1)) ≤ pow2 (k - 1 - p + 1) :=
      pow2_le_pow2 (by omega)
    have hr := round_even_err (q / pow2 (max (ilog2 q) emin - ((p : Int) - 1)))
    have heq : (round_even (q / pow2 (max (ilog2 q) emin - ((p : Int) - 1))) : Rat)
          * pow2 (max (ilog2 q) emin - ((p : Int) - 1)) - q
        = ((round_even (q / pow2 (max (ilog2 q) emin - ((p : Int) - 1))) : Rat)
            - q / pow2 (max (ilog2 q) emin - ((p : Int) - 1)))
          * pow2 (max (ilog2 q) emin - ((p : Int) - 1)) := by
      field_simp
    rw [heq, abs_mul, abs_of_pos hu]
    have h2 : pow2 (k - 1 - p + 1) = 2 * pow2 (k - 1 - p) := by
      have := pow2_sub_one (k - 1 - p + 1)
      rw [show k - 1 - (p : Int) + 1 - 1 = k - 1 - p by ring] at this
      rw [this]
      ring
    rw [h2] at hle
    have hmul := mul_le_mul hr (le_refl (pow2 (max (ilog2 q) emin - ((p : Int) - 1))))
      (le_of_lt hu) (by norm_num : (0 : Rat) ≤ 1 / 2)
    linarith

theorem to_float_nonneg {q : Rat} (h : 0 ≤ q) : 0 ≤ to_float q := fp_round_nonneg 24 (-126) h

theorem to_double_nonneg {q : Rat} (h : 0 ≤ q) : 0 ≤ to_double q := fp_round_nonneg 53 (-1022) h

theorem to_float_err {q : Rat} (h0 : 0 ≤ q) (h : q < 256) :
    q - 1 / 131072 ≤ to_float q ∧ to_float q ≤ q + 1 / 131072 := by
  have hq : |q| < pow2 8 := by
    rw [abs_of_nonneg h0]
    have : pow2 8 = 256 := by decide!
    rw [this]
    exact h
  have := fp_round_err 24 (-126) 8 q hq (by decide)
  have hp : pow2 (8 - 1 - (24 : Nat)) = 1 / 131072 := by decide!
  rw [hp, abs_le] at this
  unfold to_float
  constructor <;> linarith [this.1, this.2]

theorem to_double_err {q : Rat} (h0 : 0 ≤ q) (h : q < 256) :
    q - 1 / 70368744177664 ≤ to_double q ∧ to_double q ≤ q + 1 / 70368744177664 := by
  have hq : |q| < pow2 8 := by
    rw [abs_of_nonneg h0]
    have : pow2 8 = 256 := by decide!
    rw [this]
    exact h
  have := fp_round_err 53 (-1022) 8 q hq (by decide)
  have hp : pow2 (8 - 1 - (53 : Nat)) = 1 / 70368744177664 := by decide!
  rw [hp, abs_le] at this
  unfold to_double
  constructor <;> linarith [this.1, this.2]

/-! ## C strings: lemmas -/

theorem bytes_length (s : List Nat) (n : Nat) : (bytes s n).length = n := by
  simp [bytes]

theorem byteAt_bytes (s : List Nat) {n k : Nat} (h : k < n) : byteAt (bytes s n) k = byteAt s k := by
  simp [byteAt, bytes, List.getD, h]

theorem bytes_bytes (s : List Nat) {n m : Nat} (h : m ≤ n) : bytes (bytes s n) m = bytes s m := by
  unfold bytes
  apply List.map_congr_left
  intro k hk
  exact byteAt_bytes s (lt_of_lt_of_le (List.mem_range.mp hk) h)

theorem bytes_succ (s : List Nat) (n : Nat) : bytes s (n + 1) = bytes s n ++ [byteAt s n] := by
  simp [bytes, List.range_succ]

theorem byteAt_drop (s : List Nat) (a k : Nat) : byteAt (s.drop a) k = byteAt s (a + k) := by
  simp [byteAt, List.getD]

theorem bytes_add (s : List Nat) (a b : Nat) :
    bytes s (a + b) = bytes s a ++ bytes (s.drop a) b := by
  simp only [bytes, List.range_add, List.map_append, List.map_map]
  congr 1
  apply List.map_congr_left
  intro k _
  simp [byteAt, List.getD]

theorem strlen_append_nul (l r : List Nat) (h : ∀ x ∈ l, x ≠ 0) :
    strlen (l ++ 0 :: r) = l.length := by
  induction l with
  | nil => simp [strlen]
  | cons x l ih =>
    have hx : x ≠ 0 := h x (by simp)
    simp [strlen, hx, ih (fun y hy => h y (by simp [hy]))]

theorem strlen_le (s : List Nat) : strlen s ≤ s.length := by
  induction s with
  | nil => simp [strlen]
  | cons c r ih =>
    by_cases hc : c = 0
    · simp [strlen, hc]
    · simp only [strlen, hc, if_false, List.length_cons]
      omega

theorem byteAt_strlen (s : List Nat) : byteAt s (strlen s) = 0 := by
  induction s with
  | nil => simp [strlen, byteAt]
  | cons c r ih =>
    by_cases hc : c = 0
    · simp [strlen, hc, byteAt]
    · simp only [strlen, hc, if_false]
      simpa [byteAt] using ih

theorem strchr_append_hit (l r : List Nat) (c : Nat) (h : ∀ x ∈ l, x ≠ 0 ∧ x ≠ c) :
    strchr (l ++ c :: r) c = some l.length := by
  induction l with
  | nil => simp [strchr]
  | cons x l ih =>
    have hx := h x (by simp)
    simp [strchr, hx.1, hx.2, ih (fun y hy => h y (by simp [hy]))]

theorem strchr_append_nul (l r : List Nat) (c : Nat) (hc : c ≠ 0) (h : ∀ x ∈ l, x ≠ c) :
    strchr (l ++ 0 :: r) c = none := by
  induction l with
  | nil => simp [strchr, hc.symm]
  | cons x l ih =>
    have hx := h x (by simp)
    by_cases h0 : x = 0
    · subst h0
      simp [strchr, Ne.symm hc]
    · simp [strchr, hx, h0, ih (fun y hy => h y (by simp [hy]))]

theorem set_append_length (l r : List Nat) (c v : Nat) {n : Nat} (hn : l.length = n) :
    (l ++ c :: r).set n v = l ++ v :: r := by
  subst hn
  induction l with
  | nil => simp
  | cons x l ih => simp [ih]

theorem bytes_append_left (l r : List Nat) {n : Nat} (hn : l.length = n) :
    bytes (l ++ r) n = l := by
  subst hn
  apply List.ext_getElem
  · simp [bytes]
  · intro k h1 h2
    simp [bytes] at h1
    simp [bytes, byteAt, List.getD, List.getElem?_append_left h1, List.getElem?_eq_getElem h1]


theorem mem_bytes {s : List Nat} {n x : Nat} (h : x ∈ bytes s n) : ∃ k < n, x = byteAt s k := by
  simp only [bytes, List.mem_map, List.mem_range] at h
  obtain ⟨k, hk, rfl⟩ := h
  exact ⟨k, hk, rfl⟩

theorem historydb_insert_key_position (pb : pbuf_t F)
    (hO : pb.packettype &&& T_OBJECT = 0) (hI : pb.packettype &&& T_ITEM = 0)
    (hP : pb.packettype &&& T_POSITION ≠ 0)
    (hlen : pb.srccall_end ≤ CALLSIGNLEN_MAX)
    (hgt : byteAt pb.data pb.srccall_end = 62)
    (hcall : ∀ k < pb.srccall_end, byteAt pb.data k ≠ 0 ∧ byteAt pb.data k ≠ 62) :
    ∃ kb, historydb_insert_key pb = some (kb, false) ∧ strlen kb = pb.srccall_end
      ∧ bytes kb pb.srccall_end = bytes pb.data pb.srccall_end := by
  have hl : ∀ x ∈ bytes pb.data pb.srccall_end, x ≠ 0 ∧ x ≠ 62 := by
    intro x hx
    obtain ⟨k, hk, rfl⟩ := mem_bytes hx
    exact hcall k hk
  have hll : (bytes pb.data pb.srccall_end).length = pb.srccall_end := bytes_length _ _
  have hkb : memcpy ((List.replicate (CALLSIGNLEN_MAX + 2) 0).set CALLSIGNLEN_MAX 0) pb.data 0
      CALLSIGNLEN_MAX = bytes pb.data CALLSIGNLEN_MAX ++ [0, 0] := by
    simp [memcpy, CALLSIGNLEN_MAX]
  unfold historydb_insert_key
  simp only [hO, hI, hP, ne_eq, not_true_eq_false, not_false_eq_true, if_true, if_false, hkb]
  rcases Nat.lt_or_ge pb.srccall_end CALLSIGNLEN_MAX with h | h
  · obtain ⟨m, hm⟩ : ∃ m, CALLSIGNLEN_MAX = pb.srccall_end + (m + 1) :=
      ⟨CALLSIGNLEN_MAX - pb.srccall_end - 1, by omega⟩
    have hsplit : bytes pb.data CALLSIGNLEN_MAX ++ [0, 0]
        = bytes pb.data pb.srccall_end ++ 62 :: (bytes (pb.data.drop (pb.srccall_end + 1)) m ++ [0, 0]) := by
      rw [hm, bytes_add, Nat.add_comm m 1, bytes_add]
      have h1 : bytes (List.drop pb.srccall_end pb.data) 1 = [62] := by
        simp [bytes, List.range_succ, byteAt_drop, hgt]
      rw [h1]
      simp
    rw [hsplit, strchr_append_hit _ _ _ hl]
    refine ⟨_, by rw [hll], ?_, ?_⟩
    · rw [set_append_length _ _ _ _ hll, strlen_append_nul _ _ (fun x hx => (hl x hx).1), hll]
    · rw [set_append_length _ _ _ _ hll, bytes_append_left _ _ hll]
  · have he : pb.srccall_end = CALLSIGNLEN_MAX := le_antisymm hlen h
    rw [← he]
    have : bytes pb.data pb.srccall_end ++ [0, 0] = bytes pb.data pb.srccall_end ++ 0 :: [0] := rfl
    rw [this, strchr_append_nul _ _ _ (by decide) (fun x hx => (hl x hx).2)]
    refine ⟨_, rfl, ?_, ?_⟩
    · rw [strlen_append_nul _ _ (fun x hx => (hl x hx).1), hll]
    · rw [bytes_append_left _ _ hll]


theorem insert_scan_chain_match (expirytime : Int) (h1 keylen : Nat) (keybuf : List Nat)
    (pb : pbuf_t F) (chain : List (history_cell_t F)) :
    ∀ e ∈ (historydb_insert_scan expirytime h1 keylen keybuf false pb chain).chain,
      key_match h1 keylen keybuf e → e.lat = pb.lat ∧ e.lon = pb.lng ∧ e.arrivaltime = pb.t := by
  induction chain with
  | nil => simp [historydb_insert_scan]
  | cons cp rest ih =>
    intro e he hm
    by_cases hexp : cp.arrivaltime < expirytime
    · simp only [historydb_insert_scan, hexp, if_true] at he
      exact ih e he hm
    · by_cases hh : cp.hash1 = h1
      · by_cases hk : cp.keylen = keylen ∧ memcmp_eq cp.key keybuf keylen = true
        · simp only [historydb_insert_scan, hexp, hh, hk, if_true, if_false, and_self,
            Bool.false_eq_true, List.mem_cons] at he
          rcases he with rfl | he
          · simp [historydb_update_cell]
          · exact ih e he hm
        · simp only [historydb_insert_scan, hexp, hh, hk, if_true, if_false,
            List.mem_cons] at he
          rcases he with rfl | he
          · exact absurd ⟨hm.2.1, hm.2.2⟩ hk
          · exact ih e he hm
      · simp only [historydb_insert_scan, hexp, hh, if_false, List.mem_cons] at he
        rcases he with rfl | he
        · exact absurd hm.1 hh
        · exact ih e he hm

theorem insert_scan_cp1 (expirytime : Int) (h1 keylen : Nat) (keybuf : List Nat)
    (isdead : Bool) (pb : pbuf_t F) (chain : List (history_cell_t F))
    (h : (historydb_insert_scan expirytime h1 keylen keybuf isdead pb chain).cp1 = true) :
    ∃ e ∈ (historydb_insert_scan expirytime h1 keylen keybuf isdead pb chain).chain,
      key_match h1 keylen keybuf e := by
  induction chain with
  | nil => simp [historydb_insert_scan] at h
  | cons cp rest ih =>
    by_cases hexp : cp.arrivaltime < expirytime
    · simp only [historydb_insert_scan, hexp, if_true] at h ⊢
      exact ih h
    · by_cases hh : cp.hash1 = h1
      · by_cases hk : cp.keylen = keylen ∧ memcmp_eq cp.key keybuf keylen = true
        · cases isdead
          · simp only [historydb_insert_scan, hexp, hh, hk, if_true, if_false, and_self,
              Bool.false_eq_true]
            exact ⟨_, List.mem_cons_self _ _, hh, hk.1, hk.2⟩
          · simp only [historydb_insert_scan, hexp, hh, hk, if_true, if_false, and_self] at h ⊢
            exact ih h
        · simp only [historydb_insert_scan, hexp, hh, hk, if_true, if_false] at h ⊢
          obtain ⟨e, he, hm⟩ := ih h
          exact ⟨e, List.mem_cons_of_mem _ he, hm⟩
      · simp only [historydb_insert_scan, hexp, hh, if_false] at h ⊢
        obtain ⟨e, he, hm⟩ := ih h
        exact ⟨e, List.mem_cons_of_mem _ he, hm⟩

theorem lookup_scan_some {validitytime : Int} {h1 keylen : Nat} {keybuf : List Nat}
    {chain : List (history_cell_t F)} {e : history_cell_t F}
    (h : historydb_lookup_scan validitytime h1 keylen keybuf chain = some e) :
    e ∈ chain ∧ key_match h1 keylen keybuf e ∧ e.arrivaltime > validitytime := by
  induction chain with
  | nil => simp [historydb_lookup_scan] at h
  | cons cp rest ih =>
    simp only [historydb_lookup_scan] at h
    split_ifs at h with hc
    · cases h
      exact ⟨List.mem_cons_self _ _, ⟨hc.1, hc.2.1, hc.2.2.1⟩, hc.2.2.2⟩
    · obtain ⟨h1, h2⟩ := ih h
      exact ⟨List.mem_cons_of_mem _ h1, h2⟩

theorem lookup_scan_isSome (validitytime : Int) {h1 keylen : Nat} {keybuf : List Nat}
    {chain : List (history_cell_t F)}
    (h : ∃ e ∈ chain, key_match h1 keylen keybuf e ∧ e.arrivaltime > validitytime) :
    ∃ e, historydb_lookup_scan validitytime h1 keylen keybuf chain = some e := by
  induction chain with
  | nil => simp at h
  | cons cp rest ih =>
    simp only [historydb_lookup_scan]
    split_ifs with hc
    · exact ⟨cp, rfl⟩
    · obtain ⟨e, he, hm, hv⟩ := h
      simp only [List.mem_cons] at he
      rcases he with rfl | he
      · exact absurd ⟨hm.1, hm.2.1, hm.2.2, hv⟩ hc
      · exact ih ⟨e, he, hm, hv⟩

theorem lookup_scan_congr (validitytime : Int) (h1 keylen : Nat) {kb kb' : List Nat}
    (h : bytes kb keylen = bytes kb' keylen) (chain : List (history_cell_t F)) :
    historydb_lookup_scan validitytime h1 keylen kb chain
      = historydb_lookup_scan validitytime h1 keylen kb' chain := by
  induction chain with
  | nil => rfl
  | cons cp rest ih => simp only [historydb_lookup_scan, memcmp_eq, h, ih]


theorem new_cell_match (pb : pbuf_t F) (h1 keylen : Nat) (keybuf : List Nat) :
    key_match h1 keylen keybuf (historydb_new_cell pb h1 keylen keybuf) := by
  refine ⟨rfl, rfl, ?_⟩
  simp [memcmp_eq, historydb_new_cell, bytes_bytes _ (le_refl keylen)]

/-- C1: a position packet (HAS_POS, POSITION, neither OBJECT nor ITEM) whose
source callsign is at most 9 bytes before the first `>` and whose arrival time
is newer than `tick - lastposition_storetime + 300` is found again: after
`historydb_insert` with a successful allocation, `historydb_lookup` on the
source callsign returns 1 with an entry carrying the packet's `lat` and `lng`,
whatever the table held before. -/
theorem historydb_insert_then_lookup (keyhash : List Nat → Nat → Nat)
    (tick lastposition_storetime : Int) (pb : pbuf_t F) (db : historydb_t F)
    (hpos : pb.flags &&& F_HASPOS ≠ 0)
    (hP : pb.packettype &&& T_POSITION ≠ 0)
    (hO : pb.packettype &&& T_OBJECT = 0) (hI : pb.packettype &&& T_ITEM = 0)
    (hlen : pb.srccall_end ≤ CALLSIGNLEN_MAX)
    (hgt : byteAt pb.data pb.srccall_end = 62)
    (hcall : ∀ k < pb.srccall_end, byteAt pb.data k ≠ 0 ∧ byteAt pb.data k ≠ 62)
    (ht : pb.t > tick - lastposition_storetime + 300) :
    ∃ e, historydb_lookup keyhash tick lastposition_storetime pb.data pb.srccall_end
          (historydb_insert keyhash tick lastposition_storetime true pb db).2
        = (1, some e,
            { (historydb_insert keyhash tick lastposition_storetime true pb db).2 with
              historydb_lookups :=
                (historydb_insert keyhash tick lastposition_storetime true pb db).2.historydb_lookups + 1 })
      ∧ e.lat = pb.lat ∧ e.lon = pb.lng := by
  obtain ⟨kb, hkey, hkl, hkb⟩ := historydb_insert_key_position pb hO hI hP hlen hgt hcall
  have hh : keyhash0 keyhash kb pb.srccall_end = keyhash0 keyhash pb.data pb.srccall_end := by
    simp only [keyhash0, hkb]
  -- the chain of the key's bucket after the insert
  obtain ⟨chain, hchain, hall, hex⟩ : ∃ chain,
      (historydb_insert keyhash tick lastposition_storetime true pb db).2.historydb_hash
        (historydb_bucket (keyhash0 keyhash pb.data pb.srccall_end)) = chain
      ∧ (∀ e ∈ chain, key_match (keyhash0 keyhash pb.data pb.srccall_end) pb.srccall_end kb e →
          e.lat = pb.lat ∧ e.lon = pb.lng ∧ e.arrivaltime = pb.t)
      ∧ ∃ e ∈ chain, key_match (keyhash0 keyhash pb.data pb.srccall_end) pb.srccall_end kb e := by
    refine ⟨_, rfl, ?_⟩
    simp only [historydb_insert, hpos, if_false, hkey, hkl, hh, Bool.not_false, Bool.and_true,
      historydb_alloc, if_true]
    cases hcp1 : (historydb_insert_scan (tick - lastposition_storetime)
        (keyhash0 keyhash pb.data pb.srccall_end) pb.srccall_end kb false pb
        (db.historydb_hash (historydb_bucket (keyhash0 keyhash pb.data pb.srccall_end)))).cp1
    · simp only [Bool.not_false, if_true, Function.update_same]
      constructor
      · intro e he hm
        rcases List.mem_append.mp he with he | he
        · exact insert_scan_chain_match _ _ _ _ _ _ e he hm
        · simp only [List.mem_singleton] at he
          subst he
          simp [historydb_new_cell]
      · exact ⟨_, List.mem_append_right _ (List.mem_singleton_self _), new_cell_match _ _ _ _⟩
    · simp only [Bool.not_true, Bool.false_eq_true, if_false, Function.update_same]
      exact ⟨insert_scan_chain_match _ _ _ _ _ _, insert_scan_cp1 _ _ _ _ _ _ _ hcp1⟩
  have hscan := lookup_scan_congr (tick - lastposition_storetime + 5 * 60)
    (keyhash0 keyhash pb.data pb.srccall_end) pb.srccall_end hkb.symm chain
  obtain ⟨e0, he0, hm0⟩ := hex
  obtain ⟨e, he⟩ := lookup_scan_isSome (tick - lastposition_storetime + 5 * 60)
    ⟨e0, he0, hm0, by rw [(hall e0 he0 hm0).2.2]; omega⟩
  obtain ⟨hmem, hm, _⟩ := lookup_scan_some he
  refine ⟨e, ?_, (hall e hmem hm).1, (hall e hmem hm).2.1⟩
  simp only [historydb_lookup, hchain, hscan, he]


/-- C1 at scenario S1, inserted over an older entry of the same callsign. -/
theorem historydb_insert_then_lookup_witness :
    ∃ e, historydb_lookup keyhash_fnv 1000 3600 (packet_S1 1000).data (packet_S1 1000).srccall_end
          (historydb_insert keyhash_fnv 1000 3600 true (packet_S1 1000)
            (historydb_insert keyhash_fnv 500 3600 true (packet_S1 500) (historydb_empty Int)).2).2
        = (1, some e,
            { (historydb_insert keyhash_fnv 1000 3600 true (packet_S1 1000)
                (historydb_insert keyhash_fnv 500 3600 true (packet_S1 500)
                  (historydb_empty Int)).2).2 with
              historydb_lookups :=
                (historydb_insert keyhash_fnv 1000 3600 true (packet_S1 1000)
                  (historydb_insert keyhash_fnv 500 3600 true (packet_S1 500)
                    (historydb_empty Int)).2).2.historydb_lookups + 1 })
      ∧ e.lat = (packet_S1 1000).lat ∧ e.lon = (packet_S1 1000).lng :=
  historydb_insert_then_lookup keyhash_fnv 1000 3600 (packet_S1 1000)
    (historydb_insert keyhash_fnv 500 3600 true (packet_S1 500) (historydb_empty Int)).2
    (by decide) (by decide) (by decide) (by decide) (by decide) (by decide) (by decide)
    (by decide)

theorem historydb_insert_hash (keyhash : List Nat → Nat → Nat) (tick st : Int) (ok : Bool)
    (pb : pbuf_t F) (db : historydb_t F) (kb : List Nat) (isdead : Bool)
    (hpos : pb.flags &&& F_HASPOS ≠ 0) (hkey : historydb_insert_key pb = some (kb, isdead)) :
    (historydb_insert keyhash tick st ok pb db).1 = 1 ∧
    (historydb_insert keyhash tick st ok pb db).2.historydb_hash
      = Function.update db.historydb_hash (historydb_bucket (keyhash0 keyhash kb (strlen kb)))
          (if (!(historydb_insert_scan (tick - st) (keyhash0 keyhash kb (strlen kb)) (strlen kb) kb
                  isdead pb (db.historydb_hash (historydb_bucket (keyhash0 keyhash kb (strlen kb))))).cp1
                && !isdead && ok) = true
           then (historydb_insert_scan (tick - st) (keyhash0 keyhash kb (strlen kb)) (strlen kb) kb
                  isdead pb (db.historydb_hash (historydb_bucket (keyhash0 keyhash kb (strlen kb))))).chain
                ++ [historydb_new_cell pb (keyhash0 keyhash kb (strlen kb)) (strlen kb) kb]
           else (historydb_insert_scan (tick - st) (keyhash0 keyhash kb (strlen kb)) (strlen kb) kb
                  isdead pb (db.historydb_hash (historydb_bucket (keyhash0 keyhash kb (strlen kb))))).chain) := by
  simp only [historydb_insert, hpos, if_false, hkey, historydb_alloc]
  cases (historydb_insert_scan (tick - st) (keyhash0 keyhash kb (strlen kb)) (strlen kb) kb
      isdead pb (db.historydb_hash (historydb_bucket (keyhash0 keyhash kb (strlen kb))))).cp1 <;>
    cases isdead <;> cases ok <;> simp

theorem lookup_scan_none (validitytime : Int) {h1 keylen : Nat} {keybuf : List Nat}
    {chain : List (history_cell_t F)}
    (h : ∀ e ∈ chain, ¬ (key_match h1 keylen keybuf e ∧ e.arrivaltime > validitytime)) :
    historydb_lookup_scan validitytime h1 keylen keybuf chain = none := by
  cases hs : historydb_lookup_scan validitytime h1 keylen keybuf chain with
  | none => rfl
  | some e =>
    obtain ⟨hmem, hm, hv⟩ := lookup_scan_some hs
    exact absurd ⟨hm, hv⟩ (h e hmem)

theorem historydb_insert_key_S2 : historydb_insert_key (packet_S2 1000)
    = some ([76, 69, 65, 68, 69, 82, 32, 32, 32, 0, 0], false) := by decide

theorem historydb_insert_tail_loop_noop (keybuf : List Nat) :
    historydb_insert_tail_loop keybuf (strlen keybuf) = keybuf := by
  cases h : strlen keybuf with
  | zero => rfl
  | succ s =>
    have hz := byteAt_strlen keybuf
    rw [h] at hz
    simp [historydb_insert_tail_loop, hz]

/-- C2 (evaluation of the code): the loop meant to strip the space padding of
an object name starts at the terminating NUL and changes no key buffer at all;
so for the live object of scenario S2 the key computed by `historydb_insert` is
the 9-byte name field `LEADER   ` with its padding, not the trimmed `src_name`,
and after the insert into an empty table a lookup with `(src_name,
src_name_len)`, i.e. `LEADER` with length 6, returns 0, whatever the hash
function. -/
theorem historydb_object_key_untrimmed (keyhash : List Nat → Nat → Nat) :
    (∀ keybuf, historydb_insert_tail_loop keybuf (strlen keybuf) = keybuf)
    ∧ historydb_insert_key (packet_S2 1000)
        = some ([76, 69, 65, 68, 69, 82, 32, 32, 32, 0, 0], false)
    ∧ bytes ((packet_S2 1000).data.drop (packet_S2 1000).srcname) (packet_S2 1000).srcname_len
        = [76, 69, 65, 68, 69, 82]
    ∧ (historydb_lookup keyhash 1000 3600 ((packet_S2 1000).data.drop (packet_S2 1000).srcname)
        (packet_S2 1000).srcname_len
        (historydb_insert keyhash 1000 3600 true (packet_S2 1000) (historydb_empty Int)).2).1 = 0 := by
  refine ⟨historydb_insert_tail_loop_noop, by decide, by decide, ?_⟩
  have h := (historydb_insert_hash keyhash 1000 3600 true (packet_S2 1000) (historydb_empty Int)
    _ _ (by decide) historydb_insert_key_S2).2
  simp only [historydb_lookup, h]
  rw [lookup_scan_none]
  intro e he hm
  have hlen : e.keylen = 9 := by
    simp only [Function.update_apply, historydb_empty, historydb_insert_scan] at he
    split_ifs at he with h1 h2
    · simp only [List.nil_append, List.mem_singleton] at he
      rw [he]
      rfl
    · simp at he
    · simp at he
  have := hm.1.2.1
  rw [hlen] at this
  exact absurd this (by decide)

theorem insert_scan_no_match (expirytime : Int) (h1 keylen : Nat) (keybuf : List Nat)
    (isdead : Bool) (pb : pbuf_t F) (chain : List (history_cell_t F))
    (h : ∀ e ∈ chain, ¬ e.arrivaltime < expirytime
      ∧ ¬ (e.hash1 = h1 ∧ e.keylen = keylen ∧ memcmp_eq e.key keybuf keylen = true)) :
    (historydb_insert_scan expirytime h1 keylen keybuf isdead pb chain).chain = chain
    ∧ (historydb_insert_scan expirytime h1 keylen keybuf isdead pb chain).cp1 = false := by
  induction chain with
  | nil => simp [historydb_insert_scan]
  | cons cp rest ih =>
    have hcp := h cp (List.mem_cons_self _ _)
    have ih' := ih (fun e he => h e (List.mem_cons_of_mem _ he))
    by_cases hh : cp.hash1 = h1
    · have hk : ¬ (cp.keylen = keylen ∧ memcmp_eq cp.key keybuf keylen = true) :=
        fun hk => hcp.2 ⟨hh, hk⟩
      simp only [historydb_insert_scan, hcp.1, hh, hk, if_true, if_false, ih'.1, ih'.2, and_self]
    · simp only [historydb_insert_scan, hcp.1, hh, if_false, ih'.1, ih'.2, and_self]

theorem historydb_lookup_eq (keyhash : List Nat → Nat → Nat) (tick st : Int)
    (keybuf : List Nat) (keylen : Nat) (db : historydb_t F) :
    historydb_lookup keyhash tick st keybuf keylen db
      = (if (historydb_lookup_scan (tick - st + 300) (keyhash0 keyhash keybuf keylen) keylen
              keybuf (db.historydb_hash (historydb_bucket (keyhash0 keyhash keybuf keylen)))).isSome
          then 1 else 0,
         historydb_lookup_scan (tick - st + 300) (keyhash0 keyhash keybuf keylen) keylen
              keybuf (db.historydb_hash (historydb_bucket (keyhash0 keyhash keybuf keylen))),
         { db with historydb_lookups := db.historydb_lookups + 1 }) := by
  have h300 : (5 : Int) * 60 = 300 := by norm_num
  simp only [historydb_lookup, h300]
  cases historydb_lookup_scan (tick - st + 300) (keyhash0 keyhash keybuf keylen) keylen
      keybuf (db.historydb_hash (historydb_bucket (keyhash0 keyhash keybuf keylen))) <;> rfl

/-- C3 (evaluation of the code): the kill character is searched with `strchr`
instead of being read at byte 9. A kill packet for the object `A*CDEFGHI` adds
an entry with key `A` to an empty table; and after a live `AB_CDEFGH` object a
kill packet for `AB_CDEFGH` leaves the entry in place: the lookup of the
object's name still returns 1. -/
theorem historydb_kill_not_honoured (keyhash : List Nat → Nat → Nat) :
    (∃ c, (historydb_insert keyhash 1000 3600 true (packet_kill_star 1000)
              (historydb_empty Int)).2.historydb_hash
            (historydb_bucket (keyhash0 keyhash [65] 1)) = [c] ∧ c.key = [65])
    ∧ (historydb_lookup keyhash 1000 3600
        ((packet_kill_us 1000).data.drop (packet_kill_us 1000).srcname)
        (packet_kill_us 1000).srcname_len
        (historydb_insert keyhash 1000 3600 true (packet_kill_us 1000)
          (historydb_insert keyhash 1000 3600 true (packet_live_us 1000)
            (historydb_empty Int)).2).2).1 = 1 := by
  constructor
  · have hk : historydb_insert_key (packet_kill_star 1000)
        = some ([65, 0, 67, 68, 69, 70, 71, 72, 73, 95, 0], false) := by decide
    have h := (historydb_insert_hash keyhash 1000 3600 true (packet_kill_star 1000)
      (historydb_empty Int) _ _ (by decide) hk).2
    have hs : strlen [65, 0, 67, 68, 69, 70, 71, 72, 73, 95, 0] = 1 := by decide
    have hb : bytes [65, 0, 67, 68, 69, 70, 71, 72, 73, 95, 0] 1 = [65] := by decide
    have hb2 : bytes [65] 1 = [65] := by decide
    rw [h, hs]
    simp only [keyhash0, historydb_empty, historydb_insert_scan]
    rw [hb, hb2]
    simp only [Function.update_same]
    exact ⟨_, rfl, by simp [historydb_new_cell, hb]⟩
  · have hk1 : historydb_insert_key (packet_live_us 1000)
        = some ([65, 66, 95, 67, 68, 69, 70, 71, 72, 0, 0], false) := by decide
    have hk2 : historydb_insert_key (packet_kill_us 1000)
        = some ([65, 66, 0, 67, 68, 69, 70, 71, 72, 95, 0], true) := by decide
    have hs1 : strlen [65, 66, 95, 67, 68, 69, 70, 71, 72, 0, 0] = 9 := by decide
    have hs2 : strlen [65, 66, 0, 67, 68, 69, 70, 71, 72, 95, 0] = 2 := by decide
    have hb1 : bytes [65, 66, 95, 67, 68, 69, 70, 71, 72, 0, 0] 9
        = [65, 66, 95, 67, 68, 69, 70, 71, 72] := by decide
    have hb3 : bytes ((packet_kill_us 1000).data.drop (packet_kill_us 1000).srcname) 9
        = [65, 66, 95, 67, 68, 69, 70, 71, 72] := by decide
    have hlen : (packet_kill_us 1000).srcname_len = 9 := rfl
    have h1 := (historydb_insert_hash keyhash 1000 3600 true (packet_live_us 1000)
      (historydb_empty Int) _ _ (by decide) hk1).2
    rw [hs1] at h1
    have he : (historydb_empty Int).historydb_hash = fun _ => [] := rfl
    simp only [keyhash0, hb1, he, historydb_insert_scan, Bool.not_false,
      Bool.and_self, if_true, List.nil_append] at h1
    have h2 := (historydb_insert_hash keyhash 1000 3600 true (packet_kill_us 1000)
      (historydb_insert keyhash 1000 3600 true (packet_live_us 1000) (historydb_empty Int)).2
      _ _ (by decide) hk2).2
    rw [hs2] at h2
    simp only [Bool.not_true, Bool.and_false, Bool.false_and, Bool.false_eq_true, if_false] at h2
    rw [(insert_scan_no_match _ _ _ _ _ _ _ _).1, Function.update_eq_self] at h2
    · rw [historydb_lookup_eq, h2, h1, hlen]
      simp only [Function.update_apply, keyhash0, hb3, if_true]
      simp [historydb_lookup_scan, historydb_new_cell, memcmp_eq, hb1, hb3,
        bytes_bytes _ (le_refl 9), packet_live_us]
      decide
    · intro e he
      rw [h1] at he
      simp only [Function.update_apply] at he
      split_ifs at he
      · simp only [List.mem_singleton] at he
        subst he
        simp [historydb_new_cell, packet_live_us]
      · simp at he

theorem cleanup_chain_eq (expirytime : Int) (chain : List (history_cell_t F)) :
    historydb_cleanup_chain expirytime chain
      = (chain.filter (fun e => decide (e.arrivaltime ≥ expirytime)),
         (chain.filter (fun e => decide (e.arrivaltime < expirytime))).length) := by
  induction chain with
  | nil => rfl
  | cons cp rest ih =>
    by_cases h : cp.arrivaltime < expirytime
    · have h' : ¬ cp.arrivaltime ≥ expirytime := not_le.mpr h
      simp [historydb_cleanup_chain, ih, h, h']
    · have h' : cp.arrivaltime ≥ expirytime := not_lt.mp h
      simp [historydb_cleanup_chain, ih, h, h']

theorem cleanup_foldl (expirytime : Int) (l : List (Fin HISTORYDB_HASH_MODULO)) (hl : l.Nodup)
    (db : historydb_t F) (c : Int) :
    ((l.foldl (historydb_cleanup_step expirytime) (db, c)).1.historydb_hash
        = fun i => if i ∈ l then (historydb_cleanup_chain expirytime (db.historydb_hash i)).1
                   else db.historydb_hash i)
    ∧ (l.foldl (historydb_cleanup_step expirytime) (db, c)).2
        = c + (l.map (fun i => ((historydb_cleanup_chain expirytime (db.historydb_hash i)).2 : Int))).sum := by
  induction l generalizing db c with
  | nil => simp
  | cons i0 l ih =>
    have hnd := List.nodup_cons.mp hl
    obtain ⟨ih1, ih2⟩ := ih hnd.2
      (historydb_cleanup_step expirytime (db, c) i0).1 (historydb_cleanup_step expirytime (db, c) i0).2
    simp only [List.foldl_cons]
    constructor
    · rw [ih1]
      funext i
      by_cases hi : i ∈ l
      · have hne : i ≠ i0 := fun h => hnd.1 (h ▸ hi)
        simp [hi, historydb_cleanup_step, Function.update_noteq hne]
      · by_cases hi0 : i = i0
        · subst hi0
          simp [hi, historydb_cleanup_step]
        · simp [hi, hi0, historydb_cleanup_step, Function.update_noteq hi0]
    · rw [ih2]
      have hmap : l.map (fun i => ((historydb_cleanup_chain expirytime
            ((historydb_cleanup_step expirytime (db, c) i0).1.historydb_hash i)).2 : Int))
          = l.map (fun i => ((historydb_cleanup_chain expirytime (db.historydb_hash i)).2 : Int)) := by
        apply List.map_congr_left
        intro i hi
        have hne : i ≠ i0 := fun h => hnd.1 (h ▸ hi)
        simp [historydb_cleanup_step, Function.update_noteq hne]
      rw [hmap]
      simp [historydb_cleanup_step]
      ring

theorem cleanup_loop_spec (expirytime : Int) (l : List (Fin HISTORYDB_HASH_MODULO))
    (hl : l.Nodup) (hall : ∀ i, i ∈ l) (db : historydb_t F) :
    (∀ i, (historydb_cleanup_loop expirytime l db).historydb_hash i
        = (db.historydb_hash i).filter (fun e => decide (e.arrivaltime ≥ expirytime)))
    ∧ (historydb_cleanup_loop expirytime l db).historydb_cleanup_cleaned
        = (l.map (fun i => (((db.historydb_hash i).length : Int)
            - ((historydb_cleanup_loop expirytime l db).historydb_hash i).length))).sum := by
  obtain ⟨h1, h2⟩ := cleanup_foldl expirytime l hl db 0
  have hash_eq : ∀ i, (historydb_cleanup_loop expirytime l db).historydb_hash i
        = (db.historydb_hash i).filter (fun e => decide (e.arrivaltime ≥ expirytime)) := by
    intro i
    simp only [historydb_cleanup_loop, h1, hall i, if_true, cleanup_chain_eq]
  refine ⟨hash_eq, ?_⟩
  have hmap : l.map (fun i =>
        ((historydb_cleanup_chain expirytime (db.historydb_hash i)).2 : Int))
      = l.map (fun i => ((db.historydb_hash i).length : Int)
          - ((historydb_cleanup_loop expirytime l db).historydb_hash i).length) := by
    apply List.map_congr_left
    intro i _
    rw [hash_eq i, cleanup_chain_eq]
    have hlen := List.length_eq_length_filter_add
      (fun e : history_cell_t F => decide (e.arrivaltime ≥ expirytime))
      (l := db.historydb_hash i)
    have hf : (db.historydb_hash i).filter (fun e => !decide (e.arrivaltime ≥ expirytime))
        = (db.historydb_hash i).filter (fun e => decide (e.arrivaltime < expirytime)) := by
      apply List.filter_congr
      intro e _
      rw [← decide_not]
      exact decide_eq_decide.mpr not_le
    rw [hf] at hlen
    simp only []
    omega
  have hc : (historydb_cleanup_loop expirytime l db).historydb_cleanup_cleaned
      = (l.foldl (historydb_cleanup_step expirytime) (db, 0)).2 := rfl
  rw [hc, h2, zero_add, hmap]

/-- C4: `historydb_cleanup` leaves in every bucket exactly the entries with
`arrivaltime >= tick - lastposition_storetime`, in their order, and sets
`historydb_cleanup_cleaned` to the number of entries removed. -/
theorem historydb_cleanup_keeps_exactly_the_live (tick lastposition_storetime : Int)
    (db : historydb_t F) :
    (∀ i, (historydb_cleanup tick lastposition_storetime db).historydb_hash i
        = (db.historydb_hash i).filter
            (fun e => decide (e.arrivaltime ≥ tick - lastposition_storetime)))
    ∧ (historydb_cleanup tick lastposition_storetime db).historydb_cleanup_cleaned
        = ∑ i, (((db.historydb_hash i).length : Int)
            - ((historydb_cleanup tick lastposition_storetime db).historydb_hash i).length) := by
  rw [Fin.sum_univ_def]
  exact cleanup_loop_spec (tick - lastposition_storetime) (List.finRange HISTORYDB_HASH_MODULO)
    (List.nodup_finRange _) List.mem_finRange db

theorem insert_scan_chain_from (expirytime : Int) (h1 keylen : Nat) (keybuf : List Nat)
    (isdead : Bool) (pb : pbuf_t F) (chain : List (history_cell_t F)) :
    ∀ e ∈ (historydb_insert_scan expirytime h1 keylen keybuf isdead pb chain).chain,
      ∃ e0 ∈ chain, e.key = e0.key ∧ e.keylen = e0.keylen ∧ e.hash1 = e0.hash1
        ∧ (e = e0 ∨ e = historydb_update_cell pb e0) := by
  induction chain with
  | nil => simp [historydb_insert_scan]
  | cons cp rest ih =>
    intro e he
    have lift : (∃ e0 ∈ rest, e.key = e0.key ∧ e.keylen = e0.keylen ∧ e.hash1 = e0.hash1
        ∧ (e = e0 ∨ e = historydb_update_cell pb e0)) →
        ∃ e0 ∈ cp :: rest, e.key = e0.key ∧ e.keylen = e0.keylen ∧ e.hash1 = e0.hash1
        ∧ (e = e0 ∨ e = historydb_update_cell pb e0) := by
      rintro ⟨e0, h0, h⟩
      exact ⟨e0, List.mem_cons_of_mem _ h0, h⟩
    by_cases hexp : cp.arrivaltime < expirytime
    · simp only [historydb_insert_scan, hexp, if_true] at he
      exact lift (ih e he)
    · by_cases hh : cp.hash1 = h1
      · by_cases hk : cp.keylen = keylen ∧ memcmp_eq cp.key keybuf keylen = true
        · cases isdead
          · simp only [historydb_insert_scan, hexp, hh, hk, if_true, if_false, and_self,
              Bool.false_eq_true, List.mem_cons] at he
            rcases he with rfl | he
            · exact ⟨cp, List.mem_cons_self _ _, rfl, rfl, rfl, Or.inr rfl⟩
            · exact lift (ih e he)
          · simp only [historydb_insert_scan, hexp, hh, hk, if_true, if_false, and_self] at he
            exact lift (ih e he)
        · simp only [historydb_insert_scan, hexp, hh, hk, if_true, if_false,
            List.mem_cons] at he
          rcases he with rfl | he
          · exact ⟨e, List.mem_cons_self _ _, rfl, rfl, rfl, Or.inl rfl⟩
          · exact lift (ih e he)
      · simp only [historydb_insert_scan, hexp, hh, if_false, List.mem_cons] at he
        rcases he with rfl | he
        · exact ⟨e, List.mem_cons_self _ _, rfl, rfl, rfl, Or.inl rfl⟩
        · exact lift (ih e he)

theorem new_cell_ok (keyhash : List Nat → Nat → Nat) (pb : pbuf_t F) (kb : List Nat) (n : Nat) :
    cell_ok keyhash (historydb_bucket (keyhash0 keyhash kb n))
      (historydb_new_cell pb (keyhash0 keyhash kb n) n kb) := by
  refine ⟨?_, rfl, bytes_length _ _⟩
  simp [historydb_new_cell, keyhash0, bytes_bytes _ (le_refl n)]

theorem historydb_insert_ok (keyhash : List Nat → Nat → Nat) (tick st : Int) (ok : Bool)
    (pb : pbuf_t F) (db : historydb_t F) (h : historydb_ok keyhash db) :
    historydb_ok keyhash (historydb_insert keyhash tick st ok pb db).2 := by
  by_cases hpos : pb.flags &&& F_HASPOS = 0
  · simpa only [historydb_insert, hpos, if_true] using h
  · cases hkey : historydb_insert_key pb with
    | none => simpa only [historydb_insert, hpos, if_false, hkey] using h
    | some r =>
      obtain ⟨kb, isdead⟩ := r
      intro i e he
      rw [(historydb_insert_hash keyhash tick st ok pb db kb isdead hpos hkey).2,
        Function.update_apply] at he
      split_ifs at he with hi hc
      · subst hi
        rcases List.mem_append.mp he with he | he
        · obtain ⟨e0, h0, hk, hl, hh, _⟩ := insert_scan_chain_from _ _ _ _ _ _ _ e he
          have := h _ e0 h0
          exact ⟨by rw [hh, hk, hl]; exact this.1, by rw [hh]; exact this.2.1,
            by rw [hk, hl]; exact this.2.2⟩
        · rw [List.mem_singleton.mp he]
          exact new_cell_ok keyhash pb kb (strlen kb)
      · subst hi
        obtain ⟨e0, h0, hk, hl, hh, _⟩ := insert_scan_chain_from _ _ _ _ _ _ _ e he
        have := h _ e0 h0
        exact ⟨by rw [hh, hk, hl]; exact this.1, by rw [hh]; exact this.2.1,
          by rw [hk, hl]; exact this.2.2⟩
      · exact h i e he

theorem historydb_load_entry_hash (keyhash : List Nat → Nat → Nat) (cosf : F → F)
    (tick st : Int) (ok : Bool) (j : Option (history_json F)) (db : historydb_t F) :
    (historydb_load_entry keyhash cosf tick st ok j db).2.historydb_hash = db.historydb_hash
    ∨ ∃ cp : history_cell_t F, ∃ key : List Nat,
        cp.key = bytes key (strlen key) ∧ cp.keylen = strlen key
        ∧ cp.hash1 = keyhash0 keyhash key (strlen key)
        ∧ (historydb_load_entry keyhash cosf tick st ok j db).2.historydb_hash
          = Function.update db.historydb_hash (historydb_bucket cp.hash1)
              (cp :: db.historydb_hash (historydb_bucket cp.hash1)) := by
  unfold historydb_load_entry
  split
  · exact Or.inl rfl
  · split
    · rename_i a k p f la lo _ _ _ _ _ _
      simp only [historydb_alloc]
      split_ifs
      · exact Or.inl rfl
      · exact Or.inl rfl
      · exact Or.inr ⟨⟨a.valueint, strlen k.valuestring, bytes k.valuestring (strlen k.valuestring),
          keyhash0 keyhash k.valuestring (strlen k.valuestring), la.valuedouble,
          cosf la.valuedouble, lo.valuedouble, p.valueint, f.valueint⟩,
          k.valuestring, rfl, rfl, rfl, rfl⟩
      · exact Or.inl rfl
    · exact Or.inl rfl

theorem historydb_load_entry_ok (keyhash : List Nat → Nat → Nat) (cosf : F → F)
    (tick st : Int) (ok : Bool) (j : Option (history_json F)) (db : historydb_t F)
    (h : historydb_ok keyhash db) :
    historydb_ok keyhash (historydb_load_entry keyhash cosf tick st ok j db).2 := by
  rcases historydb_load_entry_hash keyhash cosf tick st ok j db with hh | ⟨cp, key, hk, hl, hh1, hh⟩
  · intro i e he
    rw [hh] at he
    exact h i e he
  · intro i e he
    rw [hh, Function.update_apply] at he
    split_ifs at he with hi
    · rcases List.mem_cons.mp he with rfl | he
      · refine ⟨?_, hi.symm, ?_⟩
        · rw [hh1, hk, hl]
          simp [keyhash0, bytes_bytes _ (le_refl (strlen key))]
        · rw [hk, hl, bytes_length]
      · rw [hi]
        exact h _ e he
    · exact h i e he

theorem historydb_cleanup_ok (keyhash : List Nat → Nat → Nat) (tick st : Int)
    (db : historydb_t F) (h : historydb_ok keyhash db) :
    historydb_ok keyhash (historydb_cleanup tick st db) := by
  intro i e he
  have := (cleanup_loop_spec (tick - st) (List.finRange HISTORYDB_HASH_MODULO)
    (List.nodup_finRange _) List.mem_finRange db).1 i
  unfold historydb_cleanup at he
  rw [this] at he
  exact h i e (List.mem_filter.mp he).1

theorem historydb_reachable_ok (keyhash : List Nat → Nat → Nat) (cosf : F → F)
    (db : historydb_t F) (h : historydb_reachable keyhash cosf db) : historydb_ok keyhash db := by
  induction h with
  | init => intro i e he; simp [historydb_empty] at he
  | insert tick st ok pb _ ih => exact historydb_insert_ok keyhash tick st ok pb _ ih
  | load_entry tick st ok j _ ih => exact historydb_load_entry_ok keyhash cosf tick st ok j _ ih
  | cleanup tick st _ ih => exact historydb_cleanup_ok keyhash tick st _ ih
  | lookup tick st keybuf keylen _ ih =>
    rw [historydb_lookup_eq]
    exact ih

/-- C5: `historydb_lookup` returns 1 with an entry `e` only if `e` has the
looked-up key (same `keylen`, same `keylen` bytes) and
`e.arrivaltime > tick - lastposition_storetime + 300`, and 0 with NULL otherwise;
on a table reachable by insert, load, cleanup and lookup it returns 1 whenever
some entry of the table has that key and such an arrival time; and when every
entry with that key has `arrivaltime <= tick - lastposition_storetime + 300`
(stored, but within the last 300 seconds of its store time) it returns 0. -/
theorem historydb_lookup_validity (keyhash : List Nat → Nat → Nat) (cosf : F → F)
    (tick lastposition_storetime : Int) (keybuf : List Nat) (keylen : Nat)
    (db : historydb_t F) :
    (∀ e, (historydb_lookup keyhash tick lastposition_storetime keybuf keylen db).2.1 = some e →
        (historydb_lookup keyhash tick lastposition_storetime keybuf keylen db).1 = 1
        ∧ e ∈ db.historydb_hash (historydb_bucket (keyhash0 keyhash keybuf keylen))
        ∧ e.keylen = keylen ∧ bytes e.key keylen = bytes keybuf keylen
        ∧ e.arrivaltime > tick - lastposition_storetime + 300)
    ∧ ((historydb_lookup keyhash tick lastposition_storetime keybuf keylen db).2.1 = none →
        (historydb_lookup keyhash tick lastposition_storetime keybuf keylen db).1 = 0)
    ∧ (historydb_reachable keyhash cosf db →
        (∃ i, ∃ e ∈ db.historydb_hash i, e.keylen = keylen
          ∧ bytes e.key keylen = bytes keybuf keylen
          ∧ e.arrivaltime > tick - lastposition_storetime + 300) →
        (historydb_lookup keyhash tick lastposition_storetime keybuf keylen db).1 = 1
        ∧ ∃ e, (historydb_lookup keyhash tick lastposition_storetime keybuf keylen db).2.1 = some e)
    ∧ ((∀ i, ∀ e ∈ db.historydb_hash i, e.keylen = keylen →
          bytes e.key keylen = bytes keybuf keylen →
          e.arrivaltime ≤ tick - lastposition_storetime + 300) →
        (historydb_lookup keyhash tick lastposition_storetime keybuf keylen db).1 = 0
        ∧ (historydb_lookup keyhash tick lastposition_storetime keybuf keylen db).2.1 = none) := by
  rw [historydb_lookup_eq]
  refine ⟨?_, ?_, ?_, ?_⟩
  · intro e he
    simp only [] at he
    obtain ⟨hmem, hm, hv⟩ := lookup_scan_some he
    refine ⟨by simp [he], hmem, hm.2.1, ?_, by omega⟩
    simpa [memcmp_eq] using hm.2.2
  · intro he
    simp only [] at he
    simp [he]
  · intro hr ⟨i, e, he, hl, hb, hv⟩
    have hok := historydb_reachable_ok keyhash cosf db hr i e he
    have hh : e.hash1 = keyhash0 keyhash keybuf keylen := by
      rw [hok.1, hl]
      simp only [keyhash0, hb]
    have hi : i = historydb_bucket (keyhash0 keyhash keybuf keylen) := by
      rw [← hok.2.1, hh]
    subst hi
    have hm : key_match (keyhash0 keyhash keybuf keylen) keylen keybuf e :=
      ⟨hh, hl, by rw [memcmp_eq, hb]; exact beq_self_eq_true _⟩
    obtain ⟨e', he'⟩ := lookup_scan_isSome (tick - lastposition_storetime + 300)
      ⟨e, he, hm, by omega⟩
    simp [he']
  · intro hall
    have hn : historydb_lookup_scan (tick - lastposition_storetime + 300)
        (keyhash0 keyhash keybuf keylen) keylen keybuf
        (db.historydb_hash (historydb_bucket (keyhash0 keyhash keybuf keylen))) = none := by
      apply lookup_scan_none
      intro e he hm
      have := hall _ e he hm.1.2.1 (by simpa [memcmp_eq] using hm.1.2.2)
      omega
    simp [hn]

/-- C5 on the table reached by inserting scenario S1: the entry is there and
recent enough, and the lookup finds it. -/
theorem historydb_lookup_validity_witness :
    historydb_reachable keyhash_fnv (fun x : Int => x)
        (historydb_insert keyhash_fnv 1000 3600 true (packet_S1 1000) (historydb_empty Int)).2
    ∧ (historydb_lookup keyhash_fnv 1000 3600 (packet_S1 1000).data 6
        (historydb_insert keyhash_fnv 1000 3600 true (packet_S1 1000)
          (historydb_empty Int)).2).1 = 1 :=
  ⟨.insert 1000 3600 true (packet_S1 1000) .init,
   ((historydb_lookup_validity keyhash_fnv (fun x : Int => x) 1000 3600 (packet_S1 1000).data 6
      (historydb_insert keyhash_fnv 1000 3600 true (packet_S1 1000) (historydb_empty Int)).2).2.2.1
      (.insert 1000 3600 true (packet_S1 1000) .init)
      ⟨historydb_bucket (keyhash0 keyhash_fnv (packet_S1 1000).data 6), by decide⟩).1⟩

theorem dump_cells_none (fprintf : history_dump_t F → Int) (expirytime : Int)
    (l : List (history_cell_t F)) (h : ∀ e ∈ l, ¬ e.arrivaltime > expirytime) :
    historydb_dump_cells fprintf expirytime l = (0, []) := by
  induction l with
  | nil => rfl
  | cons hp rest ih =>
    have h0 := h hp (List.mem_cons_self _ _)
    simp only [historydb_dump_cells, h0, if_false]
    exact ih (fun e he => h e (List.mem_cons_of_mem _ he))

/-- C6 (evaluation of the code): an entry whose `arrivaltime` equals
`tick - lastposition_storetime` is kept by `historydb_cleanup` and a record
with that `arrivaltime` is accepted by `historydb_load_entry`, but
`historydb_dump` tests `arrivaltime > expirytime` and writes nothing for it:
the dump of the table holding scenario S1 with `arrivaltime = 1000`, taken at
`tick = 4600` with a store time of 3600, is empty, so the table loaded from it
is the empty table, whereas the line of that entry would have been loaded. -/
theorem historydb_dump_drops_boundary_entry (keyhash : List Nat → Nat → Nat)
    (fprintf : history_dump_t Int → Int) :
    (∃ c, (historydb_cleanup 4600 3600
            (historydb_insert keyhash 1000 3600 true (packet_S1 1000)
              (historydb_empty Int)).2).historydb_hash
          (historydb_bucket (keyhash0 keyhash (packet_S1 1000).data 6)) = [c]
        ∧ c.arrivaltime = 4600 - 3600)
    ∧ historydb_dump fprintf 4600 3600
        (historydb_insert keyhash 1000 3600 true (packet_S1 1000) (historydb_empty Int)).2
        = (0, [])
    ∧ (∀ i, (historydb_load keyhash (fun x => x) 4600 3600 [] (historydb_empty Int)).2.historydb_hash i
        = [])
    ∧ (historydb_load_entry keyhash (fun x => x) 4600 3600 true (some (json_S1 1000))
        (historydb_empty Int)).1 = 1 := by
  have hk : historydb_insert_key (packet_S1 1000)
      = some ([79, 72, 55, 76, 90, 66, 0, 65, 80, 0, 0], false) := by decide
  have hs : strlen [79, 72, 55, 76, 90, 66, 0, 65, 80, 0, 0] = 6 := by decide
  have hb : bytes [79, 72, 55, 76, 90, 66, 0, 65, 80, 0, 0] 6 = [79, 72, 55, 76, 90, 66] := by
    decide
  have hb2 : bytes (packet_S1 1000).data 6 = [79, 72, 55, 76, 90, 66] := by decide
  have h := (historydb_insert_hash keyhash 1000 3600 true (packet_S1 1000)
    (historydb_empty Int) _ _ (by decide) hk).2
  rw [hs] at h
  have he : (historydb_empty Int).historydb_hash = fun _ => [] := rfl
  simp only [keyhash0, hb, he, historydb_insert_scan, Bool.not_false, Bool.and_self, if_true,
    List.nil_append] at h
  refine ⟨?_, ?_, fun i => rfl, by simp [historydb_load_entry, json_S1, json_number]⟩
  · refine ⟨historydb_new_cell (packet_S1 1000) (keyhash [79, 72, 55, 76, 90, 66] 0 % 2 ^ 32) 6
      [79, 72, 55, 76, 90, 66, 0, 65, 80, 0, 0], ?_, by simp [historydb_new_cell, packet_S1]⟩
    unfold historydb_cleanup
    rw [(cleanup_loop_spec (4600 - 3600) (List.finRange HISTORYDB_HASH_MODULO)
      (List.nodup_finRange _) List.mem_finRange _).1, h, Function.update_apply]
    simp only [keyhash0, hb2, if_true]
    simp [historydb_new_cell, packet_S1]
  · unfold historydb_dump
    apply dump_cells_none
    intro e he
    obtain ⟨i, _, hi⟩ := List.mem_flatMap.mp he
    rw [h, Function.update_apply] at hi
    split_ifs at hi
    · rw [List.mem_singleton.mp hi]
      simp [historydb_new_cell, packet_S1]
    · simp at hi

theorem historydb_load_entry_rejected (keyhash : List Nat → Nat → Nat) (cosf : F → F)
    (tick st : Int) (ok : Bool) (j : Option (history_json F)) (db : historydb_t F)
    (h : history_json_complete (tick - st) j = false) :
    (historydb_load_entry keyhash cosf tick st ok j db).1 ≤ 0
    ∧ (historydb_load_entry keyhash cosf tick st ok j db).2 = db := by
  unfold historydb_load_entry
  split
  · exact ⟨by norm_num, rfl⟩
  · split
    · rename_i j _ _ _ _ _ _ a k p f la lo h1 h2 h3 h4 h5 h6
      simp only []
      split_ifs with c1 c2 c3
      · exact ⟨le_refl _, rfl⟩
      · exact ⟨le_refl _, rfl⟩
      · exfalso
        obtain ⟨ja, jk, jp, jf, jla, jlo⟩ := j
        subst h1 h2 h3 h4 h5 h6
        simp only [not_or, not_not, not_lt] at c1 c2
        obtain ⟨t1, t2, t3, t4, t5, t6⟩ := c1
        simp [history_json_complete, t1, t2, t3, t4, t5, t6] at h
        omega
      · exfalso
        obtain ⟨ja, jk, jp, jf, jla, jlo⟩ := j
        subst h1 h2 h3 h4 h5 h6
        simp only [not_or, not_not, not_lt] at c1 c2
        obtain ⟨t1, t2, t3, t4, t5, t6⟩ := c1
        simp [history_json_complete, t1, t2, t3, t4, t5, t6] at h
        omega
    · exact ⟨le_refl _, rfl⟩

theorem history_json_complete_true (expirytime : Int) (a k p f la lo : cJSON F)
    (h : history_json_complete expirytime
      (some ⟨some a, some k, some p, some f, some la, some lo⟩) = true) :
    ¬ (a.type ≠ .cJSON_Number ∨ k.type ≠ .cJSON_String ∨ p.type ≠ .cJSON_Number
        ∨ f.type ≠ .cJSON_Number ∨ la.type ≠ .cJSON_Number ∨ lo.type ≠ .cJSON_Number)
    ∧ ¬ a.valueint < expirytime := by
  simp only [history_json_complete, Bool.and_eq_true, beq_iff_eq, decide_eq_true_eq] at h
  obtain ⟨⟨⟨⟨⟨⟨t1, t2⟩, t3⟩, t4⟩, t5⟩, t6⟩, t7⟩ := h
  simp only [t1, t2, t3, t4, t5, t6, ne_eq, not_true_eq_false, or_self, not_false_eq_true,
    true_and]
  omega

/-- C7 (as amended): a line that does not parse, lacks one of the six members,
has one of the wrong JSON type or has `arrivaltime < tick -
lastposition_storetime` makes `historydb_load_entry` return a non-positive
value and leave the whole state, table and cell gauge included, unchanged;
every other record is, when the cell allocation succeeds, put at the head of
the bucket selected by the hash of its key, with 1 returned and the gauge
incremented; when the allocation fails the call returns 0 and the table is
unchanged. -/
theorem historydb_load_entry_spec (keyhash : List Nat → Nat → Nat) (cosf : F → F)
    (tick lastposition_storetime : Int) (cellmalloc_ok : Bool) (j : Option (history_json F))
    (db : historydb_t F) :
    (history_json_complete (tick - lastposition_storetime) j = false →
      (historydb_load_entry keyhash cosf tick lastposition_storetime cellmalloc_ok j db).1 ≤ 0
      ∧ (historydb_load_entry keyhash cosf tick lastposition_storetime cellmalloc_ok j db).2 = db)
    ∧ (∀ a k p f la lo, j = some ⟨some a, some k, some p, some f, some la, some lo⟩ →
        history_json_complete (tick - lastposition_storetime) j = true →
        (cellmalloc_ok = true →
          (historydb_load_entry keyhash cosf tick lastposition_storetime cellmalloc_ok j db).1 = 1
          ∧ (historydb_load_entry keyhash cosf tick lastposition_storetime cellmalloc_ok j
              db).2.historydb_hash
            = Function.update db.historydb_hash
                (historydb_bucket (keyhash0 keyhash k.valuestring (strlen k.valuestring)))
                (history_json_cell keyhash cosf a k p f la lo
                  :: db.historydb_hash
                      (historydb_bucket (keyhash0 keyhash k.valuestring (strlen k.valuestring))))
          ∧ (historydb_load_entry keyhash cosf tick lastposition_storetime cellmalloc_ok j
              db).2.historydb_cellgauge = db.historydb_cellgauge + 1)
        ∧ (cellmalloc_ok = false →
          (historydb_load_entry keyhash cosf tick lastposition_storetime cellmalloc_ok j db).1 = 0
          ∧ (historydb_load_entry keyhash cosf tick lastposition_storetime cellmalloc_ok j
              db).2.historydb_hash = db.historydb_hash)) := by
  refine ⟨historydb_load_entry_rejected keyhash cosf tick lastposition_storetime cellmalloc_ok j db,
    ?_⟩
  intro a k p f la lo hj hc
  subst hj
  obtain ⟨c1, c2⟩ := history_json_complete_true _ a k p f la lo hc
  constructor
  · intro hok
    subst hok
    simp [historydb_load_entry, c1, c2, historydb_alloc, history_json_cell]
  · intro hok
    subst hok
    simp [historydb_load_entry, c1, c2, historydb_alloc]

/-- C7 as amended, at the dump line of scenario S1: it is loaded and 1 is
returned. -/
theorem historydb_load_entry_spec_witness :
    history_json_complete (1000 - 3600) (some (json_S1 1000)) = true
    ∧ (historydb_load_entry keyhash_fnv (fun x => x) 1000 3600 true (some (json_S1 1000))
        (historydb_empty Int)).1 = 1 :=
  ⟨by decide,
   (((historydb_load_entry_spec keyhash_fnv (fun x => x) 1000 3600 true (some (json_S1 1000))
      (historydb_empty Int)).2 _ _ _ _ _ _ rfl (by decide)).1 rfl).1⟩

/-- C7 (counterexample to the claim as stated): the dump line of scenario S1
is complete, well typed and recent enough, yet with a failing `cellmalloc` the
call returns 0, not 1, and adds nothing. -/
theorem historydb_load_entry_alloc_failure :
    history_json_complete (1000 - 3600) (some (json_S1 1000)) = true
    ∧ (historydb_load_entry keyhash_fnv (fun x => x) 1000 3600 false (some (json_S1 1000))
        (historydb_empty Int)).1 = 0
    ∧ (historydb_load_entry keyhash_fnv (fun x => x) 1000 3600 false (some (json_S1 1000))
        (historydb_empty Int)).2.historydb_hash
        (historydb_bucket (keyhash0 keyhash_fnv [79, 72, 55, 76, 90, 66] 6)) = [] := by
  refine ⟨by decide, by decide, by decide⟩

theorem historydb_insert_key_none (pb : pbuf_t F) :
    historydb_insert_key pb = none ↔
      (pb.packettype &&& T_OBJECT = 0 ∧ pb.packettype &&& T_ITEM = 0
        ∧ pb.packettype &&& T_POSITION = 0) := by
  constructor
  · intro h
    by_contra hne
    have hs : (historydb_insert_key pb).isSome = true := by
      unfold historydb_insert_key
      simp only []
      split_ifs with hO hI hP
      · rfl
      · split
        · rfl
        · split <;> rfl
      · split <;> rfl
      · exact absurd ⟨not_not.mp hO, not_not.mp hI, not_not.mp hP⟩ hne
    rw [h] at hs
    cases hs
  · rintro ⟨hO, hI, hP⟩
    simp [historydb_insert_key, hO, hI, hP]

/-- C8: `historydb_insert` returns -1 and leaves every bucket unchanged exactly
when the packet lacks `HAS_POS` or carries none of the `OBJECT`, `ITEM`,
`POSITION` type flags; in every other case it returns 1. -/
theorem historydb_insert_return_value (keyhash : List Nat → Nat → Nat)
    (tick lastposition_storetime : Int) (cellmalloc_ok : Bool) (pb : pbuf_t F)
    (db : historydb_t F) :
    (((historydb_insert keyhash tick lastposition_storetime cellmalloc_ok pb db).1 = -1
        ∧ ∀ i, (historydb_insert keyhash tick lastposition_storetime cellmalloc_ok pb
                  db).2.historydb_hash i = db.historydb_hash i)
      ↔ (pb.flags &&& F_HASPOS = 0
          ∨ (pb.packettype &&& T_OBJECT = 0 ∧ pb.packettype &&& T_ITEM = 0
              ∧ pb.packettype &&& T_POSITION = 0)))
    ∧ (¬ (pb.flags &&& F_HASPOS = 0
          ∨ (pb.packettype &&& T_OBJECT = 0 ∧ pb.packettype &&& T_ITEM = 0
              ∧ pb.packettype &&& T_POSITION = 0)) →
        (historydb_insert keyhash tick lastposition_storetime cellmalloc_ok pb db).1 = 1) := by
  by_cases hpos : pb.flags &&& F_HASPOS = 0
  · simp [historydb_insert, hpos]
  · cases hkey : historydb_insert_key pb with
    | none =>
      have := (historydb_insert_key_none pb).mp hkey
      simp [historydb_insert, hpos, hkey, this]
    | some r =>
      obtain ⟨kb, isdead⟩ := r
      have hne : ¬ (pb.packettype &&& T_OBJECT = 0 ∧ pb.packettype &&& T_ITEM = 0
          ∧ pb.packettype &&& T_POSITION = 0) := by
        intro h
        rw [(historydb_insert_key_none pb).mpr h] at hkey
        cases hkey
      have h1 := (historydb_insert_hash keyhash tick lastposition_storetime cellmalloc_ok pb db
        kb isdead hpos hkey).1
      constructor
      · constructor
        · rintro ⟨h, _⟩
          rw [h1] at h
          exact absurd h (by decide)
        · rintro (h | h)
          · exact absurd h hpos
          · exact absurd h hne
      · intro _
        exact h1

theorem byteAt_tail (a : List Nat) (k : Nat) : byteAt a.tail k = byteAt a (k + 1) := by
  cases a <;> simp [byteAt, List.getD]

theorem strncasecmp_eq_of_agree (n : Nat) (a b : List Nat)
    (h : ∀ k < n, (∀ m < k, byteAt a m ≠ 0) → byteAt a k = byteAt b k) :
    strncasecmp_eq a b n = true := by
  induction n generalizing a b with
  | zero => rfl
  | succ n ih =>
    have h0 : byteAt a 0 = byteAt b 0 := h 0 (Nat.succ_pos n) (fun m hm => absurd hm (Nat.not_lt_zero m))
    unfold strncasecmp_eq
    rw [← h0]
    simp only [ne_eq, not_true_eq_false, if_false]
    split_ifs with hz
    · rfl
    · apply ih
      intro k hk hnz
      rw [byteAt_tail, byteAt_tail]
      apply h (k + 1) (Nat.succ_lt_succ hk)
      intro m hm
      cases m with
      | zero => exact hz
      | succ m =>
        rw [← byteAt_tail]
        exact hnz m (Nat.lt_of_succ_lt_succ hm)

theorem byteAt_append_left {l r : List Nat} {k : Nat} (h : k < l.length) :
    byteAt (l ++ r) k = byteAt l k := by
  simp [byteAt, List.getD, List.getElem?_append_left h]

theorem byteAt_take {l : List Nat} {k n : Nat} (h : k < n) : byteAt (l.take n) k = byteAt l k := by
  simp [byteAt, List.getD, List.getElem?_take, h]

theorem byteAt_set_ne (l : List Nat) {i k : Nat} (v : Nat) (h : i ≠ k) :
    byteAt (l.set i v) k = byteAt l k := by
  simp [byteAt, List.getD, List.getElem?_set_ne h]

theorem byteAt_append_replicate_zero (l : List Nat) (m : Nat) {k : Nat} (h : l.length ≤ k) :
    byteAt (l ++ List.replicate m 0) k = 0 := by
  unfold byteAt
  rw [List.getD_eq_getElem?_getD, List.getElem?_append_right h, List.getElem?_replicate]
  split_ifs <;> rfl

theorem byteAt_strncpy (dst src : List Nat) {n k : Nat} (hk : k < n)
    (hnz : ∀ m < k, byteAt src m ≠ 0) :
    byteAt (strncpy dst src n) k = byteAt src k := by
  have hL := strlen_le (bytes src n)
  rw [bytes_length] at hL
  unfold strncpy
  simp only []
  have hlen : ((bytes src n).take (strlen (bytes src n))
      ++ List.replicate (n - strlen (bytes src n)) 0).length = n := by
    simp [bytes_length]
    omega
  rw [byteAt_append_left (by rw [hlen]; exact hk)]
  rcases Nat.lt_or_ge k (strlen (bytes src n)) with h | h
  · rw [byteAt_append_left (by simp [bytes_length]; omega), byteAt_take h, byteAt_bytes _ hk]
  · -- the first NUL of `src` is at `strlen`, so `k` is that position
    have hz : byteAt src (strlen (bytes src n)) = 0 := by
      rw [← byteAt_bytes src (lt_of_le_of_lt h hk)]
      exact byteAt_strlen _
    have hk' : k = strlen (bytes src n) := by
      rcases Nat.lt_or_ge (strlen (bytes src n)) k with h' | h'
      · exact absurd hz (hnz _ h')
      · exact le_antisymm h' h
    rw [← hk'] at hz
    rw [hz]
    exact byteAt_append_replicate_zero _ _ (by simp [bytes_length]; omega)

theorem heard_match_last_heard (call : List Nat) (call_len hash : Nat) (h : client_heard_t)
    (t : Int) :
    heard_match call call_len hash { h with last_heard := t } = heard_match call call_len hash h :=
  rfl

theorem heard_list_update_loop_some {call : List Nat} {call_len hash : Nat} {t : Int}
    {before rest chain : List client_heard_t}
    (h : heard_list_update_loop call call_len hash t before rest = some chain) :
    ∃ h1 tail, chain = h1 :: tail ∧ heard_match call call_len hash h1 = true := by
  induction rest generalizing before with
  | nil => simp [heard_list_update_loop] at h
  | cons x rest ih =>
    by_cases hm : heard_match call call_len hash x = true
    · simp only [heard_list_update_loop, hm, if_true] at h
      split_ifs at h
      · exact ⟨_, _, (Option.some.inj h).symm, hm⟩
      · exact ⟨_, _, (Option.some.inj h).symm, hm⟩
    · simp only [heard_list_update_loop, hm, if_false] at h
      exact ih h

theorem heard_list_update_loop_split (call : List Nat) (call_len hash : Nat) (t : Int)
    (before pre suf : List client_heard_t) (h : client_heard_t)
    (hm : heard_match call call_len hash h = true)
    (hnm : ∀ x ∈ pre, heard_match call call_len hash x = false) :
    heard_list_update_loop call call_len hash t before (pre ++ h :: suf)
      = some (if before ++ pre ≠ [] then { h with last_heard := t } :: (before ++ pre ++ suf)
              else { h with last_heard := t } :: suf) := by
  induction pre generalizing before with
  | nil =>
    by_cases hb : before = [] <;> simp [heard_list_update_loop, hm, hb]
  | cons x pre ih =>
    have hx : heard_match call call_len hash x = false := hnm x (List.mem_cons_self _ _)
    have hstep : heard_list_update_loop call call_len hash t before (x :: pre ++ h :: suf)
        = heard_list_update_loop call call_len hash t (before ++ [x]) (pre ++ h :: suf) := by
      simp [heard_list_update_loop, hx]
    rw [hstep, ih (before ++ [x]) (fun y hy => hnm y (List.mem_cons_of_mem _ hy))]
    simp

theorem heard_find_loop_head (callsign : List Nat) (call_len hash : Nat)
    (h1 : client_heard_t) (tail : List client_heard_t)
    (hm : heard_match callsign call_len hash h1 = true) :
    heard_find_loop callsign call_len hash false [] (h1 :: tail) = some (h1 :: tail) := by
  simp [heard_find_loop, hm]

theorem heard_find_head (list : Fin CLIENT_HEARD_BUCKETS → List client_heard_t) (entrycount : Int)
    (callsign : List Nat) (call_len hash : Nat) (h1 : client_heard_t)
    (tail : List client_heard_t) (hb : list (heard_bucket hash) = h1 :: tail)
    (hm : heard_match callsign call_len hash h1 = true) :
    (heard_find list entrycount callsign call_len hash false).1 = 1 := by
  simp [heard_find, hb, heard_find_loop_head _ _ _ _ _ hm]

theorem heard_match_new (keyhashuc : List Nat → Nat → Nat) (h0 : client_heard_t)
    (call : List Nat) (call_len : Nat) (t : Int) (hlen : call_len ≤ CALLSIGNLEN_MAX) :
    heard_match call call_len (keyhashuc0 keyhashuc call call_len)
      { hash := keyhashuc0 keyhashuc call call_len
        callsign := (strncpy h0.callsign call call_len).set CALLSIGNLEN_MAX 0
        call_len := call_len
        last_heard := t } = true := by
  simp only [heard_match, beq_self_eq_true, Bool.true_and]
  apply strncasecmp_eq_of_agree
  intro k hk hnz
  rw [byteAt_set_ne _ _ (by omega), byteAt_strncpy _ _ hk hnz]

/-- C9: after `client_heard_update` has recorded the source callsign of a
packet (at most 9 bytes; the allocation, if one is needed, succeeding),
`client_heard_check` with that callsign, its length and its `keyhashuc` hash
returns 1, whatever the heard table held and whatever the allocated cell
contained before. -/
theorem client_heard_update_then_check (keyhashuc : List Nat → Nat → Nat)
    (cell : client_heard_t) (pb : pbuf_t F) (c : client_t)
    (hlen : pb.srccall_end ≤ CALLSIGNLEN_MAX) :
    (client_heard_check (client_heard_update keyhashuc (some cell) pb c) pb.data pb.srccall_end
      (keyhashuc0 keyhashuc pb.data pb.srccall_end)).1 = 1 := by
  unfold client_heard_check client_heard_update heard_list_update
  simp only []
  cases hl : heard_list_update_loop pb.data pb.srccall_end
      (keyhashuc0 keyhashuc pb.data pb.srccall_end) pb.t []
      (c.client_heard (heard_bucket (keyhashuc0 keyhashuc pb.data pb.srccall_end))) with
  | none =>
    exact heard_find_head _ _ _ _ _ _ _ (Function.update_same _ _ _)
      (heard_match_new keyhashuc cell pb.data pb.srccall_end pb.t hlen)
  | some chain =>
    obtain ⟨h1, tail, rfl, hm⟩ := heard_list_update_loop_some hl
    exact heard_find_head _ _ _ _ _ _ _ (Function.update_same _ _ _) hm

/-- C9 at scenario S1, on an empty client and a cell with stale content. -/
theorem client_heard_update_then_check_witness :
    (client_heard_check
      (client_heard_update keyhashuc_fnv (some stale_cell) (packet_S1 1000) client_empty)
      (packet_S1 1000).data (packet_S1 1000).srccall_end
      (keyhashuc0 keyhashuc_fnv (packet_S1 1000).data (packet_S1 1000).srccall_end)).1 = 1 :=
  client_heard_update_then_check keyhashuc_fnv stale_cell (packet_S1 1000) client_empty
    (by decide)

/-- C10: when the callsign's bucket holds an entry matching the packet's
source callsign, `client_heard_update` makes the first such entry the head of
the bucket with `last_heard` set to the packet's time, in particular when it
was not the head before; the other entries of the bucket follow in their
previous order, none is added or lost, and the other buckets, the entry count
and the courtesy table are unchanged. -/
theorem client_heard_update_moves_to_front (keyhashuc : List Nat → Nat → Nat)
    (cellmalloc : Option client_heard_t) (pb : pbuf_t F) (c : client_t)
    (pre suf : List client_heard_t) (h : client_heard_t)
    (hb : c.client_heard (heard_bucket (keyhashuc0 keyhashuc pb.data pb.srccall_end))
      = pre ++ h :: suf)
    (hm : heard_match pb.data pb.srccall_end (keyhashuc0 keyhashuc pb.data pb.srccall_end) h = true)
    (hnm : ∀ x ∈ pre,
      heard_match pb.data pb.srccall_end (keyhashuc0 keyhashuc pb.data pb.srccall_end) x = false) :
    (client_heard_update keyhashuc cellmalloc pb c).client_heard
        (heard_bucket (keyhashuc0 keyhashuc pb.data pb.srccall_end))
      = { h with last_heard := pb.t } :: (pre ++ suf)
    ∧ (∀ j, j ≠ heard_bucket (keyhashuc0 keyhashuc pb.data pb.srccall_end) →
        (client_heard_update keyhashuc cellmalloc pb c).client_heard j = c.client_heard j)
    ∧ (client_heard_update keyhashuc cellmalloc pb c).client_heard_count = c.client_heard_count
    ∧ (client_heard_update keyhashuc cellmalloc pb c).client_courtesy = c.client_courtesy
    ∧ (client_heard_update keyhashuc cellmalloc pb c).client_courtesy_count
        = c.client_courtesy_count := by
  have hl := heard_list_update_loop_split pb.data pb.srccall_end
    (keyhashuc0 keyhashuc pb.data pb.srccall_end) pb.t [] pre suf h hm hnm
  have hl' : heard_list_update_loop pb.data pb.srccall_end
      (keyhashuc0 keyhashuc pb.data pb.srccall_end) pb.t [] (pre ++ h :: suf)
      = some ({ h with last_heard := pb.t } :: (pre ++ suf)) := by
    rw [hl]
    by_cases hpre : pre = [] <;> simp [hpre]
  simp only [client_heard_update, heard_list_update, hb, hl']
  exact ⟨Function.update_same _ _ _, fun j hj => Function.update_noteq hj _ _, trivial, trivial,
    trivial⟩

/-- C10 on a bucket of two entries, the second being `OH7LZB`. -/
theorem client_heard_update_moves_to_front_witness :
    (client_heard_update keyhashuc_fnv none (packet_S1 1000) client_two).client_heard
        (heard_bucket (keyhashuc0 keyhashuc_fnv (packet_S1 1000).data (packet_S1 1000).srccall_end))
      = [{ heard_OH7LZB with last_heard := 1000 }, heard_other] :=
  (client_heard_update_moves_to_front keyhashuc_fnv none (packet_S1 1000) client_two
    [heard_other] [] heard_OH7LZB rfl (by decide) (by decide)).1

theorem tolower_eq_zero {c : Nat} : tolower c = 0 ↔ c = 0 := by
  unfold tolower
  by_cases h : 65 ≤ c ∧ c ≤ 90
  · rw [if_pos h]
    constructor <;> intro h0 <;> omega
  · rw [if_neg h]

theorem strncasecmp_eq_symm (n : Nat) (a b : List Nat) :
    strncasecmp_eq a b n = strncasecmp_eq b a n := by
  induction n generalizing a b with
  | zero => rfl
  | succ n ih =>
    unfold strncasecmp_eq
    by_cases h : tolower (byteAt a 0) = tolower (byteAt b 0)
    · have hz : byteAt a 0 = 0 ↔ byteAt b 0 = 0 := by
        rw [← tolower_eq_zero, h, tolower_eq_zero]
      by_cases ha : byteAt a 0 = 0
      · simp [h, ha, hz.mp ha]
      · have hb : ¬ byteAt b 0 = 0 := fun hb => ha (hz.mpr hb)
        simp [h, ha, hb, ih a.tail b.tail]
    · have h' : ¬ tolower (byteAt b 0) = tolower (byteAt a 0) := fun e => h e.symm
      simp [h, h']

theorem strncasecmp_eq_trans (n : Nat) (a b c : List Nat)
    (hab : strncasecmp_eq a b n = true) (hbc : strncasecmp_eq b c n = true) :
    strncasecmp_eq a c n = true := by
  induction n generalizing a b c with
  | zero => rfl
  | succ n ih =>
    unfold strncasecmp_eq at hab hbc ⊢
    by_cases h1 : tolower (byteAt a 0) = tolower (byteAt b 0)
    · by_cases h2 : tolower (byteAt b 0) = tolower (byteAt c 0)
      · have hz : byteAt a 0 = 0 ↔ byteAt b 0 = 0 := by
          rw [← tolower_eq_zero, h1, tolower_eq_zero]
        by_cases ha : byteAt a 0 = 0
        · rw [if_neg (not_not.mpr (h1.trans h2)), if_pos ha]
        · have hb : ¬ byteAt b 0 = 0 := fun hb => ha (hz.mpr hb)
          simp only [ne_eq, h1, h2, not_true_eq_false, if_false, ha, hb] at hab hbc
          simp only [ne_eq, h1.trans h2, not_true_eq_false, if_false, ha]
          exact ih _ _ _ hab hbc
      · simp [h2] at hbc
    · simp [h1] at hab

theorem heard_match_equiv {call : List Nat} {call_len hash : Nat} {a b : client_heard_t}
    (ha : heard_match call call_len hash a = true) (hb : heard_match call call_len hash b = true) :
    heard_equiv a b := by
  simp only [heard_match, Bool.and_eq_true, beq_iff_eq] at ha hb
  obtain ⟨⟨ha1, ha2⟩, ha3⟩ := ha
  obtain ⟨⟨hb1, hb2⟩, hb3⟩ := hb
  refine ⟨ha1.trans hb1.symm, ha2.symm.trans hb2, ?_⟩
  rw [← hb2, ha2] at hb3
  rw [strncasecmp_eq_symm] at ha3
  exact strncasecmp_eq_trans _ _ _ _ ha3 hb3

theorem heard_equiv_match {call : List Nat} {call_len hash : Nat} {a b : client_heard_t}
    (hab : heard_equiv a b) (ha : heard_match call call_len hash a = true) :
    heard_match call call_len hash b = true := by
  simp only [heard_match, Bool.and_eq_true, beq_iff_eq] at ha ⊢
  obtain ⟨⟨ha1, ha2⟩, ha3⟩ := ha
  obtain ⟨e1, e2, e3⟩ := hab
  refine ⟨⟨e1 ▸ ha1, ha2.trans e2⟩, ?_⟩
  rw [← e2]
  exact strncasecmp_eq_trans _ _ _ _ ha3 e3

theorem heard_equiv_symm {a b : client_heard_t} (h : heard_equiv a b) : heard_equiv b a := by
  obtain ⟨e1, e2, e3⟩ := h
  refine ⟨e1.symm, e2.symm, ?_⟩
  rw [← e2, strncasecmp_eq_symm]
  exact e3

theorem heard_split (call : List Nat) (call_len hash : Nat) (l : List client_heard_t) :
    (∀ x ∈ l, heard_match call call_len hash x = false)
    ∨ ∃ pre h suf, l = pre ++ h :: suf ∧ heard_match call call_len hash h = true
        ∧ ∀ x ∈ pre, heard_match call call_len hash x = false := by
  induction l with
  | nil => exact Or.inl (fun x hx => absurd hx (List.not_mem_nil x))
  | cons a l ih =>
    by_cases ha : heard_match call call_len hash a = true
    · exact Or.inr ⟨[], a, l, rfl, ha, fun x hx => absurd hx (List.not_mem_nil x)⟩
    · have ha' : heard_match call call_len hash a = false := by simpa using ha
      rcases ih with h | ⟨pre, h, suf, e, hm, hnm⟩
      · left
        intro x hx
        rcases List.mem_cons.mp hx with rfl | hx
        · exact ha'
        · exact h x hx
      · right
        refine ⟨a :: pre, h, suf, by rw [e]; rfl, hm, ?_⟩
        intro x hx
        rcases List.mem_cons.mp hx with rfl | hx
        · exact ha'
        · exact hnm x hx

theorem heard_list_update_loop_none (call : List Nat) (call_len hash : Nat) (t : Int)
    (before rest : List client_heard_t)
    (h : ∀ x ∈ rest, heard_match call call_len hash x = false) :
    heard_list_update_loop call call_len hash t before rest = none := by
  induction rest generalizing before with
  | nil => rfl
  | cons a rest ih =>
    have ha := h a (List.mem_cons_self _ _)
    simp only [heard_list_update_loop, ha, Bool.false_eq_true, if_false]
    exact ih _ (fun x hx => h x (List.mem_cons_of_mem _ hx))

theorem heard_find_loop_none (call : List Nat) (call_len hash : Nat) (d : Bool)
    (before rest : List client_heard_t)
    (h : ∀ x ∈ rest, heard_match call call_len hash x = false) :
    heard_find_loop call call_len hash d before rest = none := by
  induction rest generalizing before with
  | nil => rfl
  | cons a rest ih =>
    have ha := h a (List.mem_cons_self _ _)
    simp only [heard_find_loop, ha, Bool.false_eq_true, if_false]
    exact ih _ (fun x hx => h x (List.mem_cons_of_mem _ hx))

theorem heard_find_loop_split (call : List Nat) (call_len hash : Nat) (d : Bool)
    (before pre suf : List client_heard_t) (h : client_heard_t)
    (hm : heard_match call call_len hash h = true)
    (hnm : ∀ x ∈ pre, heard_match call call_len hash x = false) :
    heard_find_loop call call_len hash d before (pre ++ h :: suf)
      = some (if d then before ++ pre ++ suf else before ++ pre ++ h :: suf) := by
  induction pre generalizing before with
  | nil =>
    cases d <;> simp [heard_find_loop, hm]
  | cons x pre ih =>
    have hx : heard_match call call_len hash x = false := hnm x (List.mem_cons_self _ _)
    have hstep : heard_find_loop call call_len hash d before (x :: pre ++ h :: suf)
        = heard_find_loop call call_len hash d (before ++ [x]) (pre ++ h :: suf) := by
      simp [heard_find_loop, hx]
    rw [hstep, ih (before ++ [x]) (fun y hy => hnm y (List.mem_cons_of_mem _ hy))]
    simp

theorem heard_distinct_remove {pre suf : List client_heard_t} {h : client_heard_t}
    (hd : heard_distinct (pre ++ h :: suf)) : heard_distinct (pre ++ suf) :=
  List.Pairwise.sublist
    (List.Sublist.append (List.Sublist.refl pre) (List.sublist_cons_self h suf)) hd

theorem heard_distinct_front {pre suf : List client_heard_t} {h : client_heard_t} (t : Int)
    (hd : heard_distinct (pre ++ h :: suf)) :
    heard_distinct ({ h with last_heard := t } :: (pre ++ suf)) := by
  have hp : heard_distinct (h :: (pre ++ suf)) :=
    (List.Perm.pairwise_iff (fun {a b} hab hba => hab (heard_equiv_symm hba))
      List.perm_middle).mp hd
  unfold heard_distinct at hp ⊢
  rw [List.pairwise_cons] at hp ⊢
  exact ⟨fun x hx he => hp.1 x hx he, hp.2⟩

theorem heard_expire_chain_sublist (tick expire_below : Int) (l : List client_heard_t) :
    (heard_expire_chain tick expire_below l).1.Sublist l := by
  induction l with
  | nil => exact List.Sublist.refl _
  | cons a l ih =>
    unfold heard_expire_chain
    simp only []
    split_ifs
    · exact List.Sublist.cons a ih
    · exact List.Sublist.cons₂ a ih

theorem heard_expire_foldl_sublist (tick expire_below : Int)
    (l : List (Fin CLIENT_HEARD_BUCKETS))
    (list : Fin CLIENT_HEARD_BUCKETS → List client_heard_t) (c : Int)
    (i : Fin CLIENT_HEARD_BUCKETS) :
    ((l.foldl (heard_expire_step tick expire_below) (list, c)).1 i).Sublist (list i) := by
  induction l generalizing list c with
  | nil => exact List.Sublist.refl _
  | cons i0 l ih =>
    simp only [List.foldl_cons]
    refine List.Sublist.trans (ih _ _) ?_
    simp only [heard_expire_step, Function.update_apply]
    split_ifs with hi
    · subst hi
      exact heard_expire_chain_sublist _ _ _
    · exact List.Sublist.refl _

theorem courtesy_reachable_distinct (keyhashuc : List Nat → Nat → Nat)
    {list : Fin CLIENT_HEARD_BUCKETS → List client_heard_t}
    (hr : courtesy_reachable keyhashuc list) (i : Fin CLIENT_HEARD_BUCKETS) :
    heard_distinct (list i) := by
  induction hr generalizing i with
  | init => exact List.Pairwise.nil
  | @update cellmalloc call call_len t entrycount list0 _ hlen ih =>
    unfold heard_list_update
    simp only []
    rcases heard_split call call_len (keyhashuc0 keyhashuc call call_len)
        (list0 (heard_bucket (keyhashuc0 keyhashuc call call_len))) with hno | ⟨pre, h, suf, e, hm, hnm⟩
    · rw [heard_list_update_loop_none _ _ _ _ _ _ hno]
      cases cellmalloc with
      | none => exact ih i
      | some cell =>
        simp only [Function.update_apply]
        split_ifs with hi
        · unfold heard_distinct
          rw [List.pairwise_cons]
          refine ⟨?_, ih _⟩
          intro x hx he
          have hmx := heard_equiv_match he (heard_match_new keyhashuc cell call call_len t hlen)
          rw [hno x hx] at hmx
          exact Bool.false_ne_true hmx
        · exact ih i
    · rw [e, heard_list_update_loop_split _ _ _ _ _ _ _ _ hm hnm]
      simp only [Function.update_apply]
      split_ifs with hi hpre
      · simp only [List.nil_append]
        have := ih (heard_bucket (keyhashuc0 keyhashuc call call_len))
        rw [e] at this
        exact heard_distinct_front t this
      · have hp : pre = [] := by simpa using hpre
        subst hp
        have := ih (heard_bucket (keyhashuc0 keyhashuc call call_len))
        rw [e] at this
        exact heard_distinct_front t this
      · exact ih i
  | @needed entrycount callsign call_len hash list0 _ ih =>
    unfold heard_find
    simp only []
    rcases heard_split callsign call_len hash (list0 (heard_bucket hash))
      with hno | ⟨pre, h, suf, e, hm, hnm⟩
    · rw [heard_find_loop_none _ _ _ _ _ _ hno]
      exact ih i
    · rw [e, heard_find_loop_split _ _ _ _ _ _ _ _ hm hnm]
      simp only [if_true, List.nil_append, Function.update_apply]
      split_ifs with hi
      · have := ih (heard_bucket hash)
        rw [e] at this
        exact heard_distinct_remove this
      · exact ih i
  | @expire tick storetime entrycount list0 _ ih =>
    exact List.Pairwise.sublist (heard_expire_foldl_sublist _ _ _ _ _ i) (ih i)
  | free _ _ => exact List.Pairwise.nil

theorem heard_find_hit (list : Fin CLIENT_HEARD_BUCKETS → List client_heard_t) (entrycount : Int)
    (callsign : List Nat) (call_len hash : Nat) (pre suf : List client_heard_t)
    (h : client_heard_t) (hb : list (heard_bucket hash) = pre ++ h :: suf)
    (hm : heard_match callsign call_len hash h = true)
    (hnm : ∀ x ∈ pre, heard_match callsign call_len hash x = false) :
    heard_find list entrycount callsign call_len hash true
      = (1, Function.update list (heard_bucket hash) (pre ++ suf), entrycount - 1) := by
  simp [heard_find, hb, heard_find_loop_split _ _ _ _ _ _ _ _ hm hnm]

theorem heard_find_miss (list : Fin CLIENT_HEARD_BUCKETS → List client_heard_t) (entrycount : Int)
    (callsign : List Nat) (call_len hash : Nat) (d : Bool)
    (hno : ∀ x ∈ list (heard_bucket hash), heard_match callsign call_len hash x = false) :
    heard_find list entrycount callsign call_len hash d = (0, list, entrycount) := by
  simp [heard_find, heard_find_loop_none _ _ _ _ _ _ hno]

/-- C11: on every courtesy table the client can have, `client_courtesy_needed`
for a packet whose `srcname` (with `srcname_len` and `srcname_hash`) has an
entry returns 1; that entry is the only one matching, it is removed from its
bucket, the other entries keep their order, the other buckets and the heard
table are unchanged, `client_courtesy_count` decreases by 1, and the same call
made again returns 0. Without an entry it returns 0 and the client is
unchanged. -/
theorem client_courtesy_needed_removes_on_hit (keyhashuc : List Nat → Nat → Nat)
    (c : client_t) (pb : pbuf_t F)
    (hr : courtesy_reachable keyhashuc c.client_courtesy) :
    ((∃ x ∈ c.client_courtesy (heard_bucket pb.srcname_hash),
        heard_match (pb.data.drop pb.srcname) pb.srcname_len pb.srcname_hash x = true) →
      ∃ pre h suf, c.client_courtesy (heard_bucket pb.srcname_hash) = pre ++ h :: suf
        ∧ heard_match (pb.data.drop pb.srcname) pb.srcname_len pb.srcname_hash h = true
        ∧ (∀ x ∈ pre ++ suf,
            heard_match (pb.data.drop pb.srcname) pb.srcname_len pb.srcname_hash x = false)
        ∧ (client_courtesy_needed c pb).1 = 1
        ∧ (client_courtesy_needed c pb).2.client_courtesy (heard_bucket pb.srcname_hash)
            = pre ++ suf
        ∧ (∀ j, j ≠ heard_bucket pb.srcname_hash →
            (client_courtesy_needed c pb).2.client_courtesy j = c.client_courtesy j)
        ∧ (client_courtesy_needed c pb).2.client_courtesy_count = c.client_courtesy_count - 1
        ∧ (client_courtesy_needed c pb).2.client_heard = c.client_heard
        ∧ (client_courtesy_needed c pb).2.client_heard_count = c.client_heard_count
        ∧ (client_courtesy_needed (client_courtesy_needed c pb).2 pb).1 = 0)
    ∧ ((∀ x ∈ c.client_courtesy (heard_bucket pb.srcname_hash),
        heard_match (pb.data.drop pb.srcname) pb.srcname_len pb.srcname_hash x = false) →
      (client_courtesy_needed c pb).1 = 0 ∧ (client_courtesy_needed c pb).2 = c) := by
  constructor
  · rintro ⟨x0, hx0, hmx0⟩
    rcases heard_split (pb.data.drop pb.srcname) pb.srcname_len pb.srcname_hash
        (c.client_courtesy (heard_bucket pb.srcname_hash)) with hno | ⟨pre, h, suf, e, hm, hnm⟩
    · rw [hno x0 hx0] at hmx0
      exact absurd hmx0 Bool.false_ne_true
    · have hd := courtesy_reachable_distinct keyhashuc hr (heard_bucket pb.srcname_hash)
      rw [e] at hd
      have hsuf : ∀ x ∈ suf,
          heard_match (pb.data.drop pb.srcname) pb.srcname_len pb.srcname_hash x = false := by
        intro x hx
        by_contra hne
        have hmx : heard_match (pb.data.drop pb.srcname) pb.srcname_len pb.srcname_hash x
            = true := by simpa using hne
        have h2 := (List.pairwise_append.mp hd).2.1
        exact (List.pairwise_cons.mp h2).1 x hx (heard_match_equiv hm hmx)
      have hall : ∀ x ∈ pre ++ suf,
          heard_match (pb.data.drop pb.srcname) pb.srcname_len pb.srcname_hash x = false := by
        intro x hx
        rcases List.mem_append.mp hx with hx | hx
        · exact hnm x hx
        · exact hsuf x hx
      have hf := heard_find_hit c.client_courtesy c.client_courtesy_count
        (pb.data.drop pb.srcname) pb.srcname_len pb.srcname_hash pre suf h e hm hnm
      refine ⟨pre, h, suf, e, hm, hall, ?_, ?_, ?_, ?_, ?_, ?_, ?_⟩
      · simp only [client_courtesy_needed, hf]
      · simp only [client_courtesy_needed, hf, Function.update_same]
      · intro j hj
        simp only [client_courtesy_needed, hf]
        exact Function.update_noteq hj _ _
      · simp only [client_courtesy_needed, hf]
      · simp only [client_courtesy_needed]
      · simp only [client_courtesy_needed]
      · have hf2 := heard_find_miss
          (Function.update c.client_courtesy (heard_bucket pb.srcname_hash) (pre ++ suf))
          (c.client_courtesy_count - 1) (pb.data.drop pb.srcname) pb.srcname_len
          pb.srcname_hash true (by rw [Function.update_same]; exact hall)
        simp only [client_courtesy_needed, hf, hf2]
  · intro hno
    have hf := heard_find_miss c.client_courtesy c.client_courtesy_count
      (pb.data.drop pb.srcname) pb.srcname_len pb.srcname_hash true hno
    simp only [client_courtesy_needed, hf]
    exact ⟨trivial, trivial⟩

/-- C11 on the courtesy table holding the entry of `OH7LZB`: the first call
returns 1 and leaves an empty table with count 0, the second returns 0. -/
theorem client_courtesy_needed_removes_on_hit_witness :
    courtesy_reachable keyhashuc_fnv client_courtesy_S1.client_courtesy
    ∧ client_courtesy_S1.client_courtesy_count = 1
    ∧ (client_courtesy_needed client_courtesy_S1 packet_S1_hashed).1 = 1
    ∧ (client_courtesy_needed client_courtesy_S1 packet_S1_hashed).2.client_courtesy_count = 0
    ∧ (client_courtesy_needed
        (client_courtesy_needed client_courtesy_S1 packet_S1_hashed).2 packet_S1_hashed).1 = 0 := by
  have hr : courtesy_reachable keyhashuc_fnv client_courtesy_S1.client_courtesy :=
    courtesy_reachable.update (some stale_cell) (packet_S1 1000).data 6 1000 0
      courtesy_reachable.init (by decide)
  obtain ⟨pre, h, suf, _, _, _, h1, _, _, h4, _, _, h7⟩ :=
    (client_courtesy_needed_removes_on_hit keyhashuc_fnv client_courtesy_S1 packet_S1_hashed hr).1
      ⟨_, List.mem_singleton.mpr rfl, by decide⟩
  refine ⟨hr, rfl, h1, ?_, h7⟩
  rw [h4]
  rfl

theorem toupper_tolower (c : Nat) : toupper (tolower c) = toupper c := by
  unfold toupper tolower
  by_cases h : 65 ≤ c ∧ c ≤ 90
  · rw [if_pos h, if_pos (by omega), if_neg (by omega)]
    omega
  · rw [if_neg h]

theorem keyhashuc_fnv_fold (p q : List Nat) (h : p.map tolower = q.map tolower) :
    keyhashuc_fnv p 0 = keyhashuc_fnv q 0 := by
  have e : ∀ l : List Nat, l.map toupper = (l.map tolower).map toupper := by
    intro l
    rw [List.map_map]
    apply List.map_congr_left
    intro c _
    exact (toupper_tolower c).symm
  unfold keyhashuc_fnv
  rw [e p, e q, h]

theorem strncasecmp_eq_of_tolower (n : Nat) (a b : List Nat)
    (h : ∀ k < n, tolower (byteAt a k) = tolower (byteAt b k)) :
    strncasecmp_eq a b n = true := by
  induction n generalizing a b with
  | zero => rfl
  | succ n ih =>
    unfold strncasecmp_eq
    rw [if_neg (not_not.mpr (h 0 (Nat.succ_pos n)))]
    split_ifs with hz
    · rfl
    · apply ih
      intro k hk
      rw [byteAt_tail, byteAt_tail]
      exact h (k + 1) (Nat.succ_lt_succ hk)

theorem keyhashuc0_fold (keyhashuc : List Nat → Nat → Nat)
    (hfold : ∀ p q : List Nat, p.map tolower = q.map tolower → keyhashuc p 0 = keyhashuc q 0)
    (a b : List Nat) (n : Nat) (h : ∀ k < n, tolower (byteAt a k) = tolower (byteAt b k)) :
    keyhashuc0 keyhashuc a n = keyhashuc0 keyhashuc b n := by
  unfold keyhashuc0
  rw [hfold (bytes a n) (bytes b n)]
  unfold bytes
  rw [List.map_map, List.map_map]
  apply List.map_congr_left
  intro k hk
  exact h k (List.mem_range.mp hk)

theorem heard_match_fold (keyhashuc : List Nat → Nat → Nat)
    (hfold : ∀ p q : List Nat, p.map tolower = q.map tolower → keyhashuc p 0 = keyhashuc q 0)
    (a b : List Nat) (n : Nat) (h : ∀ k < n, tolower (byteAt a k) = tolower (byteAt b k))
    (e : client_heard_t) (hm : heard_match a n (keyhashuc0 keyhashuc a n) e = true) :
    heard_match b n (keyhashuc0 keyhashuc b n) e = true := by
  rw [← keyhashuc0_fold keyhashuc hfold a b n h]
  simp only [heard_match, Bool.and_eq_true, beq_iff_eq] at hm ⊢
  obtain ⟨⟨h1, h2⟩, h3⟩ := hm
  refine ⟨⟨h1, h2⟩, ?_⟩
  rw [← h2] at h3 ⊢
  exact strncasecmp_eq_trans _ _ _ _
    (strncasecmp_eq_of_tolower n b a (fun k hk => (h k hk).symm)) h3

theorem heard_list_update_head (keyhashuc : List Nat → Nat → Nat) (cell : client_heard_t)
    (call : List Nat) (call_len : Nat) (t : Int)
    (list : Fin CLIENT_HEARD_BUCKETS → List client_heard_t) (entrycount : Int)
    (hlen : call_len ≤ CALLSIGNLEN_MAX) :
    ∃ h tail,
      (heard_list_update keyhashuc (some cell) call call_len t list entrycount).1
          (heard_bucket (keyhashuc0 keyhashuc call call_len)) = h :: tail
      ∧ heard_match call call_len (keyhashuc0 keyhashuc call call_len) h = true := by
  unfold heard_list_update
  simp only []
  cases hl : heard_list_update_loop call call_len (keyhashuc0 keyhashuc call call_len) t []
      (list (heard_bucket (keyhashuc0 keyhashuc call call_len))) with
  | none =>
    exact ⟨_, _, Function.update_same _ _ _, heard_match_new keyhashuc cell call call_len t hlen⟩
  | some chain =>
    obtain ⟨h1, tail, rfl, hm⟩ := heard_list_update_loop_some hl
    exact ⟨h1, tail, Function.update_same _ _ _, hm⟩

/-- C12: let two source callsigns of the same length (at most 9 bytes) differ
only in letter case, and let `keyhashuc` give equal hashes to byte strings
that are equal after `tolower`. After `client_heard_update` has recorded the
first (its allocation, if any, succeeding), `client_heard_check` with the
second, its length and its hash returns 1, and `client_heard_update` for the
second finds that entry: it stays the head of its bucket with `last_heard` set
to the new time, no entry is added to any bucket and the count is unchanged,
whether or not an allocation would succeed. -/
theorem heard_list_case_insensitive (keyhashuc : List Nat → Nat → Nat)
    (cell : client_heard_t) (cellmalloc : Option client_heard_t) (pb pb2 : pbuf_t F)
    (c : client_t)
    (hfold : ∀ p q : List Nat, p.map tolower = q.map tolower → keyhashuc p 0 = keyhashuc q 0)
    (hlen : pb.srccall_end ≤ CALLSIGNLEN_MAX) (hlen2 : pb2.srccall_end = pb.srccall_end)
    (hcase : ∀ k < pb.srccall_end, tolower (byteAt pb.data k) = tolower (byteAt pb2.data k)) :
    (client_heard_check (client_heard_update keyhashuc (some cell) pb c) pb2.data
        pb2.srccall_end (keyhashuc0 keyhashuc pb2.data pb2.srccall_end)).1 = 1
    ∧ (client_heard_update keyhashuc cellmalloc pb2
        (client_heard_update keyhashuc (some cell) pb c)).client_heard_count
        = (client_heard_update keyhashuc (some cell) pb c).client_heard_count
    ∧ (∃ h tail,
        (client_heard_update keyhashuc (some cell) pb c).client_heard
            (heard_bucket (keyhashuc0 keyhashuc pb2.data pb2.srccall_end)) = h :: tail
        ∧ (client_heard_update keyhashuc cellmalloc pb2
            (client_heard_update keyhashuc (some cell) pb c)).client_heard
            (heard_bucket (keyhashuc0 keyhashuc pb2.data pb2.srccall_end))
          = { h with last_heard := pb2.t } :: tail)
    ∧ (∀ j, j ≠ heard_bucket (keyhashuc0 keyhashuc pb2.data pb2.srccall_end) →
        (client_heard_update keyhashuc cellmalloc pb2
            (client_heard_update keyhashuc (some cell) pb c)).client_heard j
          = (client_heard_update keyhashuc (some cell) pb c).client_heard j) := by
  obtain ⟨h, tail, hb, hm⟩ := heard_list_update_head keyhashuc cell pb.data pb.srccall_end pb.t
    c.client_heard c.client_heard_count hlen
  have hm2 : heard_match pb2.data pb2.srccall_end
      (keyhashuc0 keyhashuc pb2.data pb2.srccall_end) h = true := by
    rw [hlen2]
    exact heard_match_fold keyhashuc hfold pb.data pb2.data pb.srccall_end hcase h hm
  have hk : keyhashuc0 keyhashuc pb.data pb.srccall_end
      = keyhashuc0 keyhashuc pb2.data pb2.srccall_end := by
    rw [hlen2]
    exact keyhashuc0_fold keyhashuc hfold pb.data pb2.data pb.srccall_end hcase
  rw [hk] at hb
  have hb1 : (client_heard_update keyhashuc (some cell) pb c).client_heard
      (heard_bucket (keyhashuc0 keyhashuc pb2.data pb2.srccall_end)) = h :: tail := hb
  have hl : heard_list_update_loop pb2.data pb2.srccall_end
      (keyhashuc0 keyhashuc pb2.data pb2.srccall_end) pb2.t [] (h :: tail)
      = some ({ h with last_heard := pb2.t } :: tail) := by
    simp [heard_list_update_loop, hm2]
  refine ⟨?_, ?_, ⟨h, tail, hb1, ?_⟩, ?_⟩
  · exact heard_find_head _ _ _ _ _ _ _ hb1 hm2
  · simp only [client_heard_update, heard_list_update] at hb1 ⊢
    simp only [hb1, hl]
  · simp only [client_heard_update, heard_list_update] at hb1 ⊢
    simp only [hb1, hl, Function.update_same]
  · intro j hj
    simp only [client_heard_update, heard_list_update] at hb1 ⊢
    simp only [hb1, hl]
    exact Function.update_noteq hj _ _

/-- C12 for `OH7LZB` recorded and `oh7lzb` looked up, with the case-folding
hash `keyhashuc_fnv`, on an empty client. -/
theorem heard_list_case_insensitive_witness :
    (client_heard_check
        (client_heard_update keyhashuc_fnv (some stale_cell) (packet_S1 1000) client_empty)
        (packet_S1_lower 1001).data (packet_S1_lower 1001).srccall_end
        (keyhashuc0 keyhashuc_fnv (packet_S1_lower 1001).data
          (packet_S1_lower 1001).srccall_end)).1 = 1
    ∧ (client_heard_update keyhashuc_fnv none (packet_S1_lower 1001)
        (client_heard_update keyhashuc_fnv (some stale_cell) (packet_S1 1000)
          client_empty)).client_heard_count = 1 := by
  have h := heard_list_case_insensitive keyhashuc_fnv stale_cell none (packet_S1 1000)
    (packet_S1_lower 1001) client_empty keyhashuc_fnv_fold (by decide) rfl (by decide)
  exact ⟨h.1, h.2.1.trans rfl⟩

theorem pbuf_fill_pos_test (lat lng : Rat) :
    (pbuf_fill_pos_bad lat lng = true ∨ lat < -90 ∨ lat > 90 ∨ lng < -180 ∨ lng > 180)
      ↔ pos_rejected lat lng := by
  unfold pbuf_fill_pos_bad pos_rejected
  simp only [Bool.or_eq_true, Bool.and_eq_true, decide_eq_true_eq, or_assoc, and_assoc]

theorem pbuf_fill_pos_rejected (E : parse_env F) (pb : pbuf_t F) (lat lng : Rat)
    (sym_table sym_code : Nat) (h : pos_rejected lat lng) :
    pbuf_fill_pos E pb lat lng sym_table sym_code = (0, pbuf_fill_sym pb sym_table sym_code) := by
  have ht := (pbuf_fill_pos_test lat lng).mpr h
  unfold pbuf_fill_pos pbuf_fill_sym
  simp only []
  rw [if_pos ht]
  by_cases h1 : sym_code = 95 <;> by_cases h2 : sym_code = 64
    <;> by_cases h3 : valid_sym_table_uncompressed sym_table = true
    <;> simp [h1, h2, h3]

theorem pbuf_fill_pos_accepted (E : parse_env F) (pb : pbuf_t F) (lat lng : Rat)
    (sym_table sym_code : Nat) (h : ¬ pos_rejected lat lng) :
    pbuf_fill_pos E pb lat lng sym_table sym_code
      = (1, { pbuf_fill_sym pb sym_table sym_code with
              lat := E.filter_lat2rad lat
              cos_lat := E.cosf (E.filter_lat2rad lat)
              lng := E.filter_lon2rad lng
              flags := pb.flags ||| F_HASPOS }) := by
  have ht := fun h' => h ((pbuf_fill_pos_test lat lng).mp h')
  unfold pbuf_fill_pos pbuf_fill_sym
  simp only []
  rw [if_neg ht]
  by_cases h1 : sym_code = 95 <;> by_cases h2 : sym_code = 64
    <;> by_cases h3 : valid_sym_table_uncompressed sym_table = true
    <;> simp [h1, h2, h3]

/-- C14 (as amended): `pbuf_fill_pos` returns 0 and leaves the position
fields and flags of the packet alone exactly on the positions of
`pos_rejected`; on every other position it returns 1, stores the converted
position and sets `F_HASPOS`. In both cases the symbol is stored. -/
theorem pbuf_fill_pos_rejects_exactly (E : parse_env F) (pb : pbuf_t F) (lat lng : Rat)
    (sym_table sym_code : Nat) :
    (pos_rejected lat lng ↔ (pbuf_fill_pos E pb lat lng sym_table sym_code).1 = 0)
    ∧ (pos_rejected lat lng →
        (pbuf_fill_pos E pb lat lng sym_table sym_code).2.flags = pb.flags
        ∧ (pbuf_fill_pos E pb lat lng sym_table sym_code).2.lat = pb.lat
        ∧ (pbuf_fill_pos E pb lat lng sym_table sym_code).2.lng = pb.lng
        ∧ (pbuf_fill_pos E pb lat lng sym_table sym_code).2.cos_lat = pb.cos_lat)
    ∧ (¬ pos_rejected lat lng →
        (pbuf_fill_pos E pb lat lng sym_table sym_code).1 = 1
        ∧ (pbuf_fill_pos E pb lat lng sym_table sym_code).2.flags = pb.flags ||| F_HASPOS
        ∧ (pbuf_fill_pos E pb lat lng sym_table sym_code).2.lat = E.filter_lat2rad lat
        ∧ (pbuf_fill_pos E pb lat lng sym_table sym_code).2.lng = E.filter_lon2rad lng
        ∧ (pbuf_fill_pos E pb lat lng sym_table sym_code).2.cos_lat
            = E.cosf (E.filter_lat2rad lat))
    ∧ (pbuf_fill_pos E pb lat lng sym_table sym_code).2.symbol = [sym_table, sym_code, 0] := by
  by_cases h : pos_rejected lat lng
  · rw [pbuf_fill_pos_rejected E pb lat lng sym_table sym_code h]
    exact ⟨⟨fun _ => rfl, fun _ => h⟩, fun _ => ⟨rfl, rfl, rfl, rfl⟩, fun h' => absurd h h', rfl⟩
  · rw [pbuf_fill_pos_accepted E pb lat lng sym_table sym_code h]
    exact ⟨⟨fun h' => absurd h' h, fun h' => absurd h' (show ¬ ((1 : Int) = 0) by decide)⟩, fun h' => absurd h' h,
      fun _ => ⟨rfl, rfl, rfl, rfl, rfl⟩, rfl⟩

/-- C14, the claim as worded fails: latitude `89.95` at longitude `0`, and
latitude `0` at longitude `90.005`, are rejected by `pbuf_fill_pos`, although
neither is out of range nor within `0.0001` degrees of a listed point,
whichever way the points `(0, ±90)` are read. -/
theorem pbuf_fill_pos_rejects_unlisted_zones :
    (pbuf_fill_pos env_example frame_S1 89.95 0 47 45).1 = 0
    ∧ (pbuf_fill_pos env_example frame_S1 89.95 0 47 45).2.flags = 0
    ∧ spec_position_rejected 89.95 0 = false
    ∧ spec_position_rejected_poles 89.95 0 = false
    ∧ (pbuf_fill_pos env_example frame_S1 0 90.005 47 45).1 = 0
    ∧ (pbuf_fill_pos env_example frame_S1 0 90.005 47 45).2.flags = 0
    ∧ spec_position_rejected 0 90.005 = false
    ∧ spec_position_rejected_poles 0 90.005 = false := by
  decide!

theorem compressed_check_iff (b : Nat → Nat) :
    (List.range' 1 8).any (fun i => decide (b i < 0x21 ∨ b i > 0x7b)) = true
      ↔ ∃ i, 1 ≤ i ∧ i ≤ 8 ∧ (b i < 0x21 ∨ b i > 0x7b) := by
  simp only [List.any_eq_true, List.mem_range'_1, decide_eq_true_eq]
  constructor
  · rintro ⟨i, ⟨h1, h2⟩, h3⟩
    exact ⟨i, h1, by omega, h3⟩
  · rintro ⟨i, h1, h2, h3⟩
    exact ⟨i, ⟨h1, by omega⟩, h3⟩

theorem parse_aprs_compressed_eq (E : parse_env F) (pb : pbuf_t F) (body body_end : Nat)
    (hlen : (body_end : Int) - body ≥ 13)
    (hok : ∀ i, 1 ≤ i → i ≤ 8 →
      0x21 ≤ byteAt pb.data (body + i) ∧ byteAt pb.data (body + i) ≤ 0x7b) :
    parse_aprs_compressed E pb body body_end
      = pbuf_fill_pos E pb
          (to_float (90 - to_float (to_float ((∑ i in Finset.range 4,
              ((byteAt pb.data (body + (i + 1)) : Int) - 33) * 91 ^ (3 - i) : Int) : Rat)
            / 380926)))
          (to_float (-180 + to_float (to_float ((∑ i in Finset.range 4,
              ((byteAt pb.data (body + (i + 5)) : Int) - 33) * 91 ^ (3 - i) : Int) : Rat)
            / 190463)))
          (byteAt pb.data (body + 0)) (byteAt pb.data (body + 9)) := by
  have hno : ¬ ((List.range' 1 8).any
      (fun i => decide (byteAt pb.data (body + i) < 0x21 ∨ byteAt pb.data (body + i) > 0x7b))
        = true) := by
    rw [compressed_check_iff (fun i => byteAt pb.data (body + i))]
    rintro ⟨i, h1, h2, h3⟩
    have := hok i h1 h2
    omega
  unfold parse_aprs_compressed
  simp only []
  rw [if_neg (by omega), if_neg hno]
  have e1 : (∑ i in Finset.range 4,
      ((byteAt pb.data (body + (i + 1)) : Int) - 33) * 91 ^ (3 - i))
      = ((((byteAt pb.data (body + 1) : Int) - 33) * 91 + ((byteAt pb.data (body + 2) : Int) - 33))
          * 91 + ((byteAt pb.data (body + 3) : Int) - 33)) * 91
          + ((byteAt pb.data (body + 4) : Int) - 33) := by
    simp only [Finset.sum_range_succ, Finset.sum_range_zero]
    ring
  have e2 : (∑ i in Finset.range 4,
      ((byteAt pb.data (body + (i + 5)) : Int) - 33) * 91 ^ (3 - i))
      = ((((byteAt pb.data (body + 5) : Int) - 33) * 91 + ((byteAt pb.data (body + 6) : Int) - 33))
          * 91 + ((byteAt pb.data (body + 7) : Int) - 33)) * 91
          + ((byteAt pb.data (body + 8) : Int) - 33) := by
    simp only [Finset.sum_range_succ, Finset.sum_range_zero]
    ring
  rw [e1, e2]

/-- C16, with the arithmetic of the code: on a field of at least 13 bytes,
`parse_aprs_compressed` returns 0 and leaves the packet as it is when one of
the bytes 1..8 lies outside `0x21..0x7b`; otherwise, with `N` and `M` the
base-91 numbers of the bytes 1..4 and 5..8, it decodes in single precision
`lat = fl(90 - fl(fl(N)/380926))` and `lng = fl(-180 + fl(fl(M)/190463))`,
`fl` being the rounding to `float`, and hands them to `pbuf_fill_pos` with
byte 0 as symbol table and byte 9 as symbol code: the two symbol bytes are
stored, and the call returns 1 with the position stored and `F_HASPOS` set
exactly when the rounded position is not one of `pos_rejected`, returning 0
with position and flags untouched otherwise. -/
theorem parse_aprs_compressed_spec (E : parse_env F) (pb : pbuf_t F) (body body_end : Nat)
    (lat lng : Rat)
    (hlen : (body_end : Int) - body ≥ 13)
    (hlat : lat = to_float (90 - to_float (to_float ((∑ i in Finset.range 4,
        ((byteAt pb.data (body + (i + 1)) : Int) - 33) * 91 ^ (3 - i) : Int) : Rat) / 380926)))
    (hlng : lng = to_float (-180 + to_float (to_float ((∑ i in Finset.range 4,
        ((byteAt pb.data (body + (i + 5)) : Int) - 33) * 91 ^ (3 - i) : Int) : Rat)
          / 190463))) :
    ((∃ i, 1 ≤ i ∧ i ≤ 8
        ∧ (byteAt pb.data (body + i) < 0x21 ∨ byteAt pb.data (body + i) > 0x7b)) →
      parse_aprs_compressed E pb body body_end = (0, pb))
    ∧ ((∀ i, 1 ≤ i → i ≤ 8 →
        0x21 ≤ byteAt pb.data (body + i) ∧ byteAt pb.data (body + i) ≤ 0x7b) →
      parse_aprs_compressed E pb body body_end
          = pbuf_fill_pos E pb lat lng (byteAt pb.data body) (byteAt pb.data (body + 9))
      ∧ (parse_aprs_compressed E pb body body_end).2.symbol
          = [byteAt pb.data body, byteAt pb.data (body + 9), 0]
      ∧ (¬ pos_rejected lat lng →
          (parse_aprs_compressed E pb body body_end).1 = 1
          ∧ (parse_aprs_compressed E pb body body_end).2.flags = pb.flags ||| F_HASPOS
          ∧ (parse_aprs_compressed E pb body body_end).2.lat = E.filter_lat2rad lat
          ∧ (parse_aprs_compressed E pb body body_end).2.lng = E.filter_lon2rad lng
          ∧ (parse_aprs_compressed E pb body body_end).2.cos_lat
              = E.cosf (E.filter_lat2rad lat))
      ∧ (pos_rejected lat lng →
          (parse_aprs_compressed E pb body body_end).1 = 0
          ∧ (parse_aprs_compressed E pb body body_end).2.flags = pb.flags
          ∧ (parse_aprs_compressed E pb body body_end).2.lat = pb.lat
          ∧ (parse_aprs_compressed E pb body body_end).2.lng = pb.lng
          ∧ (parse_aprs_compressed E pb body body_end).2.cos_lat = pb.cos_lat)) := by
  constructor
  · intro hbad
    have h := (compressed_check_iff (fun i => byteAt pb.data (body + i))).mpr hbad
    unfold parse_aprs_compressed
    simp only []
    rw [if_neg (by omega), if_pos h]
  · intro hok
    have he := parse_aprs_compressed_eq E pb body body_end hlen hok
    rw [← hlat, ← hlng, Nat.add_zero] at he
    rw [he]
    refine ⟨rfl, ?_, ?_, ?_⟩
    · by_cases hr : pos_rejected lat lng
      · rw [pbuf_fill_pos_rejected E pb lat lng _ _ hr]
        rfl
      · rw [pbuf_fill_pos_accepted E pb lat lng _ _ hr]
        rfl
    · intro hr
      rw [pbuf_fill_pos_accepted E pb lat lng _ _ hr]
      exact ⟨rfl, rfl, rfl, rfl, rfl⟩
    · intro hr
      rw [pbuf_fill_pos_rejected E pb lat lng _ _ hr]
      exact ⟨rfl, rfl, rfl, rfl, rfl⟩

/-- C16 on the compressed field `/5L!!<*e7>7P[`: latitude `49.5`, longitude
`-9535489/131072` (about `-72.750008`, the `float` next to
`-13856184/190463`), symbol table `/`, symbol code `>`, position accepted. -/
theorem parse_aprs_compressed_spec_witness :
    parse_aprs_compressed env_example frame_compressed 13 26
        = pbuf_fill_pos env_example frame_compressed (99 / 2) (-9535489 / 131072) 47 62
    ∧ (parse_aprs_compressed env_example frame_compressed 13 26).1 = 1
    ∧ (parse_aprs_compressed env_example frame_compressed 13 26).2.flags = F_HASPOS := by
  have h := (parse_aprs_compressed_spec env_example frame_compressed 13 26 (99 / 2) (-9535489 / 131072)
    (by decide)
    (by simp only [Finset.sum_range_succ, Finset.sum_range_zero]; decide!)
    (by simp only [Finset.sum_range_succ, Finset.sum_range_zero]; decide!)).2 (by decide)
  exact ⟨h.1, (h.2.2.1 (by decide!)).1, (h.2.2.1 (by decide!)).2.1⟩

/-- C16 as stated fails: for the latitude bytes `\x7b\x7b!"`, `N = 68566681`,
the exact `90 - N/380926` lies below `-90`, a position that validation
rejects, while the code converts `N` to the `float` `68566680`, gets the
latitude `-90` and stores the position with `F_HASPOS`. -/
theorem parse_aprs_compressed_exact_differs :
    spec_compressed_lat frame_compressed_pole.data 13 = 90 - 68566681 / 380926
    ∧ spec_compressed_lng frame_compressed_pole.data 13 = -180
    ∧ pos_rejected (spec_compressed_lat frame_compressed_pole.data 13)
        (spec_compressed_lng frame_compressed_pole.data 13)
    ∧ to_float 68566681 = 68566680
    ∧ parse_aprs_compressed env_example frame_compressed_pole 13 26
        = pbuf_fill_pos env_example frame_compressed_pole (-90) (-180) 47 62
    ∧ (parse_aprs_compressed env_example frame_compressed_pole 13 26).1 = 1
    ∧ (parse_aprs_compressed env_example frame_compressed_pole 13 26).2.flags = F_HASPOS
    ∧ (parse_aprs env_example frame_compressed_pole).1 = 1
    ∧ (parse_aprs env_example frame_compressed_pole).2.flags &&& F_HASPOS = F_HASPOS := by
  have e1 : spec_compressed_lat frame_compressed_pole.data 13 = 90 - 68566681 / 380926 := by
    unfold spec_compressed_lat
    simp only [Finset.sum_range_succ, Finset.sum_range_zero]
    decide!
  have e2 : spec_compressed_lng frame_compressed_pole.data 13 = -180 := by
    unfold spec_compressed_lng
    simp only [Finset.sum_range_succ, Finset.sum_range_zero]
    decide!
  refine ⟨e1, e2, ?_, by decide!, by decide!, by decide!, by decide!, by decide!, by decide!⟩
  rw [e1, e2]
  decide!

theorem scan_digits_two (a b : Nat) (r : List Nat) (ha : 48 ≤ a ∧ a ≤ 57)
    (hb : 48 ≤ b ∧ b ≤ 57) :
    scan_digits 2 (a :: b :: r) 0 = ((a - 48) * 10 + (b - 48), 2, r) := by
  simp [scan_digits, isdigit, ha, hb]

theorem scan_digits_three (a b c : Nat) (r : List Nat) (ha : 48 ≤ a ∧ a ≤ 57)
    (hb : 48 ≤ b ∧ b ≤ 57) (hc : 48 ≤ c ∧ c ≤ 57) :
    scan_digits 3 (a :: b :: c :: r) 0 = (((a - 48) * 10 + (b - 48)) * 10 + (c - 48), 3, r) := by
  simp [scan_digits, isdigit, ha, hb, hc]

theorem scan_skip_space_digit (a : Nat) (r : List Nat) (ha : 48 ≤ a ∧ a ≤ 57) :
    scan_skip_space (a :: r) = a :: r := by
  have h : isspace a = false := by
    simp only [isspace, decide_eq_false_iff_not]
    omega
  simp [scan_skip_space, h]

theorem scan_uint_two (a b : Nat) (r : List Nat) (ha : 48 ≤ a ∧ a ≤ 57)
    (hb : 48 ≤ b ∧ b ≤ 57) :
    scan_uint 2 (a :: b :: r) = some ((a - 48) * 10 + (b - 48), r) := by
  have hs : ¬ (a = 43 ∨ a = 45) := by omega
  simp only [scan_uint, scan_int, scan_skip_space_digit a _ ha, hs, if_false,
    scan_digits_two a b r ha hb]
  simp
  omega

theorem scan_uint_three (a b c : Nat) (r : List Nat) (ha : 48 ≤ a ∧ a ≤ 57)
    (hb : 48 ≤ b ∧ b ≤ 57) (hc : 48 ≤ c ∧ c ≤ 57) :
    scan_uint 3 (a :: b :: c :: r)
      = some (((a - 48) * 10 + (b - 48)) * 10 + (c - 48), r) := by
  have hs : ¬ (a = 43 ∨ a = 45) := by omega
  simp only [scan_uint, scan_int, scan_skip_space_digit a _ ha, hs, if_false,
    scan_digits_three a b c r ha hb hc]
  simp
  omega

theorem cstring_append_nul (l r : List Nat) (h : ∀ x ∈ l, x ≠ 0) :
    cstring (l ++ 0 :: r) = l := by
  unfold cstring
  rw [strlen_append_nul l r h]
  simp

theorem uncompressed_posbuf_eq (data : List Nat) (body : Nat)
    (d0 d1 m0 m1 f0 f1 h t e0 e1 e2 n0 n1 g0 g1 g c : Nat)
    (hbytes : bytes (data.drop body) 19
      = [d0, d1, m0, m1, 46, f0, f1, h, t, e0, e1, e2, n0, n1, 46, g0, g1, g, c])
    (hdig : ∀ x ∈ [m0, m1, f0, f1, n0, n1, g0, g1], 48 ≤ x ∧ x ≤ 57) :
    uncompressed_posbuf data body
      = [d0, d1, m0, m1, 46, f0, f1, h, t, e0, e1, e2, n0, n1, 46, g0, g1, g, c] ++ [0] := by
  simp only [List.mem_cons, List.mem_singleton, forall_eq_or_imp, forall_eq, List.not_mem_nil,
    false_implies, implies_true, and_true] at hdig
  obtain ⟨h1, h2, h3, h4, h5, h6, h7, h8⟩ := hdig
  unfold uncompressed_posbuf memcpy
  rw [hbytes]
  have e1 : m0 ≠ 32 := by omega
  have e2 : m1 ≠ 32 := by omega
  have e3 : f0 ≠ 32 := by omega
  have e4 : f1 ≠ 32 := by omega
  have e5 : n0 ≠ 32 := by omega
  have e6 : n1 ≠ 32 := by omega
  have e7 : g0 ≠ 32 := by omega
  have e8 : g1 ≠ 32 := by omega
  simp [fill_space, byteAt, e1, e2, e3, e4, e5, e6, e7, e8]

theorem sscanf_uncompressed_eq
    (d0 d1 m0 m1 f0 f1 h t e0 e1 e2 n0 n1 g0 g1 g c : Nat)
    (hdig : ∀ x ∈ [d0, d1, m0, m1, f0, f1, e0, e1, e2, n0, n1, g0, g1], 48 ≤ x ∧ x ≤ 57)
    (hh : h ≠ 0) (ht : t ≠ 0) (hg : g ≠ 0) (hc : c ≠ 0) :
    sscanf_uncompressed
        ([d0, d1, m0, m1, 46, f0, f1, h, t, e0, e1, e2, n0, n1, 46, g0, g1, g, c] ++ [0])
      = some ⟨dec2 d0 d1, dec2 m0 m1, dec2 f0 f1, h, t, dec3 e0 e1 e2, dec2 n0 n1, dec2 g0 g1,
          g, c⟩ := by
  simp only [List.mem_cons, List.mem_singleton, forall_eq_or_imp, forall_eq, List.not_mem_nil,
    false_implies, implies_true, and_true] at hdig
  obtain ⟨h1, h2, h3, h4, h5, h6, h7, h8, h9, h10, h11, h12, h13⟩ := hdig
  have hcs : cstring
      ([d0, d1, m0, m1, 46, f0, f1, h, t, e0, e1, e2, n0, n1, 46, g0, g1, g, c] ++ [0])
      = [d0, d1, m0, m1, 46, f0, f1, h, t, e0, e1, e2, n0, n1, 46, g0, g1, g, c] := by
    apply cstring_append_nul
    intro x hx
    simp only [List.mem_cons, List.mem_singleton, List.not_mem_nil, or_false] at hx
    rcases hx with rfl | rfl | rfl | rfl | rfl | rfl | rfl | rfl | rfl | rfl | rfl | rfl | rfl
      | rfl | rfl | rfl | rfl | rfl | rfl <;> omega
  unfold sscanf_uncompressed
  rw [hcs]
  simp only [scan_uint_two d0 d1 _ h1 h2, scan_uint_two m0 m1 _ h3 h4, scan_lit,
    scan_uint_two f0 f1 _ h5 h6, scan_char, scan_uint_three e0 e1 e2 _ h7 h8 h9,
    scan_uint_two n0 n1 _ h10 h11, scan_uint_two g0 g1 _ h12 h13, Option.bind_eq_bind,
    Option.some_bind, if_true, Option.pure_def, dec2, dec3]

theorem parse_aprs_uncompressed_eq (E : parse_env F) (pb : pbuf_t F) (body body_end : Nat)
    (d0 d1 m0 m1 f0 f1 h t e0 e1 e2 n0 n1 g0 g1 g c : Nat)
    (hlen : (body_end : Int) - body ≥ 19)
    (hbytes : bytes (pb.data.drop body) 19
      = [d0, d1, m0, m1, 46, f0, f1, h, t, e0, e1, e2, n0, n1, 46, g0, g1, g, c])
    (hdig : ∀ x ∈ [d0, d1, m0, m1, f0, f1, e0, e1, e2, n0, n1, g0, g1], 48 ≤ x ∧ x ≤ 57)
    (hh : h ≠ 0) (ht : t ≠ 0) (hg : g ≠ 0) (hc : c ≠ 0) :
    parse_aprs_uncompressed E pb body body_end
      = uncompressed_decode E pb ⟨dec2 d0 d1, dec2 m0 m1, dec2 f0 f1, h, t, dec3 e0 e1 e2,
          dec2 n0 n1, dec2 g0 g1, g, c⟩ := by
  have hd2 : ∀ x ∈ [m0, m1, f0, f1, n0, n1, g0, g1], 48 ≤ x ∧ x ≤ 57 := by
    intro x hx
    apply hdig
    simp only [List.mem_cons, List.mem_singleton, List.not_mem_nil, or_false] at hx ⊢
    tauto
  unfold parse_aprs_uncompressed
  rw [if_neg (by omega),
    uncompressed_posbuf_eq pb.data body d0 d1 m0 m1 f0 f1 h t e0 e1 e2 n0 n1 g0 g1 g c hbytes hd2,
    sscanf_uncompressed_eq d0 d1 m0 m1 f0 f1 h t e0 e1 e2 n0 n1 g0 g1 g c hdig hh ht hg hc]

/-- C15, with the arithmetic of the code: let the 19 bytes at `body` be
`DDMM.mmH` `t` `DDDMM.mmG` `c` with decimal digits and two symbol bytes `t`,
`c` that are not NUL, the field lying within the packet. If `H` is one of `N`,
`S`, `n`, `s`, `G` one of `E`, `W`, `e`, `w`, `DD <= 89` and `DDD <= 179`, then
`parse_aprs_uncompressed` decodes `lat = ±fl(DD + MM/60 + mm/6000)`, negative
for `S`/`s`, and `lng = ±fl(DDD + MM/60 + mm/6000)`, negative for `W`/`w`,
where `fl` is `float_dmf`: the quotients and the sums in double precision, the
result rounded to `float`. It hands them to `pbuf_fill_pos`: the symbol code
`c` is stored, and the table byte `t` when it is one of `/`, `\`, `A-Z`, `0-9`
(0 otherwise), and the call returns 1 with the position stored and `F_HASPOS`
set exactly when the rounded position is not one of `pos_rejected`, 0 with
position and flags untouched otherwise. If `H` or `G` is another byte (not
NUL), the call returns 0 and the packet is unchanged. -/
theorem parse_aprs_uncompressed_spec (E : parse_env F) (pb : pbuf_t F) (body body_end : Nat)
    (d0 d1 m0 m1 f0 f1 h t e0 e1 e2 n0 n1 g0 g1 g c : Nat) (lat lng : Rat)
    (hlen : (body_end : Int) - body ≥ 19)
    (hbytes : bytes (pb.data.drop body) 19
      = [d0, d1, m0, m1, 46, f0, f1, h, t, e0, e1, e2, n0, n1, 46, g0, g1, g, c])
    (hdig : ∀ x ∈ [d0, d1, m0, m1, f0, f1, e0, e1, e2, n0, n1, g0, g1], 48 ≤ x ∧ x ≤ 57)
    (hh : h ≠ 0) (ht : t ≠ 0) (hg : g ≠ 0) (hc : c ≠ 0)
    (hlat : lat = (if h = 83 ∨ h = 115 then -1 else 1)
      * float_dmf (dec2 d0 d1) (dec2 m0 m1) (dec2 f0 f1))
    (hlng : lng = (if g = 87 ∨ g = 119 then -1 else 1)
      * float_dmf (dec3 e0 e1 e2) (dec2 n0 n1) (dec2 g0 g1)) :
    ((h = 78 ∨ h = 110 ∨ h = 83 ∨ h = 115) → (g = 69 ∨ g = 101 ∨ g = 87 ∨ g = 119) →
      dec2 d0 d1 ≤ 89 → dec3 e0 e1 e2 ≤ 179 →
      parse_aprs_uncompressed E pb body body_end
          = pbuf_fill_pos E pb lat lng
              (if valid_sym_table_uncompressed t = true then t else 0) c
      ∧ (parse_aprs_uncompressed E pb body body_end).2.symbol
          = [if valid_sym_table_uncompressed t = true then t else 0, c, 0]
      ∧ (¬ pos_rejected lat lng →
          (parse_aprs_uncompressed E pb body body_end).1 = 1
          ∧ (parse_aprs_uncompressed E pb body body_end).2.flags = pb.flags ||| F_HASPOS
          ∧ (parse_aprs_uncompressed E pb body body_end).2.lat = E.filter_lat2rad lat
          ∧ (parse_aprs_uncompressed E pb body body_end).2.lng = E.filter_lon2rad lng
          ∧ (parse_aprs_uncompressed E pb body body_end).2.cos_lat
              = E.cosf (E.filter_lat2rad lat))
      ∧ (pos_rejected lat lng →
          (parse_aprs_uncompressed E pb body body_end).1 = 0
          ∧ (parse_aprs_uncompressed E pb body body_end).2.flags = pb.flags
          ∧ (parse_aprs_uncompressed E pb body body_end).2.lat = pb.lat
          ∧ (parse_aprs_uncompressed E pb body body_end).2.lng = pb.lng
          ∧ (parse_aprs_uncompressed E pb body body_end).2.cos_lat = pb.cos_lat))
    ∧ (¬ (h = 78 ∨ h = 110 ∨ h = 83 ∨ h = 115) ∨ ¬ (g = 69 ∨ g = 101 ∨ g = 87 ∨ g = 119) →
      parse_aprs_uncompressed E pb body body_end = (0, pb)) := by
  have he := parse_aprs_uncompressed_eq E pb body body_end d0 d1 m0 m1 f0 f1 h t e0 e1 e2 n0 n1
    g0 g1 g c hlen hbytes hdig hh ht hg hc
  constructor
  · intro hH hG hDD hDDD
    have h1 : ¬ (decide (h = 83 ∨ h = 115) = false ∧ h ≠ 78 ∧ h ≠ 110) := by
      simp only [decide_eq_false_iff_not]
      omega
    have h2 : ¬ (decide (g = 87 ∨ g = 119) = false ∧ g ≠ 69 ∧ g ≠ 101) := by
      simp only [decide_eq_false_iff_not]
      omega
    have h3 : ¬ (dec2 d0 d1 > 89 ∨ dec3 e0 e1 e2 > 179) := by omega
    have hfill : parse_aprs_uncompressed E pb body body_end
        = pbuf_fill_pos E pb lat lng
            (if valid_sym_table_uncompressed t = true then t else 0) c := by
      rw [he]
      unfold uncompressed_decode
      simp only []
      rw [if_neg h1, if_neg h2, if_neg h3, hlat, hlng]
      have e3 : (if valid_sym_table_uncompressed t = false then 0 else t)
          = (if valid_sym_table_uncompressed t = true then t else 0) := by
        cases valid_sym_table_uncompressed t <;> simp
      rw [e3]
      by_cases hs : h = 83 ∨ h = 115 <;> by_cases hw : g = 87 ∨ g = 119 <;> simp [hs, hw]
    rw [hfill]
    refine ⟨rfl, ?_, ?_, ?_⟩
    · by_cases hr : pos_rejected lat lng
      · rw [pbuf_fill_pos_rejected E pb lat lng _ _ hr]
        rfl
      · rw [pbuf_fill_pos_accepted E pb lat lng _ _ hr]
        rfl
    · intro hr
      rw [pbuf_fill_pos_accepted E pb lat lng _ _ hr]
      exact ⟨rfl, rfl, rfl, rfl, rfl⟩
    · intro hr
      rw [pbuf_fill_pos_rejected E pb lat lng _ _ hr]
      exact ⟨rfl, rfl, rfl, rfl, rfl⟩
  · intro hbad
    rw [he]
    unfold uncompressed_decode
    simp only []
    by_cases h1 : decide (h = 83 ∨ h = 115) = false ∧ h ≠ 78 ∧ h ≠ 110
    · rw [if_pos h1]
    · rw [if_neg h1]
      have h2 : decide (g = 87 ∨ g = 119) = false ∧ g ≠ 69 ∧ g ≠ 101 := by
        simp only [decide_eq_false_iff_not] at h1 ⊢
        omega
      rw [if_pos h2]

/-- C15 on scenario S1: the field `6028.51N/02505.68E-` decodes to the
latitude `7926601/131072` and the longitude `13156833/524288`, the `float`s
next to `60 + 28.51/60` and `25 + 5.68/60`, less than `0.000001` from them,
and `parse_aprs` on the packet returns 1 with the symbol table `/` and the
symbol code `-` stored and the flags `T_POSITION` and `F_HASPOS` set. -/
theorem parse_aprs_uncompressed_spec_witness :
    parse_aprs_uncompressed env_example frame_S1 20 43
        = pbuf_fill_pos env_example frame_S1 (7926601 / 131072) (13156833 / 524288) 47 45
    ∧ |(7926601 / 131072 : Rat) - (60 + 28.51 / 60)| < 0.000001
    ∧ |(13156833 / 524288 : Rat) - (25 + 5.68 / 60)| < 0.000001
    ∧ (parse_aprs env_example frame_S1).1 = 1
    ∧ (parse_aprs env_example frame_S1).2.symbol = [47, 45, 0]
    ∧ (parse_aprs env_example frame_S1).2.packettype &&& T_POSITION = T_POSITION
    ∧ (parse_aprs env_example frame_S1).2.flags &&& F_HASPOS = F_HASPOS
    ∧ (parse_aprs env_example frame_S1).2.lat = env_example.filter_lat2rad (7926601 / 131072)
    ∧ (parse_aprs env_example frame_S1).2.lng
        = env_example.filter_lon2rad (13156833 / 524288) := by
  have h := (parse_aprs_uncompressed_spec env_example frame_S1 20 43
    54 48 50 56 53 49 78 47 48 50 53 48 53 54 56 69 45 (7926601 / 131072) (13156833 / 524288)
    (by decide) (by decide) (by decide) (by decide) (by decide) (by decide) (by decide)
    (by decide!) (by decide!)).1 (by decide) (by decide) (by decide) (by decide)
  exact ⟨h.1, by decide!, by decide!, by decide!, by decide!, by decide!, by decide!,
    by decide!, by decide!⟩

/-- C15 as stated fails: for the field `8954.00N/00000.00E-` the exact
`89 + 54/60 + 0/6000` is `89.9`, at longitude 0 a position that validation
accepts, while the code has the `float` `11783373/131072`, about
`89.9000015`, which lies beyond `89.9`: it returns 0 and sets no `F_HASPOS`. -/
theorem parse_aprs_uncompressed_exact_differs :
    spec_uncompressed_lat frame_uncompressed_pole.data 13 = 899 / 10
    ∧ spec_uncompressed_lng frame_uncompressed_pole.data 13 = 0
    ∧ ¬ pos_rejected (spec_uncompressed_lat frame_uncompressed_pole.data 13)
        (spec_uncompressed_lng frame_uncompressed_pole.data 13)
    ∧ float_dmf 89 54 0 = 11783373 / 131072
    ∧ (899 / 10 : Rat) < 11783373 / 131072
    ∧ parse_aprs_uncompressed env_example frame_uncompressed_pole 13 32
        = pbuf_fill_pos env_example frame_uncompressed_pole (11783373 / 131072) 0 47 45
    ∧ (parse_aprs_uncompressed env_example frame_uncompressed_pole 13 32).1 = 0
    ∧ (parse_aprs_uncompressed env_example frame_uncompressed_pole 13 32).2.flags
        &&& F_HASPOS = 0
    ∧ (parse_aprs env_example frame_uncompressed_pole).1 = 0
    ∧ (parse_aprs env_example frame_uncompressed_pole).2.flags &&& F_HASPOS = 0 := by
  have e1 : spec_uncompressed_lat frame_uncompressed_pole.data 13 = 899 / 10 := by decide!
  have e2 : spec_uncompressed_lng frame_uncompressed_pole.data 13 = 0 := by decide!
  refine ⟨e1, e2, ?_, by decide!, by decide!, by decide!, by decide!, by decide!, by decide!,
    by decide!⟩
  rw [e1, e2]
  decide!

theorem mice_body_mask_iff (b : Nat → Nat) : mice_body_mask b = true ↔ mice_mask_ok b := by
  unfold mice_body_mask mice_mask_ok valid_sym_table_uncompressed
  simp only [Bool.and_eq_true, Bool.not_eq_true', decide_eq_false_iff_not, decide_eq_true_eq]
  omega

theorem mice_dstcall_valid_iff (d : Nat → Nat) : mice_dstcall_valid d = true ↔ mice_dst_ok d := by
  unfold mice_dstcall_valid mice_dst_ok
  simp only [Bool.and_eq_true, List.all_eq_true, List.mem_range, List.mem_range'_1,
    decide_eq_true_eq]
  constructor
  · rintro ⟨h1, h2⟩
    exact ⟨h1, fun i h3 h6 => h2 i ⟨h3, by omega⟩⟩
  · rintro ⟨h1, h2⟩
    exact ⟨h1, fun i hi => h2 i hi.1 (by omega)⟩

theorem mice_translate_plain (c : Nat)
    (h : (48 ≤ c ∧ c ≤ 57) ∨ (65 ≤ c ∧ c ≤ 74) ∨ (80 ≤ c ∧ c ≤ 89)) :
    (48 ≤ mice_translate c ∧ mice_translate c ≤ 57)
    ∧ mice_translate c - 48 = mice_digit c := by
  unfold mice_translate mice_digit
  split_ifs <;> omega

theorem sscanf_mice_digits (t0 t1 t2 t3 t4 t5 : Nat)
    (hdig : ∀ x ∈ [t0, t1, t2, t3, t4, t5], 48 ≤ x ∧ x ≤ 57) :
    sscanf_mice [t0, t1, t2, t3, t4, t5, 0] = some (dec2 t0 t1, dec2 t2 t3, dec2 t4 t5) := by
  simp only [List.mem_cons, List.mem_singleton, forall_eq_or_imp, forall_eq, List.not_mem_nil,
    false_implies, implies_true, and_true] at hdig
  obtain ⟨h0, h1, h2, h3, h4, h5⟩ := hdig
  have hcs : cstring ([t0, t1, t2, t3, t4, t5] ++ 0 :: []) = [t0, t1, t2, t3, t4, t5] := by
    apply cstring_append_nul
    intro x hx
    simp only [List.mem_cons, List.mem_singleton, List.not_mem_nil, or_false] at hx
    rcases hx with rfl | rfl | rfl | rfl | rfl | rfl <;> omega
  have hcs2 : cstring [t0, t1, t2, t3, t4, t5, 0] = [t0, t1, t2, t3, t4, t5] := hcs
  unfold sscanf_mice
  rw [hcs2]
  simp only [scan_uint_two t0 t1 _ h0 h1, scan_uint_two t2 t3 _ h2 h3,
    scan_uint_two t4 t5 _ h4 h5, Option.bind_eq_bind, Option.some_bind, Option.pure_def, dec2]

theorem mice_ambiguity_digits (t0 t1 t2 t3 t4 t5 : Nat)
    (hdig : ∀ x ∈ [t0, t1, t2, t3, t4, t5], 48 ≤ x ∧ x ≤ 57) :
    mice_ambiguity [t0, t1, t2, t3, t4, t5, 0] = ([t0, t1, t2, t3, t4, t5, 0], 0) := by
  simp only [List.mem_cons, List.mem_singleton, forall_eq_or_imp, forall_eq, List.not_mem_nil,
    false_implies, implies_true, and_true] at hdig
  obtain ⟨h0, h1, h2, h3, h4, h5⟩ := hdig
  have e2 : t2 ≠ 95 := by omega
  have e3 : t3 ≠ 95 := by omega
  have e4 : t4 ≠ 95 := by omega
  have e5 : t5 ≠ 95 := by omega
  simp [mice_ambiguity, byteAt, e2, e3, e4, e5]

theorem mice_dst_chars {d : Nat → Nat} (hd : mice_dst_ok d) (hp : mice_dst_plain d) :
    (∀ i, i < 6 → (48 ≤ d i ∧ d i ≤ 57) ∨ (65 ≤ d i ∧ d i ≤ 74) ∨ (80 ≤ d i ∧ d i ≤ 89))
    ∧ (∀ i, 3 ≤ i → i < 6 → (48 ≤ d i ∧ d i ≤ 57) ∨ (80 ≤ d i ∧ d i ≤ 89)) := by
  constructor
  · intro i hi
    have hpi := hp i hi
    rcases Nat.lt_or_ge i 3 with h3 | h3
    · have := hd.1 i h3
      omega
    · have := hd.2 i h3 hi
      omega
  · intro i h3 hi
    have hpi := hp i hi
    have := hd.2 i h3 hi
    omega

theorem mice_scan_eq (d : Nat → Nat) (hd : mice_dst_ok d) (hp : mice_dst_plain d) :
    mice_ambiguity (((List.range 6).map (fun k => mice_translate (d k))) ++ [0])
      = ([mice_translate (d 0), mice_translate (d 1), mice_translate (d 2),
          mice_translate (d 3), mice_translate (d 4), mice_translate (d 5), 0], 0)
    ∧ mice_translate (d 1) ≠ 95 ∧ mice_translate (d 0) ≠ 95
    ∧ sscanf_mice [mice_translate (d 0), mice_translate (d 1), mice_translate (d 2),
          mice_translate (d 3), mice_translate (d 4), mice_translate (d 5), 0]
      = some (mice_digit (d 0) * 10 + mice_digit (d 1), mice_digit (d 2) * 10 + mice_digit (d 3),
          mice_digit (d 4) * 10 + mice_digit (d 5)) := by
  have hc := (mice_dst_chars hd hp).1
  obtain ⟨r0, v0⟩ := mice_translate_plain _ (hc 0 (by omega))
  obtain ⟨r1, v1⟩ := mice_translate_plain _ (hc 1 (by omega))
  obtain ⟨r2, v2⟩ := mice_translate_plain _ (hc 2 (by omega))
  obtain ⟨r3, v3⟩ := mice_translate_plain _ (hc 3 (by omega))
  obtain ⟨r4, v4⟩ := mice_translate_plain _ (hc 4 (by omega))
  obtain ⟨r5, v5⟩ := mice_translate_plain _ (hc 5 (by omega))
  have hdig : ∀ x ∈ [mice_translate (d 0), mice_translate (d 1), mice_translate (d 2),
      mice_translate (d 3), mice_translate (d 4), mice_translate (d 5)], 48 ≤ x ∧ x ≤ 57 := by
    intro x hx
    simp only [List.mem_cons, List.mem_singleton, List.not_mem_nil, or_false] at hx
    rcases hx with rfl | rfl | rfl | rfl | rfl | rfl <;> assumption
  have hl : (List.range 6).map (fun k => mice_translate (d k)) ++ [0]
      = [mice_translate (d 0), mice_translate (d 1), mice_translate (d 2),
          mice_translate (d 3), mice_translate (d 4), mice_translate (d 5), 0] := rfl
  refine ⟨?_, by omega, by omega, ?_⟩
  · rw [hl]
    exact mice_ambiguity_digits _ _ _ _ _ _ hdig
  · rw [sscanf_mice_digits _ _ _ _ _ _ hdig]
    simp only [dec2, v0, v1, v2, v3, v4, v5]

theorem mice_lng_deg_eq (b0 d4 : Nat) (h : (48 ≤ d4 ∧ d4 ≤ 57) ∨ (80 ≤ d4 ∧ d4 ≤ 89)) :
    mice_lng_deg b0 d4 = spec_mice_lng_deg b0 d4 := by
  unfold mice_lng_deg spec_mice_lng_deg
  simp only []
  by_cases h80 : 80 ≤ d4
  · have h90 : 80 ≤ d4 ∧ d4 ≤ 90 := by omega
    have h50 : d4 ≥ 0x50 := h80
    rw [if_pos h50, if_pos h90]
  · have h90 : ¬ (80 ≤ d4 ∧ d4 ≤ 90) := by omega
    have h50 : ¬ d4 ≥ 0x50 := h80
    rw [if_neg h50, if_neg h90, Nat.add_zero]

theorem ite_neg_sign (p : Prop) [Decidable p] (x : Rat) :
    (if p then 0 - x else x) = (if p then -1 else 1) * x := by
  split_ifs <;> ring

theorem mice_decode_eq (E : parse_env F) (pb : pbuf_t F) (d b : Nat → Nat)
    (hd : mice_dst_ok d) (hp : mice_dst_plain d) (hm : mice_mask_ok b) :
    mice_decode E pb d b
      = pbuf_fill_pos E pb (float_mice_lat d) (float_mice_lng d b) (b 7) (b 6) := by
  have hvalid := (mice_dstcall_valid_iff d).mpr hd
  have hmask := (mice_body_mask_iff b).mpr hm
  obtain ⟨ha, h1, h0, hs⟩ := mice_scan_eq d hd hp
  have hlast := (mice_dst_chars hd hp).2
  have e3 := hlast 3 (by omega) (by omega)
  have e4 := hlast 4 (by omega) (by omega)
  have e5 := hlast 5 (by omega) (by omega)
  have h01 : ¬ (byteAt [mice_translate (d 0), mice_translate (d 1), mice_translate (d 2),
      mice_translate (d 3), mice_translate (d 4), mice_translate (d 5), 0] 1 = 95
      ∨ byteAt [mice_translate (d 0), mice_translate (d 1), mice_translate (d 2),
      mice_translate (d 3), mice_translate (d 4), mice_translate (d 5), 0] 0 = 95) := by
    show ¬ (mice_translate (d 1) = 95 ∨ mice_translate (d 0) = 95)
    omega
  have hv : ¬ (mice_dstcall_valid d = false) := by simp [hvalid]
  have hk : ¬ (mice_body_mask b = false) := by simp [hmask]
  have hl0 : ∀ x y z : Nat, mice_lng 0 x y z = some (float_dmf x y z) :=
    fun x y z => by simp [mice_lng]
  unfold mice_decode
  rw [if_neg hv, if_neg hk, ha]
  unfold mice_position
  simp only [h01, if_false, hs, hl0, mice_lng_deg_eq (b 0) (d 4) e4]
  unfold float_mice_lat float_mice_lng spec_mice_lng_min
  have hsouth : (if d 3 ≤ 57 ∨ d 3 = 76 then (-1 : Rat) else 1)
      = if d 3 ≤ 76 then -1 else 1 := by
    by_cases h : d 3 ≤ 76
    · rw [if_pos h, if_pos (by omega)]
    · rw [if_neg h, if_neg (by omega)]
  have hwest : (if 80 ≤ d 5 ∧ d 5 ≤ 90 then (-1 : Rat) else 1)
      = if d 5 ≥ 80 then -1 else 1 := by
    by_cases h : d 5 ≥ 80
    · rw [if_pos h, if_pos (by omega)]
    · rw [if_neg h, if_neg (by omega)]
  rw [hsouth, hwest, ite_neg_sign, ite_neg_sign]

/-- C17, with the arithmetic of the code: on a body of at least 8 bytes, when
the destination callsign is six valid Mic-E characters none of which is `K`,
`L` or `Z` and the bytes 0..7 of the body pass the byte-class mask,
`parse_aprs_mice` decodes the latitude `±fl(d0d1 + d2d3/60 + d4d5/6000)` from
the destination digits (south when the 4th character is a digit) and the
longitude `±fl(deg + min/60 + frac/6000)` from the bytes 0..2 of the body
(west when the 6th character is `P-Y`), where `fl` is `float_dmf`: the
quotients and the sums in double precision, the result rounded to `float`. It
hands them to `pbuf_fill_pos` with byte 7 as symbol table and byte 6 as symbol
code: it returns 1 with the position stored and `F_HASPOS` set when the
rounded position is not one of `pos_rejected`, otherwise 0 with position and
flags untouched. A destination that is not six valid characters, or a body outside
the mask, gives 0 and leaves the packet unchanged. -/
theorem parse_aprs_mice_spec (E : parse_env F) (pb : pbuf_t F) (body body_end : Nat)
    (hlen : (body_end : Int) - body ≥ 8) :
    (pb.dstcall_end_or_ssid = pb.srccall_end + 1 + 6 →
      mice_dst_ok (fun i => byteAt pb.data (pb.srccall_end + 1 + i)) →
      mice_dst_plain (fun i => byteAt pb.data (pb.srccall_end + 1 + i)) →
      mice_mask_ok (fun i => byteAt pb.data (body + i)) →
      parse_aprs_mice E pb body body_end
          = pbuf_fill_pos E pb
              (float_mice_lat (fun i => byteAt pb.data (pb.srccall_end + 1 + i)))
              (float_mice_lng (fun i => byteAt pb.data (pb.srccall_end + 1 + i))
                (fun i => byteAt pb.data (body + i)))
              (byteAt pb.data (body + 7)) (byteAt pb.data (body + 6))
      ∧ (parse_aprs_mice E pb body body_end).2.symbol
          = [byteAt pb.data (body + 7), byteAt pb.data (body + 6), 0]
      ∧ (¬ pos_rejected (float_mice_lat (fun i => byteAt pb.data (pb.srccall_end + 1 + i)))
            (float_mice_lng (fun i => byteAt pb.data (pb.srccall_end + 1 + i))
              (fun i => byteAt pb.data (body + i))) →
          (parse_aprs_mice E pb body body_end).1 = 1
          ∧ (parse_aprs_mice E pb body body_end).2.flags = pb.flags ||| F_HASPOS
          ∧ (parse_aprs_mice E pb body body_end).2.lat = E.filter_lat2rad
              (float_mice_lat (fun i => byteAt pb.data (pb.srccall_end + 1 + i)))
          ∧ (parse_aprs_mice E pb body body_end).2.lng = E.filter_lon2rad
              (float_mice_lng (fun i => byteAt pb.data (pb.srccall_end + 1 + i))
                (fun i => byteAt pb.data (body + i))))
      ∧ (pos_rejected (float_mice_lat (fun i => byteAt pb.data (pb.srccall_end + 1 + i)))
            (float_mice_lng (fun i => byteAt pb.data (pb.srccall_end + 1 + i))
              (fun i => byteAt pb.data (body + i))) →
          (parse_aprs_mice E pb body body_end).1 = 0
          ∧ (parse_aprs_mice E pb body body_end).2.flags = pb.flags
          ∧ (parse_aprs_mice E pb body body_end).2.lat = pb.lat
          ∧ (parse_aprs_mice E pb body body_end).2.lng = pb.lng))
    ∧ (pb.dstcall_end_or_ssid ≠ pb.srccall_end + 1 + 6
        ∨ ¬ mice_dst_ok (fun i => byteAt pb.data (pb.srccall_end + 1 + i))
        ∨ ¬ mice_mask_ok (fun i => byteAt pb.data (body + i)) →
      parse_aprs_mice E pb body body_end = (0, pb)) := by
  constructor
  · intro h6 hd hp hm
    have he : parse_aprs_mice E pb body body_end
        = pbuf_fill_pos E pb
            (float_mice_lat (fun i => byteAt pb.data (pb.srccall_end + 1 + i)))
            (float_mice_lng (fun i => byteAt pb.data (pb.srccall_end + 1 + i))
              (fun i => byteAt pb.data (body + i)))
            (byteAt pb.data (body + 7)) (byteAt pb.data (body + 6)) := by
      unfold parse_aprs_mice
      rw [if_neg (by omega)]
      simp only []
      rw [if_neg (by rw [h6]; push_cast; omega)]
      exact mice_decode_eq E pb _ _ hd hp hm
    rw [he]
    refine ⟨rfl, ?_, ?_, ?_⟩
    · by_cases hr : pos_rejected
          (float_mice_lat (fun i => byteAt pb.data (pb.srccall_end + 1 + i)))
          (float_mice_lng (fun i => byteAt pb.data (pb.srccall_end + 1 + i))
            (fun i => byteAt pb.data (body + i)))
      · rw [pbuf_fill_pos_rejected E pb _ _ _ _ hr]
        rfl
      · rw [pbuf_fill_pos_accepted E pb _ _ _ _ hr]
        rfl
    · intro hr
      rw [pbuf_fill_pos_accepted E pb _ _ _ _ hr]
      exact ⟨rfl, rfl, rfl, rfl⟩
    · intro hr
      rw [pbuf_fill_pos_rejected E pb _ _ _ _ hr]
      exact ⟨rfl, rfl, rfl, rfl⟩
  · intro hbad
    unfold parse_aprs_mice
    rw [if_neg (by omega)]
    simp only []
    by_cases h6 : pb.dstcall_end_or_ssid = pb.srccall_end + 1 + 6
    · rw [if_neg (by rw [h6]; push_cast; omega)]
      unfold mice_decode
      rcases hbad with h | h | h
      · exact absurd h6 h
      · have hv : mice_dstcall_valid (fun i => byteAt pb.data (pb.srccall_end + 1 + i))
            = false := by
          rw [← Bool.not_eq_true, mice_dstcall_valid_iff]
          exact h
        rw [if_pos hv]
      · have hk : mice_body_mask (fun i => byteAt pb.data (body + i)) = false := by
          rw [← Bool.not_eq_true, mice_body_mask_iff]
          exact h
        by_cases hv : mice_dstcall_valid (fun i => byteAt pb.data (pb.srccall_end + 1 + i))
            = false
        · rw [if_pos hv]
        · rw [if_neg hv, if_pos hk]
    · rw [if_pos (by push_cast; omega)]

/-- C17 on scenario S3: destination `APT310` and body `0<0l #>/` decode to
the latitude `-12051633/16777216` and the longitude `1345891/65536`, the
`float`s next to `-(0 + 43/60 + 10/6000)` and `20 + 32/60 + 20/6000`, less
than `0.000001` from them, and `parse_aprs` on the packet returns 1 with
`T_POSITION` and `F_HASPOS` set. -/
theorem parse_aprs_mice_spec_witness :
    parse_aprs_mice env_example frame_S3 23 31
        = pbuf_fill_pos env_example frame_S3 (-12051633 / 16777216) (1345891 / 65536) 47 62
    ∧ |(-12051633 / 16777216 : Rat) - (-(0 + 43 / 60 + 10 / 6000))| < 0.000001
    ∧ |(1345891 / 65536 : Rat) - (20 + 32 / 60 + 20 / 6000)| < 0.000001
    ∧ (parse_aprs env_example frame_S3).1 = 1
    ∧ (parse_aprs env_example frame_S3).2.packettype &&& T_POSITION = T_POSITION
    ∧ (parse_aprs env_example frame_S3).2.flags &&& F_HASPOS = F_HASPOS
    ∧ (parse_aprs env_example frame_S3).2.lat
        = env_example.filter_lat2rad (-12051633 / 16777216)
    ∧ (parse_aprs env_example frame_S3).2.lng
        = env_example.filter_lon2rad (1345891 / 65536) := by
  have h := (parse_aprs_mice_spec env_example frame_S3 23 31 (by decide)).1 (by decide)
    (by unfold mice_dst_ok; decide) (by unfold mice_dst_plain; decide)
    (by unfold mice_mask_ok; decide)
  exact ⟨h.1.trans (by decide!), by decide!, by decide!, by decide!, by decide!, by decide!,
    by decide!, by decide!⟩

/-- C17 as stated fails: for the destination `895TP0` and the body bytes
`v`, `X`, `0x1c` the exact latitude `89 + 54/60 + 0/6000` is `89.9` and the
longitude is 0, a position that validation accepts, while the code has the
`float` `11783373/131072`, about `89.9000015`, which lies beyond `89.9`: it
returns 0 and sets no `F_HASPOS`. -/
theorem parse_aprs_mice_exact_differs :
    mice_dst_ok (fun i => byteAt frame_mice_pole.data (7 + i))
    ∧ mice_dst_plain (fun i => byteAt frame_mice_pole.data (7 + i))
    ∧ mice_mask_ok (fun i => byteAt frame_mice_pole.data (15 + i))
    ∧ spec_mice_lat (fun i => byteAt frame_mice_pole.data (7 + i)) = 899 / 10
    ∧ spec_mice_lng (fun i => byteAt frame_mice_pole.data (7 + i))
        (fun i => byteAt frame_mice_pole.data (15 + i)) = 0
    ∧ ¬ pos_rejected (spec_mice_lat (fun i => byteAt frame_mice_pole.data (7 + i)))
        (spec_mice_lng (fun i => byteAt frame_mice_pole.data (7 + i))
          (fun i => byteAt frame_mice_pole.data (15 + i)))
    ∧ parse_aprs_mice env_example frame_mice_pole 15 23
        = pbuf_fill_pos env_example frame_mice_pole (11783373 / 131072) 0 47 62
    ∧ (parse_aprs_mice env_example frame_mice_pole 15 23).1 = 0
    ∧ (parse_aprs_mice env_example frame_mice_pole 15 23).2.flags &&& F_HASPOS = 0
    ∧ (parse_aprs env_example frame_mice_pole).1 = 0
    ∧ (parse_aprs env_example frame_mice_pole).2.flags &&& F_HASPOS = 0 := by
  have e1 : spec_mice_lat (fun i => byteAt frame_mice_pole.data (7 + i)) = 899 / 10 := by
    decide!
  have e2 : spec_mice_lng (fun i => byteAt frame_mice_pole.data (7 + i))
      (fun i => byteAt frame_mice_pole.data (15 + i)) = 0 := by decide!
  refine ⟨by unfold mice_dst_ok; decide, by unfold mice_dst_plain; decide,
    by unfold mice_mask_ok; decide, e1, e2, ?_, by decide!, by decide!, by decide!,
    by decide!, by decide!⟩
  rw [e1, e2]
  decide!

theorem parse_aprs_compressed_outcome (E : parse_env F) (pb : pbuf_t F) (body body_end : Nat) :
    decoder_outcome E pb (parse_aprs_compressed E pb body body_end) := by
  unfold parse_aprs_compressed decoder_outcome
  by_cases h1 : (body_end : Int) - body < 13
  · rw [if_pos h1]
    exact Or.inl rfl
  · rw [if_neg h1]
    dsimp only
    split_ifs
    · exact Or.inl rfl
    · exact Or.inr ⟨_, _, _, _, rfl⟩

theorem uncompressed_decode_outcome (E : parse_env F) (pb : pbuf_t F) (v : uncompressed_fields) :
    decoder_outcome E pb (uncompressed_decode E pb v) := by
  unfold uncompressed_decode decoder_outcome
  dsimp only
  by_cases h1 : decide (v.lat_hemi = 83 ∨ v.lat_hemi = 115) = false
      ∧ v.lat_hemi ≠ 78 ∧ v.lat_hemi ≠ 110
  · rw [if_pos h1]
    exact Or.inl rfl
  · rw [if_neg h1]
    by_cases h2 : decide (v.lng_hemi = 87 ∨ v.lng_hemi = 119) = false
        ∧ v.lng_hemi ≠ 69 ∧ v.lng_hemi ≠ 101
    · rw [if_pos h2]
      exact Or.inl rfl
    · rw [if_neg h2]
      by_cases h3 : v.lat_deg > 89 ∨ v.lng_deg > 179
      · rw [if_pos h3]
        exact Or.inl rfl
      · rw [if_neg h3]
        exact Or.inr ⟨_, _, _, _, rfl⟩

theorem parse_aprs_uncompressed_outcome (E : parse_env F) (pb : pbuf_t F) (body body_end : Nat) :
    decoder_outcome E pb (parse_aprs_uncompressed E pb body body_end) := by
  unfold parse_aprs_uncompressed
  by_cases h1 : (body_end : Int) - body < 19
  · rw [if_pos h1]
    exact Or.inl rfl
  · rw [if_neg h1]
    cases sscanf_uncompressed (uncompressed_posbuf pb.data body) with
    | none => exact Or.inl rfl
    | some v => exact uncompressed_decode_outcome E pb v

theorem mice_position_outcome (E : parse_env F) (pb : pbuf_t F) (d b : Nat → Nat)
    (a : List Nat × Int) : decoder_outcome E pb (mice_position E pb d b a) := by
  unfold mice_position decoder_outcome
  by_cases h1 : byteAt a.1 1 = 95 ∨ byteAt a.1 0 = 95
  · rw [if_pos h1]
    exact Or.inl rfl
  · rw [if_neg h1]
    cases sscanf_mice a.1 with
    | none => exact Or.inl rfl
    | some v =>
      obtain ⟨lat_deg, lat_min, lat_min_frag⟩ := v
      dsimp only
      cases mice_lng a.2 (mice_lng_deg (b 0) (d 4))
          (if b 1 - 28 ≥ 60 then b 1 - 28 - 60 else b 1 - 28) (b 2 - 28) with
      | none => exact Or.inl rfl
      | some lng => exact Or.inr ⟨_, _, _, _, rfl⟩

theorem mice_decode_outcome (E : parse_env F) (pb : pbuf_t F) (d b : Nat → Nat) :
    decoder_outcome E pb (mice_decode E pb d b) := by
  unfold mice_decode
  by_cases h1 : mice_dstcall_valid d = false
  · rw [if_pos h1]
    exact Or.inl rfl
  · rw [if_neg h1]
    by_cases h2 : mice_body_mask b = false
    · rw [if_pos h2]
      exact Or.inl rfl
    · rw [if_neg h2]
      exact mice_position_outcome E pb d b _

theorem parse_aprs_mice_outcome (E : parse_env F) (pb : pbuf_t F) (body body_end : Nat) :
    decoder_outcome E pb (parse_aprs_mice E pb body body_end) := by
  unfold parse_aprs_mice
  by_cases h1 : (body_end : Int) - body < 8
  · rw [if_pos h1]
    exact Or.inl rfl
  · rw [if_neg h1]
    dsimp only
    split_ifs
    · exact Or.inl rfl
    · exact mice_decode_outcome E pb _ _

theorem pbuf_fill_pos_float_eq (E : parse_env F) (pb : pbuf_t F) (lat lng : cfloat)
    (sym_table sym_code : Nat) :
    pbuf_fill_pos_float E pb lat lng sym_table sym_code
      = if pbuf_fill_pos_float_bad lat lng = true ∨ lat.lt (-90) = true ∨ lat.gt 90 = true
          ∨ lng.lt (-180) = true ∨ lng.gt 180 = true then
          (0, pbuf_fill_sym pb sym_table sym_code)
        else
          (1, { pbuf_fill_sym pb sym_table sym_code with
                lat := lat2rad E lat
                cos_lat := E.cosf (lat2rad E lat)
                lng := lon2rad E lng
                flags := pb.flags ||| F_HASPOS }) := by
  unfold pbuf_fill_pos_float pbuf_fill_sym
  simp only []
  by_cases h0 : pbuf_fill_pos_float_bad lat lng = true ∨ lat.lt (-90) = true ∨ lat.gt 90 = true
          ∨ lng.lt (-180) = true ∨ lng.gt 180 = true
  · rw [if_pos h0, if_pos h0]
    by_cases h1 : sym_code = 95 <;> by_cases h2 : sym_code = 64
      <;> by_cases h3 : valid_sym_table_uncompressed sym_table = true
      <;> simp [h1, h2, h3]
  · rw [if_neg h0, if_neg h0]
    by_cases h1 : sym_code = 95 <;> by_cases h2 : sym_code = 64
      <;> by_cases h3 : valid_sym_table_uncompressed sym_table = true
      <;> simp [h1, h2, h3]

theorem pbuf_fill_pos_float_fin (E : parse_env F) (pb : pbuf_t F) (a b : Rat)
    (sym_table sym_code : Nat) :
    pbuf_fill_pos_float E pb (.fin a) (.fin b) sym_table sym_code
      = pbuf_fill_pos E pb a b sym_table sym_code := by
  have hc : (pbuf_fill_pos_float_bad (.fin a) (.fin b) = true
      ∨ (cfloat.fin a).lt (-90) = true ∨ (cfloat.fin a).gt 90 = true
      ∨ (cfloat.fin b).lt (-180) = true ∨ (cfloat.fin b).gt 180 = true)
      ↔ (pbuf_fill_pos_bad a b = true ∨ a < -90 ∨ a > 90 ∨ b < -180 ∨ b > 180) := by
    unfold pbuf_fill_pos_bad pbuf_fill_pos_float_bad
    simp only [cfloat.lt, cfloat.gt, cfloat.le, cfloat.ge, Bool.or_eq_true, Bool.and_eq_true,
      decide_eq_true_eq, and_assoc]
  unfold pbuf_fill_pos_float pbuf_fill_pos
  simp only []
  by_cases h : pbuf_fill_pos_bad a b = true ∨ a < -90 ∨ a > 90 ∨ b < -180 ∨ b > 180
  · rw [if_pos h, if_pos (hc.mpr h)]
  · rw [if_neg h, if_neg (fun h2 => h (hc.mp h2))]
    rfl

theorem pbuf_fill_pos_float_inf_lat (E : parse_env F) (pb : pbuf_t F) (s : Bool) (lng : cfloat)
    (sym_table sym_code : Nat) :
    pbuf_fill_pos_float E pb (.inf s) lng sym_table sym_code
      = (0, pbuf_fill_sym pb sym_table sym_code) := by
  have hc : (cfloat.inf s).lt (-90) = true ∨ (cfloat.inf s).gt 90 = true := by
    cases s <;> simp [cfloat.lt, cfloat.gt]
  rw [pbuf_fill_pos_float_eq, if_pos (by tauto)]

theorem pbuf_fill_pos_float_inf_lng (E : parse_env F) (pb : pbuf_t F) (s : Bool) (lat : cfloat)
    (sym_table sym_code : Nat) :
    pbuf_fill_pos_float E pb lat (.inf s) sym_table sym_code
      = (0, pbuf_fill_sym pb sym_table sym_code) := by
  have hc : (cfloat.inf s).lt (-180) = true ∨ (cfloat.inf s).gt 180 = true := by
    cases s <;> simp [cfloat.lt, cfloat.gt]
  rw [pbuf_fill_pos_float_eq, if_pos (by tauto)]

/-- A NaN latitude goes through the range test of `pbuf_fill_pos`: every
comparison with it is false, so with a finite longitude within `-180..180`
the call returns 1, stores the conversion of the NaN and sets `F_HASPOS`. -/
theorem pbuf_fill_pos_float_nan_lat (E : parse_env F) (pb : pbuf_t F) (b : Rat)
    (sym_table sym_code : Nat) (h1 : -180 ≤ b) (h2 : b ≤ 180) :
    pbuf_fill_pos_float E pb .nan (.fin b) sym_table sym_code
      = (1, { pbuf_fill_sym pb sym_table sym_code with
              lat := E.filter_lat2rad_nan
              cos_lat := E.cosf E.filter_lat2rad_nan
              lng := E.filter_lon2rad b
              flags := pb.flags ||| F_HASPOS }) := by
  have hc : ¬ (pbuf_fill_pos_float_bad .nan (.fin b) = true
      ∨ cfloat.nan.lt (-90) = true ∨ cfloat.nan.gt 90 = true
      ∨ (cfloat.fin b).lt (-180) = true ∨ (cfloat.fin b).gt 180 = true) := by
    unfold pbuf_fill_pos_float_bad
    simp only [cfloat.lt, cfloat.gt, cfloat.le, cfloat.ge, Bool.false_and, Bool.or_self,
      Bool.false_eq_true, false_or, decide_eq_true_eq, not_or, not_lt, gt_iff_lt]
    exact ⟨h1, h2⟩
  rw [pbuf_fill_pos_float_eq, if_neg hc]
  rfl

theorem pbuf_fill_pos_float_ret (E : parse_env F) (pb : pbuf_t F) (lat lng : cfloat)
    (sym_table sym_code : Nat) :
    (pbuf_fill_pos_float E pb lat lng sym_table sym_code).1 = 0
    ∨ (pbuf_fill_pos_float E pb lat lng sym_table sym_code).1 = 1 := by
  rw [pbuf_fill_pos_float_eq]
  split_ifs
  · exact Or.inl rfl
  · exact Or.inr rfl

theorem pbuf_fill_pos_ret (E : parse_env F) (pb : pbuf_t F) (lat lng : Rat)
    (sym_table sym_code : Nat) :
    (pbuf_fill_pos E pb lat lng sym_table sym_code).1 = 0
    ∨ (pbuf_fill_pos E pb lat lng sym_table sym_code).1 = 1 := by
  by_cases hr : pos_rejected lat lng
  · rw [pbuf_fill_pos_rejected E pb lat lng _ _ hr]
    exact Or.inl rfl
  · rw [pbuf_fill_pos_accepted E pb lat lng _ _ hr]
    exact Or.inr rfl

theorem decoder_outcome_ret {E : parse_env F} {pb : pbuf_t F} {r : Int × pbuf_t F}
    (h : decoder_outcome E pb r) : r.1 = 0 ∨ r.1 = 1 := by
  rcases h with rfl | ⟨lat, lng, st, sc, rfl⟩
  · exact Or.inl rfl
  · exact pbuf_fill_pos_ret E pb lat lng st sc

theorem pos_fields_eq_refl (a : pbuf_t F) : pos_fields_eq a a := ⟨rfl, rfl, rfl, rfl⟩

theorem pos_fields_eq_trans {a b c : pbuf_t F} (h1 : pos_fields_eq a b)
    (h2 : pos_fields_eq b c) : pos_fields_eq a c :=
  ⟨h1.1.trans h2.1, h1.2.1.trans h2.2.1, h1.2.2.1.trans h2.2.2.1, h1.2.2.2.trans h2.2.2.2⟩

theorem pos_outcome_keep (E : parse_env F) {pb pb1 : pbuf_t F} (r : Int)
    (h : pos_fields_eq pb pb1) : pos_outcome E pb (r, pb1) := Or.inl h

theorem pos_outcome_decoder (E : parse_env F) {pb pb1 : pbuf_t F} {r : Int × pbuf_t F}
    (h : pos_fields_eq pb pb1) (hd : decoder_outcome E pb1 r) : pos_outcome E pb r := by
  rcases hd with rfl | ⟨lat, lng, st, sc, rfl⟩
  · exact Or.inl h
  · exact Or.inr ⟨pb1, cfloat.fin lat, cfloat.fin lng, st, sc, h,
      fun _ => ⟨fun e => cfloat.noConfusion e, fun e => cfloat.noConfusion e⟩,
      (pbuf_fill_pos_float_fin E pb1 lat lng st sc).symm⟩

theorem pos_outcome_trans (E : parse_env F) {pb pb1 : pbuf_t F} {r : Int × pbuf_t F}
    (h : pos_fields_eq pb pb1) (ho : pos_outcome E pb1 r) : pos_outcome E pb r := by
  rcases ho with h2 | ⟨pb2, lat, lng, st, sc, h2, hn, rfl⟩
  · exact Or.inl (pos_fields_eq_trans h h2)
  · exact Or.inr ⟨pb2, lat, lng, st, sc, pos_fields_eq_trans h h2, hn, rfl⟩

theorem pos_rejected_range {lat lng : Rat} (h : ¬ pos_rejected lat lng) :
    -90 ≤ lat ∧ lat ≤ 90 ∧ -180 ≤ lng ∧ lng ≤ 180 := by
  unfold pos_rejected at h
  simp only [not_or, not_lt, gt_iff_lt] at h
  exact ⟨h.2.2.2.1, h.2.2.2.2.1, h.2.2.2.2.2.1, h.2.2.2.2.2.2⟩

theorem pos_inv_fill (E : parse_env F) (pb : pbuf_t F) (lat lng : Rat)
    (sym_table sym_code : Nat) (h : pos_inv E pb) :
    pos_inv E (pbuf_fill_pos E pb lat lng sym_table sym_code).2 := by
  by_cases hr : pos_rejected lat lng
  · rw [pbuf_fill_pos_rejected E pb lat lng _ _ hr]
    exact h
  · rw [pbuf_fill_pos_accepted E pb lat lng _ _ hr]
    intro _
    obtain ⟨h1, h2, h3, h4⟩ := pos_rejected_range hr
    exact ⟨lat, lng, h1, h2, h3, h4, rfl, rfl, rfl⟩

theorem pos_inv_congr (E : parse_env F) {a b : pbuf_t F} (h : pos_fields_eq a b)
    (ha : pos_inv E a) : pos_inv E b := by
  obtain ⟨h1, h2, h3, h4⟩ := h
  unfold pos_inv at ha ⊢
  rw [← h1, ← h2, ← h3, ← h4]
  exact ha

theorem pos_inv_fill_float (E : parse_env F) (pb : pbuf_t F) (lat lng : cfloat)
    (sym_table sym_code : Nat) (hlat : lat ≠ cfloat.nan) (hlng : lng ≠ cfloat.nan)
    (h : pos_inv E pb) :
    pos_inv E (pbuf_fill_pos_float E pb lat lng sym_table sym_code).2 := by
  have hsym : pos_inv E (pbuf_fill_sym pb sym_table sym_code) :=
    pos_inv_congr E ⟨rfl, rfl, rfl, rfl⟩ h
  cases lat with
  | nan => exact absurd rfl hlat
  | inf s =>
    rw [pbuf_fill_pos_float_inf_lat]
    exact hsym
  | fin a =>
    cases lng with
    | nan => exact absurd rfl hlng
    | inf s =>
      rw [pbuf_fill_pos_float_inf_lng]
      exact hsym
    | fin b =>
      rw [pbuf_fill_pos_float_fin]
      exact pos_inv_fill E pb a b sym_table sym_code h

theorem pos_inv_outcome (E : parse_env F) (hE : scan_no_nan E) {pb : pbuf_t F}
    {r : Int × pbuf_t F} (ho : pos_outcome E pb r) (h : pos_inv E pb) : pos_inv E r.2 := by
  rcases ho with h2 | ⟨pb1, lat, lng, st, sc, h2, hn, rfl⟩
  · exact pos_inv_congr E h2 h
  · exact pos_inv_fill_float E pb1 lat lng st sc (hn hE).1 (hn hE).2 (pos_inv_congr E h2 h)

theorem sscanf_nmea_float {E : parse_env F} {w : Nat} {s : List Nat} {a : Int} {x : cfloat}
    {c : Nat} (h : sscanf_nmea E w s = some (a, x, c)) :
    ∃ t r, E.scan_float t = some (x, r) := by
  unfold sscanf_nmea at h
  cases h1 : scan_int w (cstring s) with
  | none => rw [h1] at h; exact absurd h (by simp)
  | some v1 =>
    rw [h1] at h
    cases h2 : E.scan_float v1.2 with
    | none => simp [h2] at h
    | some v2 =>
      cases h3 : scan_lit 44 v2.2 with
      | none => simp [h2, h3] at h
      | some v3 =>
        cases h4 : scan_char v3 with
        | none => simp [h2, h3, h4] at h
        | some v4 =>
          simp only [h2, h3, h4, Option.bind_eq_bind, Option.some_bind, Option.pure_def,
            Option.some.injEq, Prod.mk.injEq] at h
          refine ⟨v1.2, v2.2, ?_⟩
          rw [h2, ← h.2.1]

theorem cfloat_of_rat_ne_nan (q : Rat) : cfloat.of_rat q ≠ cfloat.nan := by
  unfold cfloat.of_rat
  split_ifs <;> exact fun e => cfloat.noConfusion e

theorem nmea_degrees_ne_nan (d : Int) {x : cfloat} (h : x ≠ cfloat.nan) :
    nmea_degrees d x ≠ cfloat.nan := by
  cases x with
  | nan => exact absurd rfl h
  | inf s => exact fun e => cfloat.noConfusion e
  | fin q => exact cfloat_of_rat_ne_nan _

theorem cfloat_neg_ne_nan {x : cfloat} (h : x ≠ cfloat.nan) : x.neg ≠ cfloat.nan := by
  cases x with
  | nan => exact absurd rfl h
  | inf s => exact fun e => cfloat.noConfusion e
  | fin q => exact fun e => cfloat.noConfusion e

theorem pos_outcome_of_decoder (E : parse_env F) {pb pb1 : pbuf_t F} {r : Int × pbuf_t F}
    (hd : decoder_outcome E pb1 r) (h : pos_fields_eq pb pb1) : pos_outcome E pb r :=
  pos_outcome_decoder E h hd

theorem pos_outcome_of_trans (E : parse_env F) {pb pb1 : pbuf_t F} {r : Int × pbuf_t F}
    (ho : pos_outcome E pb1 r) (h : pos_fields_eq pb pb1) : pos_outcome E pb r :=
  pos_outcome_trans E h ho

theorem parse_aprs_nmea_outcome (E : parse_env F) (pb : pbuf_t F) (body body_end : Nat) :
    pos_outcome E pb (parse_aprs_nmea E pb body body_end) := by
  unfold parse_aprs_nmea
  dsimp only
  by_cases h1 : bytes (pb.data.drop body) 3 = [85, 76, 84]
  · rw [if_pos h1]
    exact Or.inl ⟨rfl, rfl, rfl, rfl⟩
  · rw [if_neg h1]
    cases nmea_find pb.data body body_end with
    | ret r => exact Or.inl ⟨rfl, rfl, rfl, rfl⟩
    | ptrs latp lngp =>
      cases latp with
      | none => exact Or.inl ⟨rfl, rfl, rfl, rfl⟩
      | some latp =>
        cases lngp with
        | none => exact Or.inl ⟨rfl, rfl, rfl, rfl⟩
        | some lngp =>
          dsimp only
          cases ha : sscanf_nmea E 2 (pb.data.drop latp) with
          | none => exact Or.inl ⟨rfl, rfl, rfl, rfl⟩
          | some a =>
            obtain ⟨la, lat, lac⟩ := a
            dsimp only
            cases hc : sscanf_nmea E 3 (pb.data.drop lngp) with
            | none => exact Or.inl ⟨rfl, rfl, rfl, rfl⟩
            | some c =>
              obtain ⟨lo, lng, loc⟩ := c
              dsimp only
              have hn : scan_no_nan E →
                  (if lac = 83 ∨ lac = 115 then (nmea_degrees la lat).neg
                    else nmea_degrees la lat) ≠ cfloat.nan
                  ∧ (if loc = 87 ∨ loc = 119 then (nmea_degrees lo lng).neg
                    else nmea_degrees lo lng) ≠ cfloat.nan := by
                intro hE
                obtain ⟨t1, r1, e1⟩ := sscanf_nmea_float ha
                obtain ⟨t2, r2, e2⟩ := sscanf_nmea_float hc
                have n1 := nmea_degrees_ne_nan la (hE t1 lat r1 e1)
                have n2 := nmea_degrees_ne_nan lo (hE t2 lng r2 e2)
                constructor
                · split_ifs
                  · exact cfloat_neg_ne_nan n1
                  · exact n1
                · split_ifs
                  · exact cfloat_neg_ne_nan n2
                  · exact n2
              by_cases g1 : lac ≠ 78 ∧ lac ≠ 83 ∧ lac ≠ 110 ∧ lac ≠ 115
              · rw [if_pos g1]
                exact Or.inl ⟨rfl, rfl, rfl, rfl⟩
              · rw [if_neg g1]
                by_cases g2 : loc ≠ 69 ∧ loc ≠ 87 ∧ loc ≠ 101 ∧ loc ≠ 119
                · rw [if_pos g2]
                  exact Or.inl ⟨rfl, rfl, rfl, rfl⟩
                · rw [if_neg g2]
                  exact Or.inr ⟨{ pb with packettype := pb.packettype ||| T_POSITION }, _, _, _,
                    _, ⟨rfl, rfl, rfl, rfl⟩, hn, rfl⟩

theorem parse_aprs_object_outcome (E : parse_env F) (pb : pbuf_t F) (body body_end : Nat) :
    pos_outcome E pb (parse_aprs_object E pb body body_end) := by
  unfold parse_aprs_object
  dsimp only
  by_cases h1 : byteAt pb.data (body + 9) ≠ 42 ∧ byteAt pb.data (body + 9) ≠ 95
  · rw [if_pos h1]
    exact Or.inl ⟨rfl, rfl, rfl, rfl⟩
  · rw [if_neg h1]
    by_cases h2 : byteAt pb.data (body + 16) ≠ 122 ∧ byteAt pb.data (body + 16) ≠ 104
        ∧ byteAt pb.data (body + 16) ≠ 47
    · rw [if_pos h2]
      exact Or.inl ⟨rfl, rfl, rfl, rfl⟩
    · rw [if_neg h2]
      cases object_name_loop (fun k => byteAt pb.data (body + k)) 9 0 (-1) with
      | none => exact Or.inl ⟨rfl, rfl, rfl, rfl⟩
      | some namelen =>
        dsimp only
        split_ifs
        · exact Or.inl ⟨rfl, rfl, rfl, rfl⟩
        · exact pos_outcome_of_decoder E (parse_aprs_compressed_outcome E _ _ _) ⟨rfl, rfl, rfl, rfl⟩
        · exact pos_outcome_of_decoder E (parse_aprs_uncompressed_outcome E _ _ _) ⟨rfl, rfl, rfl, rfl⟩
        · exact Or.inl ⟨rfl, rfl, rfl, rfl⟩

theorem parse_aprs_item_outcome (E : parse_env F) (pb : pbuf_t F) (body body_end : Nat) :
    pos_outcome E pb (parse_aprs_item E pb body body_end) := by
  unfold parse_aprs_item
  dsimp only
  cases item_name_loop (fun k => byteAt pb.data (body + k)) 10 0 with
  | none => exact Or.inl ⟨rfl, rfl, rfl, rfl⟩
  | some i =>
    dsimp only
    split_ifs
    · exact Or.inl ⟨rfl, rfl, rfl, rfl⟩
    · exact Or.inl ⟨rfl, rfl, rfl, rfl⟩
    · exact pos_outcome_of_decoder E (parse_aprs_compressed_outcome E _ _ _) ⟨rfl, rfl, rfl, rfl⟩
    · exact pos_outcome_of_decoder E (parse_aprs_uncompressed_outcome E _ _ _) ⟨rfl, rfl, rfl, rfl⟩
    · exact Or.inl ⟨rfl, rfl, rfl, rfl⟩

theorem preparse_aprs_message_fields (E : parse_env F) (pb : pbuf_t F) (body : Nat)
    (body_len : Int) :
    pos_fields_eq pb (preparse_aprs_message E pb body body_len).2 := by
  unfold preparse_aprs_message
  dsimp only
  split_ifs <;> exact ⟨rfl, rfl, rfl, rfl⟩

theorem parse_aprs_body_last_resort_outcome (E : parse_env F) (pb : pbuf_t F)
    (body body_end : Nat) :
    decoder_outcome E pb (parse_aprs_body_last_resort E pb body body_end) := by
  unfold parse_aprs_body_last_resort
  cases memchr pb.data body 33 ((body_end : Int) - body) with
  | none => exact Or.inl rfl
  | some pos_start =>
    dsimp only
    split_ifs
    · exact parse_aprs_compressed_outcome E _ _ _
    · exact Or.inl rfl
    · exact parse_aprs_uncompressed_outcome E _ _ _
    · exact Or.inl rfl
    · exact Or.inl rfl
    · exact Or.inl rfl

theorem parse_aprs_body_position_outcome (E : parse_env F) (pb : pbuf_t F)
    (packettype body body_end : Nat) :
    pos_outcome E pb (parse_aprs_body_position E pb packettype body body_end) := by
  unfold parse_aprs_body_position
  by_cases h1 : (body_end : Int) - body < 10
  · rw [if_pos h1]
    exact Or.inl ⟨rfl, rfl, rfl, rfl⟩
  · rw [if_neg h1]
    dsimp only
    split_ifs
    all_goals first
      | exact Or.inl ⟨rfl, rfl, rfl, rfl⟩
      | exact pos_outcome_of_decoder E (parse_aprs_compressed_outcome E _ _ _) ⟨rfl, rfl, rfl, rfl⟩
      | exact pos_outcome_of_decoder E (parse_aprs_uncompressed_outcome E _ _ _) ⟨rfl, rfl, rfl, rfl⟩

theorem parse_aprs_3rdparty_outcome (E : parse_env F)
    (inner : pbuf_t F → Nat → Int × pbuf_t F)
    (hin : ∀ pb1 info, pos_outcome E pb1 (inner pb1 info))
    (pb : pbuf_t F) (info_start : Nat) :
    pos_outcome E pb (parse_aprs_3rdparty E inner pb info_start) := by
  unfold parse_aprs_3rdparty
  dsimp only
  cases memchr pb.data (info_start + 1) 58
      ((pb.packet_len : Int) - 2 - ((info_start + 1 : Nat) : Int)) with
  | none => exact Or.inl ⟨rfl, rfl, rfl, rfl⟩
  | some body =>
    dsimp only
    cases memchr pb.data (info_start + 1) 62
        (if (body : Int) - ((info_start + 1 : Nat) : Int) < (CALLSIGNLEN_MAX : Int) + 1
          then (body : Int) - ((info_start + 1 : Nat) : Int) else (CALLSIGNLEN_MAX : Int) + 1) with
    | none => exact Or.inl ⟨rfl, rfl, rfl, rfl⟩
    | some src_end =>
      dsimp only
      split_ifs
      all_goals first
        | exact Or.inl ⟨rfl, rfl, rfl, rfl⟩
        | exact pos_outcome_of_trans E (hin _ _) ⟨rfl, rfl, rfl, rfl⟩

theorem pos_outcome_of_fields (E : parse_env F) {pb pb1 : pbuf_t F} {r : Int × pbuf_t F}
    (h1 : pos_fields_eq pb1 r.2) (h : pos_fields_eq pb pb1) : pos_outcome E pb r :=
  Or.inl (pos_fields_eq_trans h h1)

theorem parse_aprs_body_outcome (E : parse_env F) (depth : Nat) :
    ∀ (pb : pbuf_t F) (info_start : Nat),
      pos_outcome E pb (parse_aprs_body E depth pb info_start) := by
  induction depth with
  | zero =>
    intro pb info_start
    exact Or.inl ⟨rfl, rfl, rfl, rfl⟩
  | succ depth ih =>
    intro pb info_start
    rw [parse_aprs_body]
    dsimp only
    by_cases c0 : (pb.packet_len : Int) - pb.info_start - 2 < 1
    · rw [if_pos c0]
      exact Or.inl ⟨rfl, rfl, rfl, rfl⟩
    rw [if_neg c0]
    by_cases c1 : byteAt pb.data info_start = 0x27 ∨ byteAt pb.data info_start = 0x60
    · rw [if_pos c1]
      split_ifs
      · exact pos_outcome_of_decoder E (parse_aprs_mice_outcome E _ _ _) ⟨rfl, rfl, rfl, rfl⟩
      · exact Or.inl ⟨rfl, rfl, rfl, rfl⟩
    rw [if_neg c1]
    by_cases c2 : byteAt pb.data info_start = 33 ∧ byteAt pb.data (info_start + 1) = 33
    · rw [if_pos c2]
      exact Or.inl ⟨rfl, rfl, rfl, rfl⟩
    rw [if_neg c2]
    by_cases c3 : byteAt pb.data info_start = 33 ∨ byteAt pb.data info_start = 61 ∨ byteAt pb.data info_start = 47 ∨ byteAt pb.data info_start = 64
    · rw [if_pos c3]
      exact parse_aprs_body_position_outcome E _ _ _ _
    rw [if_neg c3]
    by_cases c4 : byteAt pb.data info_start = 36
    · rw [if_pos c4]
      split_ifs
      · exact parse_aprs_nmea_outcome E _ _ _
      · exact Or.inl ⟨rfl, rfl, rfl, rfl⟩
    rw [if_neg c4]
    by_cases c5 : byteAt pb.data info_start = 58
    · rw [if_pos c5]
      split_ifs
      · exact pos_outcome_of_fields E (preparse_aprs_message_fields E _ _ _) ⟨rfl, rfl, rfl, rfl⟩
      · exact Or.inl ⟨rfl, rfl, rfl, rfl⟩
    rw [if_neg c5]
    by_cases c6 : byteAt pb.data info_start = 59
    · rw [if_pos c6]
      split_ifs
      · exact parse_aprs_object_outcome E _ _ _
      · exact Or.inl ⟨rfl, rfl, rfl, rfl⟩
    rw [if_neg c6]
    by_cases c7 : byteAt pb.data info_start = 62
    · rw [if_pos c7]
      exact Or.inl ⟨rfl, rfl, rfl, rfl⟩
    rw [if_neg c7]
    by_cases c8 : byteAt pb.data info_start = 60
    · rw [if_pos c8]
      exact Or.inl ⟨rfl, rfl, rfl, rfl⟩
    rw [if_neg c8]
    by_cases c9 : byteAt pb.data info_start = 63
    · rw [if_pos c9]
      exact Or.inl ⟨rfl, rfl, rfl, rfl⟩
    rw [if_neg c9]
    by_cases c10 : byteAt pb.data info_start = 41
    · rw [if_pos c10]
      split_ifs
      · exact parse_aprs_item_outcome E _ _ _
      · exact Or.inl ⟨rfl, rfl, rfl, rfl⟩
    rw [if_neg c10]
    by_cases c11 : byteAt pb.data info_start = 68
    · rw [if_pos c11]
      split_ifs
      · exact Or.inl ⟨rfl, rfl, rfl, rfl⟩
      · exact pos_outcome_of_decoder E (parse_aprs_body_last_resort_outcome E _ _ _)
          ⟨rfl, rfl, rfl, rfl⟩
    rw [if_neg c11]
    by_cases c12 : byteAt pb.data info_start = 84
    · rw [if_pos c12]
      split_ifs
      · exact Or.inl ⟨rfl, rfl, rfl, rfl⟩
      · exact Or.inl ⟨rfl, rfl, rfl, rfl⟩
    rw [if_neg c12]
    by_cases c13 : byteAt pb.data info_start = 35 ∨ byteAt pb.data info_start = 42 ∨ byteAt pb.data info_start = 95
    · rw [if_pos c13]
      exact Or.inl ⟨rfl, rfl, rfl, rfl⟩
    rw [if_neg c13]
    by_cases c14 : byteAt pb.data info_start = 123
    · rw [if_pos c14]
      exact Or.inl ⟨rfl, rfl, rfl, rfl⟩
    rw [if_neg c14]
    by_cases c15 : byteAt pb.data info_start = 125
    · rw [if_pos c15]
      exact pos_outcome_of_trans E (parse_aprs_3rdparty_outcome E _ ih _ _) ⟨rfl, rfl, rfl, rfl⟩
    rw [if_neg c15]
    exact pos_outcome_of_decoder E (parse_aprs_body_last_resort_outcome E _ _ _)
      ⟨rfl, rfl, rfl, rfl⟩

theorem parse_aprs_eq (E : parse_env F) (pb : pbuf_t F) (h : pb.info_start ≠ 0) :
    ∃ pt, (pt = T_ALL ∨ pt = T_ALL ||| T_CWOP)
      ∧ parse_aprs E pb
          = parse_aprs_body E (pb.data.length + 1) { pb with packettype := pt } pb.info_start := by
  unfold parse_aprs
  rw [if_neg h]
  dsimp only
  split_ifs
  · exact ⟨_, Or.inr rfl, rfl⟩
  · exact ⟨_, Or.inl rfl, rfl⟩
  · exact ⟨_, Or.inl rfl, rfl⟩

theorem parse_aprs_outcome (E : parse_env F) (pb : pbuf_t F) :
    pos_outcome E pb (parse_aprs E pb) := by
  by_cases h : pb.info_start = 0
  · unfold parse_aprs
    rw [if_pos h]
    exact Or.inl ⟨rfl, rfl, rfl, rfl⟩
  · obtain ⟨pt, _, he⟩ := parse_aprs_eq E pb h
    rw [he]
    exact pos_outcome_of_trans E (parse_aprs_body_outcome E _ _ _) ⟨rfl, rfl, rfl, rfl⟩

/-- The invariant of the stored position, for an environment whose `%f`
stores no NaN: whatever the packet and whichever decoder `parse_aprs` goes
through, if the packet comes without `F_HASPOS` and leaves `parse_aprs` with
it, the stored latitude and longitude are the conversions to radians of a
latitude within `-90..90` degrees and a longitude within `-180..180` degrees,
and `cos_lat` is `cosf` of the stored latitude. -/
theorem parse_aprs_position_invariant (E : parse_env F) (hE : scan_no_nan E) (pb : pbuf_t F)
    (h0 : pb.flags &&& F_HASPOS = 0)
    (hset : (parse_aprs E pb).2.flags &&& F_HASPOS ≠ 0) :
    ∃ lat lng : Rat, -90 ≤ lat ∧ lat ≤ 90 ∧ -180 ≤ lng ∧ lng ≤ 180
      ∧ (parse_aprs E pb).2.lat = E.filter_lat2rad lat
      ∧ (parse_aprs E pb).2.lng = E.filter_lon2rad lng
      ∧ (parse_aprs E pb).2.cos_lat = E.cosf (parse_aprs E pb).2.lat := by
  have hinv : pos_inv E pb := fun h => absurd h0 h
  exact pos_inv_outcome E hE (parse_aprs_outcome E pb) hinv hset

theorem scan_no_nan_env_decimal : scan_no_nan env_decimal := by
  intro s v r h
  have h2 : (match scan_decimal s with
      | none => none
      | some (v, u) => some (cfloat.of_rat v, u)) = some (v, r) := h
  cases hd : scan_decimal s with
  | none => rw [hd] at h2; exact absurd h2 (by simp)
  | some w =>
    rw [hd] at h2
    simp only [Option.some.injEq, Prod.mk.injEq] at h2
    rw [← h2.1]
    exact cfloat_of_rat_ne_nan _

/-- The invariant of the stored position on scenario S1, read with a `%f`
that stores no NaN: the packet leaves `parse_aprs` with `F_HASPOS`, so its
position is that of a latitude and a longitude in range. -/
theorem parse_aprs_position_invariant_S1 :
    ∃ lat lng : Rat, -90 ≤ lat ∧ lat ≤ 90 ∧ -180 ≤ lng ∧ lng ≤ 180
      ∧ (parse_aprs env_decimal frame_S1).2.lat = env_decimal.filter_lat2rad lat
      ∧ (parse_aprs env_decimal frame_S1).2.lng = env_decimal.filter_lon2rad lng
      ∧ (parse_aprs env_decimal frame_S1).2.cos_lat
          = env_decimal.cosf (parse_aprs env_decimal frame_S1).2.lat :=
  parse_aprs_position_invariant env_decimal scan_no_nan_env_decimal frame_S1 (by decide)
    (by decide!)

/-- C13 fails in the code: in the sentence `$GPGLL,12nan,N,02505.68,E,...` the
conversion `%2d` reads `12` and `%f` reads `nan` and stores a NaN, so
`(float)la + lat/60.0` is a NaN; every comparison of `pbuf_fill_pos` with it
is false, the range test lets it through, and `parse_aprs` returns 1 with
`F_HASPOS` set and a NaN stored as latitude and as `cos_lat`. The stored
latitude is the conversion of no latitude within `-90..90` degrees. -/
theorem parse_aprs_nan_position :
    frame_nmea_nan.flags &&& F_HASPOS = 0
    ∧ sscanf_nmea env_example 2 (frame_nmea_nan.data.drop 19) = some (12, cfloat.nan, 78)
    ∧ nmea_degrees 12 cfloat.nan = cfloat.nan
    ∧ parse_aprs_nmea env_example frame_nmea_nan 13 46
        = pbuf_fill_pos_float env_example
            { frame_nmea_nan with packettype := frame_nmea_nan.packettype ||| T_POSITION }
            cfloat.nan (cfloat.fin (13156833 / 524288)) 32 32
    ∧ (parse_aprs env_example frame_nmea_nan).1 = 1
    ∧ (parse_aprs env_example frame_nmea_nan).2.flags &&& F_HASPOS = F_HASPOS
    ∧ (parse_aprs env_example frame_nmea_nan).2.lat = cfloat.nan
    ∧ (parse_aprs env_example frame_nmea_nan).2.cos_lat = cfloat.nan
    ∧ ¬ ∃ lat lng : Rat, -90 ≤ lat ∧ lat ≤ 90 ∧ -180 ≤ lng ∧ lng ≤ 180
        ∧ (parse_aprs env_example frame_nmea_nan).2.lat = env_example.filter_lat2rad lat
        ∧ (parse_aprs env_example frame_nmea_nan).2.lng = env_example.filter_lon2rad lng
        ∧ (parse_aprs env_example frame_nmea_nan).2.cos_lat
            = env_example.cosf (parse_aprs env_example frame_nmea_nan).2.lat := by
  have hl : (parse_aprs env_example frame_nmea_nan).2.lat = cfloat.nan := by decide!
  refine ⟨by decide, by decide!, rfl, by decide!, by decide!, by decide!, hl, by decide!, ?_⟩
  rintro ⟨lat, lng, _, _, _, _, e, _⟩
  rw [hl] at e
  exact cfloat.noConfusion e

theorem bytes_drop_succ (s : List Nat) (i n : Nat) :
    bytes (s.drop i) (n + 1) = byteAt s i :: bytes (s.drop (i + 1)) n := by
  apply List.ext_getElem
  · simp [bytes_length]
  · intro k h1 h2
    unfold bytes
    cases k with
    | zero => simp [byteAt_drop]
    | succ k =>
      simp only [List.getElem_map, List.getElem_range, List.getElem_cons_succ, byteAt_drop]
      congr 1
      omega

theorem parse_aprs_body_dx (E : parse_env F) (depth : Nat) (pb : pbuf_t F) (info_start : Nat)
    (hlen : (pb.packet_len : Int) - pb.info_start - 2 ≥ 1)
    (hD : byteAt pb.data info_start = 68) :
    parse_aprs_body E (depth + 1) pb info_start
      = if bytes (pb.data.drop (info_start + 1)) 5 = [88, 32, 100, 101, 32] then (INERR_DIS_DX, pb)
        else parse_aprs_body_last_resort E pb (info_start + 1) (pb.packet_len - 2) := by
  rw [parse_aprs_body]
  dsimp only
  rw [if_neg (not_lt.mpr hlen), hD]
  simp

/-- C19: a packet whose information field begins with the six bytes `DX de `
makes `parse_aprs` return `INERR_DIS_DX` and leaves flags and stored position
as they were; a packet whose information field begins with `D` but not with
`DX de ` does not get `INERR_DIS_DX`. -/
theorem parse_aprs_dx_rejected (E : parse_env F) (pb : pbuf_t F) :
    (pb.info_start ≠ 0 → pb.info_start + 6 + 2 ≤ pb.packet_len
      → bytes (pb.data.drop pb.info_start) 6 = [68, 88, 32, 100, 101, 32]
      → (parse_aprs E pb).1 = INERR_DIS_DX
        ∧ (parse_aprs E pb).2.flags = pb.flags ∧ (parse_aprs E pb).2.lat = pb.lat
        ∧ (parse_aprs E pb).2.lng = pb.lng ∧ (parse_aprs E pb).2.cos_lat = pb.cos_lat)
    ∧ (byteAt pb.data pb.info_start = 68
      → bytes (pb.data.drop pb.info_start) 6 ≠ [68, 88, 32, 100, 101, 32]
      → (parse_aprs E pb).1 ≠ INERR_DIS_DX) := by
  constructor
  · intro h0 hlen hb
    obtain ⟨pt, _, he⟩ := parse_aprs_eq E pb h0
    rw [bytes_drop_succ] at hb
    have hD : byteAt pb.data pb.info_start = 68 := (List.cons.inj hb).1
    have hX := (List.cons.inj hb).2
    have hl : ((({ pb with packettype := pt } : pbuf_t F).packet_len : Int)
        - ({ pb with packettype := pt } : pbuf_t F).info_start - 2 ≥ 1) := by
      show (pb.packet_len : Int) - pb.info_start - 2 ≥ 1
      omega
    rw [he, parse_aprs_body_dx E _ _ _ hl hD, if_pos hX]
    exact ⟨rfl, rfl, rfl, rfl, rfl⟩
  · intro hD hne
    by_cases h0 : pb.info_start = 0
    · unfold parse_aprs
      rw [if_pos h0]
      show (0 : Int) ≠ INERR_DIS_DX
      decide
    · obtain ⟨pt, _, he⟩ := parse_aprs_eq E pb h0
      rw [he]
      by_cases hl : (pb.packet_len : Int) - pb.info_start - 2 ≥ 1
      · have hb := parse_aprs_body_dx E pb.data.length { pb with packettype := pt }
          pb.info_start hl hD
        rw [hb]
        have hX : ¬ bytes (pb.data.drop (pb.info_start + 1)) 5 = [88, 32, 100, 101, 32] := by
          intro hX
          apply hne
          rw [bytes_drop_succ, hD, hX]
        rw [if_neg hX]
        rcases decoder_outcome_ret (parse_aprs_body_last_resort_outcome E
          { pb with packettype := pt } (pb.info_start + 1) (pb.packet_len - 2)) with h | h
        · rw [h]; decide
        · rw [h]; decide
      · rw [parse_aprs_body]
        dsimp only
        rw [if_pos (not_le.mp hl)]
        show (0 : Int) ≠ INERR_DIS_DX
        decide

/-- C19 on scenario S5: `A>B:DX de xyz` is rejected with `INERR_DIS_DX` and
gets no position. -/
theorem parse_aprs_dx_rejected_witness :
    (parse_aprs env_example frame_S5).1 = INERR_DIS_DX
      ∧ (parse_aprs env_example frame_S5).2.flags = frame_S5.flags
      ∧ (parse_aprs env_example frame_S5).2.lat = frame_S5.lat
      ∧ (parse_aprs env_example frame_S5).2.lng = frame_S5.lng
      ∧ (parse_aprs env_example frame_S5).2.cos_lat = frame_S5.cos_lat :=
  (parse_aprs_dx_rejected env_example frame_S5).1 (by decide) (by decide) (by decide)

theorem heard_find_keep (list : Fin CLIENT_HEARD_BUCKETS → List client_heard_t)
    (entrycount : Int) (callsign : List Nat) (call_len hash : Nat) :
    (heard_find list entrycount callsign call_len hash false).2 = (list, entrycount) := by
  unfold heard_find
  dsimp only
  cases heard_find_loop callsign call_len hash false [] (list (heard_bucket hash)) with
  | none => rfl
  | some chain => rfl

/-- C29 (amended): `client_heard_check` changes nothing. Whether it finds the
callsign or not, the client is as before: every bucket holds the same entries
in the same order, and the entry found stays where it was. -/
theorem client_heard_check_keeps_table (c : client_t) (callsign : List Nat)
    (call_len hash : Nat) :
    (client_heard_check c callsign call_len hash).2 = c := by
  unfold client_heard_check
  dsimp only
  rw [heard_find_keep]

/-- C29 as stated fails: in a bucket holding the entry of another station
followed by the entry of `OH7LZB`, the check for `OH7LZB` succeeds and the
first entry of the bucket is still that of the other station. -/
theorem client_heard_check_no_move_to_front :
    heard_OH7LZB ∈ client_two.client_heard
        (heard_bucket (keyhashuc0 keyhashuc_fnv [79, 72, 55, 76, 90, 66] 6))
    ∧ (client_heard_check client_two [79, 72, 55, 76, 90, 66] 6
        (keyhashuc0 keyhashuc_fnv [79, 72, 55, 76, 90, 66] 6)).1 = 1
    ∧ ((client_heard_check client_two [79, 72, 55, 76, 90, 66] 6
        (keyhashuc0 keyhashuc_fnv [79, 72, 55, 76, 90, 66] 6)).2.client_heard
          (heard_bucket (keyhashuc0 keyhashuc_fnv [79, 72, 55, 76, 90, 66] 6))).head?
        = some heard_other
    ∧ heard_other ≠ heard_OH7LZB := by
  decide

theorem memchr_loop_byte (data : List Nat) (c : Nat) :
    ∀ (n s p : Nat), memchr_loop data c n s = some p → byteAt data p = c := by
  intro n
  induction n with
  | zero => intro s p h; simp [memchr_loop] at h
  | succ n ih =>
    intro s p h
    rw [memchr_loop] at h
    by_cases hc : byteAt data s = c
    · rw [if_pos hc] at h
      cases h
      exact hc
    · rw [if_neg hc] at h
      exact ih _ _ h

theorem memchr_byte {data : List Nat} {s c : Nat} {n : Int} {p : Nat}
    (h : memchr data s c n = some p) : byteAt data p = c :=
  memchr_loop_byte data c _ _ _ h

theorem parse_aprs_body_last_resort_eq (E : parse_env F) (pb : pbuf_t F) (body body_end : Nat) :
    parse_aprs_body_last_resort E pb body body_end = (0, pb) := by
  unfold parse_aprs_body_last_resort
  cases hm : memchr pb.data body 33 ((body_end : Int) - body) with
  | none => rfl
  | some pos_start =>
    have hb := memchr_byte hm
    dsimp only
    rw [hb]
    have h1 : ¬ (valid_sym_table_compressed 33 = true) := by decide
    have h2 : ¬ (0x30 ≤ 33 ∧ 33 ≤ 0x39) := by decide
    rw [if_neg h1, if_neg h2]
    split_ifs <;> rfl

/-- C23 fails in the code: the scan after the `switch` of `parse_aprs_body`
takes the found `!` itself for the first byte of the position, which is
neither a symbol table of a compressed position nor a digit, so the scan
returns 0 and leaves the packet as it is, whatever the packet. On
`N0CALL>APRS:Xtext!6028.51N/02505.68E-` the `!` is found at offset 17, the 19
bytes after it decode as an uncompressed position, and `parse_aprs` returns 0
without `F_HASPOS`. -/
theorem parse_aprs_last_resort_never_decodes :
    (∀ (E : parse_env F) (pb : pbuf_t F) (body body_end : Nat),
      parse_aprs_body_last_resort E pb body body_end = (0, pb))
    ∧ memchr frame_last_resort.data 13 33 ((37 : Int) - 13) = some 17
    ∧ (parse_aprs_uncompressed env_example frame_last_resort 18 37).1 = 1
    ∧ (parse_aprs env_example frame_last_resort).1 = 0
    ∧ (parse_aprs env_example frame_last_resort).2.flags &&& F_HASPOS = 0 :=
  ⟨parse_aprs_body_last_resort_eq, by decide, by decide!, by decide!, by decide!⟩

/-- C26 (amended): for a destination callsign that begins with `GPS`, `SPC` or
`SYM`, then `C` or `E`, then two decimal digits `d1 d2`,
`get_symbol_from_dstcall` succeeds with the table `/` for `C` and `\` for `E`
and stores the byte `32 + (10*d1 + d2)` as the symbol code, for every number
`00..99`. Read as a signed `char`, that byte is the integer `32 + number`
exactly for the numbers up to 95. -/
theorem get_symbol_from_dstcall_numeric (pb : pbuf_t F) (d1 d2 : Nat)
    (hlen : pb.srccall_end + 1 + 6 ≤ pb.dstcall_end_or_ssid)
    (hpre : bytes (pb.data.drop (pb.srccall_end + 1)) 3 = [71, 80, 83]
      ∨ bytes (pb.data.drop (pb.srccall_end + 1)) 3 = [83, 80, 67]
      ∨ bytes (pb.data.drop (pb.srccall_end + 1)) 3 = [83, 89, 77])
    (htype : byteAt pb.data (pb.srccall_end + 1 + 3) = 67
      ∨ byteAt pb.data (pb.srccall_end + 1 + 3) = 69)
    (h1 : byteAt pb.data (pb.srccall_end + 1 + 4) = 48 + d1)
    (h2 : byteAt pb.data (pb.srccall_end + 1 + 5) = 48 + d2)
    (hd1 : d1 ≤ 9) (hd2 : d2 ≤ 9) :
    get_symbol_from_dstcall pb
        = some (if byteAt pb.data (pb.srccall_end + 1 + 3) = 67 then 47 else 92,
                32 + (10 * d1 + d2))
    ∧ (char_signed (32 + (10 * d1 + d2)) = ((32 + (10 * d1 + d2) : Nat) : Int)
        ↔ 10 * d1 + d2 ≤ 95) := by
  constructor
  · unfold get_symbol_from_dstcall
    dsimp only
    have c0 : ¬ ((pb.dstcall_end_or_ssid : Int) - ((pb.srccall_end + 1 : Nat) : Int) < 5) := by
      omega
    have hsub : (if (pb.dstcall_end_or_ssid : Int) - ((pb.srccall_end + 1 : Nat) : Int) - 3 > 3
        then (3 : Int)
        else (pb.dstcall_end_or_ssid : Int) - ((pb.srccall_end + 1 : Nat) : Int) - 3) = 3 := by
      split_ifs <;> omega
    have c1 : ¬ (bytes (pb.data.drop (pb.srccall_end + 1)) 3 ≠ [71, 80, 83]
        ∧ bytes (pb.data.drop (pb.srccall_end + 1)) 3 ≠ [83, 80, 67]
        ∧ bytes (pb.data.drop (pb.srccall_end + 1)) 3 ≠ [83, 89, 77]) := by
      rintro ⟨a, b, c⟩
      rcases hpre with h | h | h
      · exact a h
      · exact b h
      · exact c h
    have a3 : isalnum (byteAt pb.data (pb.srccall_end + 1 + 3)) = true := by
      rcases htype with h | h <;> rw [h] <;> decide
    have a4 : isalnum (byteAt pb.data (pb.srccall_end + 1 + 4)) = true := by
      rw [h1]; unfold isalnum; simp only [decide_eq_true_eq]; omega
    have a5 : isalnum (byteAt pb.data (pb.srccall_end + 1 + 5)) = true := by
      rw [h2]; unfold isalnum; simp only [decide_eq_true_eq]; omega
    have g4 : isdigit (byteAt pb.data (pb.srccall_end + 1 + 4)) = true := by
      rw [h1]; unfold isdigit; simp only [decide_eq_true_eq]; omega
    have g5 : isdigit (byteAt pb.data (pb.srccall_end + 1 + 5)) = true := by
      rw [h2]; unfold isdigit; simp only [decide_eq_true_eq]; omega
    rw [if_neg c0, if_neg c1, hsub]
    have c2 : ¬ (isalnum (byteAt pb.data (pb.srccall_end + 1 + 3)) = false
        ∨ isalnum (byteAt pb.data (pb.srccall_end + 1 + 4)) = false) := by
      rw [a3, a4]; decide
    have c3 : ¬ ((3 : Int) = 3 ∧ isalnum (byteAt pb.data (pb.srccall_end + 1 + 5)) = false) := by
      rw [a5]; decide
    have c4 : ¬ (isdigit (byteAt pb.data (pb.srccall_end + 1 + 4)) = false) := by
      rw [g4]; decide
    have c5 : ¬ (isdigit (byteAt pb.data (pb.srccall_end + 1 + 5)) = false) := by
      rw [g5]; decide
    rw [if_neg c2, if_neg c3, if_pos rfl, if_pos htype, if_neg c4, if_neg c5, h1, h2]
    have e : ((48 + d1 - 48) * 10 + (48 + d2 - 48) + 32) % 256 = 32 + (10 * d1 + d2) := by
      omega
    rw [e]
  · unfold char_signed
    split_ifs <;> omega

/-- C26 on `GPSC00`-like callsigns: the destination `GPSE07` of a packet gives
the table `\` and the code byte `39`. -/
theorem get_symbol_from_dstcall_numeric_witness :
    get_symbol_from_dstcall (frame "N0CALL>GPSE07:>status" 6 13 14) = some (92, 39)
    ∧ (char_signed 39 = 39 ↔ 7 ≤ 95) :=
  get_symbol_from_dstcall_numeric (frame "N0CALL>GPSE07:>status" 6 13 14) 0 7
    (by decide) (by decide) (by decide) (by decide) (by decide) (by decide) (by decide)

/-- C26 as stated fails where `char` is signed: for the destination `GPSC99`
the code byte is `131`, which as a `char` is `-125` and not `32 + 99`. -/
theorem get_symbol_from_dstcall_numeric_wraps :
    get_symbol_from_dstcall frame_GPSC99 = some (47, 131)
    ∧ char_signed 131 = -125
    ∧ char_signed 131 ≠ 32 + 99 := by
  decide

theorem bytes_prefix_eq {s : List Nat} {n : Nat} {l : List Nat} (h : bytes s n = l)
    {m : Nat} (hm : m ≤ n) : bytes s m = bytes l m := by
  rw [← h, bytes_bytes s hm]

/-- C25 fails in the code for `$GPWPL`: the branch sets `latp` and leaves
`lngp` NULL, so `parse_aprs_nmea` returns 0 at the test `!latp || !lngp` and
leaves the packet as it is, whatever follows the keyword. -/
theorem parse_aprs_nmea_gpwpl_not_decoded (E : parse_env F) (pb : pbuf_t F)
    (body body_end : Nat)
    (h : bytes (pb.data.drop body) 6 = [71, 80, 87, 80, 76, 44]) :
    parse_aprs_nmea E pb body body_end = (0, pb) := by
  have h3 : bytes (pb.data.drop body) 3 = [71, 80, 87] := by
    rw [bytes_prefix_eq h (by decide : 3 ≤ 6)]; decide
  have h7 : bytes (pb.data.drop body) 7 ≠ [80, 78, 84, 83, 44, 49, 44] := by
    intro h7
    have := bytes_prefix_eq h7 (by decide : 6 ≤ 7)
    rw [h] at this
    revert this
    decide
  unfold parse_aprs_nmea
  dsimp only
  rw [h3]
  rw [if_neg (by decide)]
  have hf : nmea_find pb.data body body_end = .ptrs (some (body + 6)) none := by
    unfold nmea_find
    dsimp only
    rw [h]
    rw [if_neg (by decide), if_neg (by decide), if_neg (by decide), if_pos rfl]
  rw [hf]

/-- C25 on `$GPWPL,4610.586,N,00607.754,E,4*70`: the sentence is not decoded,
`parse_aprs` returns 0 and sets no `F_HASPOS`, while a `$GPGGA` sentence is
decoded. -/
theorem parse_aprs_nmea_gpwpl_not_decoded_witness :
    parse_aprs_nmea env_example frame_gpwpl 13 46 = (0, frame_gpwpl)
    ∧ (parse_aprs env_example frame_gpwpl).1 = 0
    ∧ (parse_aprs env_example frame_gpwpl).2.flags &&& F_HASPOS = 0
    ∧ (parse_aprs env_example frame_gpgga).1 = 1
    ∧ (parse_aprs env_example frame_gpgga).2.flags &&& F_HASPOS = F_HASPOS :=
  ⟨parse_aprs_nmea_gpwpl_not_decoded env_example frame_gpwpl 13 46 (by decide),
    by decide!, by decide!, by decide!, by decide!⟩

/-- The test of the validity field of a `$GPRMC` sentence lets `V` pass: the
sentence goes on to the coordinates. -/
theorem nmea_find_gprmc_void_accepted (data : List Nat) (body body_end : Nat)
    (hk : bytes (data.drop body) 6 = [71, 80, 82, 77, 67, 44])
    (hv : byteAt data (gprmc_validity data body body_end) = 65
      ∨ byteAt data (gprmc_validity data body body_end) = 86) :
    nmea_find data body body_end
      = .ptrs (some (gprmc_latp data body body_end))
          (some (nmea_lngp data body_end (gprmc_latp data body body_end))) := by
  unfold nmea_find gprmc_latp
  dsimp only
  rw [hk]
  rw [if_neg (by decide), if_neg (by decide), if_pos rfl]
  have hc : ¬ (byteAt data (gprmc_validity data body body_end) ≠ 65
      ∧ byteAt data (gprmc_validity data body body_end) ≠ 86) := by
    omega
  unfold gprmc_validity at hc ⊢
  rw [if_neg hc]

theorem nmea_find_gprmc_rejected (data : List Nat) (body body_end : Nat)
    (hk : bytes (data.drop body) 6 = [71, 80, 82, 77, 67, 44])
    (hv : byteAt data (gprmc_validity data body body_end) ≠ 65
      ∧ byteAt data (gprmc_validity data body body_end) ≠ 86) :
    nmea_find data body body_end = .ret 0 := by
  unfold nmea_find
  dsimp only
  rw [hk]
  rw [if_neg (by decide), if_neg (by decide), if_pos rfl]
  unfold gprmc_validity at hv
  rw [if_pos hv]

/-- C24, as the code has it: in a `$GPRMC` sentence the byte after the
timestamp field has to be `A` or `V`. With any other byte there
`parse_aprs_nmea` returns 0 and leaves the packet as it is, so a position is
stored only for `A` or `V`; with `A` and with `V` alike the sentence goes on
to the same latitude and longitude fields. -/
theorem parse_aprs_nmea_gprmc_validity (E : parse_env F) (pb : pbuf_t F)
    (body body_end : Nat)
    (hk : bytes (pb.data.drop body) 6 = [71, 80, 82, 77, 67, 44]) :
    (byteAt pb.data (gprmc_validity pb.data body body_end) ≠ 65
        ∧ byteAt pb.data (gprmc_validity pb.data body body_end) ≠ 86 →
      parse_aprs_nmea E pb body body_end = (0, pb))
    ∧ ((parse_aprs_nmea E pb body body_end).2.flags ≠ pb.flags →
      byteAt pb.data (gprmc_validity pb.data body body_end) = 65
        ∨ byteAt pb.data (gprmc_validity pb.data body body_end) = 86)
    ∧ (byteAt pb.data (gprmc_validity pb.data body body_end) = 65
        ∨ byteAt pb.data (gprmc_validity pb.data body body_end) = 86 →
      nmea_find pb.data body body_end
        = .ptrs (some (gprmc_latp pb.data body body_end))
            (some (nmea_lngp pb.data body_end (gprmc_latp pb.data body body_end)))) := by
  have h3 : bytes (pb.data.drop body) 3 = [71, 80, 82] := by
    rw [bytes_prefix_eq hk (by decide : 3 ≤ 6)]; decide
  have hrej : byteAt pb.data (gprmc_validity pb.data body body_end) ≠ 65
        ∧ byteAt pb.data (gprmc_validity pb.data body body_end) ≠ 86 →
      parse_aprs_nmea E pb body body_end = (0, pb) := by
    intro hv
    unfold parse_aprs_nmea
    dsimp only
    rw [h3]
    rw [if_neg (by decide), nmea_find_gprmc_rejected pb.data body body_end hk hv]
  refine ⟨hrej, ?_, nmea_find_gprmc_void_accepted pb.data body body_end hk⟩
  intro hf
  by_contra hv
  apply hf
  rw [hrej (by omega)]

/-- C24 on two `$GPRMC` sentences: with the validity `V` the pointers are
those of the coordinates, and with the validity `X` the call returns 0 and
the packet is unchanged. -/
theorem parse_aprs_nmea_gprmc_validity_witness :
    bytes (frame_gprmc_void.data.drop 13) 6 = [71, 80, 82, 77, 67, 44]
    ∧ byteAt frame_gprmc_void.data (gprmc_validity frame_gprmc_void.data 13 79) = 86
    ∧ nmea_find frame_gprmc_void.data 13 79
        = .ptrs (some (gprmc_latp frame_gprmc_void.data 13 79))
            (some (nmea_lngp frame_gprmc_void.data 79 (gprmc_latp frame_gprmc_void.data 13 79)))
    ∧ byteAt frame_gprmc_other.data (gprmc_validity frame_gprmc_other.data 13 79) = 88
    ∧ parse_aprs_nmea env_example frame_gprmc_other 13 79 = (0, frame_gprmc_other) :=
  ⟨by decide, by decide,
    (parse_aprs_nmea_gprmc_validity env_example frame_gprmc_void 13 79 (by decide)).2.2
      (by decide),
    by decide,
    (parse_aprs_nmea_gprmc_validity env_example frame_gprmc_other 13 79 (by decide)).1
      (by decide)⟩

/-- C24 as stated fails: in `$GPRMC,000043,V,4411.7761,N,07927.0448,W,...` the
validity field is `V`, and `parse_aprs` returns 1 with `T_POSITION` and
`F_HASPOS` set and a position stored: the `float`s next to `44 + 11.7761/60`
north and `79 + 27.0448/60` west. -/
theorem parse_aprs_gprmc_void_position :
    byteAt frame_gprmc_void.data (gprmc_validity frame_gprmc_void.data 13 79) = 86
    ∧ (parse_aprs env_example frame_gprmc_void).1 = 1
    ∧ (parse_aprs env_example frame_gprmc_void).2.packettype &&& T_POSITION = T_POSITION
    ∧ (parse_aprs env_example frame_gprmc_void).2.flags &&& F_HASPOS = F_HASPOS
    ∧ (parse_aprs env_example frame_gprmc_void).2.lat
        = env_example.filter_lat2rad (11585787 / 262144)
    ∧ (parse_aprs env_example frame_gprmc_void).2.lng
        = env_example.filter_lon2rad (-1301721 / 16384)
    ∧ |(11585787 / 262144 : Rat) - (44 + 11.7761 / 60)| < 0.00001
    ∧ |(-1301721 / 16384 : Rat) - (-(79 + 27.0448 / 60))| < 0.00001 := by
  refine ⟨by decide, by decide!, by decide!, by decide!, by decide!, by decide!, by decide!,
    by decide!⟩

/-- C27 fails in the code: `am->body_len` is set to the length of the whole
information field, not to that of the text after the recipient, so the scan
for `{` starts 10 bytes after the end of the information field, beyond the
CR LF. For `:SERVER   :hello` the result has `body_len = 16`, not 5; for
`:SERVER   :ack42` the acknowledgement gets `msgid_len = 13`, not 2; and with
`old{99` left in the buffer after the packet, `:SERVER   :hello` gets a
`msgid` outside the packet with a negative length. Only when the text holds a
`{` and the eight bytes after the CR LF hold none is the result that of the
claim, as for `:SERVER   :hello{7`. -/
theorem parse_aprs_message_length_overrun :
    message_hello.packet_len = 22
    ∧ parse_aprs_message message_hello
        = (0, { body := 15, body_len := 16, msgid := 0, msgid_len := 0, is_ack := 0 })
    ∧ parse_aprs_message message_ack
        = (0, { body := 15, body_len := 0, msgid := 18, msgid_len := 13, is_ack := 1 })
    ∧ bytes message_hello_stale.data 22 = bytes message_hello.data 22
    ∧ parse_aprs_message message_hello_stale
        = (0, { body := 15, body_len := 10, msgid := 26, msgid_len := -6, is_ack := 0 })
    ∧ parse_aprs_message message_id
        = (0, { body := 15, body_len := 5, msgid := 21, msgid_len := 1, is_ack := 0 }) := by
  decide!

/-- C30 fails in the code: `heard_list_update` copies `call_len` bytes into
the cell and writes a NUL only into the last byte of the array, so a cell that
held a longer callsign keeps its tail, and `client_heard_json`, which emits the
C string, emits more than `call_len` bytes. A cell that held `OH2MQK-15` and is
used again for `OH7LZB` is dumped as `OH7LZB-15`; the table loaded from that
dump has one entry, and the check for `OH7LZB`, which succeeds on the table
dumped, fails on it. -/
theorem client_heard_json_emits_stale_tail :
    ((client_heard_update keyhashuc_fnv (some fresh_cell) (packet_OH2MQK15 900)
        client_empty).client_heard
        (heard_bucket (keyhashuc0 keyhashuc_fnv (packet_OH2MQK15 900).data 9))).map
          (fun h => h.callsign) = [stale_cell.callsign]
    ∧ (client_heard_reused.client_heard
        (heard_bucket (keyhashuc0 keyhashuc_fnv [79, 72, 55, 76, 90, 66] 6))).map
          (fun h => (h.call_len, h.callsign))
        = [(6, [79, 72, 55, 76, 90, 66, 45, 49, 53, 0])]
    ∧ client_heard_reused.client_heard_count = 1
    ∧ client_heard_json client_heard_reused.client_heard
        = [[79, 72, 55, 76, 90, 66, 45, 49, 53]]
    ∧ (client_heard_check client_heard_reused [79, 72, 55, 76, 90, 66] 6
        (keyhashuc0 keyhashuc_fnv [79, 72, 55, 76, 90, 66] 6)).1 = 1
    ∧ (client_heard_json_load keyhashuc_fnv 2000 (fun _ => some fresh_cell) client_empty
        ((client_heard_json client_heard_reused.client_heard).map some)).2.client_heard_count = 1
    ∧ (client_heard_check
        (client_heard_json_load keyhashuc_fnv 2000 (fun _ => some fresh_cell) client_empty
          ((client_heard_json client_heard_reused.client_heard).map some)).2
        [79, 72, 55, 76, 90, 66] 6
        (keyhashuc0 keyhashuc_fnv [79, 72, 55, 76, 90, 66] 6)).1 = 0 := by
  decide

theorem preparse_aprs_message_eq (E : parse_env F) (pb : pbuf_t F) (body : Nat)
    (body_len : Int) :
    preparse_aprs_message E pb body body_len
      = (if E.check_call_match disallow_msg_recipients (pb.data.drop body)
            (message_recipient_len (fun k => byteAt pb.data (body + k)) (CALLSIGNLEN_MAX + 1) 0)
            ≠ 0
          then INERR_DIS_MSG_DST else 0,
         { pb with
           packettype := preparse_type pb.data pb.packettype body body_len
           dstname := body
           dstname_len :=
             message_recipient_len (fun k => byteAt pb.data (body + k)) (CALLSIGNLEN_MAX + 1) 0 })
    := by
  unfold preparse_aprs_message preparse_type
  dsimp only
  split_ifs <;> rfl

theorem parse_aprs_body_message (E : parse_env F) (depth : Nat) (pb : pbuf_t F)
    (info_start : Nat)
    (hlen : (pb.packet_len : Int) - pb.info_start - 2 ≥ 1)
    (hc : byteAt pb.data info_start = 58) :
    parse_aprs_body E (depth + 1) pb info_start
      = if (pb.packet_len : Int) - pb.info_start - 2 ≥ 11 then
          preparse_aprs_message E { pb with packettype := pb.packettype ||| T_MESSAGE }
            (info_start + 1) ((pb.packet_len : Int) - pb.info_start - 2 - 1)
        else (0, pb) := by
  rw [parse_aprs_body]
  dsimp only
  rw [if_neg (not_lt.mpr hlen), hc]
  simp

theorem parse_aprs_message_eq (E : parse_env F) (pb : pbuf_t F) (h0 : pb.info_start ≠ 0)
    (hc : byteAt pb.data pb.info_start = 58) (hlen : pb.info_start + 11 + 2 ≤ pb.packet_len) :
    ∃ pt, (pt = T_ALL ∨ pt = T_ALL ||| T_CWOP)
      ∧ parse_aprs E pb
        = (if E.check_call_match disallow_msg_recipients (pb.data.drop (pb.info_start + 1))
              (message_recipient_len (fun k => byteAt pb.data (pb.info_start + 1 + k))
                (CALLSIGNLEN_MAX + 1) 0) ≠ 0
            then INERR_DIS_MSG_DST else 0,
           { pb with
             packettype := preparse_type pb.data (pt ||| T_MESSAGE) (pb.info_start + 1)
               ((pb.packet_len : Int) - pb.info_start - 2 - 1)
             dstname := pb.info_start + 1
             dstname_len :=
               message_recipient_len (fun k => byteAt pb.data (pb.info_start + 1 + k))
                 (CALLSIGNLEN_MAX + 1) 0 }) := by
  obtain ⟨pt, hpt, he⟩ := parse_aprs_eq E pb h0
  refine ⟨pt, hpt, ?_⟩
  have hl : (pb.packet_len : Int) - pb.info_start - 2 ≥ 11 := by omega
  have hb := parse_aprs_body_message E pb.data.length { pb with packettype := pt }
    pb.info_start (by show (pb.packet_len : Int) - pb.info_start - 2 ≥ 1; omega) hc
  rw [he, hb]
  rw [if_pos (by show (pb.packet_len : Int) - pb.info_start - 2 ≥ 11; exact hl)]
  rw [preparse_aprs_message_eq]

theorem parse_aprs_short_message_eq (E : parse_env F) (pb : pbuf_t F) (h0 : pb.info_start ≠ 0)
    (hc : byteAt pb.data pb.info_start = 58) (hlen : pb.packet_len < pb.info_start + 11 + 2) :
    ∃ pt, (pt = T_ALL ∨ pt = T_ALL ||| T_CWOP)
      ∧ parse_aprs E pb = (0, { pb with packettype := pt }) := by
  obtain ⟨pt, hpt, he⟩ := parse_aprs_eq E pb h0
  refine ⟨pt, hpt, ?_⟩
  rw [he]
  by_cases hl : (pb.packet_len : Int) - pb.info_start - 2 ≥ 1
  · have hb := parse_aprs_body_message E pb.data.length { pb with packettype := pt }
      pb.info_start hl hc
    rw [hb]
    rw [if_neg (by show ¬ ((pb.packet_len : Int) - pb.info_start - 2 ≥ 11); omega)]
  · rw [parse_aprs_body]
    dsimp only
    rw [if_pos (not_le.mp hl)]

theorem preparse_type_telemetry {pt : Nat} (hpt : pt = T_ALL ∨ pt = T_ALL ||| T_CWOP)
    (pb : pbuf_t F) (h : telemetry_message pb) :
    preparse_type pb.data (pt ||| T_MESSAGE) (pb.info_start + 1)
        ((pb.packet_len : Int) - pb.info_start - 2 - 1) &&& T_MESSAGE = 0
    ∧ preparse_type pb.data (pt ||| T_MESSAGE) (pb.info_start + 1)
        ((pb.packet_len : Int) - pb.info_start - 2 - 1) &&& T_TELEMETRY = T_TELEMETRY := by
  obtain ⟨h1, h2, h3⟩ := h
  have e10 : pb.info_start + 1 + 9 = pb.info_start + 10 := by omega
  have e11 : pb.info_start + 1 + 10 = pb.info_start + 11 := by omega
  have hc : byteAt pb.data (pb.info_start + 1 + 9) = 58
      ∧ (pb.packet_len : Int) - pb.info_start - 2 - 1 ≥ 10 + 6
      ∧ (bytes (pb.data.drop (pb.info_start + 1 + 10)) 5 = [80, 65, 82, 77, 46]
        ∨ bytes (pb.data.drop (pb.info_start + 1 + 10)) 5 = [85, 78, 73, 84, 46]
        ∨ bytes (pb.data.drop (pb.info_start + 1 + 10)) 5 = [69, 81, 78, 83, 46]
        ∨ bytes (pb.data.drop (pb.info_start + 1 + 10)) 5 = [66, 73, 84, 83, 46]) := by
    rw [e10, e11]
    exact ⟨h1, by omega, h3⟩
  unfold preparse_type
  dsimp only
  rw [if_pos hc]
  rcases hpt with rfl | rfl <;> split_ifs <;> decide

theorem preparse_type_message {pt : Nat} (hpt : pt = T_ALL ∨ pt = T_ALL ||| T_CWOP)
    (pb : pbuf_t F) (h : ¬ telemetry_message pb) :
    preparse_type pb.data (pt ||| T_MESSAGE) (pb.info_start + 1)
        ((pb.packet_len : Int) - pb.info_start - 2 - 1) &&& T_MESSAGE = T_MESSAGE
    ∧ preparse_type pb.data (pt ||| T_MESSAGE) (pb.info_start + 1)
        ((pb.packet_len : Int) - pb.info_start - 2 - 1) &&& T_TELEMETRY = 0 := by
  have e10 : pb.info_start + 1 + 9 = pb.info_start + 10 := by omega
  have e11 : pb.info_start + 1 + 10 = pb.info_start + 11 := by omega
  have hc : ¬ (byteAt pb.data (pb.info_start + 1 + 9) = 58
      ∧ (pb.packet_len : Int) - pb.info_start - 2 - 1 ≥ 10 + 6
      ∧ (bytes (pb.data.drop (pb.info_start + 1 + 10)) 5 = [80, 65, 82, 77, 46]
        ∨ bytes (pb.data.drop (pb.info_start + 1 + 10)) 5 = [85, 78, 73, 84, 46]
        ∨ bytes (pb.data.drop (pb.info_start + 1 + 10)) 5 = [69, 81, 78, 83, 46]
        ∨ bytes (pb.data.drop (pb.info_start + 1 + 10)) 5 = [66, 73, 84, 83, 46])) := by
    rw [e10, e11]
    rintro ⟨h1, h2, h3⟩
    exact h ⟨h1, by omega, h3⟩
  unfold preparse_type
  dsimp only
  rw [if_neg hc]
  rcases hpt with rfl | rfl <;> split_ifs <;> decide

theorem message_recipient_len_spec (b : Nat → Nat) :
    ∀ (n i : Nat), CALLSIGNLEN_MAX ≤ i + n → i ≤ CALLSIGNLEN_MAX →
      i ≤ message_recipient_len b n i ∧ message_recipient_len b n i ≤ CALLSIGNLEN_MAX
      ∧ (∀ k, i ≤ k → k < message_recipient_len b n i → b k ≠ 32 ∧ b k ≠ 58 ∧ b k ≠ 0)
      ∧ (message_recipient_len b n i < CALLSIGNLEN_MAX →
          b (message_recipient_len b n i) = 32 ∨ b (message_recipient_len b n i) = 58
            ∨ b (message_recipient_len b n i) = 0) := by
  intro n
  induction n with
  | zero =>
    intro i h1 h2
    have : i = CALLSIGNLEN_MAX := by omega
    simp only [message_recipient_len]
    exact ⟨le_refl _, h2, fun k hk1 hk2 => absurd hk2 (by omega), fun h => absurd h (by omega)⟩
  | succ n ih =>
    intro i h1 h2
    rw [message_recipient_len]
    by_cases hi : i < CALLSIGNLEN_MAX
    · rw [if_pos hi]
      by_cases hb : b i = 32 ∨ b i = 58 ∨ b i = 0
      · rw [if_pos hb]
        exact ⟨le_refl _, h2, fun k hk1 hk2 => absurd hk2 (by omega), fun _ => hb⟩
      · rw [if_neg hb]
        obtain ⟨a1, a2, a3, a4⟩ := ih (i + 1) (by omega) (by omega)
        refine ⟨by omega, a2, ?_, a4⟩
        intro k hk1 hk2
        by_cases hki : k = i
        · subst hki
          simp only [not_or] at hb
          exact hb
        · exact a3 k (by omega) hk2
    · rw [if_neg hi]
      exact ⟨le_refl _, h2, fun k hk1 hk2 => absurd hk2 (by omega), fun h => absurd h hi⟩

theorem check_call_match_example_spec (set : List (List Nat)) (call : List Nat) (len : Nat) :
    check_call_match_example set call len ≠ 0 ↔ bytes call len ∈ set := by
  unfold check_call_match_example
  by_cases h : bytes call len ∈ set
  · have : (set.any fun s => s == bytes call len) = true := by
      rw [List.any_eq_true]
      exact ⟨_, h, by simp⟩
    rw [if_pos this]
    simp [h]
  · have : ¬ ((set.any fun s => s == bytes call len) = true) := by
      rw [List.any_eq_true]
      rintro ⟨s, hs, he⟩
      have : s = bytes call len := by simpa using he
      exact h (this ▸ hs)
    rw [if_neg this]
    simp [h]

/-- C20 (amended): take `check_call_match` to be nonzero exactly when the
`len` bytes at `call` are one of the strings of the set. For a packet whose
information field begins with `:` and is at least 11 bytes long, `parse_aprs`
cuts the recipient at the first space, `:` or NUL within the 9 bytes after the
`:` (at 9 bytes when there is none), stores it as `dstname`, and returns
`INERR_DIS_MSG_DST` exactly when the cut recipient is one of `javaMSG`,
`JAVATITLE`, `JAVATITL2`, `USERLIST`, `KIPSS`. -/
theorem parse_aprs_message_recipient_rejected (E : parse_env F) (pb : pbuf_t F)
    (hcm : ∀ call len, E.check_call_match disallow_msg_recipients call len ≠ 0
      ↔ bytes call len ∈ disallow_msg_recipients)
    (h0 : pb.info_start ≠ 0) (hc : byteAt pb.data pb.info_start = 58)
    (hlen : pb.info_start + 11 + 2 ≤ pb.packet_len) :
    ∃ n, n ≤ 9
      ∧ (∀ k, k < n → byteAt pb.data (pb.info_start + 1 + k) ≠ 32
          ∧ byteAt pb.data (pb.info_start + 1 + k) ≠ 58
          ∧ byteAt pb.data (pb.info_start + 1 + k) ≠ 0)
      ∧ (n < 9 → byteAt pb.data (pb.info_start + 1 + n) = 32
          ∨ byteAt pb.data (pb.info_start + 1 + n) = 58
          ∨ byteAt pb.data (pb.info_start + 1 + n) = 0)
      ∧ (parse_aprs E pb).2.dstname = pb.info_start + 1
      ∧ (parse_aprs E pb).2.dstname_len = n
      ∧ ((parse_aprs E pb).1 = INERR_DIS_MSG_DST
          ↔ bytes (pb.data.drop (pb.info_start + 1)) n ∈ disallow_msg_recipients) := by
  obtain ⟨pt, _, he⟩ := parse_aprs_message_eq E pb h0 hc hlen
  obtain ⟨_, a2, a3, a4⟩ := message_recipient_len_spec
    (fun k => byteAt pb.data (pb.info_start + 1 + k)) (CALLSIGNLEN_MAX + 1) 0
    (by omega) (by omega)
  refine ⟨_, a2, fun k hk => a3 k (Nat.zero_le k) hk, a4, ?_, ?_, ?_⟩
  · rw [he]
  · rw [he]
  · rw [he, ← hcm]
    dsimp only
    split_ifs with h
    · exact ⟨fun _ => h, fun _ => rfl⟩
    · constructor
      · intro h'
        exact absurd h' (by decide)
      · intro h'
        exact absurd h' h

/-- C20 on scenario S4: the recipient of `::javaMSG  :hello` is cut to the 7
bytes `javaMSG`, and `parse_aprs` returns `INERR_DIS_MSG_DST`. -/
theorem parse_aprs_message_recipient_rejected_witness :
    (∃ n, n ≤ 9
      ∧ (∀ k, k < n → byteAt frame_S4.data (frame_S4.info_start + 1 + k) ≠ 32
          ∧ byteAt frame_S4.data (frame_S4.info_start + 1 + k) ≠ 58
          ∧ byteAt frame_S4.data (frame_S4.info_start + 1 + k) ≠ 0)
      ∧ (n < 9 → byteAt frame_S4.data (frame_S4.info_start + 1 + n) = 32
          ∨ byteAt frame_S4.data (frame_S4.info_start + 1 + n) = 58
          ∨ byteAt frame_S4.data (frame_S4.info_start + 1 + n) = 0)
      ∧ (parse_aprs env_example frame_S4).2.dstname = frame_S4.info_start + 1
      ∧ (parse_aprs env_example frame_S4).2.dstname_len = n
      ∧ ((parse_aprs env_example frame_S4).1 = INERR_DIS_MSG_DST
          ↔ bytes (frame_S4.data.drop (frame_S4.info_start + 1)) n
              ∈ disallow_msg_recipients))
    ∧ (parse_aprs env_example frame_S4).1 = INERR_DIS_MSG_DST
    ∧ (parse_aprs env_example frame_S4).2.dstname_len = 7 :=
  ⟨parse_aprs_message_recipient_rejected env_example frame_S4
      (fun call len => check_call_match_example_spec disallow_msg_recipients call len)
      (by decide) (by decide) (by decide),
    by decide!, by decide!⟩

/-- C20 as stated fails: the recipient field `KIPSS`, NUL, `abc` holds neither
a space nor a `:`, so cut as the claim says it is the whole field, which is not
in the list; `parse_aprs` cuts it at the NUL and returns `INERR_DIS_MSG_DST`. -/
theorem parse_aprs_message_recipient_nul :
    spec_recipient_len (fun k => byteAt frame_recipient_nul.data (5 + k)) 10 0 = 9
    ∧ bytes (frame_recipient_nul.data.drop 5) 9 = [75, 73, 80, 83, 83, 0, 97, 98, 99]
    ∧ bytes (frame_recipient_nul.data.drop 5) 9 ∉ disallow_msg_recipients
    ∧ (parse_aprs env_example frame_recipient_nul).2.dstname_len = 5
    ∧ (parse_aprs env_example frame_recipient_nul).1 = INERR_DIS_MSG_DST := by
  decide!

/-- C21 (amended): for a packet whose information field begins with `:`,
`parse_aprs` looks at the length of the field only. With at least 11 bytes the
packet gets a `dstname` at the byte after the `:`, and it gets `T_MESSAGE`
unless it is reclassified as telemetry, so in particular whenever the byte at
offset 10 is not a `:`; with fewer than 11 bytes it gets neither. -/
theorem parse_aprs_message_flag (E : parse_env F) (pb : pbuf_t F)
    (h0 : pb.info_start ≠ 0) (hc : byteAt pb.data pb.info_start = 58) :
    (pb.info_start + 11 + 2 ≤ pb.packet_len →
      (parse_aprs E pb).2.dstname = pb.info_start + 1
      ∧ (¬ telemetry_message pb →
          (parse_aprs E pb).2.packettype &&& T_MESSAGE = T_MESSAGE)
      ∧ (byteAt pb.data (pb.info_start + 10) ≠ 58 →
          (parse_aprs E pb).2.packettype &&& T_MESSAGE = T_MESSAGE))
    ∧ (pb.packet_len < pb.info_start + 11 + 2 →
      (parse_aprs E pb).2.packettype &&& T_MESSAGE = 0
      ∧ (parse_aprs E pb).2.dstname = pb.dstname
      ∧ (parse_aprs E pb).2.dstname_len = pb.dstname_len) := by
  constructor
  · intro hlen
    obtain ⟨pt, hpt, he⟩ := parse_aprs_message_eq E pb h0 hc hlen
    rw [he]
    refine ⟨rfl, fun ht => (preparse_type_message hpt pb ht).1, fun hn => ?_⟩
    exact (preparse_type_message hpt pb (fun ht => hn ht.1)).1
  · intro hlen
    obtain ⟨pt, hpt, he⟩ := parse_aprs_short_message_eq E pb h0 hc hlen
    rw [he]
    refine ⟨?_, rfl, rfl⟩
    rcases hpt with rfl | rfl
    · show T_ALL &&& T_MESSAGE = 0
      decide
    · show (T_ALL ||| T_CWOP) &&& T_MESSAGE = 0
      decide

/-- C21 on an information field of 16 bytes, `:ABCDEFGHIJKLMNO`: the byte at
offset 10 is `J`, and the packet gets `T_MESSAGE` and the `dstname`
`ABCDEFGHI`. -/
theorem parse_aprs_message_flag_witness :
    (parse_aprs env_example frame_no_second_colon).2.dstname
        = frame_no_second_colon.info_start + 1
    ∧ (¬ telemetry_message frame_no_second_colon →
        (parse_aprs env_example frame_no_second_colon).2.packettype &&& T_MESSAGE = T_MESSAGE)
    ∧ (byteAt frame_no_second_colon.data (frame_no_second_colon.info_start + 10) ≠ 58 →
        (parse_aprs env_example frame_no_second_colon).2.packettype &&& T_MESSAGE = T_MESSAGE) :=
  (parse_aprs_message_flag env_example frame_no_second_colon (by decide) (by decide)).1
    (by decide)

/-- C21 as stated fails: the information field `:ABCDEFGHIJKLMNO` has no `:`
at offset 10, and `parse_aprs` gives the packet `T_MESSAGE` and a `dstname`. -/
theorem parse_aprs_message_without_second_colon :
    byteAt frame_no_second_colon.data (frame_no_second_colon.info_start + 10) ≠ 58
    ∧ (parse_aprs env_example frame_no_second_colon).1 = 0
    ∧ (parse_aprs env_example frame_no_second_colon).2.packettype &&& T_MESSAGE = T_MESSAGE
    ∧ (parse_aprs env_example frame_no_second_colon).2.dstname = 5
    ∧ (parse_aprs env_example frame_no_second_colon).2.dstname_len = 9 := by
  decide!

/-- C22 (amended): for a packet whose information field begins with `:` and is
at least 11 bytes long, `parse_aprs` clears `T_MESSAGE` and sets `T_TELEMETRY`
when the field has a `:` at offset 10, one of `PARM.`, `UNIT.`, `EQNS.`, `BITS.`
after it and at least one byte more (17 bytes at least); every other such
packet keeps `T_MESSAGE` and does not get `T_TELEMETRY`. -/
theorem parse_aprs_telemetry_message (E : parse_env F) (pb : pbuf_t F)
    (h0 : pb.info_start ≠ 0) (hc : byteAt pb.data pb.info_start = 58)
    (hlen : pb.info_start + 11 + 2 ≤ pb.packet_len) :
    (telemetry_message pb →
      (parse_aprs E pb).2.packettype &&& T_MESSAGE = 0
      ∧ (parse_aprs E pb).2.packettype &&& T_TELEMETRY = T_TELEMETRY)
    ∧ (¬ telemetry_message pb →
      (parse_aprs E pb).2.packettype &&& T_MESSAGE = T_MESSAGE
      ∧ (parse_aprs E pb).2.packettype &&& T_TELEMETRY = 0) := by
  obtain ⟨pt, hpt, he⟩ := parse_aprs_message_eq E pb h0 hc hlen
  rw [he]
  exact ⟨fun ht => preparse_type_telemetry hpt pb ht, fun ht => preparse_type_message hpt pb ht⟩

/-- C22 on `::N0CALL   :PARM.Vbat`: the packet loses `T_MESSAGE` and gets
`T_TELEMETRY`. -/
theorem parse_aprs_telemetry_message_witness :
    telemetry_message frame_parm
    ∧ (parse_aprs env_example frame_parm).2.packettype &&& T_MESSAGE = 0
    ∧ (parse_aprs env_example frame_parm).2.packettype &&& T_TELEMETRY = T_TELEMETRY :=
  ⟨by unfold telemetry_message; decide,
    (parse_aprs_telemetry_message env_example frame_parm (by decide) (by decide)
      (by decide)).1 (by unfold telemetry_message; decide)⟩

/-- C22 as stated fails: in `::N0CALL   :PARM.` the recipient is followed by
`:PARM.` and nothing else, and the packet keeps `T_MESSAGE` and gets no
`T_TELEMETRY`. -/
theorem parse_aprs_telemetry_bare_keyword :
    byteAt frame_parm_bare.data (frame_parm_bare.info_start + 10) = 58
    ∧ bytes (frame_parm_bare.data.drop (frame_parm_bare.info_start + 11)) 5
        = [80, 65, 82, 77, 46]
    ∧ frame_parm_bare.packet_len = frame_parm_bare.info_start + 16 + 2
    ∧ (parse_aprs env_example frame_parm_bare).2.packettype &&& T_MESSAGE = T_MESSAGE
    ∧ (parse_aprs env_example frame_parm_bare).2.packettype &&& T_TELEMETRY = 0 := by
  decide!

theorem flag_or_self (a f : Nat) : (a ||| f) &&& f = f := by
  apply Nat.eq_of_testBit_eq
  intro i
  simp only [Nat.testBit_and, Nat.testBit_or]
  cases a.testBit i <;> cases f.testBit i <;> rfl

theorem flag_or_keep {a f : Nat} (g : Nat) (h : a &&& f = f) : (a ||| g) &&& f = f := by
  apply Nat.eq_of_testBit_eq
  intro i
  have hi := congrArg (fun x => x.testBit i) h
  simp only [Nat.testBit_and, Nat.testBit_or] at hi ⊢
  revert hi
  cases a.testBit i <;> cases f.testBit i <;> cases g.testBit i <;> simp

theorem decoder_outcome_keeps {E : parse_env F} {pb : pbuf_t F} {r : Int × pbuf_t F}
    (h : decoder_outcome E pb r) :
    r.2.srcname = pb.srcname ∧ r.2.srcname_len = pb.srcname_len
    ∧ ∀ f, pb.packettype &&& f = f → r.2.packettype &&& f = f := by
  rcases h with rfl | ⟨lat, lng, st, sc, rfl⟩
  · exact ⟨rfl, rfl, fun _ hf => hf⟩
  · have hs : ∀ f, pb.packettype &&& f = f →
        (pbuf_fill_sym pb st sc).packettype &&& f = f := by
      intro f hf
      unfold pbuf_fill_sym
      dsimp only
      split_ifs
      · exact flag_or_keep _ hf
      · exact hf
    by_cases hr : pos_rejected lat lng
    · rw [pbuf_fill_pos_rejected E pb lat lng _ _ hr]
      exact ⟨rfl, rfl, hs⟩
    · rw [pbuf_fill_pos_accepted E pb lat lng _ _ hr]
      exact ⟨rfl, rfl, hs⟩

theorem object_position_outcome (E : parse_env F) (pb : pbuf_t F) (p body_end : Nat) :
    decoder_outcome E pb (object_position E pb p body_end) := by
  unfold object_position
  split_ifs
  · exact parse_aprs_compressed_outcome E _ _ _
  · exact parse_aprs_uncompressed_outcome E _ _ _
  · exact Or.inl rfl

theorem object_name_loop_none (b : Nat → Nat) :
    ∀ (n i : Nat) (nl : Int),
      (∃ k, i ≤ k ∧ k < i + n ∧ (b k < 0x20 ∨ b k > 0x7e)) →
      object_name_loop b n i nl = none := by
  intro n
  induction n with
  | zero =>
    rintro i nl ⟨k, h1, h2, _⟩
    omega
  | succ n ih =>
    rintro i nl ⟨k, h1, h2, h3⟩
    rw [object_name_loop]
    by_cases hb : b i < 0x20 ∨ b i > 0x7e
    · rw [if_pos hb]
    · rw [if_neg hb]
      apply ih
      refine ⟨k, ?_, by omega, h3⟩
      by_cases hk : k = i
      · subst hk
        exact absurd h3 hb
      · omega

theorem object_name_loop_some (b : Nat → Nat) :
    ∀ (n i : Nat) (nl : Int),
      (∀ k, i ≤ k → k < i + n → 0x20 ≤ b k ∧ b k ≤ 0x7e) →
      (object_name_loop b n i nl = some nl ∧ ∀ k, i ≤ k → k < i + n → b k = 32)
      ∨ ∃ j : Nat, object_name_loop b n i nl = some (j : Int) ∧ i ≤ j ∧ j < i + n ∧ b j ≠ 32
          ∧ ∀ k, j < k → k < i + n → b k = 32 := by
  intro n
  induction n with
  | zero =>
    intro i nl _
    left
    exact ⟨rfl, fun k h1 h2 => absurd h2 (by omega)⟩
  | succ n ih =>
    intro i nl hp
    rw [object_name_loop]
    have hb : ¬ (b i < 0x20 ∨ b i > 0x7e) := by
      have := hp i (le_refl _) (by omega)
      omega
    rw [if_neg hb]
    rcases ih (i + 1) (if b i ≠ 32 then (i : Int) else nl)
        (fun k h1 h2 => hp k (by omega) (by omega)) with ⟨h1, h2⟩ | ⟨j, h1, h2, h3, h4, h5⟩
    · by_cases hs : b i ≠ 32
      · right
        rw [if_pos hs] at h1
        rw [if_pos hs]
        exact ⟨i, h1, le_refl _, by omega, hs, fun k h3 h4 => h2 k (by omega) (by omega)⟩
      · left
        rw [if_neg hs] at h1
        rw [if_neg hs]
        refine ⟨h1, fun k h3 h4 => ?_⟩
        by_cases hk : k = i
        · subst hk
          exact not_not.mp hs
        · exact h2 k (by omega) (by omega)
    · right
      exact ⟨j, h1, by omega, by omega, h4, fun k h6 h7 => h5 k h6 (by omega)⟩

theorem parse_aprs_object_eq (E : parse_env F) (pb : pbuf_t F) (body body_end : Nat) :
    (object_wellformed pb.data body →
      ∃ n, 1 ≤ n ∧ n ≤ 9 ∧ byteAt pb.data (body + (n - 1)) ≠ 32
        ∧ (∀ k, n ≤ k → k < 9 → byteAt pb.data (body + k) = 32)
        ∧ parse_aprs_object E pb body body_end
            = object_position E
                { pb with packettype := pb.packettype ||| T_OBJECT, srcname := body,
                          srcname_len := n } (body + 17) body_end)
    ∧ (¬ object_wellformed pb.data body →
      parse_aprs_object E pb body body_end
        = (0, { pb with packettype := pb.packettype ||| T_OBJECT })) := by
  constructor
  · rintro ⟨w1, w2, w3, k0, w4, w5⟩
    have c1 : ¬ (byteAt pb.data (body + 9) ≠ 42 ∧ byteAt pb.data (body + 9) ≠ 95) := by
      rintro ⟨a, b⟩
      rcases w1 with h | h
      · exact a h
      · exact b h
    have c2 : ¬ (byteAt pb.data (body + 16) ≠ 122 ∧ byteAt pb.data (body + 16) ≠ 104
        ∧ byteAt pb.data (body + 16) ≠ 47) := by
      rintro ⟨a, b, c⟩
      rcases w2 with h | h | h
      · exact a h
      · exact b h
      · exact c h
    rcases object_name_loop_some (fun k => byteAt pb.data (body + k)) 9 0 (-1)
        (fun k _ h2 => w3 k (by omega)) with ⟨_, h2⟩ | ⟨j, h1, _, h3, h4, h5⟩
    · exact absurd (h2 k0 (Nat.zero_le _) (by omega)) w5
    · refine ⟨j + 1, by omega, by omega, h4, fun k hk1 hk2 => h5 k (by omega) (by omega), ?_⟩
      unfold parse_aprs_object object_position
      dsimp only
      rw [if_neg c1, if_neg c2, h1]
      dsimp only
      have hn : ¬ ((j : Int) < 0) := by omega
      have ht : ((j : Int) + 1).toNat = j + 1 := by omega
      rw [if_neg hn, ht]
  · intro hw
    unfold parse_aprs_object
    dsimp only
    by_cases c1 : byteAt pb.data (body + 9) ≠ 42 ∧ byteAt pb.data (body + 9) ≠ 95
    · rw [if_pos c1]
    rw [if_neg c1]
    by_cases c2 : byteAt pb.data (body + 16) ≠ 122 ∧ byteAt pb.data (body + 16) ≠ 104
        ∧ byteAt pb.data (body + 16) ≠ 47
    · rw [if_pos c2]
    rw [if_neg c2]
    by_cases hp : ∀ k, k < 9 → 0x20 ≤ byteAt pb.data (body + k) ∧ byteAt pb.data (body + k) ≤ 0x7e
    · rcases object_name_loop_some (fun k => byteAt pb.data (body + k)) 9 0 (-1)
          (fun k _ h2 => hp k (by omega)) with ⟨h1, _⟩ | ⟨j, _, _, h3, h4, _⟩
      · rw [h1]
        dsimp only
        rw [if_pos (by decide)]
      · exfalso
        apply hw
        refine ⟨?_, ?_, hp, j, by omega, h4⟩
        · by_contra h
          exact c1 ⟨fun a => h (Or.inl a), fun a => h (Or.inr a)⟩
        · by_contra h
          exact c2 ⟨fun a => h (Or.inl a), fun a => h (Or.inr (Or.inl a)),
            fun a => h (Or.inr (Or.inr a))⟩
    · have hne : ∃ k, 0 ≤ k ∧ k < 0 + 9
          ∧ (byteAt pb.data (body + k) < 0x20 ∨ byteAt pb.data (body + k) > 0x7e) := by
        by_contra hcon
        apply hp
        intro k hk
        by_contra hk2
        exact hcon ⟨k, Nat.zero_le _, by omega, by omega⟩
      rw [object_name_loop_none (fun k => byteAt pb.data (body + k)) 9 0 (-1) hne]

theorem parse_aprs_body_object (E : parse_env F) (depth : Nat) (pb : pbuf_t F)
    (info_start : Nat)
    (hlen : (pb.packet_len : Int) - pb.info_start - 2 ≥ 1)
    (hc : byteAt pb.data info_start = 59) :
    parse_aprs_body E (depth + 1) pb info_start
      = if ((pb.packet_len - 2 : Nat) : Int) - ((info_start + 1 : Nat) : Int) > 29 then
          parse_aprs_object E pb (info_start + 1) (pb.packet_len - 2)
        else (0, pb) := by
  rw [parse_aprs_body]
  dsimp only
  rw [if_neg (not_lt.mpr hlen), hc]
  simp

/-- C18: for a packet whose information field begins with `;` and has at least
30 bytes after it, `parse_aprs` sets `T_OBJECT`. If byte 9 after the `;` is
`*` or `_`, byte 16 is one of `z`, `h`, `/`, and the 9 name bytes are printable
and not all spaces, `srcname` points at the name, `srcname_len` is the index of
the last non-space name byte plus one, and the result is that of the compressed
or uncompressed decoder on the bytes after the 7-byte timestamp (the compressed
one when the first byte is a symbol table of the compressed format, the
uncompressed one when it is a digit, 0 otherwise). If not, `parse_aprs` returns
0 and `srcname`, flags and stored position are as before. -/
theorem parse_aprs_object_spec (E : parse_env F) (pb : pbuf_t F)
    (h0 : pb.info_start ≠ 0) (hc : byteAt pb.data pb.info_start = 59)
    (hlen : pb.info_start + 1 + 30 + 2 ≤ pb.packet_len) :
    (parse_aprs E pb).2.packettype &&& T_OBJECT = T_OBJECT
    ∧ (object_wellformed pb.data (pb.info_start + 1) →
        ∃ n pt, 1 ≤ n ∧ n ≤ 9 ∧ byteAt pb.data (pb.info_start + 1 + (n - 1)) ≠ 32
          ∧ (∀ k, n ≤ k → k < 9 → byteAt pb.data (pb.info_start + 1 + k) = 32)
          ∧ (parse_aprs E pb).2.srcname = pb.info_start + 1
          ∧ (parse_aprs E pb).2.srcname_len = n
          ∧ (pt = T_ALL ∨ pt = T_ALL ||| T_CWOP)
          ∧ parse_aprs E pb
              = object_position E
                  { pb with packettype := pt ||| T_OBJECT, srcname := pb.info_start + 1,
                            srcname_len := n }
                  (pb.info_start + 1 + 17) (pb.packet_len - 2))
    ∧ (¬ object_wellformed pb.data (pb.info_start + 1) →
        (parse_aprs E pb).1 = 0
        ∧ (parse_aprs E pb).2.srcname = pb.srcname
        ∧ (parse_aprs E pb).2.srcname_len = pb.srcname_len
        ∧ (parse_aprs E pb).2.flags = pb.flags ∧ (parse_aprs E pb).2.lat = pb.lat
        ∧ (parse_aprs E pb).2.lng = pb.lng ∧ (parse_aprs E pb).2.cos_lat = pb.cos_lat) := by
  obtain ⟨pt, hpt, he⟩ := parse_aprs_eq E pb h0
  have hb := parse_aprs_body_object E pb.data.length { pb with packettype := pt }
    pb.info_start (by show (pb.packet_len : Int) - pb.info_start - 2 ≥ 1; omega) hc
  have hl : ((pb.packet_len - 2 : Nat) : Int) - ((pb.info_start + 1 : Nat) : Int) > 29 := by
    omega
  rw [if_pos (by exact hl)] at hb
  have ho := parse_aprs_object_eq E { pb with packettype := pt } (pb.info_start + 1)
    (pb.packet_len - 2)
  have hwf : ∀ (P : Prop), (object_wellformed
      ({ pb with packettype := pt } : pbuf_t F).data (pb.info_start + 1) → P)
      → (object_wellformed pb.data (pb.info_start + 1) → P) := fun _ h => h
  rw [he, hb]
  refine ⟨?_, ?_, ?_⟩
  · by_cases hw : object_wellformed pb.data (pb.info_start + 1)
    · obtain ⟨n, _, _, _, _, h5⟩ := ho.1 hw
      rw [h5]
      exact (decoder_outcome_keeps (object_position_outcome E _ _ _)).2.2 _
        (flag_or_self _ _)
    · rw [ho.2 hw]
      exact flag_or_self _ _
  · intro hw
    obtain ⟨n, h1, h2, h3, h4, h5⟩ := ho.1 hw
    refine ⟨n, pt, h1, h2, h3, h4, ?_, ?_, hpt, h5⟩
    · rw [h5]
      exact (decoder_outcome_keeps (object_position_outcome E _ _ _)).1
    · rw [h5]
      exact (decoder_outcome_keeps (object_position_outcome E _ _ _)).2.1
  · intro hw
    rw [ho.2 hw]
    exact ⟨rfl, rfl, rfl, rfl, rfl, rfl, rfl⟩

/-- C18 on scenario S2: the object `LEADER` gives `srcname_len = 6` with
`srcname` at the name, and the position `4903.50N/07201.75W` is decoded to
latitude `float_dmf 49 3 50` and longitude `-float_dmf 72 1 75`, the `float`s
next to `49 + 3.50/60` and `-(72 + 1.75/60)`. -/
theorem parse_aprs_object_spec_witness :
    (parse_aprs env_example frame_S2).2.packettype &&& T_OBJECT = T_OBJECT
    ∧ (∃ n pt, 1 ≤ n ∧ n ≤ 9
          ∧ byteAt frame_S2.data (frame_S2.info_start + 1 + (n - 1)) ≠ 32
          ∧ (∀ k, n ≤ k → k < 9 → byteAt frame_S2.data (frame_S2.info_start + 1 + k) = 32)
          ∧ (parse_aprs env_example frame_S2).2.srcname = frame_S2.info_start + 1
          ∧ (parse_aprs env_example frame_S2).2.srcname_len = n
          ∧ (pt = T_ALL ∨ pt = T_ALL ||| T_CWOP)
          ∧ parse_aprs env_example frame_S2
              = object_position env_example
                  { frame_S2 with packettype := pt ||| T_OBJECT,
                                  srcname := frame_S2.info_start + 1, srcname_len := n }
                  (frame_S2.info_start + 1 + 17) (frame_S2.packet_len - 2))
    ∧ (parse_aprs env_example frame_S2).1 = 1
    ∧ (parse_aprs env_example frame_S2).2.srcname_len = 6
    ∧ bytes (frame_S2.data.drop (parse_aprs env_example frame_S2).2.srcname) 6
        = [76, 69, 65, 68, 69, 82]
    ∧ (parse_aprs env_example frame_S2).2.flags &&& F_HASPOS = F_HASPOS
    ∧ (parse_aprs env_example frame_S2).2.lat = env_example.filter_lat2rad (float_dmf 49 3 50)
    ∧ (parse_aprs env_example frame_S2).2.lng
        = env_example.filter_lon2rad (-float_dmf 72 1 75) :=
  ⟨(parse_aprs_object_spec env_example frame_S2 (by decide) (by decide) (by decide)).1,
    (parse_aprs_object_spec env_example frame_S2 (by decide) (by decide) (by decide)).2.1
      (by unfold object_wellformed; decide),
    by decide!, by decide!, by decide!, by decide!, by decide!, by decide!⟩

theorem flag_clear_keep {a f g : Nat} (hfg : f &&& g = 0) (h : a &&& f = f) :
    (a ^^^ (a &&& g)) &&& f = f := by
  apply Nat.eq_of_testBit_eq
  intro i
  have hi := congrArg (fun x => x.testBit i) h
  have hj := congrArg (fun x => x.testBit i) hfg
  simp only [Nat.testBit_and, Nat.testBit_xor, Nat.zero_testBit] at hi hj ⊢
  revert hi hj
  cases a.testBit i <;> cases f.testBit i <;> cases g.testBit i <;> simp

theorem pbuf_fill_pos_float_keeps (E : parse_env F) (pb : pbuf_t F) (lat lng : cfloat)
    (sym_table sym_code f : Nat) (h : pb.packettype &&& f = f) :
    (pbuf_fill_pos_float E pb lat lng sym_table sym_code).2.packettype &&& f = f := by
  have hs : (pbuf_fill_sym pb sym_table sym_code).packettype &&& f = f := by
    unfold pbuf_fill_sym
    dsimp only
    split_ifs
    · exact flag_or_keep _ h
    · exact h
  rw [pbuf_fill_pos_float_eq]
  split_ifs
  · exact hs
  · exact hs

theorem keeps_of_decoder {E : parse_env F} {pb : pbuf_t F} {r : Int × pbuf_t F} (f : Nat)
    (hd : decoder_outcome E pb r) (h : pb.packettype &&& f = f) :
    r.2.packettype &&& f = f :=
  (decoder_outcome_keeps hd).2.2 f h

theorem parse_aprs_body_position_keeps (E : parse_env F) (pb : pbuf_t F)
    (packettype body body_end f : Nat) (h : pb.packettype &&& f = f) :
    (parse_aprs_body_position E pb packettype body body_end).2.packettype &&& f = f := by
  unfold parse_aprs_body_position
  by_cases h1 : (body_end : Int) - body < 10
  · rw [if_pos h1]
    exact h
  · rw [if_neg h1]
    dsimp only
    split_ifs
    all_goals first
      | exact flag_or_keep _ h
      | exact keeps_of_decoder f (parse_aprs_compressed_outcome E _ _ _) (flag_or_keep _ h)
      | exact keeps_of_decoder f (parse_aprs_uncompressed_outcome E _ _ _) (flag_or_keep _ h)

theorem parse_aprs_nmea_keeps (E : parse_env F) (pb : pbuf_t F) (body body_end f : Nat)
    (h : pb.packettype &&& f = f) :
    (parse_aprs_nmea E pb body body_end).2.packettype &&& f = f := by
  unfold parse_aprs_nmea
  dsimp only
  by_cases h1 : bytes (pb.data.drop body) 3 = [85, 76, 84]
  · rw [if_pos h1]
    exact flag_or_keep _ h
  · rw [if_neg h1]
    cases nmea_find pb.data body body_end with
    | ret r => exact h
    | ptrs latp lngp =>
      cases latp with
      | none => exact h
      | some latp =>
        cases lngp with
        | none => exact h
        | some lngp =>
          dsimp only
          cases sscanf_nmea E 2 (pb.data.drop latp) with
          | none => exact h
          | some a =>
            obtain ⟨la, lat, lac⟩ := a
            dsimp only
            cases sscanf_nmea E 3 (pb.data.drop lngp) with
            | none => exact h
            | some c =>
              obtain ⟨lo, lng, loc⟩ := c
              dsimp only
              split_ifs
              all_goals first
                | exact h
                | exact pbuf_fill_pos_float_keeps E _ _ _ _ _ f (flag_or_keep _ h)

theorem parse_aprs_object_keeps (E : parse_env F) (pb : pbuf_t F) (body body_end f : Nat)
    (h : pb.packettype &&& f = f) :
    (parse_aprs_object E pb body body_end).2.packettype &&& f = f := by
  by_cases hw : object_wellformed pb.data body
  · obtain ⟨n, _, _, _, _, h5⟩ := (parse_aprs_object_eq E pb body body_end).1 hw
    rw [h5]
    exact keeps_of_decoder f (object_position_outcome E _ _ _) (flag_or_keep _ h)
  · rw [(parse_aprs_object_eq E pb body body_end).2 hw]
    exact flag_or_keep _ h

theorem parse_aprs_item_keeps (E : parse_env F) (pb : pbuf_t F) (body body_end f : Nat)
    (h : pb.packettype &&& f = f) :
    (parse_aprs_item E pb body body_end).2.packettype &&& f = f := by
  unfold parse_aprs_item
  dsimp only
  cases item_name_loop (fun k => byteAt pb.data (body + k)) 10 0 with
  | none => exact flag_or_keep _ h
  | some i =>
    dsimp only
    split_ifs
    all_goals first
      | exact flag_or_keep _ h
      | exact keeps_of_decoder f (parse_aprs_compressed_outcome E _ _ _) (flag_or_keep _ h)
      | exact keeps_of_decoder f (parse_aprs_uncompressed_outcome E _ _ _) (flag_or_keep _ h)

theorem preparse_type_keeps (data : List Nat) (pt body : Nat) (body_len : Int) {f : Nat}
    (hf : f &&& T_MESSAGE = 0) (h : pt &&& f = f) :
    preparse_type data pt body body_len &&& f = f := by
  unfold preparse_type
  dsimp only
  have key : ∀ x, x &&& f = f →
      (if byteAt data (body + 9) = 58 ∧ body_len ≥ 10 + 6
        ∧ (bytes (data.drop (body + 10)) 5 = [80, 65, 82, 77, 46]
          ∨ bytes (data.drop (body + 10)) 5 = [85, 78, 73, 84, 46]
          ∨ bytes (data.drop (body + 10)) 5 = [69, 81, 78, 83, 46]
          ∨ bytes (data.drop (body + 10)) 5 = [66, 73, 84, 83, 46])
       then (x ^^^ (x &&& T_MESSAGE)) ||| T_TELEMETRY else x) &&& f = f := by
    intro x hx
    split_ifs
    · exact flag_or_keep _ (flag_clear_keep hf hx)
    · exact hx
  apply key
  split_ifs
  all_goals first
    | exact h
    | exact flag_or_keep _ h
    | exact flag_or_keep _ (flag_or_keep _ h)
    | exact flag_or_keep _ (flag_or_keep _ (flag_or_keep _ h))

theorem preparse_aprs_message_keeps (E : parse_env F) (pb : pbuf_t F) (body : Nat)
    (body_len : Int) {f : Nat} (hf : f &&& T_MESSAGE = 0) (h : pb.packettype &&& f = f) :
    (preparse_aprs_message E pb body body_len).2.packettype &&& f = f := by
  rw [preparse_aprs_message_eq]
  exact preparse_type_keeps _ _ _ _ hf h

theorem parse_aprs_3rdparty_keeps (E : parse_env F)
    (inner : pbuf_t F → Nat → Int × pbuf_t F) (f : Nat)
    (hin : ∀ pb1 info, pb1.packettype &&& f = f → (inner pb1 info).2.packettype &&& f = f)
    (pb : pbuf_t F) (info_start : Nat) (h : pb.packettype &&& f = f) :
    (parse_aprs_3rdparty E inner pb info_start).2.packettype &&& f = f := by
  unfold parse_aprs_3rdparty
  dsimp only
  cases memchr pb.data (info_start + 1) 58
      ((pb.packet_len : Int) - 2 - ((info_start + 1 : Nat) : Int)) with
  | none => exact h
  | some body =>
    dsimp only
    cases memchr pb.data (info_start + 1) 62
        (if (body : Int) - ((info_start + 1 : Nat) : Int) < (CALLSIGNLEN_MAX : Int) + 1
          then (body : Int) - ((info_start + 1 : Nat) : Int) else (CALLSIGNLEN_MAX : Int) + 1) with
    | none => exact h
    | some src_end =>
      dsimp only
      split_ifs
      all_goals first
        | exact h
        | exact hin _ _ h

theorem parse_aprs_body_keeps (E : parse_env F) {f : Nat} (hf : f &&& T_MESSAGE = 0)
    (depth : Nat) :
    ∀ (pb : pbuf_t F) (info_start : Nat), pb.packettype &&& f = f →
      (parse_aprs_body E depth pb info_start).2.packettype &&& f = f := by
  induction depth with
  | zero =>
    intro pb info_start h
    exact h
  | succ depth ih =>
    intro pb info_start h
    rw [parse_aprs_body]
    dsimp only
    by_cases c0 : (pb.packet_len : Int) - pb.info_start - 2 < 1
    · rw [if_pos c0]
      exact h
    rw [if_neg c0]
    by_cases c1 : byteAt pb.data info_start = 0x27 ∨ byteAt pb.data info_start = 0x60
    · rw [if_pos c1]
      split_ifs
      · exact keeps_of_decoder f (parse_aprs_mice_outcome E _ _ _) (flag_or_keep _ h)
      · exact h
    rw [if_neg c1]
    by_cases c2 : byteAt pb.data info_start = 33 ∧ byteAt pb.data (info_start + 1) = 33
    · rw [if_pos c2]
      exact flag_or_keep _ h
    rw [if_neg c2]
    by_cases c3 : byteAt pb.data info_start = 33 ∨ byteAt pb.data info_start = 61 ∨ byteAt pb.data info_start = 47 ∨ byteAt pb.data info_start = 64
    · rw [if_pos c3]
      exact parse_aprs_body_position_keeps E _ _ _ _ f h
    rw [if_neg c3]
    by_cases c4 : byteAt pb.data info_start = 36
    · rw [if_pos c4]
      split_ifs
      · exact parse_aprs_nmea_keeps E _ _ _ f h
      · exact h
    rw [if_neg c4]
    by_cases c5 : byteAt pb.data info_start = 58
    · rw [if_pos c5]
      split_ifs
      · exact preparse_aprs_message_keeps E _ _ _ hf (flag_or_keep _ h)
      · exact h
    rw [if_neg c5]
    by_cases c6 : byteAt pb.data info_start = 59
    · rw [if_pos c6]
      split_ifs
      · exact parse_aprs_object_keeps E _ _ _ f h
      · exact h
    rw [if_neg c6]
    by_cases c7 : byteAt pb.data info_start = 62
    · rw [if_pos c7]
      exact flag_or_keep _ h
    rw [if_neg c7]
    by_cases c8 : byteAt pb.data info_start = 60
    · rw [if_pos c8]
      exact flag_or_keep _ h
    rw [if_neg c8]
    by_cases c9 : byteAt pb.data info_start = 63
    · rw [if_pos c9]
      exact flag_or_keep _ h
    rw [if_neg c9]
    by_cases c10 : byteAt pb.data info_start = 41
    · rw [if_pos c10]
      split_ifs
      · exact parse_aprs_item_keeps E _ _ _ f h
      · exact h
    rw [if_neg c10]
    by_cases c11 : byteAt pb.data info_start = 68
    · rw [if_pos c11]
      split_ifs
      · exact h
      · rw [parse_aprs_body_last_resort_eq]
        exact h
    rw [if_neg c11]
    by_cases c12 : byteAt pb.data info_start = 84
    · rw [if_pos c12]
      split_ifs
      · exact flag_or_keep _ h
      · exact h
    rw [if_neg c12]
    by_cases c13 : byteAt pb.data info_start = 35 ∨ byteAt pb.data info_start = 42 ∨ byteAt pb.data info_start = 95
    · rw [if_pos c13]
      exact flag_or_keep _ h
    rw [if_neg c13]
    by_cases c14 : byteAt pb.data info_start = 123
    · rw [if_pos c14]
      exact flag_or_keep _ h
    rw [if_neg c14]
    by_cases c15 : byteAt pb.data info_start = 125
    · rw [if_pos c15]
      exact parse_aprs_3rdparty_keeps E _ f ih _ _ (flag_or_keep _ h)
    rw [if_neg c15]
    rw [parse_aprs_body_last_resort_eq]
    exact h

theorem memchr_loop_none (data : List Nat) (c : Nat) :
    ∀ (n s : Nat), (∀ k, s ≤ k → k < s + n → byteAt data k ≠ c) →
      memchr_loop data c n s = none := by
  intro n
  induction n with
  | zero => intro s _; rfl
  | succ n ih =>
    intro s h
    rw [memchr_loop, if_neg (h s (le_refl _) (by omega))]
    exact ih (s + 1) (fun k h1 h2 => h k (by omega) (by omega))

theorem memchr_loop_first (data : List Nat) (c : Nat) :
    ∀ (n s p : Nat), first_at data s n c p → memchr_loop data c n s = some p := by
  intro n
  induction n with
  | zero =>
    rintro s p ⟨h1, h2, _, _⟩
    omega
  | succ n ih =>
    rintro s p ⟨h1, h2, h3, h4⟩
    rw [memchr_loop]
    by_cases hs : byteAt data s = c
    · rw [if_pos hs]
      by_cases hp : p = s
      · rw [hp]
      · exact absurd hs (h4 s (by omega) (le_refl _))
    · rw [if_neg hs]
      apply ih
      refine ⟨?_, by omega, h3, fun k hk1 hk2 => h4 k hk1 (by omega)⟩
      by_contra hcon
      have : p = s := by omega
      rw [this] at h3
      exact hs h3

theorem memchr_loop_ge (data : List Nat) (c : Nat) :
    ∀ (n s p : Nat), memchr_loop data c n s = some p → s ≤ p := by
  intro n
  induction n with
  | zero => intro s p h; simp [memchr_loop] at h
  | succ n ih =>
    intro s p h
    rw [memchr_loop] at h
    by_cases hc : byteAt data s = c
    · rw [if_pos hc] at h
      cases h
      exact le_refl _
    · rw [if_neg hc] at h
      have := ih _ _ h
      omega

theorem memchr_ge {data : List Nat} {s c : Nat} {n : Int} {p : Nat}
    (h : memchr data s c n = some p) : s ≤ p :=
  memchr_loop_ge data c _ _ _ h

theorem memchr_none_of {data : List Nat} {s c n : Nat} {z : Int} (hz : z = (n : Int))
    (h : ∀ k, s ≤ k → k < s + n → byteAt data k ≠ c) : memchr data s c z = none := by
  unfold memchr
  have h1 : ¬ (z < 0) := by omega
  have h2 : z.toNat = n := by omega
  rw [if_neg h1, h2]
  exact memchr_loop_none data c n s h

theorem memchr_first_of {data : List Nat} {s c n p : Nat} {z : Int} (hz : z = (n : Int))
    (h : first_at data s n c p) : memchr data s c z = some p := by
  unfold memchr
  have h1 : ¬ (z < 0) := by omega
  have h2 : z.toNat = n := by omega
  rw [if_neg h1, h2]
  exact memchr_loop_first data c n s p h

theorem byteAt_ge_length {data : List Nat} {i : Nat} (h : data.length ≤ i) : byteAt data i = 0 := by
  unfold byteAt
  rw [List.getD_eq_default _ _ h]

theorem parse_aprs_body_thirdparty (E : parse_env F) (depth : Nat) (pb : pbuf_t F)
    (info_start : Nat) (hc : byteAt pb.data info_start = 125) :
    parse_aprs_body E (depth + 1) pb info_start
      = if (pb.packet_len : Int) - pb.info_start - 2 < 1 then (0, pb)
        else parse_aprs_3rdparty E (parse_aprs_body E depth)
          { pb with packettype := pb.packettype ||| T_3RDPARTY } info_start := by
  rw [parse_aprs_body]
  dsimp only
  rw [hc]
  simp

theorem parse_aprs_body_not_thirdparty (E : parse_env F) (m : Nat) (pb : pbuf_t F)
    (info_start : Nat) (hc : byteAt pb.data info_start ≠ 125) :
    parse_aprs_body E (m + 1) pb info_start = parse_aprs_body E 1 pb info_start := by
  rw [parse_aprs_body]
  rw [show parse_aprs_body E 1 pb info_start = parse_aprs_body E (0 + 1) pb info_start from rfl]
  rw [parse_aprs_body]
  simp only [if_neg hc]

theorem parse_aprs_3rdparty_congr (E : parse_env F)
    (f g : pbuf_t F → Nat → Int × pbuf_t F) (pb : pbuf_t F) (info_start : Nat)
    (h : ∀ pb1 i, pb1.data = pb.data → info_start + 2 ≤ i → f pb1 i = g pb1 i) :
    parse_aprs_3rdparty E f pb info_start = parse_aprs_3rdparty E g pb info_start := by
  unfold parse_aprs_3rdparty
  dsimp only
  cases hm : memchr pb.data (info_start + 1) 58
      ((pb.packet_len : Int) - 2 - ((info_start + 1 : Nat) : Int)) with
  | none => rfl
  | some body =>
    have hge := memchr_ge hm
    dsimp only
    cases memchr pb.data (info_start + 1) 62
        (if (body : Int) - ((info_start + 1 : Nat) : Int) < (CALLSIGNLEN_MAX : Int) + 1
          then (body : Int) - ((info_start + 1 : Nat) : Int) else (CALLSIGNLEN_MAX : Int) + 1) with
    | none => rfl
    | some src_end =>
      dsimp only
      split_ifs
      all_goals first
        | rfl
        | exact h _ _ rfl (by omega)

theorem parse_aprs_body_fuel (E : parse_env F) :
    ∀ (n m : Nat) (pb : pbuf_t F) (info_start : Nat),
      pb.data.length ≤ info_start + 2 * n → n ≤ m →
      parse_aprs_body E (m + 1) pb info_start = parse_aprs_body E (n + 1) pb info_start := by
  intro n
  induction n with
  | zero =>
    intro m pb info_start h1 _
    have hb : byteAt pb.data info_start ≠ 125 := by
      rw [byteAt_ge_length (by omega)]
      decide
    exact parse_aprs_body_not_thirdparty E m pb info_start hb
  | succ n ih =>
    intro m pb info_start h1 h2
    by_cases hc : byteAt pb.data info_start = 125
    · obtain ⟨k, rfl⟩ : ∃ k, m = k + 1 := ⟨m - 1, by omega⟩
      rw [parse_aprs_body_thirdparty E (k + 1) pb info_start hc,
        parse_aprs_body_thirdparty E (n + 1) pb info_start hc]
      split_ifs
      · rfl
      · apply parse_aprs_3rdparty_congr
        intro pb1 i hd hi
        apply ih k pb1 i
        · rw [hd]
          show pb.data.length ≤ i + 2 * n
          omega
        · omega
    · rw [parse_aprs_body_not_thirdparty E m pb info_start hc,
        parse_aprs_body_not_thirdparty E (n + 1) pb info_start hc]

/-- C28: for a packet whose information field begins with `}`, `parse_aprs`
sets `T_3RDPARTY` and keeps it set. With `body` the first `:` after the `}` and
`src_end` the first `>` among the bytes before `body`, the first 10 at most:
`parse_aprs` returns 0 and changes nothing else when there is no such `:` or
no such `>`; it returns `INERR_INV_3RD_PARTY` when `body` comes right after
`src_end` or `check_path_calls` on the path after the inner destination counts
fewer than two elements, `INERR_INV_SRCCALL` or `INERR_INV_DSTCALL` when
`check_invalid_src_dst` rejects the inner source or destination callsign; and
otherwise its result is that of `parse_aprs_body` at the byte after `body`, on
the packet with `srcname` set to the inner source callsign, for every bound `m`
on the nesting depth from the length of the buffer on. -/
theorem parse_aprs_3rdparty_spec (E : parse_env F) (pb : pbuf_t F)
    (h0 : pb.info_start ≠ 0) (hc : byteAt pb.data pb.info_start = 125)
    (hlen : pb.info_start + 1 + 2 ≤ pb.packet_len) :
    (parse_aprs E pb).2.packettype &&& T_3RDPARTY = T_3RDPARTY
    ∧ ∃ pt, (pt = T_ALL ∨ pt = T_ALL ||| T_CWOP)
      ∧ ((∀ k, pb.info_start + 1 ≤ k →
            k < pb.info_start + 1 + (pb.packet_len - 2 - (pb.info_start + 1)) →
            byteAt pb.data k ≠ 58) →
          parse_aprs E pb = (0, { pb with packettype := pt ||| T_3RDPARTY }))
      ∧ ∀ body, first_at pb.data (pb.info_start + 1)
            (pb.packet_len - 2 - (pb.info_start + 1)) 58 body →
          ((∀ k, pb.info_start + 1 ≤ k →
              k < pb.info_start + 1 + min (body - (pb.info_start + 1)) 10 →
              byteAt pb.data k ≠ 62) →
            parse_aprs E pb = (0, { pb with packettype := pt ||| T_3RDPARTY }))
          ∧ ∀ src_end, first_at pb.data (pb.info_start + 1)
                (min (body - (pb.info_start + 1)) 10) 62 src_end →
              (body ≤ src_end + 1 → (parse_aprs E pb).1 = INERR_INV_3RD_PARTY)
              ∧ (src_end + 1 < body →
                (E.check_invalid_src_dst (pb.data.drop (pb.info_start + 1))
                    (src_end - (pb.info_start + 1)) ≠ 0 →
                  (parse_aprs E pb).1 = INERR_INV_SRCCALL)
                ∧ (E.check_invalid_src_dst (pb.data.drop (pb.info_start + 1))
                    (src_end - (pb.info_start + 1)) = 0 →
                  (E.check_invalid_src_dst (pb.data.drop (src_end + 1))
                      (thirdparty_dstcall_end pb.data body (body - (src_end + 1))
                        (src_end + 1) - (src_end + 1)) ≠ 0 →
                    (parse_aprs E pb).1 = INERR_INV_DSTCALL)
                  ∧ (E.check_invalid_src_dst (pb.data.drop (src_end + 1))
                      (thirdparty_dstcall_end pb.data body (body - (src_end + 1))
                        (src_end + 1) - (src_end + 1)) = 0 →
                    (E.check_path_calls pb.data
                        (thirdparty_dstcall_end pb.data body (body - (src_end + 1))
                          (src_end + 1)) body < 2 →
                      (parse_aprs E pb).1 = INERR_INV_3RD_PARTY)
                    ∧ (¬ E.check_path_calls pb.data
                        (thirdparty_dstcall_end pb.data body (body - (src_end + 1))
                          (src_end + 1)) body < 2 →
                      ∀ m, pb.data.length ≤ m →
                        parse_aprs E pb
                          = parse_aprs_body E m
                              { pb with packettype := pt ||| T_3RDPARTY,
                                        srcname := pb.info_start + 1,
                                        srcname_len := src_end - (pb.info_start + 1) }
                              (body + 1))))) := by
  obtain ⟨pt, hpt, he⟩ := parse_aprs_eq E pb h0
  have hb := parse_aprs_body_thirdparty E pb.data.length { pb with packettype := pt }
    pb.info_start hc
  rw [if_neg (by show ¬ ((pb.packet_len : Int) - pb.info_start - 2 < 1); omega)] at hb
  have hT3 : T_3RDPARTY &&& T_MESSAGE = 0 := by decide
  have hflag : (parse_aprs E pb).2.packettype &&& T_3RDPARTY = T_3RDPARTY := by
    rw [he, hb]
    exact parse_aprs_3rdparty_keeps E _ _
      (fun pb1 info h => parse_aprs_body_keeps E hT3 _ pb1 info h) _ _ (flag_or_self _ _)
  refine ⟨hflag, pt, hpt, ?_, ?_⟩
  · intro hno
    rw [he, hb]
    unfold parse_aprs_3rdparty
    dsimp only
    rw [memchr_none_of (n := pb.packet_len - 2 - (pb.info_start + 1)) (by omega) hno]
  · intro body hbody
    have hm1 : memchr pb.data (pb.info_start + 1) 58
        ((pb.packet_len : Int) - 2 - ((pb.info_start + 1 : Nat) : Int)) = some body :=
      memchr_first_of (n := pb.packet_len - 2 - (pb.info_start + 1)) (by omega) hbody
    have hz : (if (body : Int) - ((pb.info_start + 1 : Nat) : Int) < (CALLSIGNLEN_MAX : Int) + 1
          then (body : Int) - ((pb.info_start + 1 : Nat) : Int) else (CALLSIGNLEN_MAX : Int) + 1)
        = ((min (body - (pb.info_start + 1)) 10 : Nat) : Int) := by
      have := hbody.1
      unfold CALLSIGNLEN_MAX
      split_ifs <;> omega
    constructor
    · intro hno
      rw [he, hb]
      unfold parse_aprs_3rdparty
      dsimp only
      rw [hm1]
      dsimp only
      rw [memchr_none_of hz hno]
    · intro src_end hsrc
      have hm2 := memchr_first_of hz hsrc
      have hr : parse_aprs E pb
          = if src_end + 1 ≥ body then
              (INERR_INV_3RD_PARTY, { pb with packettype := pt ||| T_3RDPARTY })
            else if E.check_invalid_src_dst (pb.data.drop (pb.info_start + 1))
                (src_end - (pb.info_start + 1)) ≠ 0 then
              (INERR_INV_SRCCALL, { pb with packettype := pt ||| T_3RDPARTY })
            else if E.check_invalid_src_dst (pb.data.drop (src_end + 1))
                (thirdparty_dstcall_end pb.data body (body - (src_end + 1)) (src_end + 1)
                  - (src_end + 1)) ≠ 0 then
              (INERR_INV_DSTCALL, { pb with packettype := pt ||| T_3RDPARTY })
            else if E.check_path_calls pb.data
                (thirdparty_dstcall_end pb.data body (body - (src_end + 1)) (src_end + 1))
                body < 2 then
              (INERR_INV_3RD_PARTY, { pb with packettype := pt ||| T_3RDPARTY })
            else
              parse_aprs_body E pb.data.length
                { pb with packettype := pt ||| T_3RDPARTY, srcname := pb.info_start + 1,
                          srcname_len := src_end - (pb.info_start + 1) } (body + 1) := by
        rw [he, hb]
        unfold parse_aprs_3rdparty
        dsimp only
        rw [hm1]
        dsimp only
        rw [hm2]
      rw [hr]
      constructor
      · intro h1
        rw [if_pos h1]
      · intro h1
        rw [if_neg (by omega)]
        constructor
        · intro h2
          rw [if_pos h2]
        · intro h2
          rw [if_neg (not_not.mpr h2)]
          constructor
          · intro h3
            rw [if_pos h3]
          · intro h3
            rw [if_neg (not_not.mpr h3)]
            constructor
            · intro h4
              rw [if_pos h4]
            · intro h4 m hm
              rw [if_neg h4]
              have hlt : body < pb.data.length := by
                by_contra hcon
                have := byteAt_ge_length (not_lt.mp hcon)
                rw [hbody.2.2.1] at this
                exact absurd this (by decide)
              obtain ⟨k, rfl⟩ : ∃ k, m = k + 1 := ⟨m - 1, by omega⟩
              obtain ⟨j, hj⟩ : ∃ j, pb.data.length = j + 1 := ⟨pb.data.length - 1, by omega⟩
              rw [hj]
              exact (parse_aprs_body_fuel E j k _ _ (by
                show pb.data.length ≤ body + 1 + 2 * j
                omega) (by omega)).symm

/-- C28 on `}OH7LZB>APRS,TCPIP,N0CALL*:!6028.51N/02505.68E-`: the inner `:` is
at offset 38 and the inner `>` at offset 19, the callsigns and the path are
accepted, `srcname` is set to `OH7LZB`, and the result is that of
`parse_aprs_body` at offset 39, where the inner position is decoded. -/
theorem parse_aprs_3rdparty_spec_witness :
    (parse_aprs env_example frame_3rdparty).2.packettype &&& T_3RDPARTY = T_3RDPARTY
    ∧ (∃ pt, (pt = T_ALL ∨ pt = T_ALL ||| T_CWOP)
        ∧ ∀ m, frame_3rdparty.data.length ≤ m →
          parse_aprs env_example frame_3rdparty
            = parse_aprs_body env_example m
                { frame_3rdparty with packettype := pt ||| T_3RDPARTY,
                                      srcname := frame_3rdparty.info_start + 1,
                                      srcname_len := 19 - (frame_3rdparty.info_start + 1) }
                (38 + 1))
    ∧ (parse_aprs env_example frame_3rdparty).1 = 1
    ∧ (parse_aprs env_example frame_3rdparty).2.srcname = 13
    ∧ (parse_aprs env_example frame_3rdparty).2.srcname_len = 6
    ∧ (parse_aprs env_example frame_3rdparty).2.flags &&& F_HASPOS = F_HASPOS
    ∧ (parse_aprs env_example frame_3rdparty).2.lat
        = env_example.filter_lat2rad (float_dmf 60 28 51) := by
  have h := parse_aprs_3rdparty_spec env_example frame_3rdparty (by decide) (by decide)
    (by decide)
  obtain ⟨pt, hpt, _, hb⟩ := h.2
  have h1 := (hb 38 (by unfold first_at; decide)).2 19 (by unfold first_at; decide)
  have h2 := (((h1.2 (by decide)).2 (by decide)).2 (by decide)).2 (by decide)
  exact ⟨h.1, ⟨pt, hpt, h2⟩, by decide!, by decide!, by decide!, by decide!, by decide!⟩

theorem cwop_digits_stop (d : List Nat) (packet_len n i : Nat)
    (h : byteAt d i < 48 ∨ byteAt d i > 57) : cwop_digits d packet_len n i = i := by
  cases n with
  | zero => rfl
  | succ n =>
    rw [cwop_digits]
    split_ifs <;> rfl

/-- C32 fails in the code: `parse_aprs_body` computes `paclen` from
`pb->info_start`, the start of the outer information field, also when it is
entered for a payload nested in a third-party header. Whatever offset
`info_start` it is entered at, a `:` there passes the test `paclen >= 11` as
soon as the outer field has 11 bytes, and the packet gets `T_MESSAGE` and a
`dstname` right after that `:`. -/
theorem parse_aprs_body_nested_length (E : parse_env F) (depth : Nat) (pb : pbuf_t F)
    (info_start : Nat)
    (hlen : pb.info_start + 11 + 2 ≤ pb.packet_len)
    (hc : byteAt pb.data info_start = 58) :
    (parse_aprs_body E (depth + 1) pb info_start).2.dstname = info_start + 1
    ∧ (parse_aprs_body E (depth + 1) pb info_start).2.dstname_len
        = message_recipient_len (fun k => byteAt pb.data (info_start + 1 + k))
            (CALLSIGNLEN_MAX + 1) 0 := by
  rw [parse_aprs_body_message E depth pb info_start (by omega) hc]
  rw [if_pos (by omega), preparse_aprs_message_eq]
  exact ⟨rfl, rfl⟩

/-- C32 on `A>B:}C>D,E,F::ab`: the inner payload `:ab` starts at offset 13 and
has 3 bytes, the information field ends at offset 16. `parse_aprs` classifies
the packet as a message and sets `dstname` to offset 14 with `dstname_len = 4`:
the range runs over `ab`, the CR and the LF, to offset 18. -/
theorem parse_aprs_body_nested_length_witness :
    ((parse_aprs_body env_example 1
        { frame_nested_message with srcname := 5, srcname_len := 1 } 13).2.dstname = 13 + 1
      ∧ (parse_aprs_body env_example 1
        { frame_nested_message with srcname := 5, srcname_len := 1 } 13).2.dstname_len
        = message_recipient_len
            (fun k => byteAt frame_nested_message.data (13 + 1 + k)) (CALLSIGNLEN_MAX + 1) 0)
    ∧ frame_nested_message.packet_len - 2 = 16
    ∧ (parse_aprs env_example frame_nested_message).1 = 0
    ∧ (parse_aprs env_example frame_nested_message).2.packettype &&& T_MESSAGE = T_MESSAGE
    ∧ (parse_aprs env_example frame_nested_message).2.srcname = 5
    ∧ (parse_aprs env_example frame_nested_message).2.srcname_len = 1
    ∧ (parse_aprs env_example frame_nested_message).2.dstname = 14
    ∧ (parse_aprs env_example frame_nested_message).2.dstname_len = 4
    ∧ bytes (frame_nested_message.data.drop 14) 4 = [97, 98, 13, 10] :=
  ⟨parse_aprs_body_nested_length env_example 0
      { frame_nested_message with srcname := 5, srcname_len := 1 } 13 (by decide) (by decide),
    by decide, by decide!, by decide!, by decide!, by decide!, by decide!, by decide!,
    by decide⟩

/-- C34 fails in the code: the loop over the digits may end at once, so a
source callsign `CW`, `DW` or `EW` with no digit after it, directly followed
by the `>`, gets `T_CWOP` too. -/
theorem parse_aprs_cwop_without_digits (E : parse_env F) (pb : pbuf_t F)
    (h0 : pb.info_start ≠ 0)
    (hc : 67 ≤ byteAt pb.data 0 ∧ byteAt pb.data 0 ≤ 69)
    (hw : byteAt pb.data 1 = 87) (hgt : byteAt pb.data 2 = 62) :
    (parse_aprs E pb).2.packettype &&& T_CWOP = T_CWOP := by
  have he : parse_aprs E pb
      = parse_aprs_body E (pb.data.length + 1) { pb with packettype := T_ALL ||| T_CWOP }
          pb.info_start := by
    unfold parse_aprs
    rw [if_neg h0]
    dsimp only
    rw [if_pos ⟨hw, hc.1, hc.2⟩]
    rw [cwop_digits_stop pb.data _ _ 2 (by rw [hgt]; omega), if_pos hgt]
  rw [he]
  exact parse_aprs_body_keeps E (by decide) _ _ _ (flag_or_self _ _)

/-- C34 on `CW>APRS:>status`: the source callsign is `CW` alone and the packet
gets `T_CWOP`, as `CW0123>APRS:>status` does. -/
theorem parse_aprs_cwop_without_digits_witness :
    (parse_aprs env_example frame_cw_bare).2.packettype &&& T_CWOP = T_CWOP
    ∧ bytes frame_cw_bare.data 3 = [67, 87, 62]
    ∧ (parse_aprs env_example frame_cw_digits).2.packettype &&& T_CWOP = T_CWOP :=
  ⟨parse_aprs_cwop_without_digits env_example frame_cw_bare (by decide) (by decide)
      (by decide) (by decide),
    by decide, by decide!⟩

/-- C35 fails in the code: on an alarm that is set already, `status_error`
with `ttl > 0` computes the end time from the time the alarm was first set,
`e->ends = e->started + ttl`, not from the time of the call. -/
theorem status_error_reraise_from_start (hmalloc : status_error_t) (ttl : Int)
    (err : List Nat) (time : Int) (e : status_error_t) (rest : List status_error_t)
    (hname : cstring e.err = cstring err) (hset : e.set = 1) (httl : ttl > 0) :
    status_error hmalloc ttl err time (e :: rest)
      = { e with ends := e.started + ttl } :: rest := by
  have hs : strcmp_eq e.err err = true := by
    unfold strcmp_eq
    rw [hname]
    exact beq_self_eq_true _
  have hn : ¬ (e.set ≠ 1) := not_not.mpr hset
  unfold status_error
  rw [status_error_loop, if_pos hs]
  unfold status_error_set
  dsimp only
  rw [if_pos httl, if_neg hn]

/-- C35 on the alarm `x` raised at time 1000 with `ttl = 60` and raised again
at time 1050 with `ttl = 60`: its end time stays 1060, not 1110, and at time
1061, 11 seconds after the last raise, `status_error_json` lists nothing. -/
theorem status_error_reraise_from_start_witness :
    status_error ⟨[], 0, 0, 0⟩ 60 [120, 0] 1000 [] = [⟨[120], 1, 1000, 1060⟩]
    ∧ status_error ⟨[], 0, 0, 0⟩ 60 [120, 0] 1050 [⟨[120], 1, 1000, 1060⟩]
        = [{ (⟨[120], 1, 1000, 1060⟩ : status_error_t) with ends := 1000 + 60 }]
    ∧ status_error_json 1061
        (status_error ⟨[], 0, 0, 0⟩ 60 [120, 0] 1050 [⟨[120], 1, 1000, 1060⟩]) = []
    ∧ status_error_json 1060
        (status_error ⟨[], 0, 0, 0⟩ 60 [120, 0] 1050 [⟨[120], 1, 1000, 1060⟩])
        = [⟨[120], 1, 1000, 1060⟩] :=
  ⟨by decide,
    status_error_reraise_from_start ⟨[], 0, 0, 0⟩ 60 [120, 0] 1050 ⟨[120], 1, 1000, 1060⟩ []
      (by decide) (by decide) (by decide),
    by decide, by decide⟩

/-- C40 fails in the code where `char` is signed: `hex_encode` takes each byte
as a `char`, so for a byte from `0x80` on the index `c >> 4` is negative, one
of `-8..-1`, and the first character written is read in front of the string
`lut`; the second is the digit of the low half. -/
theorem hex_encode_high_byte (outside : Int → Nat) (b : Nat) (hb : 128 ≤ b) (hb2 : b < 256) :
    hex_encode outside [b] 1
        = [outside (((b : Int) - 256) / 16), byteAt hex_lut (b % 16), 0]
    ∧ -8 ≤ ((b : Int) - 256) / 16 ∧ ((b : Int) - 256) / 16 ≤ -1 := by
  have hc : char_signed b = (b : Int) - 256 := by
    unfold char_signed
    rw [if_neg (by omega)]
  have h1 : ¬ (0 ≤ ((b : Int) - 256) / 16 ∧ ((b : Int) - 256) / 16 < 16) := by omega
  have h2 : ¬ (((b : Int) - 256) / 16 = 16) := by omega
  have h3 : 0 ≤ ((b : Int) - 256) % 16 ∧ ((b : Int) - 256) % 16 < 16 := by omega
  have h4 : (((b : Int) - 256) % 16).toNat = b % 16 := by omega
  refine ⟨?_, by omega, by omega⟩
  unfold hex_encode
  rw [show List.range 1 = [0] from rfl]
  simp only [List.map_cons, List.map_nil, List.flatten_cons, List.flatten_nil,
    List.append_nil, List.cons_append, List.nil_append]
  have hb0 : byteAt [b] 0 = b := rfl
  rw [hb0, hc]
  unfold hex_lut_read
  rw [if_neg h1, if_neg h2, if_pos h3, h4]

/-- C40 on the byte `0xc3`, the memory in front of `lut` holding `X`:
`hex_encode` gives `X3`, which `hex_decode` rejects with -1, while the bytes
`0x41 0x7f` are encoded as `417f` and decoded back. -/
theorem hex_encode_high_byte_witness :
    (hex_encode (fun _ => 88) [0xc3] 1 = [88, byteAt hex_lut (0xc3 % 16), 0]
      ∧ -8 ≤ (((0xc3 : Nat) : Int) - 256) / 16 ∧ (((0xc3 : Nat) : Int) - 256) / 16 ≤ -1)
    ∧ hex_encode (fun _ => 88) [0xc3] 1 = [88, 51, 0]
    ∧ hex_decode 1 (hex_encode (fun _ => 88) [0xc3] 1) = (-1, [])
    ∧ hex_encode (fun _ => 88) [0x41, 0x7f] 2 = [52, 49, 55, 102, 0]
    ∧ hex_decode 2 (hex_encode (fun _ => 88) [0x41, 0x7f] 2) = (2, [0x41, 0x7f]) :=
  ⟨hex_encode_high_byte (fun _ => 88) 0xc3 (by decide) (by decide),
    by decide, by decide, by decide, by decide⟩

theorem twochar_rel_of_some {c1 c2 t code : Nat}
    (h : get_symbol_from_dstcall_twochar c1 c2 = some (t, code)) : twochar_rel c1 c2 t code := by
  rw [get_symbol_from_dstcall_twochar.eq_1] at h
  rw [twochar_rel.eq_1]
  by_cases a0 : c1 = 66
  · rw [if_pos a0] at h
    by_cases b : 66 ≤ c2 ∧ c2 ≤ 80
    · rw [if_pos b] at h
      have e := Option.some.inj h
      have e1 : 47 = t := congrArg Prod.fst e
      have e2 : c2 - 66 + 33 = code := congrArg Prod.snd e
      exact Or.inl ⟨a0, b.1, b.2, e1.symm, by omega⟩
    · rw [if_neg b] at h
      exact absurd h (by simp)
  rw [if_neg a0] at h
  by_cases a1 : c1 = 80
  · rw [if_pos a1] at h
    by_cases b : 48 ≤ c2 ∧ c2 ≤ 57
    · rw [if_pos b] at h
      have e := Option.some.inj h
      have e1 : 47 = t := congrArg Prod.fst e
      have e2 : c2 = code := congrArg Prod.snd e
      exact Or.inr (Or.inl ⟨a1, Or.inl b, e1.symm, e2.symm⟩)
    · rw [if_neg b] at h
      by_cases b2 : 65 ≤ c2 ∧ c2 ≤ 90
      · rw [if_pos b2] at h
        have e := Option.some.inj h
        have e1 : 47 = t := congrArg Prod.fst e
        have e2 : c2 = code := congrArg Prod.snd e
        exact Or.inr (Or.inl ⟨a1, Or.inr b2, e1.symm, e2.symm⟩)
      · rw [if_neg b2] at h
        exact absurd h (by simp)
  rw [if_neg a1] at h
  by_cases a2 : c1 = 77
  · rw [if_pos a2] at h
    by_cases b : 82 ≤ c2 ∧ c2 ≤ 88
    · rw [if_pos b] at h
      have e := Option.some.inj h
      have e1 : 47 = t := congrArg Prod.fst e
      have e2 : c2 - 82 + 58 = code := congrArg Prod.snd e
      exact Or.inr (Or.inr (Or.inl ⟨a2, b.1, b.2, e1.symm, by omega⟩))
    · rw [if_neg b] at h
      exact absurd h (by simp)
  rw [if_neg a2] at h
  by_cases a3 : c1 = 72
  · rw [if_pos a3] at h
    by_cases b : 83 ≤ c2 ∧ c2 ≤ 88
    · rw [if_pos b] at h
      have e := Option.some.inj h
      have e1 : 47 = t := congrArg Prod.fst e
      have e2 : c2 - 83 + 91 = code := congrArg Prod.snd e
      exact Or.inr (Or.inr (Or.inr (Or.inl ⟨a3, b.1, b.2, e1.symm, by omega⟩)))
    · rw [if_neg b] at h
      exact absurd h (by simp)
  rw [if_neg a3] at h
  by_cases a4 : c1 = 76
  · rw [if_pos a4] at h
    by_cases b : 65 ≤ c2 ∧ c2 ≤ 90
    · rw [if_pos b] at h
      have e := Option.some.inj h
      have e1 : 47 = t := congrArg Prod.fst e
      have e2 : c2 - 65 + 97 = code := congrArg Prod.snd e
      exact Or.inr (Or.inr (Or.inr (Or.inr (Or.inl ⟨a4, b.1, b.2, e1.symm, by omega⟩))))
    · rw [if_neg b] at h
      exact absurd h (by simp)
  rw [if_neg a4] at h
  by_cases a5 : c1 = 74
  · rw [if_pos a5] at h
    by_cases b : 49 ≤ c2 ∧ c2 ≤ 52
    · rw [if_pos b] at h
      have e := Option.some.inj h
      have e1 : 47 = t := congrArg Prod.fst e
      have e2 : c2 - 49 + 123 = code := congrArg Prod.snd e
      exact Or.inr (Or.inr (Or.inr (Or.inr (Or.inr (Or.inl ⟨a5, b.1, b.2, e1.symm, by omega⟩)))))
    · rw [if_neg b] at h
      exact absurd h (by simp)
  rw [if_neg a5] at h
  by_cases a6 : c1 = 79
  · rw [if_pos a6] at h
    by_cases b : 66 ≤ c2 ∧ c2 ≤ 80
    · rw [if_pos b] at h
      have e := Option.some.inj h
      have e1 : 92 = t := congrArg Prod.fst e
      have e2 : c2 - 66 + 33 = code := congrArg Prod.snd e
      exact Or.inr (Or.inr (Or.inr (Or.inr (Or.inr (Or.inr (Or.inl ⟨a6, b.1, b.2, e1.symm, by omega⟩))))))
    · rw [if_neg b] at h
      exact absurd h (by simp)
  rw [if_neg a6] at h
  by_cases a7 : c1 = 65
  · rw [if_pos a7] at h
    by_cases b : 48 ≤ c2 ∧ c2 ≤ 57
    · rw [if_pos b] at h
      have e := Option.some.inj h
      have e1 : 92 = t := congrArg Prod.fst e
      have e2 : c2 = code := congrArg Prod.snd e
      exact Or.inr (Or.inr (Or.inr (Or.inr (Or.inr (Or.inr (Or.inr (Or.inl ⟨a7, Or.inl b, e1.symm, e2.symm⟩)))))))
    · rw [if_neg b] at h
      by_cases b2 : 65 ≤ c2 ∧ c2 ≤ 90
      · rw [if_pos b2] at h
        have e := Option.some.inj h
        have e1 : 92 = t := congrArg Prod.fst e
        have e2 : c2 = code := congrArg Prod.snd e
        exact Or.inr (Or.inr (Or.inr (Or.inr (Or.inr (Or.inr (Or.inr (Or.inl ⟨a7, Or.inr b2, e1.symm, e2.symm⟩)))))))
      · rw [if_neg b2] at h
        exact absurd h (by simp)
  rw [if_neg a7] at h
  by_cases a8 : c1 = 78
  · rw [if_pos a8] at h
    by_cases b : 82 ≤ c2 ∧ c2 ≤ 88
    · rw [if_pos b] at h
      have e := Option.some.inj h
      have e1 : 92 = t := congrArg Prod.fst e
      have e2 : c2 - 82 + 58 = code := congrArg Prod.snd e
      exact Or.inr (Or.inr (Or.inr (Or.inr (Or.inr (Or.inr (Or.inr (Or.inr (Or.inl ⟨a8, b.1, b.2, e1.symm, by omega⟩))))))))
    · rw [if_neg b] at h
      exact absurd h (by simp)
  rw [if_neg a8] at h
  by_cases a9 : c1 = 68
  · rw [if_pos a9] at h
    by_cases b : 83 ≤ c2 ∧ c2 ≤ 88
    · rw [if_pos b] at h
      have e := Option.some.inj h
      have e1 : 92 = t := congrArg Prod.fst e
      have e2 : c2 - 83 + 91 = code := congrArg Prod.snd e
      exact Or.inr (Or.inr (Or.inr (Or.inr (Or.inr (Or.inr (Or.inr (Or.inr (Or.inr (Or.inl ⟨a9, b.1, b.2, e1.symm, by omega⟩)))))))))
    · rw [if_neg b] at h
      exact absurd h (by simp)
  rw [if_neg a9] at h
  by_cases a10 : c1 = 83
  · rw [if_pos a10] at h
    by_cases b : 65 ≤ c2 ∧ c2 ≤ 90
    · rw [if_pos b] at h
      have e := Option.some.inj h
      have e1 : 92 = t := congrArg Prod.fst e
      have e2 : c2 - 65 + 97 = code := congrArg Prod.snd e
      exact Or.inr (Or.inr (Or.inr (Or.inr (Or.inr (Or.inr (Or.inr (Or.inr (Or.inr (Or.inr (Or.inl ⟨a10, b.1, b.2, e1.symm, by omega⟩))))))))))
    · rw [if_neg b] at h
      exact absurd h (by simp)
  rw [if_neg a10] at h
  by_cases a11 : c1 = 81
  · rw [if_pos a11] at h
    by_cases b : 49 ≤ c2 ∧ c2 ≤ 52
    · rw [if_pos b] at h
      have e := Option.some.inj h
      have e1 : 92 = t := congrArg Prod.fst e
      have e2 : c2 - 49 + 123 = code := congrArg Prod.snd e
      exact Or.inr (Or.inr (Or.inr (Or.inr (Or.inr (Or.inr (Or.inr (Or.inr (Or.inr (Or.inr (Or.inr (⟨a11, b.1, b.2, e1.symm, by omega⟩)))))))))))
    · rw [if_neg b] at h
      exact absurd h (by simp)
  rw [if_neg a11] at h
  exact absurd h (by simp)

theorem some_of_twochar_rel {c1 c2 t code : Nat} (h : twochar_rel c1 c2 t code) :
    get_symbol_from_dstcall_twochar c1 c2 = some (t, code) := by
  rw [twochar_rel.eq_1] at h
  rw [get_symbol_from_dstcall_twochar.eq_1]
  rcases h with ⟨a, b1, b2, ht, hc⟩ | ⟨a, b, ht, hc⟩ | ⟨a, b1, b2, ht, hc⟩ | ⟨a, b1, b2, ht, hc⟩ | ⟨a, b1, b2, ht, hc⟩ | ⟨a, b1, b2, ht, hc⟩ | ⟨a, b1, b2, ht, hc⟩ | ⟨a, b, ht, hc⟩ | ⟨a, b1, b2, ht, hc⟩ | ⟨a, b1, b2, ht, hc⟩ | ⟨a, b1, b2, ht, hc⟩ | ⟨a, b1, b2, ht, hc⟩
  · rw [if_pos a, if_pos ⟨b1, b2⟩, ht, hc]
    have e : c2 - 66 + 33 = c2 - 33 := by omega
    rw [e]
  · rw [if_neg (show ¬ c1 = 66 by omega), if_pos a, ht, hc]
    rcases b with b | b
    · rw [if_pos b]
    · rw [if_neg (show ¬ (48 ≤ c2 ∧ c2 ≤ 57) by omega), if_pos b]
  · rw [if_neg (show ¬ c1 = 66 by omega), if_neg (show ¬ c1 = 80 by omega), if_pos a, if_pos ⟨b1, b2⟩, ht, hc]
    have e : c2 - 82 + 58 = c2 - 24 := by omega
    rw [e]
  · rw [if_neg (show ¬ c1 = 66 by omega), if_neg (show ¬ c1 = 80 by omega), if_neg (show ¬ c1 = 77 by omega), if_pos a, if_pos ⟨b1, b2⟩, ht, hc]
    have e : c2 - 83 + 91 = c2 + 8 := by omega
    rw [e]
  · rw [if_neg (show ¬ c1 = 66 by omega), if_neg (show ¬ c1 = 80 by omega), if_neg (show ¬ c1 = 77 by omega), if_neg (show ¬ c1 = 72 by omega), if_pos a, if_pos ⟨b1, b2⟩, ht, hc]
    have e : c2 - 65 + 97 = c2 + 32 := by omega
    rw [e]
  · rw [if_neg (show ¬ c1 = 66 by omega), if_neg (show ¬ c1 = 80 by omega), if_neg (show ¬ c1 = 77 by omega), if_neg (show ¬ c1 = 72 by omega), if_neg (show ¬ c1 = 76 by omega), if_pos a, if_pos ⟨b1, b2⟩, ht, hc]
    have e : c2 - 49 + 123 = c2 + 74 := by omega
    rw [e]
  · rw [if_neg (show ¬ c1 = 66 by omega), if_neg (show ¬ c1 = 80 by omega), if_neg (show ¬ c1 = 77 by omega), if_neg (show ¬ c1 = 72 by omega), if_neg (show ¬ c1 = 76 by omega), if_neg (show ¬ c1 = 74 by omega), if_pos a, if_pos ⟨b1, b2⟩, ht, hc]
    have e : c2 - 66 + 33 = c2 - 33 := by omega
    rw [e]
  · rw [if_neg (show ¬ c1 = 66 by omega), if_neg (show ¬ c1 = 80 by omega), if_neg (show ¬ c1 = 77 by omega), if_neg (show ¬ c1 = 72 by omega), if_neg (show ¬ c1 = 76 by omega), if_neg (show ¬ c1 = 74 by omega), if_neg (show ¬ c1 = 79 by omega), if_pos a, ht, hc]
    rcases b with b | b
    · rw [if_pos b]
    · rw [if_neg (show ¬ (48 ≤ c2 ∧ c2 ≤ 57) by omega), if_pos b]
  · rw [if_neg (show ¬ c1 = 66 by omega), if_neg (show ¬ c1 = 80 by omega), if_neg (show ¬ c1 = 77 by omega), if_neg (show ¬ c1 = 72 by omega), if_neg (show ¬ c1 = 76 by omega), if_neg (show ¬ c1 = 74 by omega), if_neg (show ¬ c1 = 79 by omega), if_neg (show ¬ c1 = 65 by omega), if_pos a, if_pos ⟨b1, b2⟩, ht, hc]
    have e : c2 - 82 + 58 = c2 - 24 := by omega
    rw [e]
  · rw [if_neg (show ¬ c1 = 66 by omega), if_neg (show ¬ c1 = 80 by omega), if_neg (show ¬ c1 = 77 by omega), if_neg (show ¬ c1 = 72 by omega), if_neg (show ¬ c1 = 76 by omega), if_neg (show ¬ c1 = 74 by omega), if_neg (show ¬ c1 = 79 by omega), if_neg (show ¬ c1 = 65 by omega), if_neg (show ¬ c1 = 78 by omega), if_pos a, if_pos ⟨b1, b2⟩, ht, hc]
    have e : c2 - 83 + 91 = c2 + 8 := by omega
    rw [e]
  · rw [if_neg (show ¬ c1 = 66 by omega), if_neg (show ¬ c1 = 80 by omega), if_neg (show ¬ c1 = 77 by omega), if_neg (show ¬ c1 = 72 by omega), if_neg (show ¬ c1 = 76 by omega), if_neg (show ¬ c1 = 74 by omega), if_neg (show ¬ c1 = 79 by omega), if_neg (show ¬ c1 = 65 by omega), if_neg (show ¬ c1 = 78 by omega), if_neg (show ¬ c1 = 68 by omega), if_pos a, if_pos ⟨b1, b2⟩, ht, hc]
    have e : c2 - 65 + 97 = c2 + 32 := by omega
    rw [e]
  · rw [if_neg (show ¬ c1 = 66 by omega), if_neg (show ¬ c1 = 80 by omega), if_neg (show ¬ c1 = 77 by omega), if_neg (show ¬ c1 = 72 by omega), if_neg (show ¬ c1 = 76 by omega), if_neg (show ¬ c1 = 74 by omega), if_neg (show ¬ c1 = 79 by omega), if_neg (show ¬ c1 = 65 by omega), if_neg (show ¬ c1 = 78 by omega), if_neg (show ¬ c1 = 68 by omega), if_neg (show ¬ c1 = 83 by omega), if_pos a, if_pos ⟨b1, b2⟩, ht, hc]
    have e : c2 - 49 + 123 = c2 + 74 := by omega
    rw [e]

theorem twochar_inverse_rel (t code : Nat) (ht : t = 47 ∨ t = 92) (h1 : 0x21 ≤ code)
    (h2 : code ≤ 0x7e) :
    twochar_rel (twochar_inverse t code).1 (twochar_inverse t code).2 t code := by
  rw [twochar_inverse.eq_1]
  rcases ht with rfl | rfl
  · by_cases c0 : code ≤ 47
    · rw [if_pos c0]
      show twochar_rel 66 (code + 33) 47 code
      rw [twochar_rel.eq_1]
      exact Or.inl ⟨rfl, by omega, by omega, rfl, by omega⟩
    rw [if_neg c0]
    by_cases c1 : code ≤ 57
    · rw [if_pos c1]
      show twochar_rel 80 (code) 47 code
      rw [twochar_rel.eq_1]
      exact Or.inr (Or.inl ⟨rfl, Or.inl ⟨by omega, by omega⟩, rfl, rfl⟩)
    rw [if_neg c1]
    by_cases c2 : code ≤ 64
    · rw [if_pos c2]
      show twochar_rel 77 (code + 24) 47 code
      rw [twochar_rel.eq_1]
      exact Or.inr (Or.inr (Or.inl ⟨rfl, by omega, by omega, rfl, by omega⟩))
    rw [if_neg c2]
    by_cases c3 : code ≤ 90
    · rw [if_pos c3]
      show twochar_rel 80 (code) 47 code
      rw [twochar_rel.eq_1]
      exact Or.inr (Or.inl ⟨rfl, Or.inr ⟨by omega, by omega⟩, rfl, rfl⟩)
    rw [if_neg c3]
    by_cases c4 : code ≤ 96
    · rw [if_pos c4]
      show twochar_rel 72 (code - 8) 47 code
      rw [twochar_rel.eq_1]
      exact Or.inr (Or.inr (Or.inr (Or.inl ⟨rfl, by omega, by omega, rfl, by omega⟩)))
    rw [if_neg c4]
    by_cases c5 : code ≤ 122
    · rw [if_pos c5]
      show twochar_rel 76 (code - 32) 47 code
      rw [twochar_rel.eq_1]
      exact Or.inr (Or.inr (Or.inr (Or.inr (Or.inl ⟨rfl, by omega, by omega, rfl, by omega⟩))))
    rw [if_neg c5]
    show twochar_rel 74 (code - 74) 47 code
    rw [twochar_rel.eq_1]
    exact Or.inr (Or.inr (Or.inr (Or.inr (Or.inr (Or.inl ⟨rfl, by omega, by omega, rfl, by omega⟩)))))
  · by_cases c0 : code ≤ 47
    · rw [if_pos c0]
      show twochar_rel 79 (code + 33) 92 code
      rw [twochar_rel.eq_1]
      exact Or.inr (Or.inr (Or.inr (Or.inr (Or.inr (Or.inr (Or.inl ⟨rfl, by omega, by omega, rfl, by omega⟩))))))
    rw [if_neg c0]
    by_cases c1 : code ≤ 57
    · rw [if_pos c1]
      show twochar_rel 65 (code) 92 code
      rw [twochar_rel.eq_1]
      exact Or.inr (Or.inr (Or.inr (Or.inr (Or.inr (Or.inr (Or.inr (Or.inl ⟨rfl, Or.inl ⟨by omega, by omega⟩, rfl, rfl⟩)))))))
    rw [if_neg c1]
    by_cases c2 : code ≤ 64
    · rw [if_pos c2]
      show twochar_rel 78 (code + 24) 92 code
      rw [twochar_rel.eq_1]
      exact Or.inr (Or.inr (Or.inr (Or.inr (Or.inr (Or.inr (Or.inr (Or.inr (Or.inl ⟨rfl, by omega, by omega, rfl, by omega⟩))))))))
    rw [if_neg c2]
    by_cases c3 : code ≤ 90
    · rw [if_pos c3]
      show twochar_rel 65 (code) 92 code
      rw [twochar_rel.eq_1]
      exact Or.inr (Or.inr (Or.inr (Or.inr (Or.inr (Or.inr (Or.inr (Or.inl ⟨rfl, Or.inr ⟨by omega, by omega⟩, rfl, rfl⟩)))))))
    rw [if_neg c3]
    by_cases c4 : code ≤ 96
    · rw [if_pos c4]
      show twochar_rel 68 (code - 8) 92 code
      rw [twochar_rel.eq_1]
      exact Or.inr (Or.inr (Or.inr (Or.inr (Or.inr (Or.inr (Or.inr (Or.inr (Or.inr (Or.inl ⟨rfl, by omega, by omega, rfl, by omega⟩)))))))))
    rw [if_neg c4]
    by_cases c5 : code ≤ 122
    · rw [if_pos c5]
      show twochar_rel 83 (code - 32) 92 code
      rw [twochar_rel.eq_1]
      exact Or.inr (Or.inr (Or.inr (Or.inr (Or.inr (Or.inr (Or.inr (Or.inr (Or.inr (Or.inr (Or.inl ⟨rfl, by omega, by omega, rfl, by omega⟩))))))))))
    rw [if_neg c5]
    show twochar_rel 81 (code - 74) 92 code
    rw [twochar_rel.eq_1]
    exact Or.inr (Or.inr (Or.inr (Or.inr (Or.inr (Or.inr (Or.inr (Or.inr (Or.inr (Or.inr (Or.inr (⟨rfl, by omega, by omega, rfl, by omega⟩)))))))))))

theorem twochar_rel_unique {c1 c2 e1 e2 t code : Nat} (h : twochar_rel c1 c2 t code)
    (h' : twochar_rel e1 e2 t code) : c1 = e1 ∧ c2 = e2 := by
  unfold twochar_rel at h h'
  omega

/-- C39: `get_symbol_from_dstcall_twochar` succeeds exactly on the pairs of its
twelve ranges; a pair with first letter `B`, `P`, `M`, `H`, `L`, `J` gives the
table `/`, one with `O`, `A`, `N`, `D`, `S`, `Q` the table `\`, the code being
in `0x21..0x7e`; for each of the two tables every code of `0x21..0x7e` is given
by exactly one pair; and every other pair gives the return value 0, nothing
being stored. -/
theorem get_symbol_from_dstcall_twochar_bijection :
    (∀ c1 c2 t code, get_symbol_from_dstcall_twochar c1 c2 = some (t, code) →
      ((t = 47 ∧ c1 ∈ [66, 80, 77, 72, 76, 74]) ∨ (t = 92 ∧ c1 ∈ [79, 65, 78, 68, 83, 81]))
      ∧ 0x21 ≤ code ∧ code ≤ 0x7e)
    ∧ (∀ t code, t = 47 ∨ t = 92 → 0x21 ≤ code → code ≤ 0x7e →
      ∃! p : Nat × Nat, get_symbol_from_dstcall_twochar p.1 p.2 = some (t, code))
    ∧ (∀ c1 c2, get_symbol_from_dstcall_twochar c1 c2 = none
      ↔ ¬ ∃ t code, twochar_rel c1 c2 t code) := by
  refine ⟨?_, ?_, ?_⟩
  · intro c1 c2 t code h
    have hr := twochar_rel_of_some h
    unfold twochar_rel at hr
    simp only [List.mem_cons, List.mem_singleton, List.not_mem_nil, or_false]
    omega
  · intro t code ht h1 h2
    refine ⟨twochar_inverse t code, ?_, ?_⟩
    · exact some_of_twochar_rel (twochar_inverse_rel t code ht h1 h2)
    · intro p hp
      have hu := twochar_rel_unique (twochar_rel_of_some hp)
        (twochar_inverse_rel t code ht h1 h2)
      exact Prod.ext hu.1 hu.2
  · intro c1 c2
    constructor
    · rintro h ⟨t, code, hr⟩
      rw [some_of_twochar_rel hr] at h
      exact absurd h (by simp)
    · intro h
      cases hs : get_symbol_from_dstcall_twochar c1 c2 with
      | none => rfl
      | some r =>
        exact absurd ⟨r.1, r.2, twochar_rel_of_some hs⟩ h

theorem mice_ambiguity_level (l : List Nat) :
    0 ≤ (mice_ambiguity l).2 ∧ (mice_ambiguity l).2 ≤ 4 := by
  unfold mice_ambiguity
  dsimp only
  split_ifs <;> simp

theorem to_float_le {q B : Rat} (h0 : 0 ≤ q) (hB : q ≤ B) (hB2 : B < 256) :
    0 ≤ to_float q ∧ to_float q ≤ B + 1 / 131072 := by
  have h := (to_float_err h0 (lt_of_le_of_lt hB hB2)).2
  exact ⟨to_float_nonneg h0, by linarith⟩

theorem to_double_le {q B : Rat} (h0 : 0 ≤ q) (hB : q ≤ B) (hB2 : B < 256) :
    0 ≤ to_double q ∧ to_double q ≤ B + 1 / 70368744177664 := by
  have h := (to_double_err h0 (lt_of_le_of_lt hB hB2)).2
  exact ⟨to_double_nonneg h0, by linarith⟩

theorem float_dmf_range (d m f : Nat) (hd : d ≤ 179) (hm : m ≤ 59) (hf : f ≤ 99) :
    0 ≤ float_dmf d m f ∧ float_dmf d m f < 180 := by
  have hd1 : (d : Rat) ≤ 179 := by exact_mod_cast hd
  have hm1 : (m : Rat) ≤ 59 := by exact_mod_cast hm
  have hf1 : (f : Rat) ≤ 99 := by exact_mod_cast hf
  obtain ⟨a0, a1⟩ := to_float_le (Nat.cast_nonneg d) hd1 (by norm_num)
  obtain ⟨b0, b1⟩ := to_float_le (Nat.cast_nonneg m) hm1 (by norm_num)
  obtain ⟨c0, c1⟩ := to_float_le (Nat.cast_nonneg f) hf1 (by norm_num)
  obtain ⟨x0, x1⟩ := to_double_le (q := to_float m / 60) (B := 1)
    (by positivity) (by linarith) (by norm_num)
  obtain ⟨y0, y1⟩ := to_double_le (q := to_float d + to_double (to_float m / 60)) (B := 181)
    (by positivity) (by linarith) (by norm_num)
  obtain ⟨z0, z1⟩ := to_double_le (q := to_float f / 6000) (B := 1)
    (by positivity) (by linarith) (by norm_num)
  have y2 := (to_double_err (q := to_float d + to_double (to_float m / 60))
    (by positivity) (by linarith)).2
  have x2 := (to_double_err (q := to_float m / 60) (by positivity) (by linarith)).2
  have z2 := (to_double_err (q := to_float f / 6000) (by positivity) (by linarith)).2
  have w2 := (to_double_err (q := to_double (to_float d + to_double (to_float m / 60))
    + to_double (to_float f / 6000)) (by positivity) (by linarith)).2
  have w0 := to_double_nonneg (q := to_double (to_float d + to_double (to_float m / 60))
    + to_double (to_float f / 6000)) (by positivity)
  have r2 := (to_float_err w0 (by linarith)).2
  unfold float_dmf
  exact ⟨to_float_nonneg w0, by linarith⟩

theorem float_dm_range (d : Nat) (r : Rat) (hd : d ≤ 179) (h0 : 0 ≤ r) (h1 : r ≤ 5951 / 6000) :
    0 ≤ to_float (to_double (to_float d + r)) ∧ to_float (to_double (to_float d + r)) < 180 := by
  have hd1 : (d : Rat) ≤ 179 := by exact_mod_cast hd
  obtain ⟨a0, a1⟩ := to_float_le (Nat.cast_nonneg d) hd1 (by norm_num)
  have y2 := (to_double_err (q := to_float d + r) (by positivity) (by linarith)).2
  have y0 := to_double_nonneg (q := to_float d + r) (by positivity)
  have r2 := (to_float_err y0 (by linarith)).2
  exact ⟨to_float_nonneg y0, by linarith⟩

/-- The value `float_dmf` gives is within `1/32768` of a degree of the exact
`deg + min/60 + frag/6000`. -/
theorem float_dmf_near (d m f : Nat) (hd : d ≤ 179) (hm : m ≤ 99) (hf : f ≤ 99) :
    |float_dmf d m f - ((d : Rat) + (m : Rat) / 60 + (f : Rat) / 6000)| ≤ 1 / 32768 := by
  have hd1 : (d : Rat) ≤ 179 := by exact_mod_cast hd
  have hm1 : (m : Rat) ≤ 99 := by exact_mod_cast hm
  have hf1 : (f : Rat) ≤ 99 := by exact_mod_cast hf
  have hd0 : (0 : Rat) ≤ (d : Rat) := Nat.cast_nonneg d
  have hm0 : (0 : Rat) ≤ (m : Rat) := Nat.cast_nonneg m
  have hf0 : (0 : Rat) ≤ (f : Rat) := Nat.cast_nonneg f
  have a := to_float_err hd0 (by linarith)
  have b := to_float_err hm0 (by linarith)
  have c := to_float_err hf0 (by linarith)
  have a0 := to_float_nonneg hd0
  have b0 := to_float_nonneg hm0
  have c0 := to_float_nonneg hf0
  have x0 : (0 : Rat) ≤ to_float (m : Rat) / 60 := by positivity
  have x := to_double_err x0 (by linarith [b.2])
  have x1 := to_double_nonneg x0
  have y0 : (0 : Rat) ≤ to_float (d : Rat) + to_double (to_float (m : Rat) / 60) := by positivity
  have y := to_double_err y0 (by linarith [a.2, x.2, b.2])
  have y1 := to_double_nonneg y0
  have z0 : (0 : Rat) ≤ to_float (f : Rat) / 6000 := by positivity
  have z := to_double_err z0 (by linarith [c.2])
  have z1 := to_double_nonneg z0
  have w0 : (0 : Rat) ≤ to_double (to_float (d : Rat) + to_double (to_float (m : Rat) / 60))
      + to_double (to_float (f : Rat) / 6000) := by positivity
  have w := to_double_err w0 (by linarith [a.2, x.2, b.2, y.2, z.2, c.2])
  have w1 := to_double_nonneg w0
  have r := to_float_err w1 (by linarith [a.2, x.2, b.2, y.2, z.2, c.2, w.2])
  unfold float_dmf
  rw [abs_le]
  constructor
  · linarith [a.1, b.1, c.1, x.1, y.1, z.1, w.1, r.1]
  · linarith [a.2, b.2, c.2, x.2, y.2, z.2, w.2, r.2]

theorem mice_lng_range (p : Int) (deg mn frag : Nat) (hp0 : 0 ≤ p) (hp4 : p ≤ 4)
    (hd : deg ≤ 179) (hm : mn ≤ 59) (hf : frag ≤ 99) :
    ∃ lng, mice_lng p deg mn frag = some lng ∧ 0 ≤ lng ∧ lng < 180 := by
  have hm' : (mn : Rat) ≤ 59 := by exact_mod_cast hm
  have hf1 : frag - frag % 10 + 5 ≤ 99 := by omega
  have hm1 : ((mn - mn % 10 + 5 : Nat) : Rat) ≤ 55 := by
    have : mn - mn % 10 + 5 ≤ 55 := by omega
    exact_mod_cast this
  have h05 : (0.5 : Rat) = 1 / 2 := by norm_num
  unfold mice_lng
  interval_cases p
  · exact ⟨_, rfl, float_dmf_range deg mn frag hd hm hf⟩
  · exact ⟨_, rfl, float_dmf_range deg mn _ hd hm hf1⟩
  · obtain ⟨b0, b1⟩ := to_float_le (Nat.cast_nonneg mn) hm' (by norm_num)
    have y0 : (0 : Rat) ≤ to_float (mn : Rat) + 0.5 := by rw [h05]; positivity
    have y1 := (to_double_err y0 (by rw [h05]; linarith)).2
    have y2 := to_double_nonneg y0
    have z0 : (0 : Rat) ≤ to_double (to_float (mn : Rat) + 0.5) / 60 := by positivity
    have z1 := (to_double_err z0 (by rw [h05] at y1; linarith)).2
    refine ⟨_, rfl, float_dm_range deg _ hd (to_double_nonneg z0) ?_⟩
    rw [h05] at y1
    linarith
  · obtain ⟨b0, b1⟩ := to_float_le (Nat.cast_nonneg (mn - mn % 10 + 5)) hm1 (by norm_num)
    have z0 : (0 : Rat) ≤ to_float ((mn - mn % 10 + 5 : Nat) : Rat) / 60 := by positivity
    have z1 := (to_double_err z0 (by linarith)).2
    refine ⟨_, rfl, float_dm_range deg _ hd (to_double_nonneg z0) ?_⟩
    linarith
  · refine ⟨_, rfl, float_dm_range deg 0.5 hd ?_ ?_⟩
    · rw [h05]; norm_num
    · rw [h05]; norm_num

theorem mice_components_range (b0 b1 b2 d4 : Nat)
    (h0 : 0x26 ≤ b0 ∧ b0 ≤ 0x7f) (h1 : 0x26 ≤ b1 ∧ b1 ≤ 0x61) (h2 : 0x1c ≤ b2 ∧ b2 ≤ 0x7f) :
    mice_lng_deg b0 d4 ≤ 179
    ∧ (if b1 - 28 ≥ 60 then b1 - 28 - 60 else b1 - 28) ≤ 59
    ∧ b2 - 28 ≤ 99 := by
  refine ⟨?_, ?_, by omega⟩
  · unfold mice_lng_deg
    dsimp only
    split_ifs <;> omega
  · split_ifs <;> omega

theorem mice_position_lng (E : parse_env F) (pb : pbuf_t F) (d b : Nat → Nat)
    (l : List Nat)
    (h0 : 0x26 ≤ b 0 ∧ b 0 ≤ 0x7f) (h1 : 0x26 ≤ b 1 ∧ b 1 ≤ 0x61)
    (h2 : 0x1c ≤ b 2 ∧ b 2 ≤ 0x7f) :
    mice_position E pb d b (mice_ambiguity l) = (0, pb)
    ∨ ∃ lat lng : Rat, -180 < lng ∧ lng < 180
        ∧ mice_position E pb d b (mice_ambiguity l) = pbuf_fill_pos E pb lat lng (b 7) (b 6) := by
  obtain ⟨c1, c2, c3⟩ := mice_components_range (b 0) (b 1) (b 2) (d 4) h0 h1 h2
  obtain ⟨lng, hl, hl0, hl1⟩ := mice_lng_range (mice_ambiguity l).2 _ _ _
    (mice_ambiguity_level l).1 (mice_ambiguity_level l).2 c1 c2 c3
  unfold mice_position
  by_cases ha : byteAt (mice_ambiguity l).1 1 = 95 ∨ byteAt (mice_ambiguity l).1 0 = 95
  · rw [if_pos ha]
    exact Or.inl rfl
  · rw [if_neg ha]
    cases sscanf_mice (mice_ambiguity l).1 with
    | none => exact Or.inl rfl
    | some v =>
      obtain ⟨lat_deg, lat_min, lat_min_frag⟩ := v
      dsimp only
      rw [hl]
      dsimp only
      right
      refine ⟨_, if d 5 ≥ 0x50 then 0 - lng else lng, ?_, ?_, rfl⟩
      · split_ifs <;> linarith
      · split_ifs <;> linarith

/-- C38: for a body whose bytes 0..2 pass the byte-class test of
`parse_aprs_mice`, whatever the destination callsign, the longitude degrees are
at most 179, the minutes at most 59 and the minute fraction at most 99; for
every ambiguity level `0..4` the longitude before its sign is in `[0, 180)`;
and for every packet `parse_aprs_mice` either returns 0 with the packet
unchanged or ends in `pbuf_fill_pos` with a longitude strictly between `-180`
and `180`, so that `pbuf_fill_pos` can reject it only for its latitude or for
the zones around longitude 0 and `+-90`. -/
theorem parse_aprs_mice_lng_in_range (E : parse_env F) (pb : pbuf_t F)
    (body body_end : Nat)
    (h0 : 0x26 ≤ byteAt pb.data body ∧ byteAt pb.data body ≤ 0x7f)
    (h1 : 0x26 ≤ byteAt pb.data (body + 1) ∧ byteAt pb.data (body + 1) ≤ 0x61)
    (h2 : 0x1c ≤ byteAt pb.data (body + 2) ∧ byteAt pb.data (body + 2) ≤ 0x7f) :
    (∀ d4, mice_lng_deg (byteAt pb.data body) d4 ≤ 179)
    ∧ (if byteAt pb.data (body + 1) - 28 ≥ 60 then byteAt pb.data (body + 1) - 28 - 60
        else byteAt pb.data (body + 1) - 28) ≤ 59
    ∧ byteAt pb.data (body + 2) - 28 ≤ 99
    ∧ (∀ (p : Int) d4, 0 ≤ p → p ≤ 4 →
        ∃ lng, mice_lng p (mice_lng_deg (byteAt pb.data body) d4)
            (if byteAt pb.data (body + 1) - 28 ≥ 60 then byteAt pb.data (body + 1) - 28 - 60
              else byteAt pb.data (body + 1) - 28)
            (byteAt pb.data (body + 2) - 28) = some lng
          ∧ 0 ≤ lng ∧ lng < 180)
    ∧ (parse_aprs_mice E pb body body_end = (0, pb)
      ∨ ∃ lat lng : Rat, -180 < lng ∧ lng < 180
          ∧ (¬ ((pbuf_fill_pos E pb lat lng (byteAt pb.data (body + 7))
                  (byteAt pb.data (body + 6))).1 = 1) →
              lat < -90 ∨ lat > 90 ∨ pbuf_fill_pos_bad lat lng = true)
          ∧ parse_aprs_mice E pb body body_end
              = pbuf_fill_pos E pb lat lng (byteAt pb.data (body + 7))
                  (byteAt pb.data (body + 6))) := by
  have hc := fun d4 => mice_components_range (byteAt pb.data body) (byteAt pb.data (body + 1))
    (byteAt pb.data (body + 2)) d4 h0 h1 h2
  refine ⟨fun d4 => (hc d4).1, (hc 0).2.1, (hc 0).2.2, ?_, ?_⟩
  · intro p d4 hp0 hp4
    exact mice_lng_range p _ _ _ hp0 hp4 (hc d4).1 (hc d4).2.1 (hc d4).2.2
  · unfold parse_aprs_mice
    by_cases c1 : (body_end : Int) - body < 8
    · rw [if_pos c1]
      exact Or.inl rfl
    rw [if_neg c1]
    dsimp only
    by_cases c2 : (pb.dstcall_end_or_ssid : Int) - ((pb.srccall_end + 1 : Nat) : Int) ≠ 6
    · rw [if_pos c2]
      exact Or.inl rfl
    rw [if_neg c2]
    unfold mice_decode
    by_cases c3 : mice_dstcall_valid (fun k => byteAt pb.data (pb.srccall_end + 1 + k)) = false
    · rw [if_pos c3]
      exact Or.inl rfl
    rw [if_neg c3]
    by_cases c4 : mice_body_mask (fun k => byteAt pb.data (body + k)) = false
    · rw [if_pos c4]
      exact Or.inl rfl
    rw [if_neg c4]
    rcases mice_position_lng E pb (fun k => byteAt pb.data (pb.srccall_end + 1 + k))
        (fun k => byteAt pb.data (body + k)) _ h0 h1 h2 with h | ⟨lat, lng, g1, g2, g3⟩
    · exact Or.inl h
    · refine Or.inr ⟨lat, lng, g1, g2, ?_, g3⟩
      intro hne
      by_cases hr : pos_rejected lat lng
      · have ht := (pbuf_fill_pos_test lat lng).mpr hr
        rcases ht with a | a | a | a | a
        · exact Or.inr (Or.inr a)
        · exact Or.inl a
        · exact Or.inr (Or.inl a)
        · linarith
        · linarith
      · rw [pbuf_fill_pos_accepted E pb lat lng _ _ hr] at hne
        exact absurd rfl hne

/-- C38 on scenario S3: the body `0<0l #>/` passes the test, the longitude is
`float_dmf 20 32 20`, the `float` next to `20 + 32/60 + 20/6000`, and the
packet is accepted. -/
theorem parse_aprs_mice_lng_in_range_witness :
    (∀ d4, mice_lng_deg (byteAt frame_S3.data 23) d4 ≤ 179)
    ∧ (if byteAt frame_S3.data (23 + 1) - 28 ≥ 60 then byteAt frame_S3.data (23 + 1) - 28 - 60
        else byteAt frame_S3.data (23 + 1) - 28) ≤ 59
    ∧ byteAt frame_S3.data (23 + 2) - 28 ≤ 99
    ∧ (parse_aprs_mice env_example frame_S3 23 31).1 = 1
    ∧ (parse_aprs_mice env_example frame_S3 23 31).2.lng
        = env_example.filter_lon2rad (float_dmf 20 32 20) :=
  ⟨(parse_aprs_mice_lng_in_range env_example frame_S3 23 31 (by decide) (by decide)
      (by decide)).1,
    (parse_aprs_mice_lng_in_range env_example frame_S3 23 31 (by decide) (by decide)
      (by decide)).2.1,
    (parse_aprs_mice_lng_in_range env_example frame_S3 23 31 (by decide) (by decide)
      (by decide)).2.2.1,
    by decide!, by decide!⟩

theorem fill_space_length (l : List Nat) (i v : Nat) : (fill_space l i v).length = l.length := by
  unfold fill_space
  split_ifs
  · exact List.length_set _ _ _
  · rfl

theorem byteAt_set_eq (l : List Nat) {i : Nat} (v : Nat) (h : i < l.length) :
    byteAt (l.set i v) i = v := by
  unfold byteAt
  rw [List.getD_eq_getElem _ _ (by rw [List.length_set]; exact h)]
  exact List.getElem_set_self _

theorem byteAt_fill_space_ne (l : List Nat) (i v : Nat) {k : Nat} (h : k ≠ i) :
    byteAt (fill_space l i v) k = byteAt l k := by
  unfold fill_space
  split_ifs
  · exact byteAt_set_ne l v (fun c => h c.symm)
  · rfl

theorem byteAt_fill_space_self (l : List Nat) (i v : Nat) (h : i < l.length) :
    byteAt (fill_space l i v) i = if byteAt l i = 32 then v else byteAt l i := by
  unfold fill_space
  by_cases hs : byteAt l i = 32
  · rw [if_pos hs, if_pos hs]
    exact byteAt_set_eq l v h
  · rw [if_neg hs, if_neg hs]

theorem list_eq_of_byteAt {a b : List Nat} (hl : a.length = b.length)
    (h : ∀ k, k < a.length → byteAt a k = byteAt b k) : a = b := by
  apply List.ext_getElem hl
  intro k h1 h2
  have := h k h1
  unfold byteAt at this
  rw [List.getD_eq_getElem _ _ h1, List.getD_eq_getElem _ _ h2] at this
  exact this

theorem byteAt_spec_ambiguity_fill (field : List Nat) {k : Nat} (hk : k < 19) :
    byteAt (spec_ambiguity_fill field) k
      = if byteAt field k = 32 then
          if k = 2 ∨ k = 12 then 51
          else if k = 3 ∨ k = 13 ∨ k = 5 ∨ k = 6 ∨ k = 15 ∨ k = 16 then 53
          else 32
        else byteAt field k := by
  have hl : k < (spec_ambiguity_fill field).length := by
    unfold spec_ambiguity_fill
    rw [List.length_map, List.length_range]
    exact hk
  rw [byteAt.eq_1, List.getD_eq_getElem _ _ hl]
  unfold spec_ambiguity_fill
  rw [List.getElem_map, List.getElem_range]

theorem spec_ambiguity_fill_length (field : List Nat) :
    (spec_ambiguity_fill field).length = 19 := by
  unfold spec_ambiguity_fill
  rw [List.length_map, List.length_range]

theorem uncompressed_posbuf_fill (data : List Nat) (body : Nat) :
    uncompressed_posbuf data body = spec_ambiguity_fill (bytes (data.drop body) 19) ++ [0] := by
  have hlen0 : ((memcpy (List.replicate 20 0) data body 19).set 19 0).length = 20 := by
    simp [memcpy, bytes_length]
  have hb0 : ∀ k, k < 19 →
      byteAt ((memcpy (List.replicate 20 0) data body 19).set 19 0) k
        = byteAt (bytes (data.drop body) 19) k := by
    intro k hk
    rw [byteAt_set_ne _ _ (by omega)]
    unfold memcpy
    exact byteAt_append_left (by rw [bytes_length]; exact hk)
  have hb19 : byteAt ((memcpy (List.replicate 20 0) data body 19).set 19 0) 19 = 0 :=
    byteAt_set_eq _ _ (by simp [memcpy, bytes_length])
  generalize hB : (memcpy (List.replicate 20 0) data body 19).set 19 0 = B at hlen0 hb0 hb19
  generalize hf : bytes (data.drop body) 19 = field at hb0
  have hlen : (uncompressed_posbuf data body).length = 20 := by
    unfold uncompressed_posbuf
    simp only [fill_space_length, hB, hlen0]
  apply list_eq_of_byteAt
  · rw [hlen, List.length_append, spec_ambiguity_fill_length, List.length_singleton]
  · intro k hk
    rw [hlen] at hk
    unfold uncompressed_posbuf
    dsimp only
    rw [hB]
    by_cases h19 : k = 19
    · subst h19
      rw [byteAt_fill_space_ne _ _ _ (by decide), byteAt_fill_space_ne _ _ _ (by decide),
        byteAt_fill_space_ne _ _ _ (by decide), byteAt_fill_space_ne _ _ _ (by decide),
        byteAt_fill_space_ne _ _ _ (by decide), byteAt_fill_space_ne _ _ _ (by decide),
        byteAt_fill_space_ne _ _ _ (by decide), byteAt_fill_space_ne _ _ _ (by decide), hb19]
      rw [byteAt.eq_1, List.getD_eq_getElem _ _
        (by rw [List.length_append, spec_ambiguity_fill_length]; decide)]
      rw [List.getElem_append_right (by rw [spec_ambiguity_fill_length])]
      simp only [spec_ambiguity_fill_length, Nat.sub_self, List.getElem_cons_zero]
    have hk19 : k < 19 := by omega
    rw [byteAt_append_left (by rw [spec_ambiguity_fill_length]; exact hk19),
      byteAt_spec_ambiguity_fill field hk19]
    have hl1 := fill_space_length B 2 51
    have hl2 := fill_space_length (fill_space B 2 51) 3 53
    have hl3 := fill_space_length (fill_space (fill_space B 2 51) 3 53) 5 53
    have hl4 := fill_space_length (fill_space (fill_space (fill_space B 2 51) 3 53) 5 53) 6 53
    have hl5 := fill_space_length
      (fill_space (fill_space (fill_space (fill_space B 2 51) 3 53) 5 53) 6 53) 12 51
    have hl6 := fill_space_length (fill_space
      (fill_space (fill_space (fill_space (fill_space B 2 51) 3 53) 5 53) 6 53) 12 51) 13 53
    have hl7 := fill_space_length (fill_space (fill_space
      (fill_space (fill_space (fill_space (fill_space B 2 51) 3 53) 5 53) 6 53) 12 51) 13 53)
      15 53
    by_cases c16 : k = 16
    · subst c16
      rw [byteAt_fill_space_self _ _ _ (by omega),
        byteAt_fill_space_ne _ _ _ (by decide), byteAt_fill_space_ne _ _ _ (by decide),
        byteAt_fill_space_ne _ _ _ (by decide), byteAt_fill_space_ne _ _ _ (by decide),
        byteAt_fill_space_ne _ _ _ (by decide), byteAt_fill_space_ne _ _ _ (by decide),
        byteAt_fill_space_ne _ _ _ (by decide), hb0 16 (by decide)]
      simp
    rw [byteAt_fill_space_ne _ _ _ c16]
    by_cases c15 : k = 15
    · subst c15
      rw [byteAt_fill_space_self _ _ _ (by omega),
        byteAt_fill_space_ne _ _ _ (by decide), byteAt_fill_space_ne _ _ _ (by decide),
        byteAt_fill_space_ne _ _ _ (by decide), byteAt_fill_space_ne _ _ _ (by decide),
        byteAt_fill_space_ne _ _ _ (by decide), byteAt_fill_space_ne _ _ _ (by decide),
        hb0 15 (by decide)]
      simp
    rw [byteAt_fill_space_ne _ _ _ c15]
    by_cases c13 : k = 13
    · subst c13
      rw [byteAt_fill_space_self _ _ _ (by omega),
        byteAt_fill_space_ne _ _ _ (by decide), byteAt_fill_space_ne _ _ _ (by decide),
        byteAt_fill_space_ne _ _ _ (by decide), byteAt_fill_space_ne _ _ _ (by decide),
        byteAt_fill_space_ne _ _ _ (by decide), hb0 13 (by decide)]
      simp
    rw [byteAt_fill_space_ne _ _ _ c13]
    by_cases c12 : k = 12
    · subst c12
      rw [byteAt_fill_space_self _ _ _ (by omega),
        byteAt_fill_space_ne _ _ _ (by decide), byteAt_fill_space_ne _ _ _ (by decide),
        byteAt_fill_space_ne _ _ _ (by decide), byteAt_fill_space_ne _ _ _ (by decide),
        hb0 12 (by decide)]
      simp
    rw [byteAt_fill_space_ne _ _ _ c12]
    by_cases c6 : k = 6
    · subst c6
      rw [byteAt_fill_space_self _ _ _ (by omega),
        byteAt_fill_space_ne _ _ _ (by decide), byteAt_fill_space_ne _ _ _ (by decide),
        byteAt_fill_space_ne _ _ _ (by decide), hb0 6 (by decide)]
      simp
    rw [byteAt_fill_space_ne _ _ _ c6]
    by_cases c5 : k = 5
    · subst c5
      rw [byteAt_fill_space_self _ _ _ (by omega),
        byteAt_fill_space_ne _ _ _ (by decide), byteAt_fill_space_ne _ _ _ (by decide),
        hb0 5 (by decide)]
      simp
    rw [byteAt_fill_space_ne _ _ _ c5]
    by_cases c3 : k = 3
    · subst c3
      rw [byteAt_fill_space_self _ _ _ (by omega),
        byteAt_fill_space_ne _ _ _ (by decide), hb0 3 (by decide)]
      simp
    rw [byteAt_fill_space_ne _ _ _ c3]
    by_cases c2 : k = 2
    · subst c2
      rw [byteAt_fill_space_self _ _ _ (by omega), hb0 2 (by decide)]
      simp
    rw [byteAt_fill_space_ne _ _ _ c2, hb0 k hk19]
    rw [if_neg (show ¬ (k = 2 ∨ k = 12) by omega),
      if_neg (show ¬ (k = 3 ∨ k = 13 ∨ k = 5 ∨ k = 6 ∨ k = 15 ∨ k = 16) by omega)]
    split_ifs with h
    · exact h
    · rfl

theorem spec_ambiguity_fill_idem (field : List Nat) :
    spec_ambiguity_fill (spec_ambiguity_fill field) = spec_ambiguity_fill field := by
  apply list_eq_of_byteAt
  · rw [spec_ambiguity_fill_length, spec_ambiguity_fill_length]
  · intro k hk
    rw [spec_ambiguity_fill_length] at hk
    rw [byteAt_spec_ambiguity_fill _ hk, byteAt_spec_ambiguity_fill _ hk]
    split_ifs <;> simp_all

theorem pbuf_fill_pos_data (E : parse_env F) (pb : pbuf_t F) (d : List Nat) (lat lng : Rat)
    (sym_table sym_code : Nat) :
    pbuf_fill_pos E { pb with data := d } lat lng sym_table sym_code
      = ((pbuf_fill_pos E pb lat lng sym_table sym_code).1,
        { (pbuf_fill_pos E pb lat lng sym_table sym_code).2 with data := d }) := by
  unfold pbuf_fill_pos
  dsimp only
  split_ifs <;> rfl

theorem uncompressed_decode_data (E : parse_env F) (pb : pbuf_t F) (d : List Nat)
    (v : uncompressed_fields) :
    uncompressed_decode E { pb with data := d } v
      = ((uncompressed_decode E pb v).1, { (uncompressed_decode E pb v).2 with data := d }) := by
  unfold uncompressed_decode
  dsimp only
  by_cases c1 : decide (v.lat_hemi = 83 ∨ v.lat_hemi = 115) = false ∧ v.lat_hemi ≠ 78
      ∧ v.lat_hemi ≠ 110
  · rw [if_pos c1, if_pos c1]
  rw [if_neg c1, if_neg c1]
  by_cases c2 : decide (v.lng_hemi = 87 ∨ v.lng_hemi = 119) = false ∧ v.lng_hemi ≠ 69
      ∧ v.lng_hemi ≠ 101
  · rw [if_pos c2, if_pos c2]
  rw [if_neg c2, if_neg c2]
  by_cases c3 : v.lat_deg > 89 ∨ v.lng_deg > 179
  · rw [if_pos c3, if_pos c3]
  rw [if_neg c3, if_neg c3]
  exact pbuf_fill_pos_data E pb d _ _ _ _

/-- C33: the buffer `parse_aprs_uncompressed` hands to `sscanf` is the 19-byte
field with a space replaced by `3` at the offsets 2 and 12 and by `5` at the
offsets 3, 13, 5, 6, 15 and 16, every other byte as it is, followed by a NUL.
So a field is decoded exactly as the field with these substitutions made: with
the substituted field at `body2` of a buffer `data2` in place of `pb.data`,
the return value and every field set by the decoder are the same. -/
theorem parse_aprs_uncompressed_ambiguity (E : parse_env F) (pb : pbuf_t F)
    (body body_end : Nat) (data2 : List Nat) (body2 body_end2 : Nat)
    (hlen : (body_end : Int) - body ≥ 19) (hlen2 : (body_end2 : Int) - body2 ≥ 19)
    (hsub : bytes (data2.drop body2) 19 = spec_ambiguity_fill (bytes (pb.data.drop body) 19)) :
    uncompressed_posbuf pb.data body
        = spec_ambiguity_fill (bytes (pb.data.drop body) 19) ++ [0]
    ∧ parse_aprs_uncompressed E { pb with data := data2 } body2 body_end2
        = ((parse_aprs_uncompressed E pb body body_end).1,
          { (parse_aprs_uncompressed E pb body body_end).2 with data := data2 }) := by
  have h1 := uncompressed_posbuf_fill pb.data body
  have h2 := uncompressed_posbuf_fill data2 body2
  rw [hsub, spec_ambiguity_fill_idem, ← h1] at h2
  refine ⟨h1, ?_⟩
  unfold parse_aprs_uncompressed
  rw [if_neg (not_lt.mpr hlen), if_neg (not_lt.mpr hlen2)]
  dsimp only
  rw [h2]
  cases sscanf_uncompressed (uncompressed_posbuf pb.data body) with
  | none => rfl
  | some v => exact uncompressed_decode_data E pb data2 v

/-- C33 on `!602 .  N/0250 .  E-`: it is decoded as `!6025.55N/02505.55E-`,
latitude `float_dmf 60 25 55` and longitude `float_dmf 25 5 55`, the `float`s
next to `60 + 25/60 + 55/6000` and `25 + 5/60 + 55/6000`. -/
theorem parse_aprs_uncompressed_ambiguity_witness :
    (uncompressed_posbuf frame_ambiguity.data 13
        = spec_ambiguity_fill (bytes (frame_ambiguity.data.drop 13) 19) ++ [0]
      ∧ parse_aprs_uncompressed env_example
          { frame_ambiguity with data := frame_ambiguity_filled.data } 13 32
        = ((parse_aprs_uncompressed env_example frame_ambiguity 13 32).1,
          { (parse_aprs_uncompressed env_example frame_ambiguity 13 32).2 with
            data := frame_ambiguity_filled.data }))
    ∧ (parse_aprs env_example frame_ambiguity).1 = 1
    ∧ (parse_aprs env_example frame_ambiguity).2.lat
        = env_example.filter_lat2rad (float_dmf 60 25 55)
    ∧ (parse_aprs env_example frame_ambiguity).2.lng
        = env_example.filter_lon2rad (float_dmf 25 5 55) :=
  ⟨parse_aprs_uncompressed_ambiguity env_example frame_ambiguity 13 32
      frame_ambiguity_filled.data 13 32 (by decide) (by decide) (by decide),
    by decide!, by decide!, by decide!⟩

theorem heard_total_update (list : Fin CLIENT_HEARD_BUCKETS → List client_heard_t)
    (i : Fin CLIENT_HEARD_BUCKETS) (l : List client_heard_t) :
    heard_total (Function.update list i l) = heard_total list - (list i).length + l.length := by
  unfold heard_total
  rw [← Finset.add_sum_erase Finset.univ
    (fun j => ((Function.update list i l j).length : Int)) (Finset.mem_univ i)]
  rw [← Finset.add_sum_erase Finset.univ (fun j => ((list j).length : Int)) (Finset.mem_univ i)]
  have hs : ∑ x ∈ Finset.univ.erase i, ((Function.update list i l x).length : Int)
      = ∑ x ∈ Finset.univ.erase i, ((list x).length : Int) := by
    apply Finset.sum_congr rfl
    intro x hx
    rw [Function.update_noteq (Finset.ne_of_mem_erase hx)]
  rw [hs, Function.update_same]
  ring

theorem heard_list_update_count (keyhashuc : List Nat → Nat → Nat)
    (cellmalloc : Option client_heard_t) (call : List Nat) (call_len : Nat) (t : Int)
    (list : Fin CLIENT_HEARD_BUCKETS → List client_heard_t) (entrycount : Int)
    (h : entrycount = heard_total list) :
    (heard_list_update keyhashuc cellmalloc call call_len t list entrycount).2
      = heard_total (heard_list_update keyhashuc cellmalloc call call_len t list entrycount).1 := by
  unfold heard_list_update
  dsimp only
  rcases heard_split call call_len (keyhashuc0 keyhashuc call call_len)
      (list (heard_bucket (keyhashuc0 keyhashuc call call_len)))
    with hn | ⟨pre, x, suf, e, hm, hnm⟩
  · rw [heard_list_update_loop_none _ _ _ _ _ _ hn]
    cases cellmalloc with
    | none => exact h
    | some c =>
      dsimp only
      rw [heard_total_update, List.length_cons, h]
      push_cast
      ring
  · have hl := heard_list_update_loop_split call call_len (keyhashuc0 keyhashuc call call_len) t
      [] pre suf x hm hnm
    rw [← e] at hl
    rw [hl]
    dsimp only
    rw [heard_total_update, h, e]
    by_cases hp : pre = []
    · subst hp
      simp
    · have hp2 : [] ++ pre ≠ [] := by simpa using hp
      rw [if_pos hp2]
      simp only [List.length_cons, List.length_append, List.nil_append]
      push_cast
      ring

theorem heard_find_count (list : Fin CLIENT_HEARD_BUCKETS → List client_heard_t)
    (entrycount : Int) (callsign : List Nat) (call_len hash : Nat) (d : Bool)
    (h : entrycount = heard_total list) :
    (heard_find list entrycount callsign call_len hash d).2.2
      = heard_total (heard_find list entrycount callsign call_len hash d).2.1 := by
  unfold heard_find
  dsimp only
  rcases heard_split callsign call_len hash (list (heard_bucket hash))
    with hn | ⟨pre, x, suf, e, hm, hnm⟩
  · rw [heard_find_loop_none _ _ _ _ _ _ hn]
    exact h
  · have hl := heard_find_loop_split callsign call_len hash d [] pre suf x hm hnm
    rw [← e] at hl
    rw [hl]
    dsimp only
    cases d
    · exact h
    · simp only [if_true]
      rw [heard_total_update, h, e]
      simp only [List.length_cons, List.length_append, List.nil_append]
      push_cast
      ring

theorem heard_expire_chain_length (tick expire_below : Int) (l : List client_heard_t) :
    (heard_expire_chain tick expire_below l).2
      = (l.length : Int) - ((heard_expire_chain tick expire_below l).1.length : Int) := by
  induction l with
  | nil => rfl
  | cons a l ih =>
    unfold heard_expire_chain
    dsimp only
    by_cases c : a.last_heard < expire_below ∨ a.last_heard > tick
    · rw [if_pos c]
      dsimp only
      rw [ih, List.length_cons]
      push_cast
      ring
    · rw [if_neg c]
      dsimp only
      rw [ih, List.length_cons, List.length_cons]
      push_cast
      ring

theorem heard_expire_chain_fresh (tick expire_below : Int) (l : List client_heard_t) :
    ∀ h ∈ (heard_expire_chain tick expire_below l).1,
      expire_below ≤ h.last_heard ∧ h.last_heard ≤ tick := by
  induction l with
  | nil =>
    intro h hh
    exact absurd hh (List.not_mem_nil h)
  | cons a l ih =>
    intro h hh
    unfold heard_expire_chain at hh
    dsimp only at hh
    by_cases c : a.last_heard < expire_below ∨ a.last_heard > tick
    · rw [if_pos c] at hh
      exact ih h hh
    · rw [if_neg c] at hh
      rcases List.mem_cons.mp hh with rfl | hh
      · constructor
        · exact not_lt.mp (fun c1 => c (Or.inl c1))
        · exact not_lt.mp (fun c1 => c (Or.inr c1))
      · exact ih h hh

theorem heard_expire_foldl_count (tick expire_below : Int)
    (l : List (Fin CLIENT_HEARD_BUCKETS))
    (list : Fin CLIENT_HEARD_BUCKETS → List client_heard_t) (c : Int)
    (h : c = heard_total list) :
    (l.foldl (heard_expire_step tick expire_below) (list, c)).2
      = heard_total (l.foldl (heard_expire_step tick expire_below) (list, c)).1 := by
  induction l generalizing list c with
  | nil => exact h
  | cons i0 l ih =>
    simp only [List.foldl_cons]
    apply ih
    dsimp only
    rw [heard_total_update, heard_expire_chain_length, h]
    ring

theorem heard_expire_foldl_fresh (tick expire_below : Int)
    (l : List (Fin CLIENT_HEARD_BUCKETS))
    (list : Fin CLIENT_HEARD_BUCKETS → List client_heard_t) (c : Int)
    (i : Fin CLIENT_HEARD_BUCKETS) (hi : i ∈ l) :
    ∀ h ∈ (l.foldl (heard_expire_step tick expire_below) (list, c)).1 i,
      expire_below ≤ h.last_heard ∧ h.last_heard ≤ tick := by
  induction l generalizing list c with
  | nil => exact absurd hi (List.not_mem_nil i)
  | cons i0 l ih =>
    intro h hh
    simp only [List.foldl_cons] at hh
    by_cases hl : i ∈ l
    · exact ih _ _ hl h hh
    · have hi0 : i = i0 := by
        rcases List.mem_cons.mp hi with e | e
        · exact e
        · exact absurd e hl
      have hsub := heard_expire_foldl_sublist tick expire_below l
        (heard_expire_step tick expire_below (list, c) i0).1
        (heard_expire_step tick expire_below (list, c) i0).2 i
      have hm := hsub.subset hh
      unfold heard_expire_step at hm
      dsimp only at hm
      rw [hi0, Function.update_same] at hm
      exact heard_expire_chain_fresh tick expire_below _ h hm

theorem heard_expire_single_fresh (tick storetime : Int)
    (list : Fin CLIENT_HEARD_BUCKETS → List client_heard_t) (c : Int)
    (i : Fin CLIENT_HEARD_BUCKETS) :
    ∀ h ∈ (heard_expire_single tick list c storetime).1 i,
      tick - storetime ≤ h.last_heard ∧ h.last_heard ≤ tick :=
  heard_expire_foldl_fresh tick (tick - storetime) (List.finRange CLIENT_HEARD_BUCKETS) list c i
    (List.mem_finRange i)

theorem heard_total_empty : heard_total (fun _ => []) = 0 := by
  unfold heard_total
  simp

theorem client_reachable_count (keyhashuc : List Nat → Nat → Nat) {c : client_t}
    (hc : client_reachable F keyhashuc c) :
    c.client_heard_count = heard_total c.client_heard
    ∧ c.client_courtesy_count = heard_total c.client_courtesy := by
  induction hc with
  | init => exact ⟨heard_total_empty.symm, heard_total_empty.symm⟩
  | heard_update cellmalloc pb _ ih =>
    exact ⟨heard_list_update_count keyhashuc cellmalloc _ _ _ _ _ ih.1, ih.2⟩
  | courtesy_update cellmalloc pb _ ih =>
    exact ⟨ih.1, heard_list_update_count keyhashuc cellmalloc _ _ _ _ _ ih.2⟩
  | heard_check callsign call_len hash _ ih =>
    exact ⟨heard_find_count _ _ _ _ _ _ ih.1, ih.2⟩
  | courtesy_needed pb _ ih =>
    exact ⟨ih.1, heard_find_count _ _ _ _ _ _ ih.2⟩
  | expire tick hs cs _ ih =>
    exact ⟨heard_expire_foldl_count tick _ _ _ _ ih.1,
      heard_expire_foldl_count tick _ _ _ _ ih.2⟩
  | free _ _ => exact ⟨heard_total_empty.symm, heard_total_empty.symm⟩

/-- C37: on every client reached from a client with empty tables by
`client_heard_update`, `client_courtesy_update`, `client_heard_check`,
`client_courtesy_needed`, `client_heard_expire` and `client_heard_free`,
`client_heard_count` is the number of entries in the 16 heard buckets and
`client_courtesy_count` the number of entries in the 16 courtesy buckets; and
after `client_heard_expire` every entry left in a heard bucket has
`tick - heard_list_storetime <= last_heard <= tick`, every entry left in a
courtesy bucket `tick - courtesy_list_storetime <= last_heard <= tick`. -/
theorem client_heard_count_invariant (keyhashuc : List Nat → Nat → Nat) (c : client_t)
    (hc : client_reachable F keyhashuc c) :
    c.client_heard_count = heard_total c.client_heard
    ∧ c.client_courtesy_count = heard_total c.client_courtesy
    ∧ ∀ (tick heard_list_storetime courtesy_list_storetime : Int)
        (i : Fin CLIENT_HEARD_BUCKETS) (h : client_heard_t),
        (h ∈ (client_heard_expire tick heard_list_storetime courtesy_list_storetime
                c).client_heard i →
          tick - heard_list_storetime ≤ h.last_heard ∧ h.last_heard ≤ tick)
        ∧ (h ∈ (client_heard_expire tick heard_list_storetime courtesy_list_storetime
                c).client_courtesy i →
          tick - courtesy_list_storetime ≤ h.last_heard ∧ h.last_heard ≤ tick) := by
  refine ⟨(client_reachable_count keyhashuc hc).1, (client_reachable_count keyhashuc hc).2, ?_⟩
  intro tick hs cs i h
  exact ⟨heard_expire_single_fresh tick hs c.client_heard c.client_heard_count i h,
    heard_expire_single_fresh tick cs c.client_courtesy c.client_courtesy_count i h⟩

/-- C37 on the client that heard scenario S1 at time 1000, had it entered in
the courtesy list as well and was asked for the courtesy position once: the
heard count is 1 with one entry in the buckets, the courtesy count is back
at 0. -/
theorem client_heard_count_invariant_witness :
    client_reachable Int keyhashuc_fnv
        (client_courtesy_needed
          (client_courtesy_update keyhashuc_fnv (some stale_cell) (packet_S1 1000)
            (client_heard_update keyhashuc_fnv (some stale_cell) (packet_S1 1000) client_empty))
          packet_S1_hashed).2
    ∧ (client_courtesy_needed
          (client_courtesy_update keyhashuc_fnv (some stale_cell) (packet_S1 1000)
            (client_heard_update keyhashuc_fnv (some stale_cell) (packet_S1 1000) client_empty))
          packet_S1_hashed).2.client_heard_count = 1
    ∧ (client_courtesy_needed
          (client_courtesy_update keyhashuc_fnv (some stale_cell) (packet_S1 1000)
            (client_heard_update keyhashuc_fnv (some stale_cell) (packet_S1 1000) client_empty))
          packet_S1_hashed).2.client_courtesy_count = 0
    ∧ heard_total (client_courtesy_needed
          (client_courtesy_update keyhashuc_fnv (some stale_cell) (packet_S1 1000)
            (client_heard_update keyhashuc_fnv (some stale_cell) (packet_S1 1000) client_empty))
          packet_S1_hashed).2.client_heard = 1
    ∧ heard_total (client_courtesy_needed
          (client_courtesy_update keyhashuc_fnv (some stale_cell) (packet_S1 1000)
            (client_heard_update keyhashuc_fnv (some stale_cell) (packet_S1 1000) client_empty))
          packet_S1_hashed).2.client_courtesy = 0 :=
  ⟨.courtesy_needed _ (.courtesy_update _ _ (.heard_update _ _ .init)),
    by decide, by decide,
    ((client_heard_count_invariant keyhashuc_fnv _
      (.courtesy_needed packet_S1_hashed (.courtesy_update (some stale_cell) (packet_S1 1000)
        (.heard_update (some stale_cell) (packet_S1 1000) .init)))).1.symm.trans (by decide)),
    ((client_heard_count_invariant keyhashuc_fnv _
      (.courtesy_needed packet_S1_hashed (.courtesy_update (some stale_cell) (packet_S1 1000)
        (.heard_update (some stale_cell) (packet_S1 1000) .init)))).2.1.symm.trans (by decide))⟩

theorem memcmp_eq_iff (a b : List Nat) (n : Nat) :
    memcmp_eq a b n = true ↔ bytes a n = bytes b n := by
  unfold memcmp_eq
  exact beq_iff_eq

theorem same_key_bucket (keyhash : List Nat → Nat → Nat) {i j : Fin HISTORYDB_HASH_MODULO}
    {a b : history_cell_t F} (ha : cell_ok keyhash i a) (hb : cell_ok keyhash j b)
    (h : same_key a b) : i = j := by
  have hh : a.hash1 = b.hash1 := by
    rw [ha.1, hb.1]
    unfold keyhash0
    rw [← h.1, (memcmp_eq_iff _ _ _).mp h.2]
  rw [← ha.2.1, ← hb.2.1, hh]

theorem historydb_unique_of_pairwise (keyhash : List Nat → Nat → Nat) (db : historydb_t F)
    (hok : historydb_ok keyhash db)
    (hp : ∀ i, (db.historydb_hash i).Pairwise (fun a b => ¬ same_key a b)) :
    historydb_unique db :=
  ⟨hp, fun i j hij a ha b hb hs => hij (same_key_bucket keyhash (hok i a ha) (hok j b hb) hs)⟩

theorem same_key_congr {a b c d : history_cell_t F} (hk : c.key = a.key)
    (hl : c.keylen = a.keylen) (hk2 : d.key = b.key) (hl2 : d.keylen = b.keylen)
    (h : same_key c d) : same_key a b := by
  unfold same_key at h ⊢
  rw [hk, hl, hk2, hl2] at h
  exact h

theorem insert_scan_pairwise (expirytime : Int) (h1 keylen : Nat) (keybuf : List Nat)
    (isdead : Bool) (pb : pbuf_t F) (chain : List (history_cell_t F))
    (h : chain.Pairwise (fun a b => ¬ same_key a b)) :
    (historydb_insert_scan expirytime h1 keylen keybuf isdead pb chain).chain.Pairwise
      (fun a b => ¬ same_key a b) := by
  induction chain with
  | nil => simp [historydb_insert_scan]
  | cons cp rest ih =>
    have hp := List.pairwise_cons.mp h
    have ihr := ih hp.2
    have hhead : ∀ c : history_cell_t F, c.key = cp.key → c.keylen = cp.keylen →
        ∀ e ∈ (historydb_insert_scan expirytime h1 keylen keybuf isdead pb rest).chain,
          ¬ same_key c e := by
      intro c hk hl e he hs
      obtain ⟨e0, h0, ek, el, _, _⟩ := insert_scan_chain_from _ _ _ _ _ _ rest e he
      exact hp.1 e0 h0 (same_key_congr hk hl ek el hs)
    by_cases hexp : cp.arrivaltime < expirytime
    · simp only [historydb_insert_scan, hexp, if_true]
      exact ihr
    · by_cases hh : cp.hash1 = h1
      · by_cases hk : cp.keylen = keylen ∧ memcmp_eq cp.key keybuf keylen = true
        · cases isdead
          · simp only [historydb_insert_scan, hexp, hh, hk, if_true, if_false, and_self,
              Bool.false_eq_true]
            exact List.pairwise_cons.mpr ⟨hhead _ rfl rfl, ihr⟩
          · simp only [historydb_insert_scan, hexp, hh, hk, if_true, if_false, and_self]
            exact ihr
        · simp only [historydb_insert_scan, hexp, hh, hk, if_true, if_false]
          exact List.pairwise_cons.mpr ⟨hhead _ rfl rfl, ihr⟩
      · simp only [historydb_insert_scan, hexp, hh, if_false]
        exact List.pairwise_cons.mpr ⟨hhead _ rfl rfl, ihr⟩

theorem insert_scan_no_cp1 (expirytime : Int) (h1 keylen : Nat) (keybuf : List Nat)
    (pb : pbuf_t F) (chain : List (history_cell_t F))
    (h : (historydb_insert_scan expirytime h1 keylen keybuf false pb chain).cp1 = false) :
    ∀ e ∈ (historydb_insert_scan expirytime h1 keylen keybuf false pb chain).chain,
      ¬ key_match h1 keylen keybuf e := by
  induction chain with
  | nil => simp [historydb_insert_scan]
  | cons cp rest ih =>
    by_cases hexp : cp.arrivaltime < expirytime
    · simp only [historydb_insert_scan, hexp, if_true] at h ⊢
      exact ih h
    · by_cases hh : cp.hash1 = h1
      · by_cases hk : cp.keylen = keylen ∧ memcmp_eq cp.key keybuf keylen = true
        · simp only [historydb_insert_scan, hexp, hh, hk, if_true, if_false, and_self,
            Bool.false_eq_true, reduceCtorEq] at h
        · simp only [historydb_insert_scan, hexp, hh, hk, if_true, if_false] at h ⊢
          intro e he
          rcases List.mem_cons.mp he with rfl | he
          · exact fun hm => hk ⟨hm.2.1, hm.2.2⟩
          · exact ih h e he
      · simp only [historydb_insert_scan, hexp, hh, if_false] at h ⊢
        intro e he
        rcases List.mem_cons.mp he with rfl | he
        · exact fun hm => hh hm.1
        · exact ih h e he

theorem insert_scan_cp1_of_live (expirytime : Int) (h1 keylen : Nat) (keybuf : List Nat)
    (pb : pbuf_t F) (chain : List (history_cell_t F)) (e0 : history_cell_t F)
    (he0 : e0 ∈ chain) (hlive : ¬ e0.arrivaltime < expirytime)
    (hm : key_match h1 keylen keybuf e0) :
    (historydb_insert_scan expirytime h1 keylen keybuf false pb chain).cp1 = true := by
  induction chain with
  | nil => exact absurd he0 (List.not_mem_nil e0)
  | cons cp rest ih =>
    by_cases hexp : cp.arrivaltime < expirytime
    · simp only [historydb_insert_scan, hexp, if_true]
      rcases List.mem_cons.mp he0 with e | e
      · exact absurd (e ▸ hexp) hlive
      · exact ih e
    · by_cases hh : cp.hash1 = h1
      · by_cases hk : cp.keylen = keylen ∧ memcmp_eq cp.key keybuf keylen = true
        · simp only [historydb_insert_scan, hexp, hh, hk, if_true, if_false, and_self,
            Bool.false_eq_true]
        · simp only [historydb_insert_scan, hexp, hh, hk, if_true, if_false]
          rcases List.mem_cons.mp he0 with e | e
          · exact absurd ⟨(e ▸ hm).2.1, (e ▸ hm).2.2⟩ hk
          · exact ih e
      · simp only [historydb_insert_scan, hexp, hh, if_false]
        rcases List.mem_cons.mp he0 with e | e
        · exact absurd (e ▸ hm).1 hh
        · exact ih e

theorem key_match_of_same_key_new (keyhash : List Nat → Nat → Nat)
    {i : Fin HISTORYDB_HASH_MODULO} (pb : pbuf_t F) (kb : List Nat) (n : Nat)
    {a : history_cell_t F} (ha : cell_ok keyhash i a)
    (hs : same_key a (historydb_new_cell pb (keyhash0 keyhash kb n) n kb)) :
    key_match (keyhash0 keyhash kb n) n kb a := by
  have hl : a.keylen = n := hs.1
  have hb : bytes a.key n = bytes kb n := by
    have := (memcmp_eq_iff _ _ _).mp hs.2
    rw [hl] at this
    rw [this]
    exact bytes_bytes kb (le_refl n)
  refine ⟨?_, hl, (memcmp_eq_iff _ _ _).mpr hb⟩
  rw [ha.1]
  unfold keyhash0
  rw [hl, hb]

theorem historydb_insert_pairwise (keyhash : List Nat → Nat → Nat) (tick st : Int) (ok : Bool)
    (pb : pbuf_t F) (db : historydb_t F) (hok : historydb_ok keyhash db)
    (hp : ∀ i, (db.historydb_hash i).Pairwise (fun a b => ¬ same_key a b)) :
    ∀ i, ((historydb_insert keyhash tick st ok pb db).2.historydb_hash i).Pairwise
      (fun a b => ¬ same_key a b) := by
  by_cases hpos : pb.flags &&& F_HASPOS = 0
  · simpa only [historydb_insert, hpos, if_true] using hp
  · cases hkey : historydb_insert_key pb with
    | none => simpa only [historydb_insert, hpos, if_false, hkey] using hp
    | some r =>
      obtain ⟨kb, isdead⟩ := r
      intro i
      rw [(historydb_insert_hash keyhash tick st ok pb db kb isdead hpos hkey).2,
        Function.update_apply]
      split_ifs with hi hc
      · subst hi
        have hcp1 : (historydb_insert_scan (tick - st) (keyhash0 keyhash kb (strlen kb))
            (strlen kb) kb isdead pb (db.historydb_hash
              (historydb_bucket (keyhash0 keyhash kb (strlen kb))))).cp1 = false := by
          revert hc
          cases (historydb_insert_scan (tick - st) (keyhash0 keyhash kb (strlen kb))
            (strlen kb) kb isdead pb (db.historydb_hash
              (historydb_bucket (keyhash0 keyhash kb (strlen kb))))).cp1 <;> simp
        have hdead : isdead = false := by
          revert hc
          cases isdead <;> simp
        subst hdead
        rw [List.pairwise_append]
        refine ⟨insert_scan_pairwise _ _ _ _ _ _ _ (hp _), List.pairwise_singleton _ _, ?_⟩
        intro a ha b hb
        rw [List.mem_singleton.mp hb]
        intro hs
        obtain ⟨e0, h0, hk, hl, hh, _⟩ := insert_scan_chain_from _ _ _ _ _ _ _ a ha
        have hc0 := hok _ e0 h0
        have hca : cell_ok keyhash (historydb_bucket (keyhash0 keyhash kb (strlen kb))) a :=
          ⟨by rw [hh, hk, hl]; exact hc0.1, by rw [hh]; exact hc0.2.1,
            by rw [hk, hl]; exact hc0.2.2⟩
        exact insert_scan_no_cp1 _ _ _ _ _ _ hcp1 a ha
          (key_match_of_same_key_new keyhash pb kb (strlen kb) hca hs)
      · subst hi
        exact insert_scan_pairwise _ _ _ _ _ _ _ (hp _)
      · exact hp i

theorem historydb_insert_unique (keyhash : List Nat → Nat → Nat) (tick st : Int) (ok : Bool)
    (pb : pbuf_t F) (db : historydb_t F) (hok : historydb_ok keyhash db)
    (hu : historydb_unique db) :
    historydb_unique (historydb_insert keyhash tick st ok pb db).2 :=
  historydb_unique_of_pairwise keyhash _ (historydb_insert_ok keyhash tick st ok pb db hok)
    (historydb_insert_pairwise keyhash tick st ok pb db hok hu.1)

theorem historydb_cleanup_unique (keyhash : List Nat → Nat → Nat) (tick st : Int)
    (db : historydb_t F) (hok : historydb_ok keyhash db) (hu : historydb_unique db) :
    historydb_unique (historydb_cleanup tick st db) := by
  apply historydb_unique_of_pairwise keyhash _ (historydb_cleanup_ok keyhash tick st db hok)
  intro i
  have := (cleanup_loop_spec (tick - st) (List.finRange HISTORYDB_HASH_MODULO)
    (List.nodup_finRange _) List.mem_finRange db).1 i
  unfold historydb_cleanup
  rw [this]
  exact List.Pairwise.sublist (List.filter_sublist _) (hu.1 i)

theorem historydb_empty_ok (keyhash : List Nat → Nat → Nat) :
    historydb_ok keyhash (historydb_empty F) :=
  fun _ e he => absurd he (List.not_mem_nil e)

theorem historydb_empty_unique : historydb_unique (historydb_empty F) :=
  ⟨fun _ => List.Pairwise.nil, fun _ _ _ a ha => absurd ha (List.not_mem_nil a)⟩

theorem countP_eq_one_of_pairwise {α : Type} (p : α → Bool) (l : List α)
    (hp : l.Pairwise (fun a b => ¬ (p a = true ∧ p b = true))) (e : α) (he : e ∈ l)
    (hpe : p e = true) : l.countP p = 1 := by
  induction l with
  | nil => exact absurd he (List.not_mem_nil e)
  | cons a l ih =>
    have hc := List.pairwise_cons.mp hp
    by_cases ha : p a = true
    · rw [List.countP_cons_of_pos _ _ ha]
      have hz : l.countP p = 0 := by
        rw [List.countP_eq_zero]
        intro b hb hpb
        exact hc.1 b hb ⟨ha, hpb⟩
      rw [hz]
    · rw [List.countP_cons_of_neg _ _ ha]
      rcases List.mem_cons.mp he with e1 | e1
      · exact absurd (e1 ▸ hpe) ha
      · exact ih hc.2 e1

theorem same_key_of_count_pred {keylen : Nat} {keybuf : List Nat} {a b : history_cell_t F}
    (ha : (decide (a.keylen = keylen) && memcmp_eq a.key keybuf keylen) = true)
    (hb : (decide (b.keylen = keylen) && memcmp_eq b.key keybuf keylen) = true) :
    same_key a b := by
  rw [Bool.and_eq_true, decide_eq_true_eq] at ha hb
  refine ⟨ha.1.trans hb.1.symm, ?_⟩
  rw [ha.1, memcmp_eq_iff, (memcmp_eq_iff _ _ _).mp ha.2, (memcmp_eq_iff _ _ _).mp hb.2]

theorem historydb_key_count_eq_one (db : historydb_t F) (hu : historydb_unique db)
    (keylen : Nat) (keybuf : List Nat) (i0 : Fin HISTORYDB_HASH_MODULO)
    (e0 : history_cell_t F) (he0 : e0 ∈ db.historydb_hash i0)
    (hm : e0.keylen = keylen ∧ memcmp_eq e0.key keybuf keylen = true) :
    historydb_key_count db keylen keybuf = 1 := by
  have hpe : (decide (e0.keylen = keylen) && memcmp_eq e0.key keybuf keylen) = true := by
    rw [Bool.and_eq_true, decide_eq_true_eq]
    exact hm
  unfold historydb_key_count
  rw [Finset.sum_eq_single i0]
  · apply countP_eq_one_of_pairwise _ _ _ e0 he0 hpe
    exact List.Pairwise.imp (fun hab hpp => hab (same_key_of_count_pred hpp.1 hpp.2)) (hu.1 i0)
  · intro j _ hj
    rw [List.countP_eq_zero]
    intro b hb hpb
    exact hu.2 i0 j (fun c => hj c.symm) e0 he0 b hb (same_key_of_count_pred hpe hpb)
  · intro h
    exact absurd (Finset.mem_univ i0) h

theorem historydb_insert_keeps_live_key (keyhash : List Nat → Nat → Nat) (tick st : Int)
    (ok : Bool) (pb : pbuf_t F) (db : historydb_t F) (hok : historydb_ok keyhash db)
    (kb : List Nat) (hpos : pb.flags &&& F_HASPOS ≠ 0)
    (hkey : historydb_insert_key pb = some (kb, false))
    (i : Fin HISTORYDB_HASH_MODULO) (e : history_cell_t F) (he : e ∈ db.historydb_hash i)
    (hm : e.keylen = strlen kb ∧ memcmp_eq e.key kb (strlen kb) = true)
    (hlive : ¬ e.arrivaltime < tick - st) :
    ∃ e1 ∈ (historydb_insert keyhash tick st ok pb db).2.historydb_hash
        (historydb_bucket (keyhash0 keyhash kb (strlen kb))),
      e1.keylen = strlen kb ∧ memcmp_eq e1.key kb (strlen kb) = true := by
  have hce := hok i e he
  have hh : e.hash1 = keyhash0 keyhash kb (strlen kb) := by
    rw [hce.1]
    unfold keyhash0
    rw [hm.1, (memcmp_eq_iff _ _ _).mp hm.2]
  have hi : i = historydb_bucket (keyhash0 keyhash kb (strlen kb)) := by
    rw [← hce.2.1, hh]
  subst hi
  have hcp1 := insert_scan_cp1_of_live (tick - st) (keyhash0 keyhash kb (strlen kb)) (strlen kb)
    kb pb _ e he hlive ⟨hh, hm.1, hm.2⟩
  obtain ⟨e1, h1, hm1⟩ := insert_scan_cp1 _ _ _ _ _ _ _ hcp1
  refine ⟨e1, ?_, hm1.2.1, hm1.2.2⟩
  rw [(historydb_insert_hash keyhash tick st ok pb db kb false hpos hkey).2,
    Function.update_same, hcp1]
  exact h1

/-- C36: on a table the program has reached (every entry carries the hash of
its key in `hash1`), if no two entries have the same key, then no two entries
have the same key after `historydb_insert` of any packet, at any tick and
whether or not the allocation succeeds, nor after `historydb_cleanup`, and
every entry then sits in the bucket `(hash1 ^ hash1>>13 ^ hash1>>26) % 8192`
of its stored `hash1`. When the packet has a position, its key `kb` is not
that of a kill and an entry with that key exists that has not expired, the
table holds one entry with that key before the insert and one after it. -/
theorem historydb_key_uniqueness (keyhash : List Nat → Nat → Nat) (cosf : F → F)
    (tick lastposition_storetime : Int) (cellmalloc_ok : Bool) (pb : pbuf_t F)
    (db : historydb_t F) (hr : historydb_reachable keyhash cosf db)
    (hu : historydb_unique db) :
    historydb_unique (historydb_insert keyhash tick lastposition_storetime cellmalloc_ok pb db).2
    ∧ (∀ i, ∀ e ∈ (historydb_insert keyhash tick lastposition_storetime cellmalloc_ok pb
          db).2.historydb_hash i, historydb_bucket e.hash1 = i)
    ∧ historydb_unique (historydb_cleanup tick lastposition_storetime db)
    ∧ (∀ i, ∀ e ∈ (historydb_cleanup tick lastposition_storetime db).historydb_hash i,
        historydb_bucket e.hash1 = i)
    ∧ (∀ kb, pb.flags &&& F_HASPOS ≠ 0 → historydb_insert_key pb = some (kb, false) →
        (∃ i, ∃ e ∈ db.historydb_hash i, e.keylen = strlen kb
          ∧ memcmp_eq e.key kb (strlen kb) = true
          ∧ ¬ e.arrivaltime < tick - lastposition_storetime) →
        historydb_key_count db (strlen kb) kb = 1
        ∧ historydb_key_count
            (historydb_insert keyhash tick lastposition_storetime cellmalloc_ok pb db).2
            (strlen kb) kb = 1) := by
  have hok := historydb_reachable_ok keyhash cosf db hr
  have hu1 := historydb_insert_unique keyhash tick lastposition_storetime cellmalloc_ok pb db
    hok hu
  refine ⟨hu1,
    fun i e he => (historydb_insert_ok keyhash tick lastposition_storetime cellmalloc_ok pb db
      hok i e he).2.1,
    historydb_cleanup_unique keyhash tick lastposition_storetime db hok hu,
    fun i e he => (historydb_cleanup_ok keyhash tick lastposition_storetime db hok i e he).2.1,
    ?_⟩
  rintro kb hpos hkey ⟨i, e, he, hl, hm, hlive⟩
  obtain ⟨e1, h1, hm1⟩ := historydb_insert_keeps_live_key keyhash tick lastposition_storetime
    cellmalloc_ok pb db hok kb hpos hkey i e he ⟨hl, hm⟩ hlive
  exact ⟨historydb_key_count_eq_one db hu _ _ i e he ⟨hl, hm⟩,
    historydb_key_count_eq_one _ hu1 _ _ _ e1 h1 hm1⟩

/-- C36 on the table holding scenario S1 from time 500, with the same station
inserted again at time 1000: the table is reachable and its keys are unique,
the keys are unique afterwards, and the number of entries for `OH7LZB` is 1
before and 1 after. -/
theorem historydb_key_uniqueness_witness :
    historydb_reachable keyhash_fnv (fun x : Int => x) historydb_S1
    ∧ historydb_unique historydb_S1
    ∧ historydb_unique (historydb_insert keyhash_fnv 1000 3600 true (packet_S1 1000)
        historydb_S1).2
    ∧ historydb_key_count historydb_S1 (strlen keybuf_S1) keybuf_S1 = 1
    ∧ historydb_key_count (historydb_insert keyhash_fnv 1000 3600 true (packet_S1 1000)
        historydb_S1).2 (strlen keybuf_S1) keybuf_S1 = 1 :=
  ⟨.insert 500 3600 true (packet_S1 500) .init,
    historydb_insert_unique keyhash_fnv 500 3600 true (packet_S1 500) (historydb_empty Int)
      (historydb_empty_ok keyhash_fnv) historydb_empty_unique,
    (historydb_key_uniqueness keyhash_fnv (fun x : Int => x) 1000 3600 true (packet_S1 1000)
      historydb_S1 (.insert 500 3600 true (packet_S1 500) .init)
      (historydb_insert_unique keyhash_fnv 500 3600 true (packet_S1 500) (historydb_empty Int)
        (historydb_empty_ok keyhash_fnv) historydb_empty_unique)).1,
    ((historydb_key_uniqueness keyhash_fnv (fun x : Int => x) 1000 3600 true (packet_S1 1000)
      historydb_S1 (.insert 500 3600 true (packet_S1 500) .init)
      (historydb_insert_unique keyhash_fnv 500 3600 true (packet_S1 500) (historydb_empty Int)
        (historydb_empty_ok keyhash_fnv) historydb_empty_unique)).2.2.2.2 keybuf_S1
        (by decide) (by decide)
        ⟨historydb_bucket (keyhash0 keyhash_fnv keybuf_S1 6),
          historydb_new_cell (packet_S1 500) (keyhash0 keyhash_fnv keybuf_S1 6) 6 keybuf_S1,
          by decide, by decide, by decide, by decide⟩).1,
    ((historydb_key_uniqueness keyhash_fnv (fun x : Int => x) 1000 3600 true (packet_S1 1000)
      historydb_S1 (.insert 500 3600 true (packet_S1 500) .init)
      (historydb_insert_unique keyhash_fnv 500 3600 true (packet_S1 500) (historydb_empty Int)
        (historydb_empty_ok keyhash_fnv) historydb_empty_unique)).2.2.2.2 keybuf_S1
        (by decide) (by decide)
        ⟨historydb_bucket (keyhash0 keyhash_fnv keybuf_S1 6),
          historydb_new_cell (packet_S1 500) (keyhash0 keyhash_fnv keybuf_S1 6) 6 keybuf_S1,
          by decide, by decide, by decide, by decide⟩).2⟩

theorem parse_aprs_3rdparty_call (E : parse_env F) (f : pbuf_t F → Nat → Int × pbuf_t F)
    (pb : pbuf_t F) (info_start : Nat) :
    parse_aprs_3rdparty E f pb info_start
      = match thirdparty_call E pb info_start with
        | Sum.inl r => r
        | Sum.inr c => f c.1 c.2 := by
  unfold parse_aprs_3rdparty thirdparty_call
  dsimp only
  cases memchr pb.data (info_start + 1) 58
      ((pb.packet_len : Int) - 2 - ((info_start + 1 : Nat) : Int)) with
  | none => rfl
  | some body =>
    dsimp only
    cases memchr pb.data (info_start + 1) 62
        (if (body : Int) - ((info_start + 1 : Nat) : Int) < (CALLSIGNLEN_MAX : Int) + 1
          then (body : Int) - ((info_start + 1 : Nat) : Int) else (CALLSIGNLEN_MAX : Int) + 1) with
    | none => rfl
    | some src_end =>
      dsimp only
      split_ifs <;> rfl

theorem parse_aprs_body_reentry (E : parse_env F) (n : Nat) (pb : pbuf_t F) (info_start : Nat) :
    parse_aprs_body E (n + 1) pb info_start
      = match thirdparty_reentry E pb info_start with
        | some c => parse_aprs_body E n c.1 c.2
        | none => parse_aprs_body E 1 pb info_start := by
  by_cases hc : byteAt pb.data info_start = 125
  · rw [parse_aprs_body_thirdparty E n pb info_start hc]
    rw [show parse_aprs_body E 1 pb info_start = parse_aprs_body E (0 + 1) pb info_start from rfl,
      parse_aprs_body_thirdparty E 0 pb info_start hc]
    unfold thirdparty_reentry
    by_cases hp : (pb.packet_len : Int) - pb.info_start - 2 < 1
    · rw [if_pos hp, if_pos hp, if_pos hp]
    · rw [if_neg hp, if_neg hp, if_neg hp, if_neg (not_not.mpr hc)]
      rw [parse_aprs_3rdparty_call, parse_aprs_3rdparty_call]
      cases thirdparty_call E { pb with packettype := pb.packettype ||| T_3RDPARTY } info_start with
      | inl r => rfl
      | inr c => rfl
  · have hn : thirdparty_reentry E pb info_start = none := by
      unfold thirdparty_reentry
      split_ifs <;> rfl
    rw [hn]
    exact parse_aprs_body_not_thirdparty E n pb info_start hc

theorem memchr_loop_lt (data : List Nat) (c : Nat) :
    ∀ (n s p : Nat), memchr_loop data c n s = some p → p < s + n := by
  intro n
  induction n with
  | zero => intro s p h; simp [memchr_loop] at h
  | succ n ih =>
    intro s p h
    rw [memchr_loop] at h
    by_cases hc : byteAt data s = c
    · rw [if_pos hc] at h
      cases h
      omega
    · rw [if_neg hc] at h
      have := ih _ _ h
      omega

theorem memchr_lt {data : List Nat} {s c : Nat} {n : Int} {p : Nat}
    (h : memchr data s c n = some p) (hn : 0 ≤ n) : (p : Int) < s + n := by
  unfold memchr at h
  rw [if_neg (not_lt.mpr hn)] at h
  have := memchr_loop_lt data c _ _ _ h
  omega

theorem thirdparty_call_later (E : parse_env F) (pb : pbuf_t F) (info_start : Nat)
    (c : pbuf_t F × Nat) (h : thirdparty_call E pb info_start = Sum.inr c) :
    c.1.data = pb.data ∧ c.1.packet_len = pb.packet_len ∧ c.1.info_start = pb.info_start
    ∧ info_start + 2 ≤ c.2 ∧ byteAt pb.data (c.2 - 1) = 58
    ∧ (info_start + 3 ≤ pb.packet_len → c.2 + 2 ≤ pb.packet_len) := by
  unfold thirdparty_call at h
  dsimp only at h
  cases hm : memchr pb.data (info_start + 1) 58
      ((pb.packet_len : Int) - 2 - ((info_start + 1 : Nat) : Int)) with
  | none =>
    rw [hm] at h
    exact absurd h (by simp)
  | some body =>
    rw [hm] at h
    dsimp only at h
    have hge := memchr_ge hm
    have hby := memchr_byte hm
    cases hm2 : memchr pb.data (info_start + 1) 62
        (if (body : Int) - ((info_start + 1 : Nat) : Int) < (CALLSIGNLEN_MAX : Int) + 1
          then (body : Int) - ((info_start + 1 : Nat) : Int) else (CALLSIGNLEN_MAX : Int) + 1) with
    | none =>
      rw [hm2] at h
      exact absurd h (by simp)
    | some src_end =>
      rw [hm2] at h
      dsimp only at h
      split_ifs at h
      have hc := Sum.inr.inj h
      rw [← hc]
      refine ⟨rfl, rfl, rfl, by show info_start + 2 ≤ body + 1; omega, ?_, ?_⟩
      · show byteAt pb.data (body + 1 - 1) = 58
        rw [Nat.add_sub_cancel]
        exact hby
      · intro hl
        show body + 1 + 2 ≤ pb.packet_len
        have := memchr_lt hm (by push_cast; omega)
        push_cast at this
        omega

theorem thirdparty_reentry_later (E : parse_env F) (pb : pbuf_t F) (info_start : Nat)
    (c : pbuf_t F × Nat) (h : thirdparty_reentry E pb info_start = some c) :
    byteAt pb.data info_start = 125
    ∧ c.1.data = pb.data ∧ c.1.packet_len = pb.packet_len ∧ c.1.info_start = pb.info_start
    ∧ info_start + 2 ≤ c.2 ∧ byteAt pb.data (c.2 - 1) = 58
    ∧ (info_start + 3 ≤ pb.packet_len → c.2 + 2 ≤ pb.packet_len) := by
  unfold thirdparty_reentry at h
  by_cases hp : (pb.packet_len : Int) - pb.info_start - 2 < 1
  · rw [if_pos hp] at h
    exact absurd h (by simp)
  rw [if_neg hp] at h
  by_cases hc : byteAt pb.data info_start ≠ 125
  · rw [if_pos hc] at h
    exact absurd h (by simp)
  rw [if_neg hc] at h
  cases ht : thirdparty_call E { pb with packettype := pb.packettype ||| T_3RDPARTY }
      info_start with
  | inl r =>
    rw [ht] at h
    exact absurd h (by simp)
  | inr c1 =>
    rw [ht] at h
    have hc1 : c1 = c := Option.some.inj h
    rw [← hc1]
    have hlater := thirdparty_call_later E
      { pb with packettype := pb.packettype ||| T_3RDPARTY } info_start c1 ht
    exact ⟨not_not.mp hc, hlater⟩

theorem count_drop_of_byte (data : List Nat) (s p c : Nat) (hc : c ≠ 0)
    (hb : byteAt data p = c) (hs : s ≤ p) :
    (data.drop (p + 1)).count c + 1 ≤ (data.drop s).count c := by
  have hp : p < data.length := by
    by_contra hcon
    rw [byteAt_ge_length (not_lt.mp hcon)] at hb
    exact hc hb.symm
  have hsub : (data.drop p).Sublist (data.drop s) := by
    have : data.drop p = (data.drop s).drop (p - s) := by
      rw [List.drop_drop]
      congr 1
      omega
    rw [this]
    exact List.drop_sublist _ _
  have hcons : data.drop p = c :: data.drop (p + 1) := by
    rw [List.drop_eq_getElem_cons hp]
    congr 1
    unfold byteAt at hb
    rw [List.getD_eq_getElem _ _ hp] at hb
    exact hb
  have h1 := hsub.count_le c
  rw [hcons, List.count_cons_self] at h1
  exact h1

theorem count_drop_succ_le (data : List Nat) (i c : Nat) :
    (data.drop (i + 1)).count c ≤ (data.drop i).count c := by
  have hsub : (data.drop (i + 1)).Sublist (data.drop i) := by
    have : data.drop (i + 1) = (data.drop i).drop 1 := by
      rw [List.drop_drop]
    rw [this]
    exact List.drop_sublist _ _
  exact hsub.count_le c

theorem reentry_depth_le_count (E : parse_env F) :
    ∀ (n : Nat) (pb : pbuf_t F) (i : Nat),
      reentry_depth E n pb i ≤ (pb.data.drop (i + 1)).count 58 := by
  intro n
  induction n with
  | zero =>
    intro pb i
    exact Nat.zero_le _
  | succ n ih =>
    intro pb i
    rw [reentry_depth]
    cases hr : thirdparty_reentry E pb i with
    | none => exact Nat.zero_le _
    | some c =>
      dsimp only
      obtain ⟨_, hd, _, _, hge, hby, _⟩ := thirdparty_reentry_later E pb i c hr
      have h1 := ih c.1 c.2
      rw [hd] at h1
      have h2 := count_drop_succ_le pb.data c.2 58
      have h3 := count_drop_of_byte pb.data (i + 1) (c.2 - 1) 58 (by decide) hby (by omega)
      rw [show c.2 - 1 + 1 = c.2 by omega] at h3
      omega

theorem reentry_depth_le_info (E : parse_env F) :
    ∀ (n : Nat) (pb : pbuf_t F) (i : Nat),
      byteAt pb.data (pb.packet_len - 2) ≠ 125 → i + 2 ≤ pb.packet_len →
      reentry_depth E n pb i ≤ ((pb.data.take (pb.packet_len - 2)).drop (i + 1)).count 58 := by
  intro n
  induction n with
  | zero =>
    intro pb i _ _
    exact Nat.zero_le _
  | succ n ih =>
    intro pb i hcr hi
    rw [reentry_depth]
    cases hr : thirdparty_reentry E pb i with
    | none => exact Nat.zero_le _
    | some c =>
      dsimp only
      obtain ⟨hb, hd, hl, _, hge, hby, hlater⟩ := thirdparty_reentry_later E pb i c hr
      have hi3 : i + 3 ≤ pb.packet_len := by
        by_contra hcon
        have : i = pb.packet_len - 2 := by omega
        rw [this] at hb
        exact hcr hb
      have hc2 := hlater hi3
      have h1 := ih c.1 c.2 (by rw [hd, hl]; exact hcr) (by rw [hl]; exact hc2)
      rw [hd, hl] at h1
      have h2 := count_drop_succ_le (pb.data.take (pb.packet_len - 2)) c.2 58
      have hby2 : byteAt (pb.data.take (pb.packet_len - 2)) (c.2 - 1) = 58 := by
        rw [byteAt_take (by omega)]
        exact hby
      have h3 := count_drop_of_byte (pb.data.take (pb.packet_len - 2)) (i + 1) (c.2 - 1) 58
        (by decide) hby2 (by omega)
      rw [show c.2 - 1 + 1 = c.2 by omega] at h3
      omega

theorem nested_layers_length (n : Nat) : (nested_layers n).length = 9 * n + 3 := by
  induction n with
  | zero => rfl
  | succ n ih =>
    rw [nested_layers, List.length_append, ih]
    simp only [List.length_cons, List.length_nil]
    omega

theorem reentry_nested (pb : pbuf_t cfloat) (i n : Nat)
    (hd : pb.data.drop i = nested_layers (n + 1))
    (hl : pb.packet_len = i + (9 * (n + 1) + 3))
    (hp : ¬ ((pb.packet_len : Int) - pb.info_start - 2 < 1)) :
    ∃ pb1, thirdparty_reentry env_example pb i = some (pb1, i + 9)
      ∧ pb1.data = pb.data ∧ pb1.packet_len = pb.packet_len
      ∧ pb1.info_start = pb.info_start := by
  have hb : ∀ j, j < 9 →
      byteAt pb.data (i + j) = byteAt [125, 67, 62, 68, 44, 69, 44, 70, 58] j := by
    intro j hj
    rw [← byteAt_drop, hd, nested_layers]
    exact byteAt_append_left (by simpa using hj)
  have h0 : byteAt pb.data i = 125 := hb 0 (by decide)
  have hm1 : memchr pb.data (i + 1) 58
      ((pb.packet_len : Int) - 2 - ((i + 1 : Nat) : Int)) = some (i + 8) := by
    apply memchr_first_of (show (pb.packet_len : Int) - 2 - ((i + 1 : Nat) : Int)
      = ((9 * n + 9 : Nat) : Int) by rw [hl]; push_cast; ring)
    refine ⟨by omega, by omega, hb 8 (by decide), ?_⟩
    intro k hk1 hk2
    obtain ⟨j, rfl⟩ : ∃ j, k = i + j := ⟨k - i, by omega⟩
    have hj : j < 8 := by omega
    have hj1 : 1 ≤ j := by omega
    rw [hb j (by omega)]
    interval_cases j <;> decide
  have hm2 : memchr pb.data (i + 1) 62
      (if ((i + 8 : Nat) : Int) - ((i + 1 : Nat) : Int) < (CALLSIGNLEN_MAX : Int) + 1
        then ((i + 8 : Nat) : Int) - ((i + 1 : Nat) : Int) else (CALLSIGNLEN_MAX : Int) + 1)
      = some (i + 2) := by
    apply memchr_first_of (show (if ((i + 8 : Nat) : Int) - ((i + 1 : Nat) : Int)
          < (CALLSIGNLEN_MAX : Int) + 1
        then ((i + 8 : Nat) : Int) - ((i + 1 : Nat) : Int) else (CALLSIGNLEN_MAX : Int) + 1)
      = ((7 : Nat) : Int) by
        have : (CALLSIGNLEN_MAX : Int) = 9 := rfl
        rw [this]
        push_cast
        split_ifs <;> omega)
    refine ⟨by omega, by omega, hb 2 (by decide), ?_⟩
    intro k hk1 hk2
    have hk : k = i + 1 := by omega
    rw [hk, hb 1 (by decide)]
    decide
  have hpb : ∃ pb1 : pbuf_t cfloat,
      pb1 = { pb with packettype := (pb.packettype ||| T_3RDPARTY), srcname := i + 1,
                      srcname_len := i + 2 - (i + 1) } := ⟨_, rfl⟩
  obtain ⟨pb1, hpb1⟩ := hpb
  refine ⟨pb1, ?_, by rw [hpb1], by rw [hpb1], by rw [hpb1]⟩
  rw [hpb1]
  unfold thirdparty_reentry
  rw [if_neg hp, if_neg (not_not.mpr h0)]
  unfold thirdparty_call
  dsimp only
  rw [hm1]
  dsimp only
  rw [hm2]
  dsimp only
  rw [if_neg (show ¬ (i + 2 + 1 ≥ i + 8) by omega)]
  simp [env_example]

theorem reentry_depth_nested :
    ∀ (n fuel : Nat) (pb : pbuf_t cfloat) (i : Nat),
      pb.data.drop i = nested_layers n → pb.packet_len = i + (9 * n + 3) →
      ¬ ((pb.packet_len : Int) - pb.info_start - 2 < 1) → n ≤ fuel →
      reentry_depth env_example fuel pb i = n := by
  intro n
  induction n with
  | zero =>
    intro fuel pb i hd _ _ _
    cases fuel with
    | zero => rfl
    | succ f =>
      have h0 : byteAt pb.data i ≠ 125 := by
        have : byteAt pb.data (i + 0) = byteAt (pb.data.drop i) 0 := (byteAt_drop _ _ _).symm
        rw [Nat.add_zero, hd] at this
        rw [this]
        decide
      have hn : thirdparty_reentry env_example pb i = none := by
        unfold thirdparty_reentry
        by_cases hp : (pb.packet_len : Int) - pb.info_start - 2 < 1
        · rw [if_pos hp]
        · rw [if_neg hp, if_pos h0]
      rw [reentry_depth, hn]
  | succ n ih =>
    intro fuel pb i hd hl hp hf
    obtain ⟨f, rfl⟩ : ∃ f, fuel = f + 1 := ⟨fuel - 1, by omega⟩
    obtain ⟨pb1, hr, h1, h2, h3⟩ := reentry_nested pb i n hd hl hp
    rw [reentry_depth, hr]
    dsimp only
    rw [ih f pb1 (i + 9) ?_ ?_ ?_ (by omega)]
    · omega
    · rw [h1]
      have : pb.data.drop (i + 9) = (pb.data.drop i).drop 9 := by
        rw [List.drop_drop]
      rw [this, hd, nested_layers]
      rfl
    · rw [h2, hl]
      omega
    · rw [h2, h3]
      exact hp

theorem reentry_depth_frame_nested (n : Nat) :
    reentry_depth env_example ((frame_nested n).data.length + 1) (frame_nested n)
      (frame_nested n).info_start = n := by
  apply reentry_depth_nested n _ (frame_nested n) 4
  · rfl
  · rfl
  · show ¬ (((4 + (9 * n + 3) : Nat) : Int) - ((4 : Nat) : Int) - 2 < 1)
    push_cast
    omega
  · have : (frame_nested n).data.length = 4 + (9 * n + 3) := by
      show ([65, 62, 66, 58] ++ nested_layers n).length = 4 + (9 * n + 3)
      rw [List.length_append, nested_layers_length]
      rfl
    omega

/-- C31: `parse_aprs` is a total function and the bound it gives to the
recursion is not reached: its result is that of `parse_aprs_body` with any
larger bound. Each run of `parse_aprs_body` either makes no recursive call or
makes the one `thirdparty_reentry` gives, which starts at least two bytes
further into the same buffer, right after a `:`. So the number of recursive
calls is at most the number of `:` bytes after the type byte, at most the
number of those within the information field when the byte at
`packet_len - 2` is not the closing brace (it is CR in a frame), and less than
the bound `parse_aprs` gives. No constant bounds it: the packet
`frame_nested n` makes `n` recursive calls. -/
theorem parse_aprs_thirdparty_depth (E : parse_env F) (pb : pbuf_t F) :
    (∀ m, pb.data.length ≤ m →
      parse_aprs_body E (m + 1) pb pb.info_start
        = parse_aprs_body E (pb.data.length + 1) pb pb.info_start)
    ∧ (∀ n (pb0 : pbuf_t F) i, parse_aprs_body E (n + 1) pb0 i
        = match thirdparty_reentry E pb0 i with
          | some c => parse_aprs_body E n c.1 c.2
          | none => parse_aprs_body E 1 pb0 i)
    ∧ (∀ (pb0 : pbuf_t F) i c, thirdparty_reentry E pb0 i = some c →
        i + 2 ≤ c.2 ∧ c.1.data = pb0.data ∧ c.1.packet_len = pb0.packet_len
          ∧ c.1.info_start = pb0.info_start ∧ byteAt pb0.data (c.2 - 1) = 58)
    ∧ (∀ n, reentry_depth E n pb pb.info_start ≤ (pb.data.drop (pb.info_start + 1)).count 58)
    ∧ (byteAt pb.data (pb.packet_len - 2) ≠ 125 →
        ∀ n, reentry_depth E n pb pb.info_start
          ≤ ((pb.data.take (pb.packet_len - 2)).drop pb.info_start).count 58)
    ∧ reentry_depth E (pb.data.length + 1) pb pb.info_start < pb.data.length + 1
    ∧ (∀ n, (frame_nested n).info_start ≠ 0
        ∧ reentry_depth env_example ((frame_nested n).data.length + 1) (frame_nested n)
            (frame_nested n).info_start = n) := by
  refine ⟨?_, parse_aprs_body_reentry E, ?_, fun n => reentry_depth_le_count E n pb pb.info_start,
    ?_, ?_, ?_⟩
  · intro m hm
    exact parse_aprs_body_fuel E pb.data.length m pb pb.info_start (by omega) hm
  · intro pb0 i c hc
    obtain ⟨_, h1, h2, h3, h4, h5, _⟩ := thirdparty_reentry_later E pb0 i c hc
    exact ⟨h4, h1, h2, h3, h5⟩
  · intro hcr n
    by_cases hi : pb.info_start + 2 ≤ pb.packet_len
    · exact le_trans (reentry_depth_le_info E n pb pb.info_start hcr hi)
        (count_drop_succ_le _ _ _)
    · have hn : thirdparty_reentry E pb pb.info_start = none := by
        unfold thirdparty_reentry
        rw [if_pos (by omega)]
      cases n with
      | zero => exact Nat.zero_le _
      | succ n =>
        rw [reentry_depth, hn]
        exact Nat.zero_le _
  · have h1 := reentry_depth_le_count E (pb.data.length + 1) pb pb.info_start
    have h2 := List.count_le_length 58 (pb.data.drop (pb.info_start + 1))
    rw [List.length_drop] at h2
    omega
  · intro n
    exact ⟨by show (4 : Nat) ≠ 0; decide, reentry_depth_frame_nested n⟩

/-- C31 on `A>B:}C>D,E,F:}C>D,E,F:>`: two recursive calls, two `:` in the
information field, and the packet comes out as a third-party status packet. -/
theorem parse_aprs_thirdparty_depth_witness :
    byteAt (frame_nested 2).data ((frame_nested 2).packet_len - 2) ≠ 125
    ∧ reentry_depth env_example 26 (frame_nested 2) (frame_nested 2).info_start = 2
    ∧ (((frame_nested 2).data.take ((frame_nested 2).packet_len - 2)).drop
        (frame_nested 2).info_start).count 58 = 2
    ∧ reentry_depth env_example 26 (frame_nested 2) (frame_nested 2).info_start
        ≤ (((frame_nested 2).data.take ((frame_nested 2).packet_len - 2)).drop
            (frame_nested 2).info_start).count 58
    ∧ (parse_aprs env_example (frame_nested 2)).1 = 0
    ∧ (parse_aprs env_example (frame_nested 2)).2.packettype
        = T_ALL ||| T_3RDPARTY ||| T_STATUS :=
  ⟨by decide, by decide, by decide,
    (parse_aprs_thirdparty_depth env_example (frame_nested 2)).2.2.2.2.1 (by decide) 26,
    by decide!, by decide!⟩

end theorems

end Aprsc
